import Mathlib

/-!
PMax Asset Scheduler v7.3.29: a shallow embedding

The scheduler is a single Google Ads script.  Its pure parts are embedded as Lean
functions over strings and lists; every call that leaves the script (sheet cells,
date formatting in the account time zone, the clock, GAQL reports and mutations)
is a value or a function handed to the embedding, so that a theorem holds for every
behaviour of the platform.

Conventions.
* JavaScript strings are `String`; the operations used by the script are defined on
  the list of characters so that they evaluate inside the kernel.
* A sheet row is the list of its cells; a `Cell` keeps what the script observes of a
  value: truthiness, `String(value)`, and (through `Env`) its calendar date.
* JavaScript `Map`s and plain objects used as maps are association lists in insertion
  order, looked up by key equality.
* Verdict rows and result rows, nine-element arrays in the script, are the structure `Row`.
-/

set_option autoImplicit false

namespace Pmax

/-! ## Strings -/

/-- JavaScript white space and line terminators, the characters removed by
`String.prototype.trim` and matched by `\s`. -/
def isJsSpace (c : Char) : Bool :=
  c.toNat == 9 || c.toNat == 10 || c.toNat == 11 || c.toNat == 12 || c.toNat == 13 ||
  c.toNat == 32 || c.toNat == 160 || c.toNat == 5760 ||
  (decide (8192 ≤ c.toNat) && decide (c.toNat ≤ 8202)) ||
  c.toNat == 8232 || c.toNat == 8233 || c.toNat == 8239 || c.toNat == 8287 ||
  c.toNat == 12288 || c.toNat == 65279

/-- The characters of `s.trim()`. -/
def trimChars (l : List Char) : List Char :=
  ((l.dropWhile isJsSpace).reverse.dropWhile isJsSpace).reverse

/-- JavaScript `s.trim()`. -/
def jsTrim (s : String) : String := ⟨trimChars s.data⟩

/-- JavaScript `s.toUpperCase()` on the ASCII letters (other characters are kept). -/
def jsUpper (s : String) : String := ⟨s.data.map Char.toUpper⟩

/-- The lower-casing of the sample runs: `s.toLowerCase()` on the ASCII letters and on the
capital letters of Latin-1 (U+00C0 to U+00DE without the sign U+00D7); other characters are
kept.  The embedding itself takes the runtime's `toLowerCase` from `Env` and `Platform`. -/
def jsLower (s : String) : String :=
  ⟨s.data.map (fun c =>
    if 192 ≤ c.toNat ∧ c.toNat ≤ 222 ∧ c.toNat ≠ 215 then Char.ofNat (c.toNat + 32)
    else c.toLower)⟩

/-- JavaScript `s.length`: the number of UTF-16 code units. -/
def jsLength (s : String) : Nat :=
  (s.data.map (fun c => if c.toNat < 65536 then 1 else 2)).sum

/-- Whether `p` is a prefix of `l`. -/
def startsWithChars : List Char → List Char → Bool
  | [], _ => true
  | _ :: _, [] => false
  | a :: p, b :: l => a == b && startsWithChars p l

/-- Whether `p` occurs in `l` as a contiguous block. -/
def includesChars (p : List Char) : List Char → Bool
  | [] => startsWithChars p []
  | c :: l => startsWithChars p (c :: l) || includesChars p l

/-- JavaScript `s.includes(p)`. -/
def jsIncludes (s p : String) : Bool := includesChars p.data s.data

/-- JavaScript truthiness of a string: non-empty. -/
def truthyStr (s : String) : Bool := !s.data.isEmpty

/-- JavaScript `a.join(sep)` for an array of strings. -/
def jsJoin (sep : String) : List String → String
  | [] => ""
  | [a] => a
  | a :: b :: l => a ++ sep ++ jsJoin sep (b :: l)

/-- The value of a run of decimal digits, as `parseInt(digits, 10)` reads it. -/
def digitsValue (l : List Char) : Nat :=
  l.foldl (fun n c => 10 * n + (c.toNat - 48)) 0

/-- The script's `pad2`: `(n < 10 ? '0' : '') + n`. -/
def pad2 (n : Nat) : String := (if n < 10 then "0" else "") ++ toString n

/-! ## Maps -/

/-- Lookup in a JavaScript `Map` or object used as a map (`m.get(k)`, `m[k]`). -/
def mapGet {κ α : Type} [DecidableEq κ] : List (κ × α) → κ → Option α
  | [], _ => none
  | (k, v) :: rest, key => if k = key then some v else mapGet rest key

/-- The update `m.set(k, v)`: an existing key keeps its place, a new key goes last. -/
def mapSet {κ α : Type} [DecidableEq κ] : List (κ × α) → κ → α → List (κ × α)
  | [], key, val => [(key, val)]
  | (k, v) :: rest, key, val =>
      if k = key then (k, val) :: rest else (k, v) :: mapSet rest key val

/-- The update `s.add(x)` of a JavaScript `Set`, kept as a list without repetition. -/
def setAdd {κ : Type} [DecidableEq κ] (s : List κ) (x : κ) : List κ :=
  if x ∈ s then s else s ++ [x]

/-! ## Sheet cells and rows -/

/-- A value read from a sheet cell, or `undefined` for a column that is missing. -/
inductive Cell where
  /-- The value `undefined`: the index is -1 or past the end of the row. -/
  | absent : Cell
  /-- A string cell; an empty cell is the empty string. -/
  | str (s : String) : Cell
  /-- A numeric cell holding an integer. -/
  | num (n : Int) : Cell
  /-- A `Date` cell; `shown` is `String(date)`. -/
  | date (shown : String) : Cell
  deriving DecidableEq, Repr

/-- JavaScript truthiness of a cell value. -/
def Cell.truthy : Cell → Bool
  | .absent => false
  | .str s => truthyStr s
  | .num n => n != 0
  | .date _ => true

/-- JavaScript `String(value)` of a defined cell value. -/
def Cell.text : Cell → String
  | .absent => "undefined"
  | .str s => s
  | .num n => toString n
  | .date shown => shown

/-- The script's `String(v || '')`. -/
def Cell.orEmpty (c : Cell) : String := if c.truthy then c.text else ""

/-- The script's `String(v ?? '')`. -/
def Cell.nullishEmpty : Cell → String
  | .absent => ""
  | c => c.text

/-- What the run reads from outside the script. -/
structure Env where
  /-- The cell as a calendar date: `Utilities.formatDate(new Date(v), tz, 'yyyy-MM-dd')`. -/
  formatDay : Cell → String
  /-- The day after the cell's date, formatted alike (`setDate(getDate() + 1)`). -/
  formatNextDay : Cell → String
  /-- Today in the account time zone, `yyyy-MM-dd`. -/
  todayStr : String
  /-- The current instant in the account time zone, `yyyy-MM-dd HH:mm:ss`. -/
  nowStr : String
  /-- The runtime's `String.prototype.toLowerCase`, as `normalizeText` calls it. -/
  toLowerCase : String → String

/-- One sheet row as the script passes it around: the object built by `filterNonEmptyRows`,
extended by `filterByDateRange` (the two range flags) and by `filterByTimeWindow` and `main`
(action and custom hour). -/
structure Item where
  rawRow : List Cell
  headers : List String
  sheetRowNum : Nat
  /-- Absent (`undefined`) until `filterByTimeWindow` sets it. -/
  action : Option String := none
  /-- The parsed hour; `none` is JavaScript `null` or an absent field. -/
  customHour : Option Nat := none
  hasAddInRange : Bool := false
  hasRemoveInRange : Bool := false
  deriving DecidableEq, Repr

/-- JavaScript `headers.indexOf(name)`; `none` stands for -1. -/
def indexOf (headers : List String) (name : String) : Option Nat :=
  let i := headers.indexOf name
  if i < headers.length then some i else none

/-- JavaScript `rawRow[idx]`, `undefined` when the index is -1 or out of range. -/
def cellAt (row : List Cell) : Option Nat → Cell
  | none => .absent
  | some i => row.getD i .absent

/-- The cell of the named column, `rawRow[headers.indexOf(name)]`. -/
def Item.cell (it : Item) (name : String) : Cell := cellAt it.rawRow (indexOf it.headers name)

/-- The recurring `idx !== -1 ? String(rawRow[idx] ?? '').trim() : ''`. -/
def Item.hourRaw (it : Item) (name : String) : String :=
  match indexOf it.headers name with
  | none => ""
  | some i => jsTrim (cellAt it.rawRow (some i)).nullishEmpty

/-- The recurring `String(rawRow[idx] || '').trim()`. -/
def Item.field (it : Item) (name : String) : String := jsTrim (it.cell name).orEmpty

/-! ## Configuration constants -/

def ADD_WINDOW_FROM_MIN : Int := 0
def ADD_WINDOW_TO_MIN : Int := 60
def REMOVE_WINDOW_FROM_MIN : Int := 1380
def REMOVE_WINDOW_TO_MIN : Int := 1440
def VALIDATION_FUTURE_DAYS : Nat := 30
def RETRY_MAX_ATTEMPTS : Nat := 3
def RETRY_BASE_DELAY_MS : Nat := 1000

/-- Limits of one text type, an entry of `TEXT_LIMITS`. -/
structure TextLimit where
  min : Nat
  max : Nat
  maxLen : Nat
  warnThreshold : Nat
  deriving DecidableEq, Repr

/-- The lookup `TEXT_LIMITS[textType]`. -/
def TEXT_LIMITS (textType : String) : Option TextLimit :=
  if textType = "HEADLINE" then some ⟨3, 15, 30, 2⟩
  else if textType = "LONG_HEADLINE" then some ⟨1, 5, 90, 1⟩
  else if textType = "DESCRIPTION" then some ⟨2, 5, 90, 1⟩
  else none

/-! ## Hours and time windows -/

/-- The result object of `parseCustomHourToInt`: `ok` with a value (`none` is `null`,
the hour is unset) or not ok with an error text. -/
inductive HourParse where
  | ok (value : Option Nat) : HourParse
  | bad (error : String) : HourParse
  deriving DecidableEq, Repr

/-- Whether the parse succeeded, the `ok` field. -/
def HourParse.isOk : HourParse → Bool
  | .ok _ => true
  | .bad _ => false

/-- The `value` field; `none` also when the parse failed (the field is absent). -/
def HourParse.value : HourParse → Option Nat
  | .ok v => v
  | .bad _ => none

/-- The first capture group of `/^(\d{1,2})(?::00)?$/` on the characters of the string. -/
def hourDigits : List Char → Option (List Char)
  | [a] => if a.isDigit then some [a] else none
  | [a, b] => if a.isDigit && b.isDigit then some [a, b] else none
  | [a, c, z1, z2] =>
      if a.isDigit && c == ':' && z1 == '0' && z2 == '0' then some [a] else none
  | [a, b, c, z1, z2] =>
      if a.isDigit && b.isDigit && c == ':' && z1 == '0' && z2 == '0' then some [a, b] else none
  | _ => none

/-- The script's `parseCustomHourToInt`. -/
def parseCustomHourToInt (raw : String) : HourParse :=
  let s := jsTrim (if truthyStr raw then raw else "")
  if !truthyStr s then .ok none
  else match hourDigits s.data with
    | none => .bad ("Rossz formátum: \"" ++ s ++ "\". Várt: 0-23 vagy HH:00 (pl. 10 vagy 10:00).")
    | some ds =>
        let hour := digitsValue ds
        if hour > 23 then .bad ("Érvénytelen óraszám: \"" ++ s ++ "\". Várt: 0-23.")
        else .ok (some hour)

/-- The script's `isWithinTimeWindow`; minutes and hours are JavaScript numbers, here integers. -/
def isWithinTimeWindow (nowMinutes : Int) (customHour : Option Int) (defaultFrom defaultTo : Int) :
    Bool :=
  let window : Int × Int :=
    match customHour with
    | some h => (h * 60, h * 60 + 60)
    | none => (defaultFrom, defaultTo)
  decide (nowMinutes ≥ window.1) && decide (nowMinutes < window.2)

/-- The script's `formatTimeWindow`, for the default bounds of the configuration. -/
def formatTimeWindow (customHour : Option Nat) (defaultFrom defaultTo : Int) : String :=
  match customHour with
  | some h => pad2 h ++ ":00-" ++ pad2 h ++ ":59"
  | none =>
      let actualTo := defaultTo - 1
      pad2 (defaultFrom / 60).toNat ++ ":" ++ pad2 (defaultFrom % 60).toNat ++ "-" ++
        pad2 (actualTo / 60).toNat ++ ":" ++ pad2 (actualTo % 60).toNat

/-- An entry of the `skipped` list of `filterByTimeWindow`. -/
structure Skipped where
  item : Item
  reason : String
  deriving DecidableEq, Repr

/-- The two lists returned by `filterByTimeWindow`. -/
structure WindowFilter where
  valid : List Item
  skipped : List Skipped
  deriving DecidableEq, Repr

/-- Whether the date cell of the named column is set and falls on today. -/
def Item.isToday (env : Env) (it : Item) (name : String) : Bool :=
  match indexOf it.headers name with
  | none => false
  | some i =>
      let c := cellAt it.rawRow (some i)
      c.truthy && env.formatDay c == env.todayStr

/-- The body of the `forEach` of `filterByTimeWindow` for one row. -/
def filterByTimeWindowStep (env : Env) (nowMinutes : Int) (acc : WindowFilter) (item : Item) :
    WindowFilter :=
  let hasAddToday := item.isToday env "Add Date"
  let hasRemoveToday := item.isToday env "Remove Date"
  if !hasAddToday && !hasRemoveToday then
    { acc with skipped := acc.skipped ++ [⟨item, "Nincs Add/Remove Date ma"⟩] }
  else
    let acc1 : WindowFilter :=
      if hasAddToday then
        match parseCustomHourToInt (item.hourRaw "Add Hour") with
        | .bad error => { acc with skipped := acc.skipped ++ [⟨item, "INVALID ADD Hour: " ++ error⟩] }
        | .ok value =>
            if isWithinTimeWindow nowMinutes (value.map Int.ofNat) ADD_WINDOW_FROM_MIN
                ADD_WINDOW_TO_MIN then
              { acc with valid := acc.valid ++ [{ item with action := some "ADD", customHour := value }] }
            else
              { acc with skipped := acc.skipped ++ [⟨item, "ADD ablakon kívül (" ++
                  formatTimeWindow value ADD_WINDOW_FROM_MIN ADD_WINDOW_TO_MIN ++ ")"⟩] }
      else acc
    if hasRemoveToday then
      match parseCustomHourToInt (item.hourRaw "Remove Hour") with
      | .bad error =>
          { acc1 with skipped := acc1.skipped ++ [⟨item, "INVALID REMOVE Hour: " ++ error⟩] }
      | .ok value =>
          if isWithinTimeWindow nowMinutes (value.map Int.ofNat) REMOVE_WINDOW_FROM_MIN
              REMOVE_WINDOW_TO_MIN then
            { acc1 with valid := acc1.valid ++
                [{ item with action := some "REMOVE", customHour := value }] }
          else
            { acc1 with skipped := acc1.skipped ++ [⟨item, "REMOVE ablakon kívül (" ++
                formatTimeWindow value REMOVE_WINDOW_FROM_MIN REMOVE_WINDOW_TO_MIN ++ ")"⟩] }
    else acc1

/-- The script's `filterByTimeWindow`. -/
def filterByTimeWindow (env : Env) (rows : List Item) (nowMinutes : Int) : WindowFilter :=
  rows.foldl (filterByTimeWindowStep env nowMinutes) ⟨[], []⟩

/-! ## String order -/

/-- The UTF-16 code units of a string, the units JavaScript compares strings by. -/
def utf16Units (l : List Char) : List Nat :=
  l.flatMap (fun c =>
    if c.toNat < 65536 then [c.toNat]
    else [55296 + (c.toNat - 65536) / 1024, 56320 + (c.toNat - 65536) % 1024])

/-- Lexicographic order on code units. -/
def unitsLt : List Nat → List Nat → Bool
  | _, [] => false
  | [], _ :: _ => true
  | a :: l, b :: r => decide (a < b) || (a == b && unitsLt l r)

/-- JavaScript `a < b` on strings. -/
def jsLt (a b : String) : Bool := unitsLt (utf16Units a.data) (utf16Units b.data)

/-- JavaScript `a <= b` on strings. -/
def jsLe (a b : String) : Bool := !jsLt b a

/-! ## The date range filter -/

/-- One of the two parallel blocks of `filterByDateRange` (add: lines 511-559, remove: lines
561-609): whether the operation of the date column `dateCol` with the hour column `hourCol`
is in range.  `windowTo` is the end of the operation's default window, `ADD_WINDOW_TO_MIN`
or `REMOVE_WINDOW_TO_MIN`. -/
def operationInRange (env : Env) (nowMinutes : Int) (todayStr maxFutureStr : String)
    (item : Item) (dateCol hourCol : String) (windowTo : Int) : Bool :=
  let c := item.cell dateCol
  if c.truthy then
    let dateStr := env.formatDay c
    if jsLe todayStr dateStr && jsLe dateStr maxFutureStr then
      if dateStr = todayStr then
        match parseCustomHourToInt (item.hourRaw hourCol) with
        | .ok (some value) => decide (nowMinutes < ((value : Int) + 1) * 60)
        | .ok none => decide (nowMinutes < windowTo)
        | .bad _ => false
      else true
    else false
  else false

/-- The script's `filterByDateRange`.  The clock and the date arithmetic of its first lines
are arguments: `nowMinutes` is the minute of the day of `new Date()` in the account time
zone, and `plusDays todayStr n` is the calendar day `n` days after `todayStr` as
`setDate(getDate() + n)` and `Utilities.formatDate` give it; `calendarPlusDays` below is that
computation on the calendar. -/
def filterByDateRange (env : Env) (plusDays : String → Nat → String) (nowMinutes : Int)
    (rows : List Item) (todayStr : String) : List Item :=
  let maxFutureStr := plusDays todayStr VALIDATION_FUTURE_DAYS
  rows.foldl (fun filtered item =>
    let hasAddInRange := operationInRange env nowMinutes todayStr maxFutureStr item
      "Add Date" "Add Hour" ADD_WINDOW_TO_MIN
    let hasRemoveInRange := operationInRange env nowMinutes todayStr maxFutureStr item
      "Remove Date" "Remove Hour" REMOVE_WINDOW_TO_MIN
    if hasAddInRange || hasRemoveInRange then
      filtered ++ [{ item with hasAddInRange := hasAddInRange,
                               hasRemoveInRange := hasRemoveInRange }]
    else filtered) []

/-! ## The closest future action -/

/-- The recurring `(parsed.ok && parsed.value !== null) ? parsed.value : dflt`. -/
def resolvedHour (raw : String) (dflt : Nat) : Nat :=
  match parseCustomHourToInt raw with
  | .ok (some v) => v
  | _ => dflt

/-- The recurring hour range text, `pad2(hour):00-pad2(hour):59`. -/
def hourRangeStr (hour : Nat) : String := pad2 hour ++ ":00-" ++ pad2 hour ++ ":59"

/-- The end of an operation's hour as `getClosestAction` writes it, `null` when the date
cell is not set. -/
def windowEndStr (env : Env) (item : Item) (dateCol hourCol : String) (dflt : Nat) :
    Option String :=
  let c := item.cell dateCol
  if c.truthy then
    let endHour := resolvedHour (item.hourRaw hourCol) dflt + 1
    if endHour = 24 then some (env.formatNextDay c ++ " 00:00:00")
    else some (env.formatDay c ++ " " ++ pad2 endHour ++ ":00:00")
  else none

/-- JavaScript truthiness of a string that may be `null`. -/
def truthyOpt : Option String → Bool
  | none => false
  | some s => truthyStr s

/-- The line `if (endStr && endStr <= nowStr) endStr = null`. -/
def dropElapsed (nowStr : String) (endStr : Option String) : Option String :=
  match endStr with
  | none => none
  | some s => if truthyStr s && jsLe s nowStr then none else some s

/-- The script's `getClosestAction`; the instant `now` is `env.nowStr`. -/
def getClosestAction (env : Env) (item : Item) : Option String :=
  let addEndStr := dropElapsed env.nowStr (windowEndStr env item "Add Date" "Add Hour" 0)
  let removeEndStr :=
    dropElapsed env.nowStr (windowEndStr env item "Remove Date" "Remove Hour" 23)
  if !truthyOpt addEndStr && !truthyOpt removeEndStr then none
  else if truthyOpt addEndStr && !truthyOpt removeEndStr then some "ADD"
  else if !truthyOpt addEndStr && truthyOpt removeEndStr then some "REMOVE"
  else if addEndStr = removeEndStr then some "ADD+REMOVE"
  else if jsLt (addEndStr.getD "") (removeEndStr.getD "") then some "ADD" else some "REMOVE"

/-! ## The catalog snapshot -/

/-- An enabled text asset link of an asset group, an element of `groupStates.text[rn]`. -/
structure TextLink where
  agaResource : String
  assetResource : String
  fieldType : String
  text : String
  deriving DecidableEq, Repr

/-- An enabled image asset link of an asset group, an element of `groupStates.images[rn]`. -/
structure ImageLink where
  agaResource : String
  assetResource : String
  fieldType : String
  deriving DecidableEq, Repr

/-- An entry of `groupStates.groupMap`. -/
structure GroupInfo where
  name : String
  campaignName : String
  campaignResourceName : String
  campaignId : String
  hasHeadline : Bool
  deriving DecidableEq, Repr

/-- The object returned by `fetchAssetGroupStatesBatch`; the maps are keyed by the asset
group resource name, in insertion order.  A missing `groupMap` is the empty list. -/
structure GroupStates where
  text : List (String × List TextLink)
  images : List (String × List ImageLink)
  groupMap : List (String × GroupInfo)
  deriving DecidableEq, Repr

/-- A target group, `{ resourceName, name }`. -/
structure Group where
  resourceName : String
  name : String
  deriving DecidableEq, Repr

/-- The script's `normalizeText`, `String(s || '').trim().toLowerCase()`; `toLowerCase` is
the function of the runtime. -/
def normalizeText (toLowerCase : String → String) (s : String) : String :=
  toLowerCase (jsTrim (if truthyStr s then s else ""))

/-- The script's `getTargetGroups`; `campaign` is not used by the script either. -/
def getTargetGroups (env : Env) (_campaign assetGroupName campaignId : String)
    (gs : GroupStates) : List Group :=
  gs.groupMap.foldl (fun groups entry =>
    let groupRN := entry.1
    let g := entry.2
    if g.campaignId ≠ campaignId then groups
    else if !g.hasHeadline then groups
    else if truthyStr assetGroupName then
      if normalizeText env.toLowerCase g.name =
          normalizeText env.toLowerCase assetGroupName then
        groups ++ [⟨groupRN, g.name⟩]
      else groups
    else groups ++ [⟨groupRN, g.name⟩]) []

/-! ## Validation of a text row -/

/-- A verdict row or a result row: the nine-element array
`[timestamp, campaign, groupName, assetType, textOrId, scheduled, action, status, message]`. -/
structure Row where
  timestamp : String
  campaign : String
  groupName : String
  assetType : String
  textOrId : String
  scheduled : String
  action : String
  status : String
  message : String
  deriving DecidableEq, Repr

/-- The object returned by `validateTextAsset` and `validateImageAsset`; the early ERROR
returns carry no `validGroups` field. -/
structure Validation where
  status : String
  rows : List Row
  validGroups : Option (List Group)
  deriving DecidableEq, Repr

deriving instance DecidableEq for Except

/-- Whether the item carries an action, the test `action ? … : …` of the script. -/
def Item.hasAction (item : Item) : Bool := truthyOpt item.action

/-- The preview-mode check of the hour fields (v7.3.29): the errors pushed for one operation. -/
def hourFieldErrors (item : Item) (dateCol hourCol label : String) : List String :=
  if (item.cell dateCol).truthy then
    let hourRaw := item.hourRaw hourCol
    if truthyStr hourRaw then
      match parseCustomHourToInt hourRaw with
      | .bad error => ["Érvénytelen " ++ label ++ " Hour: " ++ error]
      | .ok _ => []
    else []
  else []

/-- The column `allScheduledActions` (preview mode): every scheduled operation of the row. -/
def allScheduledActions (env : Env) (item : Item) : String :=
  let s1 :=
    if !item.hasAction && (item.cell "Add Date").truthy then
      "ADD: " ++ env.formatDay (item.cell "Add Date") ++ " " ++
        hourRangeStr (resolvedHour (item.hourRaw "Add Hour") 0)
    else ""
  if !item.hasAction && (item.cell "Remove Date").truthy then
    s1 ++ ((if truthyStr s1 then " | " else "") ++ "REMOVE: " ++
      env.formatDay (item.cell "Remove Date") ++ " " ++
      hourRangeStr (resolvedHour (item.hourRaw "Remove Hour") 23))
  else s1

/-- The column `scheduled`: the hour range of the operation that is validated. -/
def scheduledStr (env : Env) (item : Item) (effectiveAction : String) : String :=
  let s1 :=
    if (effectiveAction = "ADD" ∨ effectiveAction = "ADD+REMOVE") ∧
        (item.cell "Add Date").truthy then
      env.formatDay (item.cell "Add Date") ++ " " ++
        hourRangeStr (resolvedHour (item.hourRaw "Add Hour") 0)
    else ""
  if (effectiveAction = "REMOVE" ∨ effectiveAction = "ADD+REMOVE") ∧
      (item.cell "Remove Date").truthy then
    s1 ++ ((if truthyStr s1 then ", " else "") ++
      env.formatDay (item.cell "Remove Date") ++ " " ++
      hourRangeStr (resolvedHour (item.hourRaw "Remove Hour") 23))
  else s1

/-- Step 0 of the validation: add and remove on the same day in the same hour. -/
def selfConflictErrors (env : Env) (item : Item) : List String :=
  if (item.cell "Add Date").truthy && (item.cell "Remove Date").truthy then
    if env.formatDay (item.cell "Add Date") = env.formatDay (item.cell "Remove Date") then
      if resolvedHour (item.hourRaw "Add Hour") 0 = resolvedHour (item.hourRaw "Remove Hour") 23
      then ["Hozzáadás és Törlés ugyanabban az órában - nem végrehajtható"]
      else []
    else []
  else []

/-- Step 1 of the validation of a text row: required fields and the text type. -/
def textInputErrors (campaign textType text : String) : List String :=
  (if !truthyStr campaign then ["Hiányzik Campaign Name"] else []) ++
  (if !truthyStr textType ∨ ¬ (textType ∈ ["HEADLINE", "LONG_HEADLINE", "DESCRIPTION"]) then
    ["Érvénytelen Text Type: \"" ++ textType ++ "\""] else []) ++
  (if !truthyStr text then ["Hiányzik Text"] else [])

/-- Whether step 2 of the validation applies: known type, non-empty text, an adding action. -/
def lengthCheckApplies (textType text effectiveAction : String) : Option TextLimit :=
  match TEXT_LIMITS textType with
  | none => none
  | some limits =>
      if truthyStr text ∧ (effectiveAction = "ADD" ∨ effectiveAction = "ADD+REMOVE") then
        some limits
      else none

/-- Step 2 of the validation of a text row: the length error. -/
def textLengthErrors (textType text effectiveAction : String) : List String :=
  match lengthCheckApplies textType text effectiveAction with
  | none => []
  | some limits =>
      if jsLength text > limits.maxLen then
        ["Túl hosszú (" ++ toString (jsLength text) ++ "/" ++ toString limits.maxLen ++ " char)"]
      else []

/-- Step 2 of the validation of a text row: the exclamation mark warning. -/
def textWarnings (textType text effectiveAction : String) : List String :=
  match lengthCheckApplies textType text effectiveAction with
  | none => []
  | some _ =>
      if text.data.contains '!' then
        if textType = "HEADLINE" then ["Felkiáltójel a címsorban (Nem ajánlott)"]
        else if textType = "LONG_HEADLINE" then ["Felkiáltójel a hosszú címsorban (Nem ajánlott)"]
        else []
      else []

/-- The lookup `campaignIdMap[campaign]`; the empty string stands for `undefined`. -/
def campaignIdOf (campaignIdMap : List (String × String)) (campaign : String) : String :=
  (mapGet campaignIdMap campaign).getD ""

/-- Step 3 of the validation: the campaign must be known. -/
def campaignErrors (campaignIdMap : List (String × String)) (campaign : String) : List String :=
  if !truthyStr (campaignIdOf campaignIdMap campaign) then ["Kampány nem található"] else []

/-- Every error pushed before the early return of `validateTextAsset`, in push order. -/
def textRowErrors (env : Env) (item : Item) (campaignIdMap : List (String × String))
    (campaign textType text effectiveAction : String) : List String :=
  (if !item.hasAction then
    hourFieldErrors item "Add Date" "Add Hour" "Add" ++
    hourFieldErrors item "Remove Date" "Remove Hour" "Remove"
   else []) ++
  selfConflictErrors env item ++
  textInputErrors campaign textType text ++
  textLengthErrors textType text effectiveAction ++
  campaignErrors campaignIdMap campaign

/-- The local `ofType` of the loop body of `validateTextAsset` (lines 1564-1565): the
enabled links of the group that have the row's text type. -/
def ofType (gs : GroupStates) (g : Group) (textType : String) : List TextLink :=
  ((mapGet gs.text g.resourceName).getD []).filter (fun x => x.fieldType == textType)

/-- The status and message of one target group, the body of `targetGroups.forEach` in
`validateTextAsset`. -/
def textGroupVerdict (gs : GroupStates) (limits : TextLimit)
    (textType text effectiveAction : String) (warnings : List String) (g : Group) :
    String × String :=
  let currentAssets := (mapGet gs.text g.resourceName).getD []
  let ofType := currentAssets.filter (fun x => x.fieldType == textType)
  let currentCount := ofType.length
  let isAdd : Bool := effectiveAction = "ADD" ∨ effectiveAction = "ADD+REMOVE"
  let isRemove : Bool := effectiveAction = "REMOVE" ∨ effectiveAction = "ADD+REMOVE"
  let present := ofType.any (fun x => x.text == text)
  let afterAdd := currentCount + 1
  let afterRemove : Int := (currentCount : Int) - 1
  let addErrors : List String :=
    if isAdd then
      (if afterAdd > limits.max then
        ["MAX limit túllépés (" ++ toString currentCount ++ "+1 > " ++ toString limits.max ++ ")"]
       else []) ++
      (if present then ["Text asset már létezik a csoportban"] else [])
    else []
  let addWarnings : List String :=
    if isAdd then
      if afterAdd > limits.max then []
      else if currentCount ≥ limits.max - limits.warnThreshold then
        ["Limit közel (current=" ++ toString currentCount ++ ", after=" ++ toString afterAdd ++
          ", max=" ++ toString limits.max ++ ")"]
      else []
    else []
  let removeErrors : List String :=
    if isRemove then
      if !present && effectiveAction = "REMOVE" then ["Text asset nem található a csoportban"]
      else []
    else []
  let removeWarnings : List String :=
    if isRemove then
      if present && decide (afterRemove < (limits.min : Int)) then
        ["⚠️ MIN limit alatt! " ++ toString afterRemove ++ " hirdető által hozzáadott " ++
          textType ++ " marad törlés után (min=" ++ toString limits.min ++
          ", + esetleges Google által generált)"]
      else []
    else []
  let groupErrors := addErrors ++ removeErrors
  let groupWarnings := warnings ++ addWarnings ++ removeWarnings
  if groupErrors.length > 0 then ("ERROR", jsJoin "; " groupErrors)
  else if groupWarnings.length > 0 then ("WARNING", jsJoin "; " groupWarnings)
  else ("OK", "OK")

/-- The script's `validateTextAsset`.  `Except.error` is an exception leaving the function:
reading `limits.max` when `TEXT_LIMITS[textType]` is undefined, which an unknown text type
never reaches because it has been answered with the ERROR row before. -/
def validateTextAsset (env : Env) (item : Item) (campaignIdMap : List (String × String))
    (gs : GroupStates) (timestamp : String) : Except String Validation :=
  let campaign := item.field "Campaign Name"
  let assetGroup := item.field "Asset Group Name"
  let textType := jsUpper (item.field "Text Type")
  let text := item.field "Text"
  let groupCol := if truthyStr assetGroup then assetGroup else "(all groups)"
  let closest : Option String :=
    if item.hasAction then item.action else getClosestAction env item
  if !truthyOpt closest then
    .ok { status := "ERROR",
          rows := [⟨timestamp, campaign, groupCol, textType, text, "N/A", "N/A", "ERROR",
                    "INTERNAL: Nincs jövőbeli művelet"⟩],
          validGroups := none }
  else
    let effectiveAction := closest.getD ""
    let errors := textRowErrors env item campaignIdMap campaign textType text effectiveAction
    let warnings := textWarnings textType text effectiveAction
    let scheduledCol :=
      if item.hasAction then scheduledStr env item effectiveAction
      else allScheduledActions env item
    if errors.length > 0 then
      .ok { status := "ERROR",
            rows := [⟨timestamp, campaign, groupCol, textType, text, scheduledCol,
                      effectiveAction, "ERROR", jsJoin "; " errors⟩],
            validGroups := none }
    else
      let targetGroups :=
        getTargetGroups env campaign assetGroup (campaignIdOf campaignIdMap campaign) gs
      if targetGroups.length = 0 then
        .ok { status := "ERROR",
              rows := [⟨timestamp, campaign, groupCol, textType, text, scheduledCol,
                        effectiveAction, "ERROR", "Nincs aktív (nem feed-only) asset group"⟩],
              validGroups := none }
      else
        match TEXT_LIMITS textType with
        | none => .error "TypeError: Cannot read properties of undefined (reading 'max')"
        | some limits =>
            let verdicts := targetGroups.map (fun g =>
              (g, textGroupVerdict gs limits textType text effectiveAction warnings g))
            let rows := verdicts.map (fun v =>
              (⟨timestamp, campaign, v.1.name, textType, text, scheduledCol, effectiveAction,
                v.2.1, v.2.2⟩ : Row))
            let validGroups := (verdicts.filter (fun v =>
              v.2.1 == "OK" || v.2.1 == "WARNING")).map (fun v => v.1)
            let hasError := verdicts.any (fun v => v.2.1 == "ERROR")
            let hasWarning := verdicts.any (fun v => v.2.1 == "WARNING")
            .ok { status := if hasError then "ERROR" else if hasWarning then "WARNING" else "OK",
                  rows := rows,
                  validGroups := some validGroups }

/-! ## Hours of a scheduled column -/

/-- The pattern `\d{4}-\d{2}-\d{2}` at the head of the list; the rest after it. -/
def matchDate : List Char → Option (List Char)
  | y1 :: y2 :: y3 :: y4 :: s1 :: m1 :: m2 :: s2 :: d1 :: d2 :: rest =>
      if y1.isDigit && y2.isDigit && y3.isDigit && y4.isDigit && s1 == '-' && m1.isDigit &&
          m2.isDigit && s2 == '-' && d1.isDigit && d2.isDigit then some rest
      else none
  | _ => none

/-- The pattern `(\d{1,2}):` at the head of the list: the digits and the rest after the colon. -/
def matchHourColon : List Char → Option (List Char × List Char)
  | a :: b :: c :: rest =>
      if a.isDigit && b.isDigit && c == ':' then some ([a, b], rest)
      else if a.isDigit && b == ':' then some ([a], c :: rest)
      else none
  | [a, b] => if a.isDigit && b == ':' then some ([a], []) else none
  | _ => none

/-- The pattern `\d{2}` at the head of the list; the rest after it. -/
def matchTwoDigits : List Char → Option (List Char)
  | a :: b :: rest => if a.isDigit && b.isDigit then some rest else none
  | _ => none

/-- The pattern `(\d{4}-\d{2}-\d{2})\s+(\d{1,2}):(\d{2})-(\d{1,2}):(\d{2})` at the head
of the list: `parseInt` of the second group and the rest after the match. -/
def matchScheduled (l : List Char) : Option (Nat × List Char) :=
  match matchDate l with
  | none => none
  | some r1 =>
    match r1 with
    | [] => none
    | w :: _ =>
      if !isJsSpace w then none
      else
        match matchHourColon (r1.dropWhile isJsSpace) with
        | none => none
        | some (h, r2) =>
          match matchTwoDigits r2 with
          | none => none
          | some r3 =>
            match r3 with
            | [] => none
            | dash :: r4 =>
              if dash != '-' then none
              else
                match matchHourColon r4 with
                | none => none
                | some (_, r5) =>
                  match matchTwoDigits r5 with
                  | none => none
                  | some r6 => some (digitsValue h, r6)

/-- The `while ((match = regex.exec(scheduled)) !== null)` loop of the global pattern: the
hour of every match, left to right; a match is searched from the end of the one before.
The fuel bounds the number of search positions. -/
def scanHours : Nat → List Char → List Nat
  | 0, _ => []
  | _ + 1, [] => []
  | fuel + 1, c :: l =>
      match matchScheduled (c :: l) with
      | some (h, rest) => h :: scanHours fuel rest
      | none => scanHours fuel l

/-- The pattern `LABEL:\s*` followed by the scheduled pattern, at the head of the list. -/
def matchLabelled (label : List Char) (l : List Char) : Option Nat :=
  if startsWithChars label l then
    (matchScheduled ((l.drop label.length).dropWhile isJsSpace)).map Prod.fst
  else none

/-- The first match of the labelled pattern anywhere in the list (`regex.exec`). -/
def firstLabelled (label : List Char) : List Char → Option Nat
  | [] => none
  | c :: l =>
      match matchLabelled label (c :: l) with
      | some h => some h
      | none => firstLabelled label l

/-- The script's `extractHoursFromScheduled`. -/
def extractHoursFromScheduled (scheduled action : String) : List Nat :=
  let hours := scanHours scheduled.data.length scheduled.data
  let addHour : Option Nat :=
    if action = "ADD" ∧ jsIncludes scheduled "ADD:" then firstLabelled "ADD:".data scheduled.data
    else none
  match addHour with
  | some h => [h]
  | none =>
      let removeHour : Option Nat :=
        if action = "REMOVE" ∧ jsIncludes scheduled "REMOVE:" then
          firstLabelled "REMOVE:".data scheduled.data
        else none
      match removeHour with
      | some h => [h]
      | none => hours

/-! ## Cross-row conflicts -/

/-- An element of `ops.adds` or `ops.removes`: `{ rowIndex, row }`. -/
structure Op where
  rowIndex : Nat
  row : Row
  deriving DecidableEq, Repr

/-- A value of the map `operationsByKey`: `{ adds, removes }`. -/
structure Ops where
  adds : List Op
  removes : List Op
  deriving DecidableEq, Repr

/-- The key of `operationsByKey`: the five parts joined by a vertical bar. -/
def conflictKey (row : Row) (hour : Nat) : String :=
  row.campaign ++ "|" ++ row.groupName ++ "|" ++ row.assetType ++ "|" ++ row.textOrId ++ "|" ++
    toString hour

/-- The body of `hours.forEach` in the collecting loop. -/
def recordOp (idx : Nat) (row : Row) (m : List (String × Ops)) (hour : Nat) :
    List (String × Ops) :=
  let key := conflictKey row hour
  let ops := (mapGet m key).getD ⟨[], []⟩
  let ops1 : Ops :=
    if row.action = "ADD" ∨ row.action = "ADD+REMOVE" then
      { ops with adds := ops.adds ++ [⟨idx, row⟩] }
    else ops
  let ops2 : Ops :=
    if row.action = "REMOVE" ∨ row.action = "ADD+REMOVE" then
      { ops1 with removes := ops1.removes ++ [⟨idx, row⟩] }
    else ops1
  mapSet m key ops2

/-- The body of `allRows.forEach((row, idx) => …)` in the collecting loop. -/
def collectRow (m : List (String × Ops)) (entry : Nat × Row) : List (String × Ops) :=
  if entry.2.status ≠ "OK" ∧ entry.2.status ≠ "WARNING" then m
  else (extractHoursFromScheduled entry.2.scheduled entry.2.action).foldl
    (recordOp entry.1 entry.2) m

/-- The map `operationsByKey` after the collecting loop. -/
def collectOps (allRows : List Row) : List (String × Ops) :=
  allRows.enum.foldl collectRow []

/-- The test `hasConflict`: some adding row is not a removing row, or the other way round. -/
def hasCrossRowConflict (ops : Ops) : Bool :=
  let addRows := ops.adds.map (fun x => x.rowIndex)
  let removeRows := ops.removes.map (fun x => x.rowIndex)
  addRows.any (fun addIdx => !removeRows.contains addIdx) ||
    removeRows.any (fun remIdx => !addRows.contains remIdx)

/-- The set `conflictedRowIndices` and the counter `conflictCount`. -/
structure ConflictScan where
  conflicted : List Nat
  conflictCount : Nat
  deriving DecidableEq, Repr

/-- The body of `operationsByKey.forEach` in the detecting loop. -/
def scanEntry (acc : ConflictScan) (entry : String × Ops) : ConflictScan :=
  if entry.2.adds.length > 0 ∧ entry.2.removes.length > 0 then
    if hasCrossRowConflict entry.2 then
      { conflicted := ((entry.2.adds ++ entry.2.removes).map (fun x => x.rowIndex)).foldl
          setAdd acc.conflicted,
        conflictCount := acc.conflictCount + 1 }
    else acc
  else acc

/-- The detecting loop over `operationsByKey`. -/
def scanConflicts (m : List (String × Ops)) : ConflictScan :=
  m.foldl scanEntry ⟨[], 0⟩

/-- The row a conflicting row is replaced by. -/
def escalate (row : Row) : Row :=
  { row with status := "ERROR",
             message := "ADD és REMOVE ugyanarra az órára van ütemezve (sorok között)" }

/-- JavaScript `allRows.indexOf(row)`.  The script compares array identity; the embedding
compares the nine values, which gives the same answer in `main`, where `futureRows` and
`windowRows` hold the very arrays of `allRows` and equal rows share their conflict keys. -/
def rowIndexOf (allRows : List Row) (row : Row) : Option Nat :=
  let i := allRows.indexOf row
  if i < allRows.length then some i else none

/-- The object returned by `detectCrossRowAddRemoveConflicts`. -/
structure ConflictResult where
  allRows : List Row
  futureRows : List Row
  windowRows : List Row
  conflictCount : Nat
  deriving DecidableEq, Repr

/-- The update of `futureRows` and of `windowRows`. -/
def escalateByLookup (allRows : List Row) (conflicted : List Nat) (rows : List Row) : List Row :=
  rows.map (fun row =>
    match rowIndexOf allRows row with
    | some idx => if conflicted.contains idx then escalate row else row
    | none => row)

/-- The script's `detectCrossRowAddRemoveConflicts`. -/
def detectCrossRowAddRemoveConflicts (allRows futureRows windowRows : List Row) :
    ConflictResult :=
  let scan := scanConflicts (collectOps allRows)
  if scan.conflicted.length = 0 then
    { allRows := allRows, futureRows := futureRows, windowRows := windowRows, conflictCount := 0 }
  else
    { allRows := allRows.enum.map (fun entry =>
        if scan.conflicted.contains entry.1 then escalate entry.2 else entry.2),
      futureRows := escalateByLookup allRows scan.conflicted futureRows,
      windowRows := escalateByLookup allRows scan.conflicted windowRows,
      conflictCount := scan.conflictCount }

/-! ## Validation of all rows and the way to execution in `main` -/

/-- An element of `validTextItems`, `validImageItems` and of the executable lists:
`{ item, validGroups }`. -/
structure ValidItem where
  item : Item
  validGroups : List Group
  deriving DecidableEq, Repr

/-- The object returned by `validateAll`. -/
structure ValidationResults where
  ok : Nat
  warnings : Nat
  errors : Nat
  rows : List Row
  futureRows : List Row
  windowRows : List Row
  validTextItems : List ValidItem
  validImageItems : List ValidItem
  deriving DecidableEq, Repr

/-- The body of one `forEach` of `validateAll` after the row has been validated. -/
def validateAllStep (isText : Bool) (windowRowNums : List Nat) (acc : ValidationResults)
    (item : Item) (result : Validation) : ValidationResults :=
  let isInWindow := windowRowNums.contains item.sheetRowNum
  let valid : List ValidItem :=
    match result.validGroups with
    | some groups => if groups.length > 0 then [⟨item, groups⟩] else []
    | none => []
  { ok := if result.status = "OK" then acc.ok + 1 else acc.ok,
    warnings := if result.status = "WARNING" then acc.warnings + 1 else acc.warnings,
    errors := if result.status = "ERROR" then acc.errors + 1 else acc.errors,
    rows := acc.rows ++ result.rows,
    futureRows := if isInWindow then acc.futureRows else acc.futureRows ++ result.rows,
    windowRows := if isInWindow then acc.windowRows ++ result.rows else acc.windowRows,
    validTextItems := if isText then acc.validTextItems ++ valid else acc.validTextItems,
    validImageItems := if isText then acc.validImageItems else acc.validImageItems ++ valid }

/-- One `forEach` of `validateAll`; an exception of the validator leaves the loop. -/
def validateRows (validate : Item → Except String Validation) (isText : Bool)
    (windowRowNums : List Nat) : ValidationResults → List Item → Except String ValidationResults
  | acc, [] => .ok acc
  | acc, item :: rest =>
      match validate item with
      | .error e => .error e
      | .ok result =>
          validateRows validate isText windowRowNums
            (validateAllStep isText windowRowNums acc item result) rest

/-- The script's `validateAll`.  The validator of image rows, `validateImageAsset` applied to
the maps and the timestamp, is passed in as `validateImage`. -/
def validateAll (env : Env) (validateImage : Item → Except String Validation)
    (textRows imageRows : List Item) (campaignIdMap : List (String × String))
    (gs : GroupStates) (textWindowRowNums imageWindowRowNums : List Nat) (timestamp : String) :
    Except String ValidationResults :=
  match validateRows (fun item => validateTextAsset env item campaignIdMap gs timestamp) true
      textWindowRowNums ⟨0, 0, 0, [], [], [], [], []⟩ textRows with
  | .error e => .error e
  | .ok acc => validateRows validateImage false imageWindowRowNums acc imageRows

/-- The script's `countStatuses`. -/
def countStatuses (rows : List Row) : Nat × Nat × Nat :=
  rows.foldl (fun c row =>
    if row.status = "OK" then (c.1 + 1, c.2.1, c.2.2)
    else if row.status = "WARNING" then (c.1, c.2.1 + 1, c.2.2)
    else if row.status = "ERROR" then (c.1, c.2.1, c.2.2 + 1)
    else c) (0, 0, 0)

/-- The script's `gatherCampaigns`. -/
def gatherCampaigns (textRows imageRows : List Item) : List String :=
  (textRows ++ imageRows).foldl (fun campaigns item =>
    match indexOf item.headers "Campaign Name" with
    | none => campaigns
    | some _ =>
        let campaign := item.field "Campaign Name"
        if truthyStr campaign then setAdd campaigns campaign else campaigns) []

/-- The maps `textWindowMap` and `imageWindowMap` of phase 10: for a sheet row number the
array of `{ action, customHour }` of its in-window entries. -/
def windowMapOf (valid : List Item) : List (Nat × List (Option String × Option Nat)) :=
  valid.foldl (fun m item =>
    mapSet m item.sheetRowNum
      ((mapGet m item.sheetRowNum).getD [] ++ [(item.action, item.customHour)])) []

/-- The filtering and duplication of phase 10: one executable item per in-window action. -/
def executableItems (windowMap : List (Nat × List (Option String × Option Nat)))
    (validItems : List ValidItem) : List ValidItem :=
  validItems.foldl (fun out entry =>
    match mapGet windowMap entry.item.sheetRowNum with
    | none => out
    | some metas =>
        out ++ metas.map (fun m =>
          (⟨{ entry.item with action := m.1, customHour := m.2 }, entry.validGroups⟩ :
            ValidItem))) []

/-- Where `main` stands after phase 10: it has returned, or it hands the two executable
lists to `deduplicateExecutableItems` and `executeAll`. -/
inductive MainStage where
  | returned (phase : String) : MainStage
  | execute (validation : ValidationResults) (textItems imageItems : List ValidItem) : MainStage
  deriving DecidableEq, Repr

/-- Phases 4 to 10 of `main`, from the rows in the date range to the executable lists.
The reads of phases 3.5, 6 and 7 are arguments: whether the sheet changed, the campaign
ids and the asset group states. -/
def mainToExecution (env : Env) (validateImage : Item → Except String Validation)
    (sheetChanged : Bool) (textInRange imageInRange : List Item) (nowMinutes : Int)
    (campaignIdMap : List (String × String)) (gs : GroupStates) (timestamp : String) :
    Except String MainStage :=
  let textInWindow := filterByTimeWindow env textInRange nowMinutes
  let imageInWindow := filterByTimeWindow env imageInRange nowMinutes
  let hasExecutableItems : Bool :=
    textInWindow.valid.length > 0 ∨ imageInWindow.valid.length > 0
  if !hasExecutableItems && !sheetChanged then .ok (.returned "4.5 skip")
  else if (gatherCampaigns textInRange imageInRange).length = 0 then
    .ok (.returned "5 no campaign")
  else
    let textWindowRowNums :=
      if hasExecutableItems then
        (textInWindow.valid.map (fun item => item.sheetRowNum)).foldl setAdd []
      else []
    let imageWindowRowNums :=
      if hasExecutableItems then
        (imageInWindow.valid.map (fun item => item.sheetRowNum)).foldl setAdd []
      else []
    match validateAll env validateImage textInRange imageInRange campaignIdMap gs
        textWindowRowNums imageWindowRowNums timestamp with
    | .error e => .error e
    | .ok results =>
        let conflictResult :=
          detectCrossRowAddRemoveConflicts results.rows results.futureRows results.windowRows
        let validation : ValidationResults :=
          if conflictResult.conflictCount > 0 then
            let newCounts := countStatuses conflictResult.allRows
            { results with rows := conflictResult.allRows,
                           futureRows := conflictResult.futureRows,
                           windowRows := conflictResult.windowRows,
                           ok := newCounts.1, warnings := newCounts.2.1,
                           errors := newCounts.2.2 }
          else results
        if !hasExecutableItems then .ok (.returned "9.7 preview only")
        else
          let executableTextItems :=
            executableItems (windowMapOf textInWindow.valid) validation.validTextItems
          let executableImageItems :=
            executableItems (windowMapOf imageInWindow.valid) validation.validImageItems
          if executableTextItems.length = 0 ∧ executableImageItems.length = 0 then
            .ok (.returned "10 all errors")
          else .ok (.execute validation executableTextItems executableImageItems)

/-! ## Deduplication -/

/-- A value of the map `seen`. -/
structure SeenInfo where
  itemIndex : Nat
  groupIndex : Nat
  sheetRowNum : Nat
  assetType : String
  deriving DecidableEq, Repr

/-- The helper `makeKey`; `action` absent prints as `undefined`, and `hour || 'null'`
prints `null` for an unset hour and for hour 0. -/
def makeKey (campaign groupResourceName assetType textOrId : String) (action : Option String)
    (hour : Option Nat) : String :=
  campaign ++ "|" ++ groupResourceName ++ "|" ++ assetType ++ "|" ++ textOrId ++ "|" ++
    action.getD "undefined" ++ "|" ++
    (match hour with
     | none => "null"
     | some h => if h = 0 then "null" else toString h)

/-- The helper `getAssetType`. -/
def getAssetType (item : Item) (isText : Bool) : String :=
  if isText then jsUpper (item.field "Text Type") else item.field "Image Type"

/-- The helper `getAssetIdentifier`. -/
def getAssetIdentifier (item : Item) (isText : Bool) : String :=
  if isText then item.field "Text" else item.field "Asset ID"

/-- The key of one (item, group) pair as the deduplication builds it. -/
def dedupKey (isText : Bool) (item : Item) (group : Group) : String :=
  makeKey (item.field "Campaign Name") group.resourceName (getAssetType item isText)
    (getAssetIdentifier item isText) item.action item.customHour

/-- The state of the inner loop: the map `seen`, `duplicateCount`, `remainingGroups`. -/
structure DedupState where
  seen : List (String × SeenInfo)
  duplicateCount : Nat
  remainingGroups : List Group
  deriving DecidableEq, Repr

/-- The body of `validGroups.forEach((group, groupIdx) => …)`. -/
def dedupGroup (isText : Bool) (item : Item) (itemIdx : Nat) (st : DedupState)
    (g : Nat × Group) : DedupState :=
  let key := dedupKey isText item g.2
  if (mapGet st.seen key).isSome then
    { st with duplicateCount := st.duplicateCount + 1 }
  else
    { st with seen := mapSet st.seen key ⟨itemIdx, g.1, item.sheetRowNum,
                        getAssetType item isText⟩,
              remainingGroups := st.remainingGroups ++ [g.2] }

/-- The state of the outer loop: `seen`, `duplicateCount` and the deduplicated items. -/
structure DedupAcc where
  seen : List (String × SeenInfo)
  duplicateCount : Nat
  items : List ValidItem
  deriving DecidableEq, Repr

/-- The body of `textItems.forEach((entry, itemIdx) => …)` and of its image twin. -/
def dedupEntry (isText : Bool) (acc : DedupAcc) (e : Nat × ValidItem) : DedupAcc :=
  let st := e.2.validGroups.enum.foldl (dedupGroup isText e.2.item e.1)
    ⟨acc.seen, acc.duplicateCount, []⟩
  { seen := st.seen,
    duplicateCount := st.duplicateCount,
    items := if st.remainingGroups.length > 0 then acc.items ++ [⟨e.2.item, st.remainingGroups⟩]
             else acc.items }

/-- The object returned by `deduplicateExecutableItems`. -/
structure DedupResult where
  textItems : List ValidItem
  imageItems : List ValidItem
  duplicateCount : Nat
  deriving DecidableEq, Repr

/-- The script's `deduplicateExecutableItems`; the two maps it is given are not used. -/
def deduplicateExecutableItems (textItems imageItems : List ValidItem) : DedupResult :=
  let a1 := textItems.enum.foldl (dedupEntry true) ⟨[], 0, []⟩
  let a2 := imageItems.enum.foldl (dedupEntry false) ⟨a1.seen, a1.duplicateCount, []⟩
  { textItems := a1.items, imageItems := a2.items, duplicateCount := a2.duplicateCount }

/-- The (item, group) pairs of an executable list in order, each with the key that
`deduplicateExecutableItems` builds for it. -/
def operationsOf (isText : Bool) (items : List ValidItem) : List (String × Item × Group) :=
  items.flatMap (fun e => e.validGroups.map (fun g => (dedupKey isText e.item g, e.item, g)))

/-- The invariant of the deduplication loops: `P` are the pairs read so far, `K` the pairs
kept so far, `seenKeys` the keys of the map `seen` in insertion order, `dup` the counter. -/
structure DedupInv (P K : List (String × Item × Group)) (seenKeys : List String) (dup : Nat) :
    Prop where
  sub : K.Sublist P
  keys : K.map Prod.fst = seenKeys
  nodup : seenKeys.Nodup
  cover : ∀ x ∈ P, x.1 ∈ seenKeys
  first : ∀ x ∈ K, P.find? (fun y => y.1 == x.1) = some x
  count : K.length + dup = P.length

/-! ## Execution of one mutation -/

/-- What one pass through the `try` block of `executeSingleMutation` meets. -/
inductive MutationOutcome where
  /-- The call of `mutateAll` returned: whether `r.isSuccessful && r.isSuccessful()` holds, and
  `r.getErrorMessages()` when the method exists. -/
  | result (successful : Bool) (errorMessages : Option (List String)) : MutationOutcome
  /-- Either `mutationFn` or `mutateAll` threw; `message` is `e.message`. -/
  | thrown (message : String) : MutationOutcome
  deriving DecidableEq, Repr

/-- A pattern without special characters tested with the flag `i`: ASCII letters match
in either case. -/
def includesIgnoreCase (text pattern : String) : Bool :=
  jsIncludes (jsUpper text) (jsUpper pattern)

/-- The test `/Another task is also trying to change|CONCURRENT_MODIFICATION/i`. -/
def isRaceCondition (errorText : String) : Bool :=
  includesIgnoreCase errorText "Another task is also trying to change" ||
    includesIgnoreCase errorText "CONCURRENT_MODIFICATION"

/-- The test `/RESOURCE_EXHAUSTED|INTERNAL|DEADLINE_EXCEEDED/i`. -/
def isTransientMutation (message : String) : Bool :=
  includesIgnoreCase message "RESOURCE_EXHAUSTED" || includesIgnoreCase message "INTERNAL" ||
    includesIgnoreCase message "DEADLINE_EXCEEDED"

/-- What a run of `executeSingleMutation` did: the row it returned, how often it called the
mutation, the arguments of `Utilities.sleep` in order, and whether the row comes from the
statement after the `while` loop. -/
structure MutationRun where
  row : Row
  calls : Nat
  sleeps : List Nat
  afterLoop : Bool
  deriving DecidableEq, Repr

/-- The `while (attempt <= maxRetries)` loop of `executeSingleMutation`.  `script n` is what
the call number `n` (from 0) meets; `mk status message` is the returned row.  The fuel
bounds the number of passes; `none` is a loop that has not returned within the fuel. -/
def mutationLoop (script : Nat → MutationOutcome) (mk : String → String → Row) :
    Nat → Nat → Nat → List Nat → Option MutationRun
  | 0, _, _, _ => none
  | fuel + 1, attempt, calls, sleeps =>
      if attempt ≤ RETRY_MAX_ATTEMPTS then
        match script calls with
        | .result true _ =>
            some ⟨mk "SUCCESS" ("Végrehajtva (attempt " ++ toString (attempt + 1) ++ ")"),
              calls + 1, sleeps, false⟩
        | .result false errorMessages =>
            let errorText := jsJoin "; " (errorMessages.getD ["ismeretlen hiba"])
            if isRaceCondition errorText && decide (attempt < RETRY_MAX_ATTEMPTS) then
              mutationLoop script mk fuel (attempt + 1) (calls + 1)
                (sleeps ++ [2 ^ attempt * RETRY_BASE_DELAY_MS])
            else some ⟨mk "ERROR" ("Hiba: " ++ errorText), calls + 1, sleeps, false⟩
        | .thrown message =>
            if isTransientMutation message && decide (attempt < RETRY_MAX_ATTEMPTS) then
              mutationLoop script mk fuel (attempt + 1) (calls + 1)
                (sleeps ++ [2 ^ attempt * RETRY_BASE_DELAY_MS])
            else some ⟨mk "ERROR" ("Exception: " ++ message), calls + 1, sleeps, false⟩
      else
        some ⟨mk "ERROR" ("Max retry elérve (" ++ toString RETRY_MAX_ATTEMPTS ++ ")"),
          calls, sleeps, true⟩

/-- The script's `executeSingleMutation`: the mutation is the script of its outcomes. -/
def executeSingleMutation (script : Nat → MutationOutcome)
    (timestamp campaign groupName assetType textOrId action scheduled : String) :
    Option MutationRun :=
  mutationLoop script
    (fun status message =>
      ⟨timestamp, campaign, groupName, assetType, textOrId, scheduled, action, status, message⟩)
    (RETRY_MAX_ATTEMPTS + 2) 0 0 []

/-- A failure that `executeSingleMutation` answers with a sleep and another attempt while
attempts are left: an unsuccessful result with a race-condition text, or an exception with a
transient message. -/
def retryableFailure (outcome : MutationOutcome) : Prop :=
  match outcome with
  | .result false errorMessages =>
      isRaceCondition (jsJoin "; " (errorMessages.getD ["ismeretlen hiba"])) = true
  | .result true _ => False
  | .thrown message => isTransientMutation message = true

/-! ## Post-verification -/

/-- A row of a GAQL report: the selected fields by name. -/
abbrev ReportRow := List (String × String)

/-- What one call of `AdsApp.report(…).rows()` meets. -/
inductive ReportOutcome where
  | rows (rs : List ReportRow) : ReportOutcome
  /-- The call threw; `message` is `String(e.message || e)`. -/
  | thrown (message : String) : ReportOutcome
  deriving DecidableEq, Repr

/-- The platform as the verification sees it: the customer id without dashes and what the
report call number `n` (from 0) meets. -/
structure Platform where
  customerId : String
  report : Nat → ReportOutcome
  /-- The runtime's `String.prototype.toLowerCase`, as `normalizeText` calls it. -/
  toLowerCase : String → String

/-- The test `/RESOURCE_EXHAUSTED|INTERNAL|BACKEND_ERROR|DEADLINE_EXCEEDED|temporarily|rate limit/i`. -/
def isTransientReport (message : String) : Bool :=
  includesIgnoreCase message "RESOURCE_EXHAUSTED" || includesIgnoreCase message "INTERNAL" ||
    includesIgnoreCase message "BACKEND_ERROR" || includesIgnoreCase message "DEADLINE_EXCEEDED" ||
    includesIgnoreCase message "temporarily" || includesIgnoreCase message "rate limit"

/-- How `runReportSafe` ends: with the rows, with the exception thrown again, or by
falling out of the loop (the value `undefined`). -/
inductive ReportResult where
  | rows (rs : List ReportRow) : ReportResult
  | thrown (message : String) : ReportResult
  | undefined : ReportResult
  deriving DecidableEq, Repr

/-- The `while (attempt <= maxRetries)` loop of `runReportSafe`.  `remaining` counts the
passes the loop test still admits (`maxRetries + 1` at attempt 0, one less after every
`attempt++`); `calls` is the number of report calls made so far, returned updated. -/
def reportLoop (p : Platform) : Nat → Nat → Nat → ReportResult × Nat
  | 0, _, calls => (.undefined, calls)
  | remaining + 1, attempt, calls =>
      match p.report calls with
      | .rows rs => (.rows rs, calls + 1)
      | .thrown message =>
          if isTransientReport message && decide (attempt < RETRY_MAX_ATTEMPTS) then
            reportLoop p remaining (attempt + 1) (calls + 1)
          else (.thrown message, calls + 1)

/-- The script's `runReportSafe`, from the report call number `calls` on. -/
def runReportSafe (p : Platform) (calls : Nat) : ReportResult × Nat :=
  reportLoop p (RETRY_MAX_ATTEMPTS + 1) 0 calls

/-- The last lines of `verifyTextAssetLinked` and `verifyImageAssetLinked`: whether the
membership found confirms the action. -/
def confirmsAction (present : Bool) (action : String) : Bool :=
  if action = "ADD" then present else if action = "REMOVE" then !present else false

/-- Whether a finished query confirms the action for the value looked for in the field. -/
def queryConfirms (field value action : String) : ReportResult → Bool
  | .rows rs => confirmsAction (rs.any (fun r => mapGet r field == some value)) action
  | .thrown _ => false
  | .undefined => false

/-- The script's `verifyTextAssetLinked`: the answer, the query result and the call count. -/
def verifyTextAssetLinked (p : Platform) (calls : Nat) (text action : String) :
    Bool × ReportResult × Nat :=
  let r := runReportSafe p calls
  (queryConfirms "asset.text_asset.text" text action r.1, r.1, r.2)

/-- The script's `verifyImageAssetLinked`. -/
def verifyImageAssetLinked (p : Platform) (calls : Nat) (assetId action : String) :
    Bool × ReportResult × Nat :=
  let r := runReportSafe p calls
  (queryConfirms "asset_group_asset.asset"
    ("customers/" ++ p.customerId ++ "/assets/" ++ assetId) action r.1, r.1, r.2)

/-- What a retry wrapper did: its answer, the result of every verification query it issued
in order, the sleeps in order, and the report call count after it. -/
structure VerifyRun where
  verified : Bool
  queries : List ReportResult
  sleeps : List Nat
  calls : Nat
  deriving DecidableEq, Repr

/-- The `for (attempt = 1; attempt <= maxAttempts; attempt++)` loop of the two retry
wrappers; `remaining` counts the passes left. -/
def verifyLoop (verify : Nat → Bool × ReportResult × Nat) :
    Nat → Nat → Nat → List ReportResult → List Nat → VerifyRun
  | 0, _, calls, queries, sleeps => ⟨false, queries, sleeps, calls⟩
  | remaining + 1, attempt, calls, queries, sleeps =>
      let slept := sleeps ++ [if attempt > 1 then 1000 else 500]
      let r := verify calls
      if r.1 then ⟨true, queries ++ [r.2.1], slept, r.2.2⟩
      else verifyLoop verify remaining (attempt + 1) r.2.2 (queries ++ [r.2.1]) slept

/-- The script's `verifyTextAssetLinkedWithRetry` (`maxAttempts = 5`). -/
def verifyTextAssetLinkedWithRetry (p : Platform) (calls : Nat) (text action : String) :
    VerifyRun :=
  verifyLoop (fun c => verifyTextAssetLinked p c text action) 5 1 calls [] []

/-- The script's `verifyImageAssetLinkedWithRetry` (`maxAttempts = 5`). -/
def verifyImageAssetLinkedWithRetry (p : Platform) (calls : Nat) (assetId action : String) :
    VerifyRun :=
  verifyLoop (fun c => verifyImageAssetLinked p c assetId action) 5 1 calls [] []

/-- The search of the group resource name in `postVerifyAll`: the last group of the map
whose campaign name and name match after `normalizeText`. -/
def findGroupResourceName (p : Platform) (gs : GroupStates) (campaign groupName : String) :
    Option String :=
  gs.groupMap.foldl (fun found entry =>
    if normalizeText p.toLowerCase entry.2.campaignName =
          normalizeText p.toLowerCase campaign ∧
        normalizeText p.toLowerCase entry.2.name = normalizeText p.toLowerCase groupName then
      some entry.1
    else found) none

/-- The field and the value a verification query of the row looks for. -/
def verifyTarget (p : Platform) (result : Row) : String × String :=
  if result.assetType ∈ ["HEADLINE", "LONG_HEADLINE", "DESCRIPTION"] then
    ("asset.text_asset.text", result.textOrId)
  else ("asset_group_asset.asset", "customers/" ++ p.customerId ++ "/assets/" ++ result.textOrId)

/-- The body of `executionResults.map` in `postVerifyAll`, with what the verification did. -/
def postVerifyRow (p : Platform) (gs : GroupStates) (calls : Nat) (result : Row) :
    Row × VerifyRun :=
  if result.status ≠ "SUCCESS" then (result, ⟨false, [], [], calls⟩)
  else if !truthyOpt (findGroupResourceName p gs result.campaign result.groupName) then
    ({ result with status := "ERROR",
                   message := "Post-verify: group nem található (" ++ result.campaign ++
                     " / " ++ result.groupName ++ ")" }, ⟨false, [], [], calls⟩)
  else
    let run :=
      if result.assetType ∈ ["HEADLINE", "LONG_HEADLINE", "DESCRIPTION"] then
        verifyTextAssetLinkedWithRetry p calls result.textOrId result.action
      else verifyImageAssetLinkedWithRetry p calls result.textOrId result.action
    if !run.verified then
      ({ result with status := "ERROR", message := "Post-verify FAILED" }, run)
    else ({ result with status := "SUCCESS", message := result.message ++ " [Verified ✓]" }, run)

/-- The rows of `postVerifyAll` in order, each with what its verification did; the report
call count runs through the rows. -/
def postVerifyTraced (p : Platform) (gs : GroupStates) : Nat → List Row → List (Row × VerifyRun)
  | _, [] => []
  | calls, result :: rest =>
      let x := postVerifyRow p gs calls result
      x :: postVerifyTraced p gs x.2.calls rest

/-- The script's `postVerifyAll`, from the report call number `calls` on. -/
def postVerifyAll (p : Platform) (calls : Nat) (executionResults : List Row)
    (gs : GroupStates) : List Row :=
  (postVerifyTraced p gs calls executionResults).map Prod.fst

/-! ## Execution of the executable items -/

/-- What the call of `AdsApp.mutateAll` in `createTextAsset` meets. -/
inductive CreateOutcome where
  /-- The call returned: whether `r.isSuccessful && r.isSuccessful()` holds, and
  `r.getResourceName()` and `r.getErrorMessages()` when the methods exist. -/
  | result (successful : Bool) (resourceName : Option String)
      (errorMessages : Option (List String)) : CreateOutcome
  /-- The call threw; `message` is `e.message`. -/
  | thrown (message : String) : CreateOutcome
  deriving DecidableEq, Repr

/-- The platform as the execution sees it: the reports, what the call number `n` (from 0)
of `mutateAll` in `createTextAsset` meets, what the call number `n` of `mutateAll` in
`executeSingleMutation` meets, and the text of the clock that `executeSingleMutation` reads
when `n` such calls have been made. -/
structure AdsPlatform where
  reports : Platform
  create : Nat → CreateOutcome
  mutate : Nat → MutationOutcome
  clock : Nat → String

/-- How many calls of each kind the run has made. -/
structure ExecCalls where
  reports : Nat
  creates : Nat
  mutations : Nat
  deriving DecidableEq, Repr

/-- The script's `findExistingTextAsset`: `rows[0]['asset.resource_name']` of the report, and
`null` when the report is empty or the `try` block throws.  The text only shapes the query. -/
def findExistingTextAsset (ads : AdsPlatform) (calls : ExecCalls) (_text : String) :
    Option String × ExecCalls :=
  let r := runReportSafe ads.reports calls.reports
  let found : Option String :=
    match r.1 with
    | .rows (row :: _) => mapGet row "asset.resource_name"
    | _ => none
  (found, { calls with reports := r.2 })

/-- The script's `createTextAsset`; `Except.error` is the exception it throws. -/
def createTextAsset (ads : AdsPlatform) (calls : ExecCalls) (text : String) :
    Except String String × ExecCalls :=
  let calls1 : ExecCalls := { calls with creates := calls.creates + 1 }
  match ads.create calls.creates with
  | .thrown message => (.error message, calls1)
  | .result successful resourceName errorMessages =>
      let failure : Except String String :=
        .error ("TEXT asset létrehozás sikertelen: " ++
          jsJoin "; " (errorMessages.getD ["ismeretlen hiba"]))
      if successful then
        if truthyOpt resourceName then (.ok (resourceName.getD ""), calls1)
        else
          let f := findExistingTextAsset ads calls1 text
          if truthyOpt f.1 then (.ok (f.1.getD ""), f.2) else (failure, f.2)
      else (failure, calls1)

/-- The column `scheduled` of the result rows of `executeTextAsset`; an item of the
executable lists carries a custom hour or `null`. -/
def executionScheduled (env : Env) (item : Item) : String :=
  if item.action = some "ADD" ∧ (item.cell "Add Date").truthy = true then
    env.formatDay (item.cell "Add Date") ++ " " ++ hourRangeStr (item.customHour.getD 0)
  else if item.action = some "REMOVE" ∧ (item.cell "Remove Date").truthy = true then
    env.formatDay (item.cell "Remove Date") ++ " " ++ hourRangeStr (item.customHour.getD 23)
  else ""

/-- The `forEach` over the groups that are mutated, by group name: one
`executeSingleMutation` each, whose row is pushed.  `none` is a mutation that has not
returned within its fuel. -/
def runMutations (ads : AdsPlatform) (campaign assetType textOrId action scheduled : String) :
    List String → ExecCalls → List Row → Option (List Row × ExecCalls)
  | [], calls, results => some (results, calls)
  | groupName :: rest, calls, results =>
      match executeSingleMutation (fun n => ads.mutate (calls.mutations + n))
          (ads.clock calls.mutations) campaign groupName assetType textOrId action
          scheduled with
      | none => none
      | some run =>
          runMutations ads campaign assetType textOrId action scheduled rest
            { calls with mutations := calls.mutations + run.calls } (results ++ [run.row])

/-- The script's `executeTextAsset`; `Except.error` is an exception leaving the function. -/
def executeTextAsset (ads : AdsPlatform) (env : Env) (gs : GroupStates) (calls : ExecCalls)
    (item : Item) (validGroups : List Group) :
    Option (Except String (List Row) × ExecCalls) :=
  let campaign := item.field "Campaign Name"
  let textType := jsUpper (item.field "Text Type")
  let text := item.field "Text"
  let scheduled := executionScheduled env item
  if item.action = some "ADD" then
    let found := findExistingTextAsset ads calls text
    let asset : Except String String × ExecCalls :=
      if truthyOpt found.1 then (.ok (found.1.getD ""), found.2)
      else createTextAsset ads found.2 text
    match asset.1 with
    | .error e => some (.error e, asset.2)
    | .ok _ =>
        (runMutations ads campaign textType text "ADD" scheduled
          (validGroups.map (fun g => g.name)) asset.2 []).map (fun r => (.ok r.1, r.2))
  else if item.action = some "REMOVE" then
    (runMutations ads campaign textType text "REMOVE" scheduled
      ((validGroups.filter (fun g =>
          (ofType gs g textType).any (fun x => x.text == text))).map (fun g => g.name))
      calls []).map (fun r => (.ok r.1, r.2))
  else some (.ok [], calls)

/-- One `forEach` of `executeAll`: the rows of every item are pushed; an exception of an
item leaves the loop. -/
def executeItems (exec : ExecCalls → ValidItem → Option (Except String (List Row) × ExecCalls)) :
    List ValidItem → ExecCalls → List Row → Option (Except String (List Row) × ExecCalls)
  | [], calls, results => some (.ok results, calls)
  | e :: rest, calls, results =>
      match exec calls e with
      | none => none
      | some (.error m, calls1) => some (.error m, calls1)
      | some (.ok rows, calls1) => executeItems exec rest calls1 (results ++ rows)

/-- The script's `executeAll`.  `executeImageAsset` applied to the maps is passed in as
`executeImage`. -/
def executeAll (ads : AdsPlatform) (env : Env) (gs : GroupStates)
    (executeImage : ExecCalls → ValidItem → Option (Except String (List Row) × ExecCalls))
    (textItemsWithGroups imageItemsWithGroups : List ValidItem) (calls : ExecCalls) :
    Option (Except String (List Row) × ExecCalls) :=
  match executeItems (fun c e => executeTextAsset ads env gs c e.item e.validGroups)
      textItemsWithGroups calls [] with
  | none => none
  | some (.error m, c) => some (.error m, c)
  | some (.ok rows, c) => executeItems executeImage imageItemsWithGroups c rows

/-! ## Merging window rows and verified rows -/

/-- The key of `verifiedMap`: the six parts joined by a vertical bar. -/
def mergeKey (row : Row) (hour : Nat) : String :=
  row.campaign ++ "|" ++ row.groupName ++ "|" ++ row.assetType ++ "|" ++ row.textOrId ++ "|" ++
    row.action ++ "|" ++ toString hour

/-- The map `verifiedMap`: a later verified row replaces an earlier one under the same key. -/
def verifiedMapOf (verifiedResults : List Row) : List (String × Row) :=
  verifiedResults.foldl (fun m row =>
    (extractHoursFromScheduled row.scheduled row.action).foldl
      (fun m hour => mapSet m (mergeKey row hour) row) m) []

/-- The body of `windowRows.map` in `mergeWindowAndExecutionRows`. -/
def mergeRow (verifiedMap : List (String × Row)) (row : Row) : Row :=
  if row.status = "ERROR" then row
  else
    match (extractHoursFromScheduled row.scheduled row.action).findSome?
        (fun hour => mapGet verifiedMap (mergeKey row hour)) with
    | some verified => { row with status := verified.status, message := verified.message }
    | none => row

/-- The script's `mergeWindowAndExecutionRows`. -/
def mergeWindowAndExecutionRows (windowRows verifiedResults : List Row) : List Row :=
  windowRows.map (mergeRow (verifiedMapOf verifiedResults))

/-! ## Sample runs

The inputs of the concrete statements below: a run on 2025-11-16 at 14:05 in the account
time zone, a text sheet whose date cells hold the calendar day as text, and two snapshots. -/

/-- The header row of the text sheet. -/
def textHeaders : List String :=
  ["Campaign Name", "Asset Group Name", "Text Type", "Text", "Add Date", "Add Hour",
   "Remove Date", "Remove Hour"]

/-- The run of 2025-11-16, 14:05:00; the day after is tabulated for the days of the samples. -/
def sampleEnv : Env :=
  { formatDay := fun c => c.text,
    formatNextDay := fun c =>
      if c.text = "2025-11-16" then "2025-11-17"
      else if c.text = "2025-11-20" then "2025-11-21"
      else c.text,
    todayStr := "2025-11-16",
    nowStr := "2025-11-16 14:05:00",
    toLowerCase := jsLower }

/-- The minute of the day at 14:05. -/
def sampleNowMinutes : Int := 845

/-- The image sheet is empty in the samples: the image validator is never called. -/
def noImageRows : Item → Except String Validation := fun _ => .error "no image row"

/-- Campaign A with the id 7. -/
def sampleCampaignIds : List (String × String) := [("Campaign A", "7")]

/-- Campaign A has one enabled asset group, Group 1, with three headlines; the headline
'Shop Now' is not among them. -/
def sampleSnapshot : GroupStates :=
  { text := [("ag1", [⟨"l1", "a1", "HEADLINE", "Old 1"⟩, ⟨"l2", "a2", "HEADLINE", "Old 2"⟩,
                      ⟨"l3", "a3", "HEADLINE", "Old 3"⟩])],
    images := [],
    groupMap := [("ag1", ⟨"Group 1", "Campaign A", "c7", "7", true⟩)] }

/-- Sheet row 2: add the headline 'Shop Now' to Group 1 of Campaign A today at hour 14. -/
def sampleAddRow : Item :=
  { rawRow := [.str "Campaign A", .str "Group 1", .str "HEADLINE", .str "Shop Now",
               .str "2025-11-16", .num 14, .str "", .str ""],
    headers := textHeaders, sheetRowNum := 2 }

/-- Sheet row 3: remove the same headline from the same group today at hour 14. -/
def sampleRemoveRow : Item :=
  { rawRow := [.str "Campaign A", .str "Group 1", .str "HEADLINE", .str "Shop Now",
               .str "", .str "", .str "2025-11-16", .num 14],
    headers := textHeaders, sheetRowNum := 3 }

/-- A row that adds and removes the headline on 2025-11-20 with both hour cells empty. -/
def sampleUnsetHoursRow : Item :=
  { rawRow := [.str "Campaign A", .str "Group 1", .str "HEADLINE", .str "Shop Now",
               .str "2025-11-20", .str "", .str "2025-11-20", .str ""],
    headers := textHeaders, sheetRowNum := 4 }

/-- A row that adds and removes the headline on 2025-11-20, both at hour 14. -/
def sampleSameHourRow : Item :=
  { rawRow := [.str "Campaign A", .str "Group 1", .str "HEADLINE", .str "Shop Now",
               .str "2025-11-20", .num 14, .str "2025-11-20", .num 14],
    headers := textHeaders, sheetRowNum := 5 }

/-- Two campaigns, 'A|B' and 'A'. -/
def barCampaignIds : List (String × String) := [("A|B", "1"), ("A", "2")]

/-- Campaign 'A|B' has the asset group 'C', campaign 'A' has the asset group 'B|C', which
holds the headline 'Shop Now' among four. -/
def barSnapshot : GroupStates :=
  { text := [("ag2", [⟨"l1", "a1", "HEADLINE", "Shop Now"⟩, ⟨"l2", "a2", "HEADLINE", "Old 1"⟩,
                      ⟨"l3", "a3", "HEADLINE", "Old 2"⟩, ⟨"l4", "a4", "HEADLINE", "Old 3"⟩])],
    images := [],
    groupMap := [("ag1", ⟨"C", "A|B", "c1", "1", true⟩), ("ag2", ⟨"B|C", "A", "c2", "2", true⟩)] }

/-- Sheet row 2: add 'Shop Now' to group 'C' of campaign 'A|B' today at hour 14. -/
def barAddRow : Item :=
  { rawRow := [.str "A|B", .str "C", .str "HEADLINE", .str "Shop Now",
               .str "2025-11-16", .num 14, .str "", .str ""],
    headers := textHeaders, sheetRowNum := 2 }

/-- Sheet row 3: remove 'Shop Now' from group 'B|C' of campaign 'A' today at hour 14. -/
def barRemoveRow : Item :=
  { rawRow := [.str "A", .str "B|C", .str "HEADLINE", .str "Shop Now",
               .str "", .str "", .str "2025-11-16", .num 14],
    headers := textHeaders, sheetRowNum := 3 }

/-- A platform whose every report shows the headline 'Shop Now' linked. -/
def linkedPlatform : Platform :=
  { customerId := "1", report := fun _ => .rows [[("asset.text_asset.text", "Shop Now")]],
    toLowerCase := jsLower }

/-- The result row of a successful ADD of 'Shop Now' to Group 1 of Campaign A. -/
def sampleSuccessRow : Row :=
  ⟨"ts", "Campaign A", "Group 1", "HEADLINE", "Shop Now", "2025-11-16 14:00-14:59", "ADD",
    "SUCCESS", "Végrehajtva (attempt 1)"⟩

/-- The day 30 days after 2025-11-16 is 2025-12-16; other days are not needed below. -/
def samplePlusDays : String → Nat → String := fun s n =>
  if s = "2025-11-16" ∧ n = 30 then "2025-12-16" else s

/-- The same run one second before 15:00 has passed: the instant 15:00:00 of 2025-11-16. -/
def sampleLateEnv : Env :=
  { sampleEnv with nowStr := "2025-11-16 15:00:00" }

/-- Sheet row 6: add and remove the headline today, both at hour 14. -/
def sampleTodaySameHourRow : Item :=
  { rawRow := [.str "Campaign A", .str "Group 1", .str "HEADLINE", .str "Shop Now",
               .str "2025-11-16", .num 14, .str "2025-11-16", .num 14],
    headers := textHeaders, sheetRowNum := 6 }

/-- Sheet row 7: add the headline 'Old 1', which Group 1 already holds, today at hour 14. -/
def sampleAddExistingRow : Item :=
  { rawRow := [.str "Campaign A", .str "Group 1", .str "HEADLINE", .str "Old 1",
               .str "2025-11-16", .num 14, .str "", .str ""],
    headers := textHeaders, sheetRowNum := 7 }

/-- Sheet row 8: remove the headline 'Old 1', one of the three of Group 1, today at hour 14. -/
def sampleRemoveExistingRow : Item :=
  { rawRow := [.str "Campaign A", .str "Group 1", .str "HEADLINE", .str "Old 1",
               .str "", .str "", .str "2025-11-16", .num 14],
    headers := textHeaders, sheetRowNum := 8 }

/-- Campaign A with an asset group that has no headline (feed-only) and none else. -/
def feedOnlySnapshot : GroupStates :=
  { text := [], images := [],
    groupMap := [("ag1", ⟨"Group 1", "Campaign A", "c7", "7", false⟩)] }

/-- Campaign A (id 7) with the groups 'AKCIÓ', 'Akcio' and a feed-only 'akció', and a group
'AKCIÓ' of another campaign. -/
def accentSnapshot : GroupStates :=
  { text := [], images := [],
    groupMap := [("ag1", ⟨"AKCIÓ", "Campaign A", "c7", "7", true⟩),
                 ("ag2", ⟨"Akcio", "Campaign A", "c7", "7", true⟩),
                 ("ag3", ⟨"akció", "Campaign A", "c7", "7", false⟩),
                 ("ag4", ⟨"AKCIÓ", "Campaign B", "c8", "8", true⟩)] }

/-- Group 1 of the sample snapshot as a target group. -/
def sampleGroup : Group := ⟨"ag1", "Group 1"⟩

/-- The verdict row of `sampleAddRow` on the sample snapshot. -/
def sampleAddVerdictRow : Row :=
  ⟨"ts", "Campaign A", "Group 1", "HEADLINE", "Shop Now", "ADD: 2025-11-16 14:00-14:59", "ADD",
    "OK", "OK"⟩

/-- The verdict row of `sampleAddExistingRow` on the sample snapshot. -/
def sampleAddExistingVerdictRow : Row :=
  ⟨"ts", "Campaign A", "Group 1", "HEADLINE", "Old 1", "ADD: 2025-11-16 14:00-14:59", "ADD",
    "ERROR", "Text asset már létezik a csoportban"⟩

/-- The verdict row of `sampleRemoveExistingRow` on the sample snapshot. -/
def sampleRemoveExistingVerdictRow : Row :=
  ⟨"ts", "Campaign A", "Group 1", "HEADLINE", "Old 1", "REMOVE: 2025-11-16 14:00-14:59",
    "REMOVE", "WARNING",
    "⚠️ MIN limit alatt! 2 hirdető által hozzáadott HEADLINE marad törlés után (min=3, + esetleges Google által generált)"⟩

/-- Sheet row 9: add the headline on 2025-12-16, 30 days after the run, with the hour
text '25'. -/
def sampleHorizonRow : Item :=
  { rawRow := [.str "Campaign A", .str "Group 1", .str "HEADLINE", .str "Shop Now",
               .str "2025-12-16", .str "25", .str "", .str ""],
    headers := textHeaders, sheetRowNum := 9 }

/-- Sheet row 15: remove the headline on 2025-12-17, 31 days after the run, at hour 9. -/
def sampleBeyondHorizonRow : Item :=
  { rawRow := [.str "Campaign A", .str "Group 1", .str "HEADLINE", .str "Shop Now",
               .str "", .str "", .str "2025-12-17", .num 9],
    headers := textHeaders, sheetRowNum := 15 }

/-- Sheet row 10: add the headline today with the hour text '25'. -/
def sampleBadHourRow : Item :=
  { rawRow := [.str "Campaign A", .str "Group 1", .str "HEADLINE", .str "Shop Now",
               .str "2025-11-16", .str "25", .str "", .str ""],
    headers := textHeaders, sheetRowNum := 10 }

/-- The run of 2025-11-16 at 00:30:00. -/
def sampleEarlyEnv : Env :=
  { sampleEnv with nowStr := "2025-11-16 00:30:00" }

/-- Sheet row 11: add the headline 'Shop Now' to Group 1 today with the hour cell 0. -/
def sampleAddHourZeroRow : Item :=
  { rawRow := [.str "Campaign A", .str "Group 1", .str "HEADLINE", .str "Shop Now",
               .str "2025-11-16", .num 0, .str "", .str ""],
    headers := textHeaders, sheetRowNum := 11 }

/-- Sheet row 12: add the same headline to the same group today with an empty hour cell. -/
def sampleAddNoHourRow : Item :=
  { rawRow := [.str "Campaign A", .str "Group 1", .str "HEADLINE", .str "Shop Now",
               .str "2025-11-16", .str "", .str "", .str ""],
    headers := textHeaders, sheetRowNum := 12 }

/-- Sheet row 13: remove the headline 'Old 1' from Group 1 today with the hour cell 0. -/
def sampleRemoveHourZeroRow : Item :=
  { rawRow := [.str "Campaign A", .str "Group 1", .str "HEADLINE", .str "Old 1",
               .str "", .str "", .str "2025-11-16", .num 0],
    headers := textHeaders, sheetRowNum := 13 }

/-- Sheet row 14: remove the same headline from the same group today with an empty hour
cell. -/
def sampleRemoveNoHourRow : Item :=
  { rawRow := [.str "Campaign A", .str "Group 1", .str "HEADLINE", .str "Old 1",
               .str "", .str "", .str "2025-11-16", .str ""],
    headers := textHeaders, sheetRowNum := 14 }

/-- The executable items of the rows 11 and 12 in a run at 00:30: the ADD of 'Shop Now' to
Group 1 with the custom hour 0 and the same ADD with the unset hour. -/
def sampleHourZeroItems : List ValidItem :=
  [⟨{ sampleAddHourZeroRow with action := some "ADD", customHour := some 0 }, [sampleGroup]⟩,
   ⟨{ sampleAddNoHourRow with action := some "ADD", customHour := none }, [sampleGroup]⟩]

/-- A platform on which the headline is not found among the assets, the creation of a text
asset is refused with 'Policy violation', and every link or unlink mutation succeeds. -/
def refusedCreationPlatform : AdsPlatform :=
  { reports := { customerId := "1", report := fun _ => .rows [], toLowerCase := jsLower },
    create := fun _ => .result false none (some ["Policy violation"]),
    mutate := fun _ => .result true none,
    clock := fun _ => "ts" }

/-- The executable item of `sampleAddRow`: ADD at the custom hour 14 in Group 1. -/
def sampleAddExecutable : ValidItem :=
  ⟨{ sampleAddRow with action := some "ADD", customHour := some 14 }, [sampleGroup]⟩

/-- The executable item of `sampleRemoveExistingRow`: REMOVE at the custom hour 14 in
Group 1. -/
def sampleRemoveExecutable : ValidItem :=
  ⟨{ sampleRemoveExistingRow with action := some "REMOVE", customHour := some 14 },
    [sampleGroup]⟩

/-- The image sheet is empty in the samples: no image item is executed. -/
def noImageItems : ExecCalls → ValidItem → Option (Except String (List Row) × ExecCalls) :=
  fun calls _ => some (.ok [], calls)

/-- A verdict row of a REMOVE of the headline 'Shop Now' in Group 1 four days after the
run, at hour 14. -/
def sampleLaterRemoveVerdictRow : Row :=
  ⟨"ts", "Campaign A", "Group 1", "HEADLINE", "Shop Now", "REMOVE: 2025-11-20 14:00-14:59",
    "REMOVE", "OK", "OK"⟩

/-! ## Escaping a GAQL string literal -/

/-- The backslash, code 92. -/
def backslashChar : Char := Char.ofNat 92

/-- The single quote, code 39. -/
def quoteChar : Char := Char.ofNat 39

/-- The line feed, code 10. -/
def newlineChar : Char := Char.ofNat 10

/-- The carriage return, code 13. -/
def returnChar : Char := Char.ofNat 13

/-- The tab, code 9. -/
def tabChar : Char := Char.ofNat 9

/-- JavaScript `s.replace(/c/g, rep)` for a pattern of one character and a replacement
text without `$`. -/
def replaceAllChar (c : Char) (rep : List Char) (l : List Char) : List Char :=
  l.flatMap (fun x => if x = c then rep else [x])

/-- The script's `gaqlEscapeSingleQuote`: the five replacements in the order of the source,
the backslash first. -/
def gaqlEscapeSingleQuote (s : String) : String :=
  ⟨replaceAllChar tabChar [backslashChar, 't']
    (replaceAllChar returnChar [backslashChar, 'r']
      (replaceAllChar newlineChar [backslashChar, 'n']
        (replaceAllChar quoteChar [backslashChar, quoteChar]
          (replaceAllChar backslashChar [backslashChar, backslashChar] s.data))))⟩

/-- The length of the run of backslashes that a text ends in. -/
def trailingBackslashes (l : List Char) : Nat :=
  (l.reverse.takeWhile (fun c => c == backslashChar)).length

/-- Reading a text with the five escapes undone, left to right: a backslash followed by a
backslash, a quote, `n`, `r` or `t` stands for the character it escapes. -/
def undoEscapes : List Char → List Char
  | [] => []
  | [a] => [a]
  | a :: b :: l =>
      if a = backslashChar then
        if b = backslashChar then backslashChar :: undoEscapes l
        else if b = quoteChar then quoteChar :: undoEscapes l
        else if b = 'n' then newlineChar :: undoEscapes l
        else if b = 'r' then returnChar :: undoEscapes l
        else if b = 't' then tabChar :: undoEscapes l
        else a :: undoEscapes (b :: l)
      else a :: undoEscapes (b :: l)

/-! ## Image types -/

/-- The script's `normalizeImageType` for the text of the sheet cell. -/
def normalizeImageType (rawType : String) : String :=
  let s := jsUpper rawType
  if jsIncludes s "HORIZONTAL" || jsIncludes s "19" then "MARKETING_IMAGE"
  else if jsIncludes s "SQUARE" || jsIncludes s "1:1" then "SQUARE_MARKETING_IMAGE"
  else if jsIncludes s "VERTICAL" || jsIncludes s "4:5" || jsIncludes s "9:16" then
    "PORTRAIT_MARKETING_IMAGE"
  else "UNKNOWN"

/-- The type the user expects, `userExpectedType` of `determineImageFieldType` (lines
1995-2005), from the upper-cased text `s`. -/
def userExpectedType (s : String) : String :=
  if jsIncludes s "HORIZONTAL" || jsIncludes s "1.91" || jsIncludes s "19" then
    "MARKETING_IMAGE"
  else if jsIncludes s "SQUARE" || jsIncludes s "1:1" then "SQUARE_MARKETING_IMAGE"
  else if jsIncludes s "9:16" then "TALL_PORTRAIT_MARKETING_IMAGE"
  else if jsIncludes s "4:5" || jsIncludes s "VERTICAL" then "PORTRAIT_MARKETING_IMAGE"
  else "UNKNOWN"

/-- The test `Math.abs(actualRatio - ratio) <= tolerance` with `tolerance = 0.02`, on exact
rationals. -/
def withinTolerance (actualRatio ratio : ℚ) : Bool := decide (|actualRatio - ratio| ≤ 2 / 100)

/-- The type detected from the ratio, `actualFieldType` of `determineImageFieldType` (lines
2021-2038): the tests run in the order 1.91, 1.0, 0.5625, 0.8. -/
def actualFieldType (actualRatio : ℚ) : String :=
  if withinTolerance actualRatio (191 / 100) then "MARKETING_IMAGE"
  else if withinTolerance actualRatio 1 then "SQUARE_MARKETING_IMAGE"
  else if withinTolerance actualRatio (5625 / 10000) then "TALL_PORTRAIT_MARKETING_IMAGE"
  else if withinTolerance actualRatio (8 / 10) then "PORTRAIT_MARKETING_IMAGE"
  else "UNKNOWN"

/-- The object returned by `determineImageFieldType`, without the two label texts that
print the ratio with `toFixed(2)`: `hasError` is whether the field `error` is set. -/
structure ImageFieldType where
  fieldType : String
  mismatch : Bool
  userExpected : String
  hasError : Bool
  deriving DecidableEq

/-- The script's `determineImageFieldType`.  The width and the height are the numbers that
`fetchAssetDetails` reads with `parseInt`; 0 stands for every falsy value (0 and `NaN`), and
the ratio `width / height` is the exact rational. -/
def determineImageFieldType (rawImageType : String) (width height : Nat) : ImageFieldType :=
  let userExpected := userExpectedType (jsUpper rawImageType)
  if width = 0 ∨ height = 0 then
    { fieldType := if userExpected ≠ "UNKNOWN" then userExpected else "PORTRAIT_MARKETING_IMAGE",
      mismatch := false, userExpected := userExpected, hasError := false }
  else
    let actual := actualFieldType ((width : ℚ) / (height : ℚ))
    if actual = "UNKNOWN" then
      { fieldType := "UNKNOWN", mismatch := false, userExpected := userExpected,
        hasError := true }
    else
      { fieldType := if actual ≠ "UNKNOWN" then actual else userExpected,
        mismatch := decide (userExpected ≠ "UNKNOWN" ∧ actual ≠ "UNKNOWN" ∧
          userExpected ≠ actual),
        userExpected := userExpected, hasError := false }

/-- The field `valid` of the object returned by the script's `validateAspectRatio`; the
messages print the ratio with `toFixed(2)` and are left out. -/
def validateAspectRatio (width height : Nat) (expectedImageType : String) : Bool :=
  if width = 0 ∨ height = 0 then false
  else if expectedImageType = "MARKETING_IMAGE" then
    withinTolerance ((width : ℚ) / (height : ℚ)) (191 / 100)
  else if expectedImageType = "SQUARE_MARKETING_IMAGE" then
    withinTolerance ((width : ℚ) / (height : ℚ)) 1
  else if expectedImageType = "PORTRAIT_MARKETING_IMAGE" then
    withinTolerance ((width : ℚ) / (height : ℚ)) (8 / 10)
  else if expectedImageType = "TALL_PORTRAIT_MARKETING_IMAGE" then
    withinTolerance ((width : ℚ) / (height : ℚ)) (5625 / 10000)
  else true

/-! ## Calendar days and the texts of instants

A model of what the date library does for the script: `Utilities.formatDate` with the
patterns 'yyyy-MM-dd' and 'yyyy-MM-dd HH:mm:ss', and `setDate(getDate() + 1)`, on the days
of the Gregorian calendar with a four-digit year. -/

/-- A calendar day: year, month (1 to 12), day of the month (from 1). -/
structure Day where
  year : Nat
  month : Nat
  day : Nat
  deriving DecidableEq, Repr

/-- Whether the year has a 29th of February. -/
def isLeapYear (y : Nat) : Bool := (y % 4 == 0 && y % 100 != 0) || y % 400 == 0

/-- The number of days of the month. -/
def daysInMonth (y m : Nat) : Nat :=
  if m = 2 then (if isLeapYear y then 29 else 28)
  else if m = 4 ∨ m = 6 ∨ m = 9 ∨ m = 11 then 30
  else 31

/-- A day of the calendar with a year of at most four digits. -/
def Day.valid (d : Day) : Prop :=
  d.year ≤ 9999 ∧ 1 ≤ d.month ∧ d.month ≤ 12 ∧ 1 ≤ d.day ∧ d.day ≤ daysInMonth d.year d.month

instance (d : Day) : Decidable d.valid := by
  unfold Day.valid
  exact inferInstance

/-- The next calendar day, what `setDate(getDate() + 1)` moves a date to. -/
def Day.next (d : Day) : Day :=
  if d.day < daysInMonth d.year d.month then { d with day := d.day + 1 }
  else if d.month < 12 then { d with month := d.month + 1, day := 1 }
  else { year := d.year + 1, month := 1, day := 1 }

/-- The days of the year before the first of the month. -/
def daysBeforeMonth (y m : Nat) : Nat :=
  let leap := if isLeapYear y then 1 else 0
  if m ≤ 1 then 0
  else if m = 2 then 31
  else if m = 3 then 59 + leap
  else if m = 4 then 90 + leap
  else if m = 5 then 120 + leap
  else if m = 6 then 151 + leap
  else if m = 7 then 181 + leap
  else if m = 8 then 212 + leap
  else if m = 9 then 243 + leap
  else if m = 10 then 273 + leap
  else if m = 11 then 304 + leap
  else 334 + leap

/-- The days before the first of January of the year, counted from the year 0. -/
def daysBeforeYear (y : Nat) : Nat :=
  365 * y + (y + 3) / 4 - (y + 99) / 100 + (y + 399) / 400

/-- The number of the day, counted from the last day before the year 0. -/
def dayNumber (d : Day) : Nat :=
  daysBeforeYear d.year + daysBeforeMonth d.year d.month + d.day

/-- The instant of a day, hour, minute and second, in seconds. -/
def instantSeconds (d : Day) (hour minute second : Nat) : Nat :=
  ((dayNumber d * 24 + hour) * 60 + minute) * 60 + second

/-- The decimal digit of the units of `n`. -/
def digitChar (n : Nat) : Char := Char.ofNat (48 + n % 10)

/-- The last two decimal digits of `n`, as 'MM', 'dd', 'HH', 'mm' and 'ss' print it. -/
def twoDigits (n : Nat) : List Char := [digitChar (n / 10), digitChar n]

/-- The last four decimal digits of `n`, as 'yyyy' prints a year of at most four digits. -/
def fourDigits (n : Nat) : List Char :=
  [digitChar (n / 1000), digitChar (n / 100), digitChar (n / 10), digitChar n]

/-- The text 'yyyy-MM-dd' of a day. -/
def Day.format (d : Day) : String :=
  ⟨fourDigits d.year ++ '-' :: (twoDigits d.month ++ '-' :: twoDigits d.day)⟩

/-- The text 'yyyy-MM-dd HH:mm:ss' of an instant. -/
def stampText (d : Day) (hour minute second : Nat) : String :=
  ⟨d.format.data ++ ' ' :: (twoDigits hour ++ ':' :: (twoDigits minute ++ ':' ::
    twoDigits second))⟩

/-! ## The end of the horizon -/

/-- The day `n` days after `d`: what `setDate(getDate() + n)` moves a date to. -/
def Day.plus (d : Day) : Nat → Day
  | 0 => d
  | n + 1 => (d.plus n).next

/-- The calendar day that a text 'yyyy-MM-dd' names, as `new Date(text + 'T00:00:00')` reads
it; `none` stands for the invalid date of any other text. -/
def parseDay (s : String) : Option Day :=
  match s.data with
  | [y1, y2, y3, y4, s1, m1, m2, s2, d1, d2] =>
      if s1 = '-' ∧ s2 = '-' ∧ y1.isDigit = true ∧ y2.isDigit = true ∧ y3.isDigit = true ∧
          y4.isDigit = true ∧ m1.isDigit = true ∧ m2.isDigit = true ∧ d1.isDigit = true ∧
          d2.isDigit = true then
        let day : Day :=
          ⟨1000 * (y1.toNat - 48) + 100 * (y2.toNat - 48) + 10 * (y3.toNat - 48) +
              (y4.toNat - 48),
            10 * (m1.toNat - 48) + (m2.toNat - 48), 10 * (d1.toNat - 48) + (d2.toNat - 48)⟩
        if day.valid then some day else none
      else none
  | _ => none

/-- The first lines of `filterByDateRange` (489-494) on the calendar: the day named by
`todayStr`, moved on by `n` days and printed as 'yyyy-MM-dd'.  For a text that names no day
the script formats an invalid date; `main` passes the text that `formatDate` gave for the
current instant, so the case does not arise there, and the embedding gives the text
'Invalid Date' for it. -/
def calendarPlusDays (todayStr : String) (n : Nat) : String :=
  match parseDay todayStr with
  | some d => (d.plus n).format
  | none => "Invalid Date"

/-! ## The first return of the image validator -/

/-- The early return of the script's `validateImageAsset` (lines 1655-1668): the INTERNAL
row for a row without an action and without a future operation; `none` when the function
goes on to its checks. -/
def validateImageAssetInternal (env : Env) (item : Item) (timestamp : String) :
    Option Validation :=
  let campaign := item.field "Campaign Name"
  let assetGroup := item.field "Asset Group Name"
  let imageType := item.field "Image Type"
  let assetId := item.field "Asset ID"
  if !item.hasAction && !truthyOpt (getClosestAction env item) then
    some { status := "ERROR",
           rows := [⟨timestamp, campaign,
                     if truthyStr assetGroup then assetGroup else "(all groups)", imageType,
                     assetId, "N/A", "N/A", "ERROR", "INTERNAL: Nincs jövőbeli művelet"⟩],
           validGroups := none }
  else none

end Pmax

/-! # Theorems -/

namespace Pmax

/-! ## Time windows -/

theorem isToday_eq (env : Env) (item : Item) (name : String) :
    item.isToday env name =
      ((item.cell name).truthy && env.formatDay (item.cell name) == env.todayStr) := by
  unfold Item.isToday Item.cell
  cases h : indexOf item.headers name <;> simp [cellAt, Cell.truthy]

/-- C1: with a custom hour `H`, `isWithinTimeWindow` accepts exactly the minutes of
`[H*60, H*60+60)`, whatever the default bounds are; in particular it accepts `H*60` and
`H*60+59` and rejects `H*60+60` and `H*60-1`.  Proved for every integer `H`, hence for
the hours 0 to 23. -/
theorem C1_isWithinTimeWindow_custom_hour (H now defaultFrom defaultTo : Int) :
    (isWithinTimeWindow now (some H) defaultFrom defaultTo = true ↔
        H * 60 ≤ now ∧ now < H * 60 + 60) ∧
      isWithinTimeWindow (H * 60) (some H) defaultFrom defaultTo = true ∧
      isWithinTimeWindow (H * 60 + 59) (some H) defaultFrom defaultTo = true ∧
      isWithinTimeWindow (H * 60 + 60) (some H) defaultFrom defaultTo = false ∧
      isWithinTimeWindow (H * 60 - 1) (some H) defaultFrom defaultTo = false := by
  refine ⟨?_, ?_, ?_, ?_, ?_⟩ <;> simp [isWithinTimeWindow]

theorem isWithinTimeWindow_iff (now : Int) (v : Option Nat) (dFrom dTo : Int) :
    isWithinTimeWindow now (v.map Int.ofNat) dFrom dTo = true ↔
      (match v with
        | some h => (h : Int) * 60 ≤ now ∧ now < (h : Int) * 60 + 60
        | none => dFrom ≤ now ∧ now < dTo) := by
  cases v <;> simp [isWithinTimeWindow]

theorem filterByTimeWindowStep_valid (env : Env) (now : Int) (acc : WindowFilter) (item : Item) :
    (filterByTimeWindowStep env now acc item).valid =
      acc.valid ++ (filterByTimeWindowStep env now ⟨[], []⟩ item).valid := by
  unfold filterByTimeWindowStep
  cases hA : item.isToday env "Add Date" <;> cases hR : item.isToday env "Remove Date" <;>
    cases hpA : parseCustomHourToInt (item.hourRaw "Add Hour") <;>
    cases hpR : parseCustomHourToInt (item.hourRaw "Remove Hour") <;>
    simp <;> (repeat' split) <;> simp

theorem filterByTimeWindow_foldl_valid (env : Env) (now : Int) (rows : List Item)
    (acc : WindowFilter) :
    (rows.foldl (filterByTimeWindowStep env now) acc).valid =
      acc.valid ++ rows.flatMap (fun item => (filterByTimeWindow env [item] now).valid) := by
  induction rows generalizing acc with
  | nil => simp
  | cons item rest ih =>
      rw [List.foldl_cons, ih, filterByTimeWindowStep_valid]
      simp [filterByTimeWindow, List.append_assoc]

theorem filterByTimeWindow_single (env : Env) (now : Int) (item : Item) :
    (filterByTimeWindow env [item] now).valid =
      (if (item.cell "Add Date").truthy = true ∧
          env.formatDay (item.cell "Add Date") = env.todayStr then
        match parseCustomHourToInt (item.hourRaw "Add Hour") with
        | .ok v =>
            if isWithinTimeWindow now (v.map Int.ofNat) 0 60 = true then
              [{ item with action := some "ADD", customHour := v }]
            else []
        | .bad _ => []
       else []) ++
      (if (item.cell "Remove Date").truthy = true ∧
          env.formatDay (item.cell "Remove Date") = env.todayStr then
        match parseCustomHourToInt (item.hourRaw "Remove Hour") with
        | .ok v =>
            if isWithinTimeWindow now (v.map Int.ofNat) 1380 1440 = true then
              [{ item with action := some "REMOVE", customHour := v }]
            else []
        | .bad _ => []
       else []) := by
  simp only [filterByTimeWindow, List.foldl_cons, List.foldl_nil, filterByTimeWindowStep,
    isToday_eq, ADD_WINDOW_FROM_MIN, ADD_WINDOW_TO_MIN, REMOVE_WINDOW_FROM_MIN,
    REMOVE_WINDOW_TO_MIN]
  cases hA : ((item.cell "Add Date").truthy && env.formatDay (item.cell "Add Date") == env.todayStr) <;>
    cases hR : ((item.cell "Remove Date").truthy &&
      env.formatDay (item.cell "Remove Date") == env.todayStr) <;>
    cases hpA : parseCustomHourToInt (item.hourRaw "Add Hour") <;>
    cases hpR : parseCustomHourToInt (item.hourRaw "Remove Hour") <;>
    simp at hA hR <;> simp [hA, hR] <;> (repeat' split) <;> simp_all

/-- C2: `filterByTimeWindow` works row by row; for one row its valid list holds an entry
with action ADD exactly when the add-date is set and equals today as a calendar date, the
add-hour parses, and the current minute lies in the resolved add window (`[H*60, H*60+60)`
for a custom hour `H`, `[0, 60)` when unset), and an entry with action REMOVE under the
same conditions on the remove fields with the default window `[1380, 1440)`.  The entry is
the row with the action and the parsed hour as `customHour`; a row yields at most two. -/
theorem C2_filterByTimeWindow_valid (env : Env) (rows : List Item) (now : Int) :
    (filterByTimeWindow env rows now).valid =
        rows.flatMap (fun item => (filterByTimeWindow env [item] now).valid) ∧
    ∀ item : Item,
      (filterByTimeWindow env [item] now).valid.length ≤ 2 ∧
      ∀ e : Item, e ∈ (filterByTimeWindow env [item] now).valid ↔
        (∃ v, (item.cell "Add Date").truthy = true ∧
              env.formatDay (item.cell "Add Date") = env.todayStr ∧
              parseCustomHourToInt (item.hourRaw "Add Hour") = .ok v ∧
              (match v with
                | some h => (h : Int) * 60 ≤ now ∧ now < (h : Int) * 60 + 60
                | none => (0 : Int) ≤ now ∧ now < 60) ∧
              e = { item with action := some "ADD", customHour := v }) ∨
        (∃ v, (item.cell "Remove Date").truthy = true ∧
              env.formatDay (item.cell "Remove Date") = env.todayStr ∧
              parseCustomHourToInt (item.hourRaw "Remove Hour") = .ok v ∧
              (match v with
                | some h => (h : Int) * 60 ≤ now ∧ now < (h : Int) * 60 + 60
                | none => (1380 : Int) ≤ now ∧ now < 1440) ∧
              e = { item with action := some "REMOVE", customHour := v }) := by
  refine ⟨?_, fun item => ⟨?_, fun e => ?_⟩⟩
  · simpa [filterByTimeWindow] using filterByTimeWindow_foldl_valid env now rows ⟨[], []⟩
  · rw [filterByTimeWindow_single]
    rw [List.length_append]
    have h1 : ∀ (c : Prop) [Decidable c] (l : List Item), l.length ≤ 1 →
        (if c then l else []).length ≤ 1 := by
      intro c _ l hl; split <;> simp [hl]
    refine Nat.add_le_add (h1 _ _ ?_) (h1 _ _ ?_) <;>
      (split <;> [split; skip]) <;> simp
  · rw [filterByTimeWindow_single, List.mem_append]
    refine or_congr ?_ ?_
    · constructor
      · intro h
        split at h
        · next hc =>
          cases hp : parseCustomHourToInt (item.hourRaw "Add Hour") with
          | bad err => rw [hp] at h; simp at h
          | ok v =>
            rw [hp] at h
            simp only at h
            split at h
            · next hw =>
              rw [isWithinTimeWindow_iff] at hw
              exact ⟨v, hc.1, hc.2, rfl, hw, by simpa using h⟩
            · simp at h
        · simp at h
      · rintro ⟨v, ht, hd, hp, hw, rfl⟩
        rw [if_pos ⟨ht, hd⟩, hp]
        simp only
        rw [if_pos ((isWithinTimeWindow_iff _ _ _ _).2 hw)]
        simp
    · constructor
      · intro h
        split at h
        · next hc =>
          cases hp : parseCustomHourToInt (item.hourRaw "Remove Hour") with
          | bad err => rw [hp] at h; simp at h
          | ok v =>
            rw [hp] at h
            simp only at h
            split at h
            · next hw =>
              rw [isWithinTimeWindow_iff] at hw
              exact ⟨v, hc.1, hc.2, rfl, hw, by simpa using h⟩
            · simp at h
        · simp at h
      · rintro ⟨v, ht, hd, hp, hw, rfl⟩
        rw [if_pos ⟨ht, hd⟩, hp]
        simp only
        rw [if_pos ((isWithinTimeWindow_iff _ _ _ _).2 hw)]
        simp

/-! ## Folds and maps -/

theorem foldl_preserves {α β : Type} (f : β → α → β) (P : β → Prop) (l : List α)
    (hpres : ∀ b x, x ∈ l → P b → P (f b x)) (b0 : β) (h0 : P b0) : P (l.foldl f b0) := by
  induction l generalizing b0 with
  | nil => simpa using h0
  | cons x rest ih =>
      rw [List.foldl_cons]
      exact ih (fun b y hy hb => hpres b y (List.mem_cons_of_mem _ hy) hb) _
        (hpres b0 x (List.mem_cons_self _ _) h0)

theorem foldl_establishes {α β : Type} (f : β → α → β) (P : β → Prop) (l : List α) (a : α)
    (ha : a ∈ l) (hpres : ∀ b x, P b → P (f b x)) (hest : ∀ b, P (f b a)) (b0 : β) :
    P (l.foldl f b0) := by
  induction l generalizing b0 with
  | nil => cases ha
  | cons x rest ih =>
      rw [List.foldl_cons]
      rcases List.mem_cons.1 ha with rfl | hmem
      · exact foldl_preserves f P rest (fun b y _ hb => hpres b y hb) _ (hest b0)
      · exact ih hmem _

theorem mapGet_mapSet_same {κ α : Type} [DecidableEq κ] (m : List (κ × α)) (k : κ) (v : α) :
    mapGet (mapSet m k v) k = some v := by
  induction m with
  | nil => simp [mapSet, mapGet]
  | cons e rest ih =>
      obtain ⟨k', v'⟩ := e
      by_cases h : k' = k
      · simp [mapSet, mapGet, h]
      · simp [mapSet, mapGet, h, ih]

theorem mapGet_mapSet_ne {κ α : Type} [DecidableEq κ] (m : List (κ × α)) (k k' : κ) (v : α)
    (hne : k ≠ k') : mapGet (mapSet m k v) k' = mapGet m k' := by
  induction m with
  | nil => simp [mapSet, mapGet, hne]
  | cons e rest ih =>
      obtain ⟨k1, v1⟩ := e
      by_cases h : k1 = k
      · subst h
        simp [mapSet, mapGet, hne]
      · by_cases h' : k1 = k'
        · subst h'
          simp [mapSet, mapGet, h]
        · simp [mapSet, mapGet, h, h', ih]

theorem mapGet_mem {κ α : Type} [DecidableEq κ] (m : List (κ × α)) (k : κ) (v : α)
    (h : mapGet m k = some v) : (k, v) ∈ m := by
  induction m with
  | nil => simp [mapGet] at h
  | cons e rest ih =>
      obtain ⟨k1, v1⟩ := e
      by_cases hk : k1 = k
      · subst hk
        simp [mapGet] at h
        simp [h]
      · simp [mapGet, hk] at h
        exact List.mem_cons_of_mem _ (ih h)

theorem mem_mapSet {κ α : Type} [DecidableEq κ] (m : List (κ × α)) (k : κ) (v : α)
    (e : κ × α) (h : e ∈ mapSet m k v) : e ∈ m ∨ e = (k, v) := by
  induction m with
  | nil => simpa [mapSet] using h
  | cons e1 rest ih =>
      obtain ⟨k1, v1⟩ := e1
      by_cases hk : k1 = k
      · subst hk
        simp [mapSet] at h
        rcases h with h | h
        · exact Or.inr h
        · exact Or.inl (List.mem_cons_of_mem _ h)
      · simp [mapSet, hk] at h
        rcases h with h | h
        · exact Or.inl (by simp [h])
        · rcases ih h with h' | h'
          · exact Or.inl (List.mem_cons_of_mem _ h')
          · exact Or.inr h'

theorem subset_foldl_setAdd {κ : Type} [DecidableEq κ] (l s : List κ) :
    (∀ x ∈ s, x ∈ l.foldl setAdd s) ∧ ∀ x ∈ l, x ∈ l.foldl setAdd s := by
  induction l generalizing s with
  | nil => simp
  | cons a rest ih =>
      rw [List.foldl_cons]
      have hs : ∀ x ∈ s, x ∈ setAdd s a := by
        intro x hx
        unfold setAdd
        split
        · exact hx
        · exact List.mem_append_left _ hx
      have ha : a ∈ setAdd s a := by
        unfold setAdd
        split
        · assumption
        · simp
      refine ⟨fun x hx => (ih (setAdd s a)).1 x (hs x hx), fun x hx => ?_⟩
      rcases List.mem_cons.1 hx with rfl | hx
      · exact (ih (setAdd s x)).1 x ha
      · exact (ih (setAdd s a)).2 x hx

theorem mapGet_isSome_iff {κ α : Type} [DecidableEq κ] (m : List (κ × α)) (k : κ) :
    (mapGet m k).isSome = true ↔ k ∈ m.map Prod.fst := by
  induction m with
  | nil => simp [mapGet]
  | cons e rest ih =>
      obtain ⟨k1, v1⟩ := e
      by_cases hk : k1 = k
      · simp [mapGet, hk]
      · simp only [mapGet, hk, if_false, ih, List.map_cons, List.mem_cons]
        constructor
        · exact Or.inr
        · rintro (h | h)
          · exact absurd h.symm hk
          · exact h

theorem mapSet_keys_of_not_mem {κ α : Type} [DecidableEq κ] (m : List (κ × α)) (k : κ) (v : α)
    (h : k ∉ m.map Prod.fst) : (mapSet m k v).map Prod.fst = m.map Prod.fst ++ [k] := by
  induction m with
  | nil => simp [mapSet]
  | cons e rest ih =>
      obtain ⟨k1, v1⟩ := e
      simp only [List.map_cons, List.mem_cons, not_or] at h
      have hk : ¬ k1 = k := fun h' => h.1 h'.symm
      simp [mapSet, hk, ih h.2]

/-! ## Cross-row conflicts -/

theorem recordOp_adds_mono (idx : Nat) (row : Row) (m : List (String × Ops)) (hour : Nat)
    (k : String) (x : Op) (h : ∃ ops, mapGet m k = some ops ∧ x ∈ ops.adds) :
    ∃ ops, mapGet (recordOp idx row m hour) k = some ops ∧ x ∈ ops.adds := by
  obtain ⟨ops, hg, hx⟩ := h
  unfold recordOp
  by_cases hk : conflictKey row hour = k
  · subst hk
    rw [mapGet_mapSet_same]
    refine ⟨_, rfl, ?_⟩
    simp only [hg, Option.getD_some]
    split_ifs <;> simp [hx]
  · rw [mapGet_mapSet_ne _ _ _ _ hk]
    exact ⟨ops, hg, hx⟩

theorem recordOp_removes_mono (idx : Nat) (row : Row) (m : List (String × Ops)) (hour : Nat)
    (k : String) (x : Op) (h : ∃ ops, mapGet m k = some ops ∧ x ∈ ops.removes) :
    ∃ ops, mapGet (recordOp idx row m hour) k = some ops ∧ x ∈ ops.removes := by
  obtain ⟨ops, hg, hx⟩ := h
  unfold recordOp
  by_cases hk : conflictKey row hour = k
  · subst hk
    rw [mapGet_mapSet_same]
    refine ⟨_, rfl, ?_⟩
    simp only [hg, Option.getD_some]
    split_ifs <;> simp [hx]
  · rw [mapGet_mapSet_ne _ _ _ _ hk]
    exact ⟨ops, hg, hx⟩

theorem recordOp_adds_new (idx : Nat) (row : Row) (m : List (String × Ops)) (hour : Nat)
    (ha : row.action = "ADD") :
    ∃ ops, mapGet (recordOp idx row m hour) (conflictKey row hour) = some ops ∧
      (⟨idx, row⟩ : Op) ∈ ops.adds := by
  unfold recordOp
  rw [mapGet_mapSet_same]
  refine ⟨_, rfl, ?_⟩
  simp [ha]

theorem recordOp_removes_new (idx : Nat) (row : Row) (m : List (String × Ops)) (hour : Nat)
    (ha : row.action = "REMOVE") :
    ∃ ops, mapGet (recordOp idx row m hour) (conflictKey row hour) = some ops ∧
      (⟨idx, row⟩ : Op) ∈ ops.removes := by
  unfold recordOp
  rw [mapGet_mapSet_same]
  refine ⟨_, rfl, ?_⟩
  simp [ha]

theorem collectRow_adds_mono (m : List (String × Ops)) (entry : Nat × Row) (k : String)
    (x : Op) (h : ∃ ops, mapGet m k = some ops ∧ x ∈ ops.adds) :
    ∃ ops, mapGet (collectRow m entry) k = some ops ∧ x ∈ ops.adds := by
  unfold collectRow
  split
  · exact h
  · exact foldl_preserves _ (fun m => ∃ ops, mapGet m k = some ops ∧ x ∈ ops.adds) _
      (fun b hour _ hb => recordOp_adds_mono _ _ b hour k x hb) m h

theorem collectRow_removes_mono (m : List (String × Ops)) (entry : Nat × Row) (k : String)
    (x : Op) (h : ∃ ops, mapGet m k = some ops ∧ x ∈ ops.removes) :
    ∃ ops, mapGet (collectRow m entry) k = some ops ∧ x ∈ ops.removes := by
  unfold collectRow
  split
  · exact h
  · exact foldl_preserves _ (fun m => ∃ ops, mapGet m k = some ops ∧ x ∈ ops.removes) _
      (fun b hour _ hb => recordOp_removes_mono _ _ b hour k x hb) m h

theorem collectOps_adds (allRows : List Row) (i : Nat) (ri : Row) (h : Nat)
    (hi : allRows[i]? = some ri) (hs : ri.status = "OK" ∨ ri.status = "WARNING")
    (hh : h ∈ extractHoursFromScheduled ri.scheduled ri.action) (ha : ri.action = "ADD") :
    ∃ ops, mapGet (collectOps allRows) (conflictKey ri h) = some ops ∧
      (⟨i, ri⟩ : Op) ∈ ops.adds := by
  unfold collectOps
  refine foldl_establishes collectRow
    (fun m => ∃ ops, mapGet m (conflictKey ri h) = some ops ∧ (⟨i, ri⟩ : Op) ∈ ops.adds)
    allRows.enum (i, ri) (List.mk_mem_enum_iff_getElem?.2 hi)
    (fun b x hb => collectRow_adds_mono b x _ _ hb) (fun b => ?_) []
  unfold collectRow
  have hs' : ¬ (ri.status ≠ "OK" ∧ ri.status ≠ "WARNING") := by
    rintro ⟨h1, h2⟩
    rcases hs with hs | hs
    · exact h1 hs
    · exact h2 hs
  rw [if_neg hs']
  exact foldl_establishes (recordOp i ri)
    (fun m => ∃ ops, mapGet m (conflictKey ri h) = some ops ∧ (⟨i, ri⟩ : Op) ∈ ops.adds)
    _ h hh (fun b x hb => recordOp_adds_mono _ _ b x _ _ hb)
    (fun b => recordOp_adds_new i ri b h ha) b

theorem collectOps_removes (allRows : List Row) (j : Nat) (rj : Row) (h : Nat)
    (hj : allRows[j]? = some rj) (hs : rj.status = "OK" ∨ rj.status = "WARNING")
    (hh : h ∈ extractHoursFromScheduled rj.scheduled rj.action) (ha : rj.action = "REMOVE") :
    ∃ ops, mapGet (collectOps allRows) (conflictKey rj h) = some ops ∧
      (⟨j, rj⟩ : Op) ∈ ops.removes := by
  unfold collectOps
  refine foldl_establishes collectRow
    (fun m => ∃ ops, mapGet m (conflictKey rj h) = some ops ∧ (⟨j, rj⟩ : Op) ∈ ops.removes)
    allRows.enum (j, rj) (List.mk_mem_enum_iff_getElem?.2 hj)
    (fun b x hb => collectRow_removes_mono b x _ _ hb) (fun b => ?_) []
  unfold collectRow
  have hs' : ¬ (rj.status ≠ "OK" ∧ rj.status ≠ "WARNING") := by
    rintro ⟨h1, h2⟩
    rcases hs with hs | hs
    · exact h1 hs
    · exact h2 hs
  rw [if_neg hs']
  exact foldl_establishes (recordOp j rj)
    (fun m => ∃ ops, mapGet m (conflictKey rj h) = some ops ∧ (⟨j, rj⟩ : Op) ∈ ops.removes)
    _ h hh (fun b x hb => recordOp_removes_mono _ _ b x _ _ hb)
    (fun b => recordOp_removes_new j rj b h ha) b

/-- Every removing operation recorded in the map comes from a row of `allRows` whose action
is REMOVE or ADD+REMOVE. -/
theorem collectOps_removes_sound (allRows : List Row) :
    ∀ e ∈ collectOps allRows, ∀ x ∈ e.2.removes,
      allRows[x.rowIndex]? = some x.row ∧
        (x.row.action = "REMOVE" ∨ x.row.action = "ADD+REMOVE") := by
  unfold collectOps
  refine foldl_preserves collectRow
    (fun m => ∀ e ∈ m, ∀ x ∈ e.2.removes,
      allRows[x.rowIndex]? = some x.row ∧
        (x.row.action = "REMOVE" ∨ x.row.action = "ADD+REMOVE"))
    allRows.enum (fun b entry hentry hb => ?_) [] (by simp)
  have hrow : allRows[entry.1]? = some entry.2 := List.mem_enum_iff_getElem?.1 hentry
  unfold collectRow
  split
  · exact hb
  · refine foldl_preserves (recordOp entry.1 entry.2)
      (fun m => ∀ e ∈ m, ∀ x ∈ e.2.removes,
        allRows[x.rowIndex]? = some x.row ∧
          (x.row.action = "REMOVE" ∨ x.row.action = "ADD+REMOVE")) _
      (fun m hour _ hm => ?_) b hb
    intro e he x hx
    unfold recordOp at he
    rcases mem_mapSet _ _ _ _ he with he | he
    · exact hm e he x hx
    · subst he
      have hold : ∀ y ∈ ((mapGet m (conflictKey entry.2 hour)).getD ⟨[], []⟩).removes,
          allRows[y.rowIndex]? = some y.row ∧
            (y.row.action = "REMOVE" ∨ y.row.action = "ADD+REMOVE") := by
        intro y hy
        cases hg : mapGet m (conflictKey entry.2 hour) with
        | none => rw [hg] at hy; simp at hy
        | some ops =>
            rw [hg] at hy
            exact hm _ (mapGet_mem _ _ _ hg) y (by simpa using hy)
      by_cases hA : entry.2.action = "ADD" ∨ entry.2.action = "ADD+REMOVE" <;>
        by_cases hR : entry.2.action = "REMOVE" ∨ entry.2.action = "ADD+REMOVE" <;>
        simp only [hA, hR, if_true, if_false, List.mem_append, List.mem_singleton] at hx
      · rcases hx with hx | hx
        · exact hold x hx
        · subst hx; exact ⟨hrow, hR⟩
      · exact hold x hx
      · rcases hx with hx | hx
        · exact hold x hx
        · subst hx; exact ⟨hrow, hR⟩
      · exact hold x hx

theorem scanEntry_mono (acc : ConflictScan) (entry : String × Ops) :
    (∀ x ∈ acc.conflicted, x ∈ (scanEntry acc entry).conflicted) ∧
      acc.conflictCount ≤ (scanEntry acc entry).conflictCount := by
  unfold scanEntry
  split_ifs
  · exact ⟨fun x hx => (subset_foldl_setAdd _ _).1 x hx, Nat.le_succ _⟩
  · exact ⟨fun x hx => hx, le_refl _⟩
  · exact ⟨fun x hx => hx, le_refl _⟩

theorem scanConflicts_marks (m : List (String × Ops)) (e : String × Ops) (he : e ∈ m)
    (h1 : e.2.adds.length > 0 ∧ e.2.removes.length > 0) (h2 : hasCrossRowConflict e.2 = true) :
    (∀ x ∈ e.2.adds ++ e.2.removes, x.rowIndex ∈ (scanConflicts m).conflicted) ∧
      1 ≤ (scanConflicts m).conflictCount := by
  unfold scanConflicts
  refine foldl_establishes scanEntry
    (fun acc => (∀ x ∈ e.2.adds ++ e.2.removes, x.rowIndex ∈ acc.conflicted) ∧
      1 ≤ acc.conflictCount) m e he (fun b y hb => ?_) (fun b => ?_) ⟨[], 0⟩
  · exact ⟨fun x hx => (scanEntry_mono b y).1 _ (hb.1 x hx),
      le_trans hb.2 (scanEntry_mono b y).2⟩
  · unfold scanEntry
    rw [if_pos h1, if_pos h2]
    refine ⟨fun x hx => (subset_foldl_setAdd _ _).2 _ (List.mem_map_of_mem _ hx), ?_⟩
    exact Nat.le_add_left 1 _

theorem detect_allRows_escalated (allRows futureRows windowRows : List Row) (i : Nat) (ri : Row)
    (hi : allRows[i]? = some ri)
    (hmem : i ∈ (scanConflicts (collectOps allRows)).conflicted) :
    (detectCrossRowAddRemoveConflicts allRows futureRows windowRows).allRows[i]? =
      some (escalate ri) := by
  unfold detectCrossRowAddRemoveConflicts
  have hne : ¬ (scanConflicts (collectOps allRows)).conflicted.length = 0 := by
    intro h0
    rw [List.length_eq_zero] at h0
    rw [h0] at hmem
    cases hmem
  simp only [hne, if_false]
  rw [List.getElem?_map, List.getElem?_enum, hi]
  simp [hmem]

/-- C3: when the rows given to `detectCrossRowAddRemoveConflicts` hold two different rows
with status OK or WARNING, equal campaign, group name, asset type and member, an hour that
`extractHoursFromScheduled` yields for both, one with action ADD and the other with action
REMOVE, then both rows come back in `allRows` with status ERROR and the message
'ADD és REMOVE ugyanarra az órára van ütemezve (sorok között)', the other seven columns
unchanged, and `conflictCount` is at least 1. -/
theorem C3_cross_row_conflict_escalates (allRows futureRows windowRows : List Row)
    (i j : Nat) (ri rj : Row) (h : Nat)
    (hi : allRows[i]? = some ri) (hj : allRows[j]? = some rj) (_hij : i ≠ j)
    (hsi : ri.status = "OK" ∨ ri.status = "WARNING")
    (hsj : rj.status = "OK" ∨ rj.status = "WARNING")
    (hc : ri.campaign = rj.campaign) (hg : ri.groupName = rj.groupName)
    (ht : ri.assetType = rj.assetType) (hm : ri.textOrId = rj.textOrId)
    (hhi : h ∈ extractHoursFromScheduled ri.scheduled ri.action)
    (hhj : h ∈ extractHoursFromScheduled rj.scheduled rj.action)
    (hai : ri.action = "ADD") (haj : rj.action = "REMOVE") :
    (detectCrossRowAddRemoveConflicts allRows futureRows windowRows).allRows[i]? =
        some { ri with status := "ERROR",
                       message := "ADD és REMOVE ugyanarra az órára van ütemezve (sorok között)" } ∧
      (detectCrossRowAddRemoveConflicts allRows futureRows windowRows).allRows[j]? =
        some { rj with status := "ERROR",
                       message := "ADD és REMOVE ugyanarra az órára van ütemezve (sorok között)" } ∧
      1 ≤ (detectCrossRowAddRemoveConflicts allRows futureRows windowRows).conflictCount := by
  have hkey : conflictKey rj h = conflictKey ri h := by
    simp [conflictKey, hc, hg, ht, hm]
  obtain ⟨ops, hget, hadd⟩ := collectOps_adds allRows i ri h hi hsi hhi hai
  obtain ⟨ops', hget', hrem⟩ := collectOps_removes allRows j rj h hj hsj hhj haj
  rw [hkey, hget] at hget'
  cases hget'
  have he : (conflictKey ri h, ops) ∈ collectOps allRows := mapGet_mem _ _ _ hget
  have hlen : ops.adds.length > 0 ∧ ops.removes.length > 0 :=
    ⟨List.length_pos_of_mem hadd, List.length_pos_of_mem hrem⟩
  have hnot : i ∉ ops.removes.map (fun x => x.rowIndex) := by
    intro hin
    obtain ⟨x, hx, hxi⟩ := List.mem_map.1 hin
    have hs := collectOps_removes_sound allRows _ he x hx
    rw [hxi, hi] at hs
    have hrow : ri = x.row := Option.some.inj hs.1
    rw [← hrow, hai] at hs
    rcases hs.2 with h' | h' <;> exact absurd h' (by decide)
  have hconf : hasCrossRowConflict ops = true := by
    unfold hasCrossRowConflict
    rw [Bool.or_eq_true, List.any_eq_true]
    exact Or.inl ⟨i, List.mem_map.2 ⟨⟨i, ri⟩, hadd, rfl⟩, by simpa using hnot⟩
  have hmarks := scanConflicts_marks (collectOps allRows) _ he hlen hconf
  have hmi : i ∈ (scanConflicts (collectOps allRows)).conflicted :=
    hmarks.1 ⟨i, ri⟩ (List.mem_append_left _ hadd)
  have hmj : j ∈ (scanConflicts (collectOps allRows)).conflicted :=
    hmarks.1 ⟨j, rj⟩ (List.mem_append_right _ hrem)
  refine ⟨detect_allRows_escalated allRows futureRows windowRows i ri hi hmi,
    detect_allRows_escalated allRows futureRows windowRows j rj hj hmj, ?_⟩
  unfold detectCrossRowAddRemoveConflicts
  have hne : ¬ (scanConflicts (collectOps allRows)).conflicted.length = 0 := by
    intro h0
    rw [List.length_eq_zero] at h0
    rw [h0] at hmi
    cases hmi
  simp only [hne, if_false]
  exact hmarks.2

/-- C3, witness: an ADD row and a REMOVE row of the same headline in the same group at
hour 14 are both escalated. -/
theorem C3_cross_row_conflict_escalates_witness :
    (detectCrossRowAddRemoveConflicts
        [⟨"ts", "Campaign A", "Group 1", "HEADLINE", "Shop Now", "ADD: 2025-11-16 14:00-14:59",
          "ADD", "OK", "OK"⟩,
         ⟨"ts", "Campaign A", "Group 1", "HEADLINE", "Shop Now",
          "REMOVE: 2025-11-16 14:00-14:59", "REMOVE", "WARNING", "w"⟩] [] []).allRows[0]? =
      some ⟨"ts", "Campaign A", "Group 1", "HEADLINE", "Shop Now", "ADD: 2025-11-16 14:00-14:59",
        "ADD", "ERROR", "ADD és REMOVE ugyanarra az órára van ütemezve (sorok között)"⟩ :=
  (C3_cross_row_conflict_escalates
    [⟨"ts", "Campaign A", "Group 1", "HEADLINE", "Shop Now", "ADD: 2025-11-16 14:00-14:59",
      "ADD", "OK", "OK"⟩,
     ⟨"ts", "Campaign A", "Group 1", "HEADLINE", "Shop Now",
      "REMOVE: 2025-11-16 14:00-14:59", "REMOVE", "WARNING", "w"⟩] [] [] 0 1 _ _ 14
    rfl rfl (by decide) (by decide) (by decide) rfl rfl rfl rfl (by decide) (by decide)
    rfl rfl).1

/-! ## From validation to execution -/

/-- C4, evaluated on the scenario of the specification moved to a headline: sheet row 2 adds
'Shop Now' to Group 1 of Campaign A at hour 14 and sheet row 3 removes it there in the same
hour, on a snapshot whose group does not hold the headline.  The validator rejects the
REMOVE row ('not found') and accepts the ADD row; conflict detection reads only OK and
WARNING rows, sees no REMOVE for the key, and returns the ADD row with status OK. -/
theorem C4_add_row_stays_ok :
    (validateAll sampleEnv noImageRows [sampleAddRow, sampleRemoveRow] []
        sampleCampaignIds sampleSnapshot [] [] "ts").map
      (fun r => (detectCrossRowAddRemoveConflicts r.rows r.futureRows r.windowRows).allRows.map
        (fun row => (row.action, row.status, row.message))) =
    .ok [("ADD", "OK", "OK"), ("REMOVE", "ERROR", "Text asset nem található a csoportban")] := by
  decide

/-- C5, evaluated on a run at 14:05 with two in-window rows: the ADD row of campaign 'A|B',
group 'C', and the REMOVE row of campaign 'A', group 'B|C' share the conflict key
'A|B|C|HEADLINE|Shop Now|14'.  Conflict detection returns both verdict rows with status
ERROR, and the executable text items handed to `deduplicateExecutableItems` and
`executeAll` still hold both rows with their asset groups, also after deduplication. -/
theorem C5_escalated_rows_stay_executable :
    (mainToExecution sampleEnv noImageRows false [barAddRow, barRemoveRow] []
        sampleNowMinutes barCampaignIds barSnapshot "ts").map
      (fun stage =>
        match stage with
        | .execute validation _ _ =>
            validation.rows.map (fun r => (r.campaign, r.groupName, r.action, r.status))
        | .returned _ => []) =
      .ok [("A|B", "C", "ADD", "ERROR"), ("A", "B|C", "REMOVE", "ERROR")] ∧
    (mainToExecution sampleEnv noImageRows false [barAddRow, barRemoveRow] []
        sampleNowMinutes barCampaignIds barSnapshot "ts").map
      (fun stage =>
        match stage with
        | .execute _ textItems _ =>
            textItems.map (fun e => (e.item.sheetRowNum, e.item.action, e.validGroups))
        | .returned _ => []) =
      .ok [(2, some "ADD", [⟨"ag1", "C"⟩]), (3, some "REMOVE", [⟨"ag2", "B|C"⟩])] ∧
    (mainToExecution sampleEnv noImageRows false [barAddRow, barRemoveRow] []
        sampleNowMinutes barCampaignIds barSnapshot "ts").map
      (fun stage =>
        match stage with
        | .execute _ textItems imageItems =>
            (deduplicateExecutableItems textItems imageItems).textItems.map
              (fun e => (e.item.sheetRowNum, e.item.action, e.validGroups))
        | .returned _ => []) =
      .ok [(2, some "ADD", [⟨"ag1", "C"⟩]), (3, some "REMOVE", [⟨"ag2", "B|C"⟩])] := by
  refine ⟨?_, ?_, ?_⟩ <;> decide

/-! ## Deduplication -/

theorem dedupInv_nil : DedupInv [] [] [] 0 :=
  ⟨List.Sublist.refl _, rfl, List.nodup_nil, by simp, by simp, rfl⟩

theorem find?_append_of_some {α : Type} (p : α → Bool) (l r : List α) (a : α)
    (h : l.find? p = some a) : (l ++ r).find? p = some a := by
  rw [List.find?_append, h]; rfl

theorem dedupInv_dup {P K : List (String × Item × Group)} {seenKeys : List String} {dup : Nat}
    (inv : DedupInv P K seenKeys dup) (x : String × Item × Group) (hx : x.1 ∈ seenKeys) :
    DedupInv (P ++ [x]) K seenKeys (dup + 1) := by
  refine ⟨inv.sub.trans (List.sublist_append_left _ _), inv.keys, inv.nodup, ?_, ?_, ?_⟩
  · intro y hy
    rcases List.mem_append.1 hy with h | h
    · exact inv.cover y h
    · rw [List.mem_singleton] at h; rw [h]; exact hx
  · intro y hy
    exact find?_append_of_some _ _ _ _ (inv.first y hy)
  · have := inv.count
    simp only [List.length_append, List.length_singleton]
    omega

theorem dedupInv_keep {P K : List (String × Item × Group)} {seenKeys : List String} {dup : Nat}
    (inv : DedupInv P K seenKeys dup) (x : String × Item × Group) (hx : x.1 ∉ seenKeys) :
    DedupInv (P ++ [x]) (K ++ [x]) (seenKeys ++ [x.1]) dup := by
  refine ⟨List.Sublist.append inv.sub (List.Sublist.refl _), by simp [inv.keys], ?_, ?_, ?_, ?_⟩
  · rw [List.nodup_append]
    refine ⟨inv.nodup, List.nodup_singleton _, ?_⟩
    intro a ha hb
    rw [List.mem_singleton] at hb
    exact hx (hb ▸ ha)
  · intro y hy
    rcases List.mem_append.1 hy with h | h
    · exact List.mem_append_left _ (inv.cover y h)
    · rw [List.mem_singleton] at h; rw [h]; simp
  · intro y hy
    rcases List.mem_append.1 hy with h | h
    · exact find?_append_of_some _ _ _ _ (inv.first y h)
    · rw [List.mem_singleton] at h
      subst h
      have hnone : P.find? (fun z => z.1 == y.1) = none := by
        rw [List.find?_eq_none]
        intro z hz hzy
        have : z.1 = y.1 := by simpa using hzy
        exact hx (this ▸ inv.cover z hz)
      rw [List.find?_append, hnone]
      simp
  · have := inv.count
    simp only [List.length_append, List.length_singleton]
    omega

theorem operationsOf_append (isText : Bool) (l r : List ValidItem) :
    operationsOf isText (l ++ r) = operationsOf isText l ++ operationsOf isText r := by
  simp [operationsOf]

theorem operationsOf_single (isText : Bool) (e : ValidItem) :
    operationsOf isText [e] =
      e.validGroups.map (fun g => (dedupKey isText e.item g, e.item, g)) := by
  simp [operationsOf]

theorem dedupGroup_foldl (isText : Bool) (item : Item) (itemIdx : Nat) :
    ∀ (gl : List (Nat × Group)) (st : DedupState) (P K : List (String × Item × Group)),
      DedupInv P (K ++ st.remainingGroups.map (fun g => (dedupKey isText item g, item, g)))
        (st.seen.map Prod.fst) st.duplicateCount →
      DedupInv (P ++ (gl.map Prod.snd).map (fun g => (dedupKey isText item g, item, g)))
        (K ++ (gl.foldl (dedupGroup isText item itemIdx) st).remainingGroups.map
          (fun g => (dedupKey isText item g, item, g)))
        ((gl.foldl (dedupGroup isText item itemIdx) st).seen.map Prod.fst)
        (gl.foldl (dedupGroup isText item itemIdx) st).duplicateCount ∧
      ∃ L, (gl.foldl (dedupGroup isText item itemIdx) st).remainingGroups =
          st.remainingGroups ++ L ∧ L.Sublist (gl.map Prod.snd) := by
  intro gl
  induction gl with
  | nil =>
      intro st P K inv
      exact ⟨by simpa using inv, [], by simp, List.Sublist.refl _⟩
  | cons g rest ih =>
      intro st P K inv
      rw [List.foldl_cons]
      by_cases hseen : (mapGet st.seen (dedupKey isText item g.2)).isSome = true
      · have hstep : dedupGroup isText item itemIdx st g =
            { st with duplicateCount := st.duplicateCount + 1 } := by
          simp [dedupGroup, hseen]
        rw [hstep]
        have inv1 := dedupInv_dup inv (dedupKey isText item g.2, item, g.2)
          ((mapGet_isSome_iff _ _).1 hseen)
        obtain ⟨h1, L, h2, h3⟩ := ih { st with duplicateCount := st.duplicateCount + 1 }
          (P ++ [(dedupKey isText item g.2, item, g.2)]) K inv1
        refine ⟨?_, L, h2, ?_⟩
        · simpa [List.append_assoc] using h1
        · simpa using List.Sublist.cons g.2 h3
      · have hstep : dedupGroup isText item itemIdx st g =
            { st with seen := mapSet st.seen (dedupKey isText item g.2)
                        ⟨itemIdx, g.1, item.sheetRowNum, getAssetType item isText⟩,
                      remainingGroups := st.remainingGroups ++ [g.2] } := by
          simp [dedupGroup, hseen]
        rw [hstep]
        have hnot : dedupKey isText item g.2 ∉ st.seen.map Prod.fst :=
          fun h => hseen ((mapGet_isSome_iff _ _).2 h)
        have inv1 := dedupInv_keep inv (dedupKey isText item g.2, item, g.2) hnot
        obtain ⟨h1, L, h2, h3⟩ := ih
          { st with seen := mapSet st.seen (dedupKey isText item g.2)
                      ⟨itemIdx, g.1, item.sheetRowNum, getAssetType item isText⟩,
                    remainingGroups := st.remainingGroups ++ [g.2] }
          (P ++ [(dedupKey isText item g.2, item, g.2)]) K
          (by
            rw [mapSet_keys_of_not_mem _ _ _ hnot]
            simpa [List.append_assoc] using inv1)
        refine ⟨?_, g.2 :: L, ?_, ?_⟩
        · simpa [List.append_assoc] using h1
        · rw [h2]; simp
        · simpa using List.Sublist.cons₂ g.2 h3

theorem dedupEntry_items (isText : Bool) (acc : DedupAcc) (e : Nat × ValidItem) :
    operationsOf isText (dedupEntry isText acc e).items =
      operationsOf isText acc.items ++
        (e.2.validGroups.enum.foldl (dedupGroup isText e.2.item e.1)
          ⟨acc.seen, acc.duplicateCount, []⟩).remainingGroups.map
          (fun g => (dedupKey isText e.2.item g, e.2.item, g)) := by
  unfold dedupEntry
  simp only
  split
  · rw [operationsOf_append, operationsOf_single]
  · next h =>
    have : (e.2.validGroups.enum.foldl (dedupGroup isText e.2.item e.1)
        ⟨acc.seen, acc.duplicateCount, []⟩).remainingGroups = [] := by
      rw [← List.length_eq_zero]; omega
    rw [this]; simp

theorem dedupEntry_inv (isText : Bool) (acc : DedupAcc) (e : Nat × ValidItem)
    (P K0 : List (String × Item × Group))
    (inv : DedupInv P (K0 ++ operationsOf isText acc.items) (acc.seen.map Prod.fst)
      acc.duplicateCount) :
    DedupInv (P ++ operationsOf isText [e.2])
        (K0 ++ operationsOf isText (dedupEntry isText acc e).items)
        ((dedupEntry isText acc e).seen.map Prod.fst) (dedupEntry isText acc e).duplicateCount ∧
      (∃ L, operationsOf isText (dedupEntry isText acc e).items =
          operationsOf isText acc.items ++ L ∧ L.Sublist (operationsOf isText [e.2])) ∧
      ((∀ x ∈ acc.items, x.validGroups ≠ []) →
        ∀ x ∈ (dedupEntry isText acc e).items, x.validGroups ≠ []) := by
  obtain ⟨h1, L, h2, h3⟩ := dedupGroup_foldl isText e.2.item e.1 e.2.validGroups.enum
    ⟨acc.seen, acc.duplicateCount, []⟩ P (K0 ++ operationsOf isText acc.items)
    (by simpa using inv)
  rw [List.enum_map_snd] at h1 h3
  simp only [List.nil_append] at h2
  refine ⟨?_, ?_, ?_⟩
  · rw [dedupEntry_items, operationsOf_single, ← List.append_assoc]
    exact h1
  · refine ⟨L.map (fun g => (dedupKey isText e.2.item g, e.2.item, g)), ?_, ?_⟩
    · rw [dedupEntry_items, h2]
    · rw [operationsOf_single]
      exact h3.map _
  · intro hall x hx
    unfold dedupEntry at hx
    simp only at hx
    split at hx
    · next hpos =>
      rcases List.mem_append.1 hx with h | h
      · exact hall x h
      · rw [List.mem_singleton] at h
        subst h
        intro hnil
        simp only at hnil
        rw [hnil] at hpos
        simp at hpos
    · exact hall x hx

theorem dedupEntry_foldl (isText : Bool) :
    ∀ (el : List (Nat × ValidItem)) (acc : DedupAcc) (P K0 : List (String × Item × Group)),
      DedupInv P (K0 ++ operationsOf isText acc.items) (acc.seen.map Prod.fst)
        acc.duplicateCount →
      (∀ x ∈ acc.items, x.validGroups ≠ []) →
      DedupInv (P ++ operationsOf isText (el.map Prod.snd))
          (K0 ++ operationsOf isText (el.foldl (dedupEntry isText) acc).items)
          ((el.foldl (dedupEntry isText) acc).seen.map Prod.fst)
          (el.foldl (dedupEntry isText) acc).duplicateCount ∧
        (∃ L, operationsOf isText (el.foldl (dedupEntry isText) acc).items =
            operationsOf isText acc.items ++ L ∧
            L.Sublist (operationsOf isText (el.map Prod.snd))) ∧
        (∀ x ∈ (el.foldl (dedupEntry isText) acc).items, x.validGroups ≠ []) := by
  intro el
  induction el with
  | nil =>
      intro acc P K0 inv hne
      refine ⟨by simpa [operationsOf] using inv, ⟨[], by simp, ?_⟩, by simpa using hne⟩
      simp [operationsOf]
  | cons e rest ih =>
      intro acc P K0 inv hne
      rw [List.foldl_cons]
      obtain ⟨i1, ⟨L1, hL1, hs1⟩, n1⟩ := dedupEntry_inv isText acc e P K0 inv
      obtain ⟨i2, ⟨L2, hL2, hs2⟩, n2⟩ :=
        ih (dedupEntry isText acc e) (P ++ operationsOf isText [e.2]) K0 i1 (n1 hne)
      refine ⟨?_, ⟨L1 ++ L2, ?_, ?_⟩, n2⟩
      · have : operationsOf isText ((e :: rest).map Prod.snd) =
            operationsOf isText [e.2] ++ operationsOf isText (rest.map Prod.snd) := by
          rw [List.map_cons, ← operationsOf_append]; rfl
        rw [this, ← List.append_assoc]
        exact i2
      · rw [hL2, hL1, List.append_assoc]
      · have : operationsOf isText ((e :: rest).map Prod.snd) =
            operationsOf isText [e.2] ++ operationsOf isText (rest.map Prod.snd) := by
          rw [List.map_cons, ← operationsOf_append]; rfl
        rw [this]
        exact List.Sublist.append hs1 hs2

/-- C6: `deduplicateExecutableItems` keeps exactly the first (item, group) pair of every
key, in input order with the text items before the image items.  With `operationsOf` the
pairs of a list, each with its key (the `makeKey` text of campaign, group resource name,
asset type, member, action and hour): the kept pairs are a sublist of the input pairs, text
among text and image among image; their keys are pairwise distinct; every key of the input
is the key of a kept pair; every kept pair is the first input pair with its key; the number
of kept pairs plus `duplicateCount` is the number of input pairs; no kept item is left
without a group; and two items of one sheet with one group each and the same key give one
kept operation, the first, and `duplicateCount = 1`. -/
theorem C6_deduplicate_keeps_first_of_every_key (textItems imageItems : List ValidItem) :
    ((operationsOf true (deduplicateExecutableItems textItems imageItems).textItems).Sublist
        (operationsOf true textItems) ∧
      (operationsOf false (deduplicateExecutableItems textItems imageItems).imageItems).Sublist
        (operationsOf false imageItems)) ∧
    ((operationsOf true (deduplicateExecutableItems textItems imageItems).textItems ++
        operationsOf false (deduplicateExecutableItems textItems imageItems).imageItems).map
      Prod.fst).Nodup ∧
    (∀ x ∈ operationsOf true textItems ++ operationsOf false imageItems,
      x.1 ∈ (operationsOf true (deduplicateExecutableItems textItems imageItems).textItems ++
        operationsOf false (deduplicateExecutableItems textItems imageItems).imageItems).map
          Prod.fst) ∧
    (∀ x ∈ operationsOf true (deduplicateExecutableItems textItems imageItems).textItems ++
        operationsOf false (deduplicateExecutableItems textItems imageItems).imageItems,
      (operationsOf true textItems ++ operationsOf false imageItems).find?
        (fun y => y.1 == x.1) = some x) ∧
    (operationsOf true (deduplicateExecutableItems textItems imageItems).textItems ++
        operationsOf false (deduplicateExecutableItems textItems imageItems).imageItems).length +
      (deduplicateExecutableItems textItems imageItems).duplicateCount =
      (operationsOf true textItems ++ operationsOf false imageItems).length ∧
    (∀ e ∈ (deduplicateExecutableItems textItems imageItems).textItems ++
        (deduplicateExecutableItems textItems imageItems).imageItems, e.validGroups ≠ []) ∧
    (∀ (e1 e2 : ValidItem) (g1 g2 : Group), e1.validGroups = [g1] → e2.validGroups = [g2] →
      dedupKey true e1.item g1 = dedupKey true e2.item g2 →
      deduplicateExecutableItems [e1, e2] [] =
        { textItems := [e1], imageItems := [], duplicateCount := 1 }) ∧
    (∀ (e1 e2 : ValidItem) (g1 g2 : Group), e1.validGroups = [g1] → e2.validGroups = [g2] →
      dedupKey false e1.item g1 = dedupKey false e2.item g2 →
      deduplicateExecutableItems [] [e1, e2] =
        { textItems := [], imageItems := [e1], duplicateCount := 1 }) := by
  obtain ⟨i1, ⟨L1, hL1, hs1⟩, n1⟩ := dedupEntry_foldl true textItems.enum ⟨[], 0, []⟩ [] []
    (by simpa [operationsOf] using dedupInv_nil) (by simp)
  rw [List.enum_map_snd] at i1 hs1
  simp only [List.nil_append] at i1
  have hL1' : operationsOf true (textItems.enum.foldl (dedupEntry true) ⟨[], 0, []⟩).items = L1 := by
    rw [hL1]; simp [operationsOf]
  obtain ⟨i2, ⟨L2, hL2, hs2⟩, n2⟩ := dedupEntry_foldl false imageItems.enum
    ⟨(textItems.enum.foldl (dedupEntry true) ⟨[], 0, []⟩).seen,
      (textItems.enum.foldl (dedupEntry true) ⟨[], 0, []⟩).duplicateCount, []⟩
    (operationsOf true textItems)
    (operationsOf true (textItems.enum.foldl (dedupEntry true) ⟨[], 0, []⟩).items)
    (by simpa [operationsOf] using i1) (by simp)
  rw [List.enum_map_snd] at i2 hs2
  have hL2' : operationsOf false (imageItems.enum.foldl (dedupEntry false)
      ⟨(textItems.enum.foldl (dedupEntry true) ⟨[], 0, []⟩).seen,
        (textItems.enum.foldl (dedupEntry true) ⟨[], 0, []⟩).duplicateCount, []⟩).items = L2 := by
    rw [hL2]; simp [operationsOf]
  refine ⟨⟨?_, ?_⟩, ?_, ?_, ?_, ?_, ?_, ?_, ?_⟩
  · show (operationsOf true (textItems.enum.foldl (dedupEntry true) ⟨[], 0, []⟩).items).Sublist _
    rw [hL1']; exact hs1
  · show (operationsOf false (imageItems.enum.foldl (dedupEntry false) _).items).Sublist _
    rw [hL2']; exact hs2
  · show (List.map Prod.fst (_ ++ _)).Nodup
    have := i2.nodup
    rw [← i2.keys] at this
    exact this
  · intro x hx
    have := i2.cover x hx
    rw [← i2.keys] at this
    exact this
  · intro x hx
    exact i2.first x hx
  · exact i2.count
  · intro e he
    rcases List.mem_append.1 he with h | h
    · exact n1 e h
    · exact n2 e h
  · intro e1 e2 g1 g2 h1 h2 hkey
    obtain ⟨item1, groups1⟩ := e1
    obtain ⟨item2, groups2⟩ := e2
    simp only at h1 h2 hkey
    subst h1 h2
    simp [deduplicateExecutableItems, dedupEntry, dedupGroup, List.enum, List.enumFrom, mapGet,
      mapSet, hkey]
  · intro e1 e2 g1 g2 h1 h2 hkey
    obtain ⟨item1, groups1⟩ := e1
    obtain ⟨item2, groups2⟩ := e2
    simp only at h1 h2 hkey
    subst h1 h2
    simp [deduplicateExecutableItems, dedupEntry, dedupGroup, List.enum, List.enumFrom, mapGet,
      mapSet, hkey]

/-! ## Post-verification -/

theorem queryConfirms_true (field value action : String) (q : ReportResult)
    (h : queryConfirms field value action q = true) :
    ∃ rs, q = .rows rs ∧
      ((action = "ADD" ∧ rs.any (fun r => mapGet r field == some value) = true) ∨
        (action = "REMOVE" ∧ rs.any (fun r => mapGet r field == some value) = false)) := by
  cases q with
  | rows rs =>
      refine ⟨rs, rfl, ?_⟩
      simp only [queryConfirms, confirmsAction] at h
      by_cases hA : action = "ADD"
      · rw [if_pos hA] at h
        exact Or.inl ⟨hA, h⟩
      · rw [if_neg hA] at h
        by_cases hR : action = "REMOVE"
        · rw [if_pos hR] at h
          exact Or.inr ⟨hR, by simpa using h⟩
        · rw [if_neg hR] at h
          cases h
  | thrown message => simp [queryConfirms] at h
  | undefined => simp [queryConfirms] at h

/-- What the retry loop does with a verifier that answers by `queryConfirms` on the result
of its query. -/
theorem verifyLoop_spec (confirms : ReportResult → Bool) (query : Nat → ReportResult × Nat) :
    ∀ (remaining attempt calls : Nat) (queries : List ReportResult) (sleeps : List Nat),
      ∃ newQueries,
        (verifyLoop (fun c => (confirms (query c).1, (query c).1, (query c).2))
            remaining attempt calls queries sleeps).queries = queries ++ newQueries ∧
        newQueries.length ≤ remaining ∧
        (∀ q ∈ newQueries.dropLast, confirms q = false) ∧
        ((verifyLoop (fun c => (confirms (query c).1, (query c).1, (query c).2))
              remaining attempt calls queries sleeps).verified = true →
          ∃ q, newQueries.getLast? = some q ∧ confirms q = true) ∧
        ((verifyLoop (fun c => (confirms (query c).1, (query c).1, (query c).2))
              remaining attempt calls queries sleeps).verified = false →
          newQueries.length = remaining ∧ ∀ q ∈ newQueries, confirms q = false) := by
  intro remaining
  induction remaining with
  | zero =>
      intro attempt calls queries sleeps
      exact ⟨[], by simp [verifyLoop], by simp, by simp, by simp [verifyLoop], by simp⟩
  | succ n ih =>
      intro attempt calls queries sleeps
      unfold verifyLoop
      simp only
      cases hc : confirms (query calls).1 with
      | true =>
          refine ⟨[(query calls).1], by simp, by simp, by simp, ?_, by simp⟩
          intro _
          exact ⟨_, rfl, hc⟩
      | false =>
          simp only [Bool.false_eq_true, if_false]
          obtain ⟨newQueries, hq, hlen, hdrop, hver, hnot⟩ :=
            ih (attempt + 1) (query calls).2 (queries ++ [(query calls).1])
              (sleeps ++ [if attempt > 1 then 1000 else 500])
          refine ⟨(query calls).1 :: newQueries, ?_, ?_, ?_, ?_, ?_⟩
          · rw [hq]; simp
          · simp; omega
          · intro q hq'
            cases newQueries with
            | nil => simp at hq'
            | cons a rest =>
                rw [List.dropLast_cons₂] at hq'
                rcases List.mem_cons.1 hq' with h | h
                · rw [h]; exact hc
                · exact hdrop q h
          · intro hv
            obtain ⟨q, hq', hcq⟩ := hver hv
            refine ⟨q, ?_, hcq⟩
            cases newQueries with
            | nil => simp at hq'
            | cons a rest => rw [List.getLast?_cons_cons]; exact hq'
          · intro hv
            obtain ⟨hl, hall⟩ := hnot hv
            refine ⟨by simp [hl], fun q hq' => ?_⟩
            rcases List.mem_cons.1 hq' with h | h
            · rw [h]; exact hc
            · exact hall q h

theorem postVerifyTraced_getElem? (p : Platform) (gs : GroupStates) (results : List Row) :
    ∀ (calls i : Nat) (x : Row × VerifyRun),
      (postVerifyTraced p gs calls results)[i]? = some x →
      ∃ c input, results[i]? = some input ∧ x = postVerifyRow p gs c input := by
  induction results with
  | nil => intro calls i x h; simp [postVerifyTraced] at h
  | cons r rest ih =>
      intro calls i x h
      cases i with
      | zero =>
          simp only [postVerifyTraced, List.getElem?_cons_zero, Option.some.injEq] at h
          exact ⟨calls, r, by simp, h.symm⟩
      | succ i =>
          simp only [postVerifyTraced, List.getElem?_cons_succ] at h
          obtain ⟨c, input, h1, h2⟩ := ih _ i x h
          exact ⟨c, input, by simpa using h1, h2⟩

theorem postVerifyTraced_length (p : Platform) (gs : GroupStates) (results : List Row) :
    ∀ calls, (postVerifyTraced p gs calls results).length = results.length := by
  induction results with
  | nil => intro calls; simp [postVerifyTraced]
  | cons r rest ih => intro calls; simp [postVerifyTraced, ih]

theorem postVerifyRow_spec (p : Platform) (gs : GroupStates) (c : Nat) (input : Row) :
    (postVerifyRow p gs c input).2.queries.length ≤ 5 ∧
    (∀ q ∈ (postVerifyRow p gs c input).2.queries.dropLast,
      queryConfirms (verifyTarget p input).1 (verifyTarget p input).2 input.action q = false) ∧
    ((postVerifyRow p gs c input).1.status = "SUCCESS" →
      input.status = "SUCCESS" ∧
      ∃ q, (postVerifyRow p gs c input).2.queries.getLast? = some q ∧
        queryConfirms (verifyTarget p input).1 (verifyTarget p input).2 input.action q = true) ∧
    (input.status = "SUCCESS" → (postVerifyRow p gs c input).2.queries.length = 5 →
      (∀ q ∈ (postVerifyRow p gs c input).2.queries,
        queryConfirms (verifyTarget p input).1 (verifyTarget p input).2 input.action q = false) →
      (postVerifyRow p gs c input).1.status = "ERROR" ∧
        (postVerifyRow p gs c input).1.message = "Post-verify FAILED") := by
  simp only [postVerifyRow]
  by_cases hs : input.status = "SUCCESS"
  · rw [if_neg (not_not.2 hs)]
    by_cases hg : (!truthyOpt (findGroupResourceName p gs input.campaign input.groupName)) = true
    · rw [if_pos hg]
      refine ⟨by simp, by simp, ?_, ?_⟩
      · intro h; simp at h
      · intro _ h; simp at h
    · rw [if_neg hg]
      -- the run of the wrapper that the row's asset type selects
      have hrun : ∃ run : VerifyRun,
          (if input.assetType ∈ ["HEADLINE", "LONG_HEADLINE", "DESCRIPTION"] then
              verifyTextAssetLinkedWithRetry p c input.textOrId input.action
            else verifyImageAssetLinkedWithRetry p c input.textOrId input.action) = run ∧
          ∃ newQueries, run.queries = newQueries ∧ newQueries.length ≤ 5 ∧
            (∀ q ∈ newQueries.dropLast,
              queryConfirms (verifyTarget p input).1 (verifyTarget p input).2 input.action q
                = false) ∧
            (run.verified = true → ∃ q, newQueries.getLast? = some q ∧
              queryConfirms (verifyTarget p input).1 (verifyTarget p input).2 input.action q
                = true) ∧
            (run.verified = false → newQueries.length = 5 ∧ ∀ q ∈ newQueries,
              queryConfirms (verifyTarget p input).1 (verifyTarget p input).2 input.action q
                = false) := by
        refine ⟨_, rfl, ?_⟩
        by_cases ht : input.assetType ∈ ["HEADLINE", "LONG_HEADLINE", "DESCRIPTION"]
        · simp only [ht, if_true, verifyTarget]
          obtain ⟨nq, h1, h2, h3, h4, h5⟩ :=
            verifyLoop_spec (queryConfirms "asset.text_asset.text" input.textOrId input.action)
              (runReportSafe p) 5 1 c [] []
          exact ⟨nq, by simpa [verifyTextAssetLinkedWithRetry, verifyTextAssetLinked] using h1,
            h2, h3, h4, h5⟩
        · simp only [ht, if_false, verifyTarget]
          obtain ⟨nq, h1, h2, h3, h4, h5⟩ :=
            verifyLoop_spec (queryConfirms "asset_group_asset.asset"
                ("customers/" ++ p.customerId ++ "/assets/" ++ input.textOrId) input.action)
              (runReportSafe p) 5 1 c [] []
          exact ⟨nq, by simpa [verifyImageAssetLinkedWithRetry, verifyImageAssetLinked] using h1,
            h2, h3, h4, h5⟩
      obtain ⟨run, hrun, nq, hq, hlen, hdrop, hver, hnot⟩ := hrun
      rw [hrun]
      subst hq
      cases hv : run.verified with
      | true =>
          simp only [Bool.not_true, Bool.false_eq_true, if_false]
          refine ⟨hlen, hdrop, fun _ => ⟨hs, hver hv⟩, ?_⟩
          intro _ _ hall
          obtain ⟨q, hq', hcq⟩ := hver hv
          have := hall q (List.mem_of_getLast?_eq_some hq')
          rw [hcq] at this
          cases this
      | false =>
          simp only [Bool.not_false, if_true]
          refine ⟨hlen, hdrop, ?_, fun _ _ _ => by simp⟩
          intro h
          simp at h
  · rw [if_pos hs]
    refine ⟨by simp, by simp, fun h => absurd h hs, fun h => absurd h hs⟩

/-- C7: `postVerifyAll` never reports success without confirmation.  For the row at any
position, with `run` what its retry wrapper did (each verification query is one call of
`verifyTextAssetLinked` or `verifyImageAssetLinked`, which sends its GAQL query through
`runReportSafe`): the wrapper issues at most 5 verification queries and none before the last
confirms, so it stops at the first confirming one; the output status is SUCCESS only if the
input status was SUCCESS and the last query returned rows in which the member is present for
action ADD, absent for action REMOVE; and a SUCCESS input whose 5 queries all fail to
confirm comes back with status ERROR and message 'Post-verify FAILED'. -/
theorem C7_post_verify_needs_confirmation (p : Platform) (gs : GroupStates) (calls : Nat)
    (results : List Row) (i : Nat) (input out : Row) (run : VerifyRun)
    (hin : results[i]? = some input)
    (hout : (postVerifyTraced p gs calls results)[i]? = some (out, run)) :
    (postVerifyAll p calls results gs)[i]? = some out ∧
    run.queries.length ≤ 5 ∧
    (∀ q ∈ run.queries.dropLast,
      queryConfirms (verifyTarget p input).1 (verifyTarget p input).2 input.action q = false) ∧
    (out.status = "SUCCESS" →
      input.status = "SUCCESS" ∧
      ∃ rs, run.queries.getLast? = some (.rows rs) ∧
        ((input.action = "ADD" ∧
            rs.any (fun r => mapGet r (verifyTarget p input).1 ==
              some (verifyTarget p input).2) = true) ∨
          (input.action = "REMOVE" ∧
            rs.any (fun r => mapGet r (verifyTarget p input).1 ==
              some (verifyTarget p input).2) = false))) ∧
    (input.status = "SUCCESS" → run.queries.length = 5 →
      (∀ q ∈ run.queries,
        queryConfirms (verifyTarget p input).1 (verifyTarget p input).2 input.action q = false) →
      out.status = "ERROR" ∧ out.message = "Post-verify FAILED") := by
  obtain ⟨c, input', hin', hx⟩ := postVerifyTraced_getElem? p gs results calls i (out, run) hout
  rw [hin] at hin'
  cases hin'
  obtain ⟨h1, h2, h3, h4⟩ := postVerifyRow_spec p gs c input
  rw [← hx] at h1 h2 h3 h4
  refine ⟨by simp [postVerifyAll, hout], h1, h2, fun hs => ?_, h4⟩
  obtain ⟨hin, q, hq, hc⟩ := h3 hs
  obtain ⟨rs, hrs, hpres⟩ := queryConfirms_true _ _ _ q hc
  subst hrs
  exact ⟨hin, rs, hq, hpres⟩

/-- C7, witness: on a platform that shows the headline linked, the successful ADD is
confirmed by the first query and stays a SUCCESS. -/
theorem C7_post_verify_needs_confirmation_witness :
    (postVerifyAll linkedPlatform 0 [sampleSuccessRow] sampleSnapshot)[0]? =
      some { sampleSuccessRow with message := "Végrehajtva (attempt 1) [Verified ✓]" } ∧
    [ReportResult.rows [[("asset.text_asset.text", "Shop Now")]]].length ≤ 5 :=
  have h := C7_post_verify_needs_confirmation linkedPlatform sampleSnapshot 0 [sampleSuccessRow] 0
    sampleSuccessRow { sampleSuccessRow with message := "Végrehajtva (attempt 1) [Verified ✓]" }
    ⟨true, [.rows [[("asset.text_asset.text", "Shop Now")]]], [500], 1⟩ rfl (by decide)
  ⟨h.1, h.2.1⟩

/-! ## Merging window rows and verified rows -/

theorem verifiedMapOf_sound (verifiedResults : List Row) :
    ∀ k v, mapGet (verifiedMapOf verifiedResults) k = some v →
      v ∈ verifiedResults ∧
        ∃ h ∈ extractHoursFromScheduled v.scheduled v.action, mergeKey v h = k := by
  unfold verifiedMapOf
  refine foldl_preserves _
    (fun m => ∀ k v, mapGet m k = some v → v ∈ verifiedResults ∧
      ∃ h ∈ extractHoursFromScheduled v.scheduled v.action, mergeKey v h = k)
    verifiedResults (fun m row hrow hm => ?_) [] (by simp [mapGet])
  refine foldl_preserves _
    (fun m => ∀ k v, mapGet m k = some v → v ∈ verifiedResults ∧
      ∃ h ∈ extractHoursFromScheduled v.scheduled v.action, mergeKey v h = k)
    _ (fun m' hour hhour hm' => ?_) m hm
  intro k v hget
  by_cases hk : mergeKey row hour = k
  · subst hk
    rw [mapGet_mapSet_same] at hget
    cases hget
    exact ⟨hrow, hour, hhour, rfl⟩
  · rw [mapGet_mapSet_ne _ _ _ _ hk] at hget
    exact hm' k v hget

theorem verifiedMapOf_complete (verifiedResults : List Row) (v : Row) (h : Nat)
    (hv : v ∈ verifiedResults) (hh : h ∈ extractHoursFromScheduled v.scheduled v.action) :
    ∃ v', mapGet (verifiedMapOf verifiedResults) (mergeKey v h) = some v' := by
  have hset : ∀ (m : List (String × Row)) (row : Row) (hour : Nat),
      (∃ v', mapGet m (mergeKey v h) = some v') →
      ∃ v', mapGet (mapSet m (mergeKey row hour) row) (mergeKey v h) = some v' := by
    intro m row hour hm
    by_cases hk : mergeKey row hour = mergeKey v h
    · rw [hk, mapGet_mapSet_same]; exact ⟨_, rfl⟩
    · rw [mapGet_mapSet_ne _ _ _ _ hk]; exact hm
  unfold verifiedMapOf
  refine foldl_establishes _ (fun m => ∃ v', mapGet m (mergeKey v h) = some v')
    verifiedResults v hv (fun m row hm => ?_) (fun m => ?_) []
  · exact foldl_preserves _ (fun m => ∃ v', mapGet m (mergeKey v h) = some v') _
      (fun m' hour _ hm' => hset m' row hour hm') m hm
  · refine foldl_establishes _ (fun m => ∃ v', mapGet m (mergeKey v h) = some v')
      _ h hh (fun m' hour hm' => hset m' v hour hm')
      (fun m' => ⟨_, mapGet_mapSet_same _ _ _⟩) m

/-- C8: `mergeWindowAndExecutionRows` returns one row per window row in the same order, and
the row at each position keeps columns 0 to 6.  A window row with status ERROR comes back
unchanged.  A window row with status OK or WARNING (any status but ERROR) whose key, built
from campaign, group name, asset type, member, action and one of its hours, is the key of a
verified row gets the status and message of a verified row with such a key; when no
verified row has a matching key it comes back unchanged. -/
theorem C8_merge_window_and_execution_rows (windowRows verifiedResults : List Row)
    (i : Nat) (row : Row) (hrow : windowRows[i]? = some row) :
    (mergeWindowAndExecutionRows windowRows verifiedResults).length = windowRows.length ∧
    ∃ out, (mergeWindowAndExecutionRows windowRows verifiedResults)[i]? = some out ∧
      (out.timestamp = row.timestamp ∧ out.campaign = row.campaign ∧
        out.groupName = row.groupName ∧ out.assetType = row.assetType ∧
        out.textOrId = row.textOrId ∧ out.scheduled = row.scheduled ∧
        out.action = row.action) ∧
      (row.status = "ERROR" → out = row) ∧
      (row.status = "OK" ∨ row.status = "WARNING" →
        ((∃ v ∈ verifiedResults,
            ∃ h ∈ extractHoursFromScheduled row.scheduled row.action,
            ∃ h' ∈ extractHoursFromScheduled v.scheduled v.action,
              mergeKey row h = mergeKey v h') →
          ∃ v ∈ verifiedResults,
            (∃ h ∈ extractHoursFromScheduled row.scheduled row.action,
              ∃ h' ∈ extractHoursFromScheduled v.scheduled v.action,
                mergeKey row h = mergeKey v h') ∧
            out.status = v.status ∧ out.message = v.message) ∧
        ((¬ ∃ v ∈ verifiedResults,
            ∃ h ∈ extractHoursFromScheduled row.scheduled row.action,
            ∃ h' ∈ extractHoursFromScheduled v.scheduled v.action,
              mergeKey row h = mergeKey v h') → out = row)) := by
  refine ⟨by simp [mergeWindowAndExecutionRows], mergeRow (verifiedMapOf verifiedResults) row,
    by simp [mergeWindowAndExecutionRows, hrow], ?_, ?_, ?_⟩
  · unfold mergeRow
    split
    · exact ⟨rfl, rfl, rfl, rfl, rfl, rfl, rfl⟩
    · split <;> exact ⟨rfl, rfl, rfl, rfl, rfl, rfl, rfl⟩
  · intro hs
    simp [mergeRow, hs]
  · intro hs
    have hne : ¬ row.status = "ERROR" := by
      rcases hs with hs | hs <;> rw [hs] <;> decide
    unfold mergeRow
    rw [if_neg hne]
    cases hf : (extractHoursFromScheduled row.scheduled row.action).findSome?
        (fun hour => mapGet (verifiedMapOf verifiedResults) (mergeKey row hour)) with
    | none =>
        refine ⟨fun hex => ?_, fun _ => rfl⟩
        obtain ⟨v, hv, h, hh, h', hh', hkey⟩ := hex
        obtain ⟨v', hv'⟩ := verifiedMapOf_complete verifiedResults v h' hv hh'
        rw [List.findSome?_eq_none_iff] at hf
        have := hf h hh
        rw [hkey, hv'] at this
        cases this
    | some verified =>
        obtain ⟨h, hh, hget⟩ := List.exists_of_findSome?_eq_some hf
        obtain ⟨hmem, h', hh', hkey⟩ := verifiedMapOf_sound verifiedResults _ _ hget
        refine ⟨fun _ => ⟨verified, hmem, ⟨h, hh, h', hh', hkey.symm⟩, rfl, rfl⟩, fun hno => ?_⟩
        exact absurd ⟨verified, hmem, h, hh, h', hh', hkey.symm⟩ hno

/-- C8, witness: an OK window row takes over the verified SUCCESS of its operation. -/
theorem C8_merge_window_and_execution_rows_witness :
    ∃ out, (mergeWindowAndExecutionRows
        [⟨"ts", "Campaign A", "Group 1", "HEADLINE", "Shop Now", "ADD: 2025-11-16 14:00-14:59",
          "ADD", "OK", "OK"⟩]
        [⟨"t2", "Campaign A", "Group 1", "HEADLINE", "Shop Now", "2025-11-16 14:00-14:59",
          "ADD", "SUCCESS", "Végrehajtva (attempt 1) [Verified ✓]"⟩])[0]? = some out ∧
      out.scheduled = "ADD: 2025-11-16 14:00-14:59" ∧ out.status = "SUCCESS" ∧
      out.message = "Végrehajtva (attempt 1) [Verified ✓]" := by
  obtain ⟨out, ho, hcols, _, h3⟩ := (C8_merge_window_and_execution_rows
    [⟨"ts", "Campaign A", "Group 1", "HEADLINE", "Shop Now", "ADD: 2025-11-16 14:00-14:59",
      "ADD", "OK", "OK"⟩]
    [⟨"t2", "Campaign A", "Group 1", "HEADLINE", "Shop Now", "2025-11-16 14:00-14:59",
      "ADD", "SUCCESS", "Végrehajtva (attempt 1) [Verified ✓]"⟩] 0 _ rfl).2
  obtain ⟨v, hv, _, hs, hm⟩ := (h3 (Or.inl rfl)).1
    ⟨_, List.mem_singleton.2 rfl, 14, by decide, 14, by decide, by decide⟩
  rw [List.mem_singleton] at hv
  subst hv
  exact ⟨out, ho, hcols.2.2.2.2.2.1, hs, hm⟩

/-! ## Execution of one mutation -/

theorem mutationLoop_returns (script : Nat → MutationOutcome) (mk : String → String → Row) :
    ∀ (fuel attempt calls : Nat) (sleeps : List Nat),
      attempt ≤ RETRY_MAX_ATTEMPTS → RETRY_MAX_ATTEMPTS + 1 ≤ fuel + attempt →
      ∃ run, mutationLoop script mk fuel attempt calls sleeps = some run ∧
        calls + 1 ≤ run.calls ∧ run.calls + attempt ≤ calls + (RETRY_MAX_ATTEMPTS + 1) ∧
        run.afterLoop = false := by
  intro fuel
  induction fuel with
  | zero =>
      intro attempt calls sleeps h1 h2
      omega
  | succ fuel ih =>
      intro attempt calls sleeps h1 h2
      unfold mutationLoop
      rw [if_pos h1]
      cases hs : script calls with
      | result successful errorMessages =>
          cases successful with
          | true => exact ⟨_, rfl, by simp, by simp; omega, rfl⟩
          | false =>
              simp only
              split
              · next hc =>
                simp only [Bool.and_eq_true, decide_eq_true_eq] at hc
                obtain ⟨run, hrun, hlo, hhi, hal⟩ :=
                  ih (attempt + 1) (calls + 1)
                    (sleeps ++ [2 ^ attempt * RETRY_BASE_DELAY_MS]) hc.2 (by omega)
                exact ⟨run, hrun, by omega, by omega, hal⟩
              · exact ⟨_, rfl, by simp, by simp; omega, rfl⟩
      | thrown message =>
          simp only
          split
          · next hc =>
            simp only [Bool.and_eq_true, decide_eq_true_eq] at hc
            obtain ⟨run, hrun, hlo, hhi, hal⟩ :=
              ih (attempt + 1) (calls + 1)
                (sleeps ++ [2 ^ attempt * RETRY_BASE_DELAY_MS]) hc.2 (by omega)
            exact ⟨run, hrun, by omega, by omega, hal⟩
          · exact ⟨_, rfl, by simp, by simp; omega, rfl⟩

/-- C9, as the code has it: for every sequence of mutation outcomes `executeSingleMutation`
returns, and it has called the mutation at least once and at most four times, one first
attempt and `RETRY_MAX_ATTEMPTS` = 3 retries. -/
theorem C9_executeSingleMutation_at_most_four_calls (script : Nat → MutationOutcome)
    (timestamp campaign groupName assetType textOrId action scheduled : String) :
    ∃ run, executeSingleMutation script timestamp campaign groupName assetType textOrId action
        scheduled = some run ∧ 1 ≤ run.calls ∧ run.calls ≤ 4 := by
  obtain ⟨run, hrun, hlo, hhi, _⟩ :=
    mutationLoop_returns script
      (fun status message =>
        ⟨timestamp, campaign, groupName, assetType, textOrId, scheduled, action, status, message⟩)
      (RETRY_MAX_ATTEMPTS + 2) 0 0 [] (Nat.zero_le _) (by omega)
  refine ⟨run, hrun, by omega, ?_⟩
  simp only [RETRY_MAX_ATTEMPTS] at hhi
  omega

/-- C9, counterexample: three answers with a concurrent-modification error and then a
success make four calls of the mutation; the run reports the fourth attempt. -/
theorem C9_counterexample_four_calls :
    ∃ run, executeSingleMutation
        (fun n => if n < 3 then .result false (some ["CONCURRENT_MODIFICATION"])
          else .result true none)
        "ts" "Campaign A" "Group 1" "HEADLINE" "Shop Now" "ADD" "2025-11-16 14:00-14:59" =
          some run ∧
      run.calls = 4 ∧ ¬ run.calls ≤ 3 ∧ run.row.status = "SUCCESS" ∧
      run.row.message = "Végrehajtva (attempt 4)" ∧ run.sleeps = [1000, 2000, 4000] := by
  refine ⟨_, rfl, ?_, ?_, ?_, ?_, ?_⟩ <;> decide

/-! ## Validation of a text row -/

theorem validateTextAsset_error_of_rowErrors (env : Env) (item : Item)
    (campaignIdMap : List (String × String)) (gs : GroupStates) (timestamp : String)
    (h : ∀ effectiveAction, textRowErrors env item campaignIdMap (item.field "Campaign Name")
      (jsUpper (item.field "Text Type")) (item.field "Text") effectiveAction ≠ []) :
    ∃ rows, validateTextAsset env item campaignIdMap gs timestamp =
      .ok { status := "ERROR", rows := rows, validGroups := none } := by
  simp only [validateTextAsset]
  generalize (if item.hasAction = true then item.action else getClosestAction env item) = closest
  by_cases h1 : (!truthyOpt closest) = true
  · rw [if_pos h1]
    exact ⟨_, rfl⟩
  · rw [if_neg h1, if_pos (List.length_pos.2 (h _))]
    exact ⟨_, rfl⟩

theorem parse_bad_truthy (raw error : String) (h : parseCustomHourToInt raw = .bad error) :
    truthyStr raw = true := by
  by_contra hne
  have hf : truthyStr raw = false := by simpa using hne
  have : parseCustomHourToInt raw = .ok none := by
    have ht : jsTrim "" = "" := by decide
    have he : truthyStr "" = false := by decide
    simp [parseCustomHourToInt, hf, ht, he]
  rw [this] at h
  cases h

/-- C10, as the code has it: a text row whose add-date and remove-date are set and fall on
the same calendar day, and whose add-hour field equals its remove-hour field and is not
left empty, gets status ERROR and no valid groups from `validateTextAsset`, provided the
hour is well-formed or the row is validated without an action, as `validateAll` does.
(Two empty hour fields are no self-conflict: the add hour resolves to 0, the remove hour
to 23.) -/
theorem C10_same_date_same_hour_is_error (env : Env) (item : Item)
    (campaignIdMap : List (String × String)) (gs : GroupStates) (timestamp : String)
    (hAdd : (item.cell "Add Date").truthy = true)
    (hRemove : (item.cell "Remove Date").truthy = true)
    (hDay : env.formatDay (item.cell "Add Date") = env.formatDay (item.cell "Remove Date"))
    (hHour : item.hourRaw "Add Hour" = item.hourRaw "Remove Hour")
    (hSet : parseCustomHourToInt (item.hourRaw "Add Hour") ≠ .ok none)
    (hMode : item.hasAction = false ∨
      (parseCustomHourToInt (item.hourRaw "Add Hour")).isOk = true) :
    ∃ rows, validateTextAsset env item campaignIdMap gs timestamp =
      .ok { status := "ERROR", rows := rows, validGroups := none } := by
  apply validateTextAsset_error_of_rowErrors
  intro effectiveAction
  cases hp : parseCustomHourToInt (item.hourRaw "Add Hour") with
  | ok value =>
      cases value with
      | none => exact absurd hp hSet
      | some v =>
          have hs : selfConflictErrors env item ≠ [] := by
            simp [selfConflictErrors, hAdd, hRemove, hDay, resolvedHour, ← hHour, hp]
          intro hnil
          simp only [textRowErrors, List.append_eq_nil] at hnil
          exact hs hnil.1.1.1.2
  | bad error =>
      have hmode : item.hasAction = false := by
        rcases hMode with h | h
        · exact h
        · rw [hp] at h; cases h
      have ht := parse_bad_truthy _ _ hp
      have hs : hourFieldErrors item "Add Date" "Add Hour" "Add" ≠ [] := by
        simp [hourFieldErrors, hAdd, ht, hp]
      intro hnil
      simp only [textRowErrors, hmode, Bool.not_false, if_true, List.append_eq_nil] at hnil
      exact hs hnil.1.1.1.1.1

/-- C10, counterexample: a row with add-date and remove-date 2025-11-20 and both hour cells
empty has equal dates and equal hour fields, and `validateTextAsset` returns status OK with
Group 1 as valid group: the add hour resolves to 0 and the remove hour to 23. -/
theorem C10_counterexample_unset_hours :
    sampleEnv.formatDay (sampleUnsetHoursRow.cell "Add Date") =
        sampleEnv.formatDay (sampleUnsetHoursRow.cell "Remove Date") ∧
      sampleUnsetHoursRow.hourRaw "Add Hour" = sampleUnsetHoursRow.hourRaw "Remove Hour" ∧
      validateTextAsset sampleEnv sampleUnsetHoursRow sampleCampaignIds sampleSnapshot "ts" =
        .ok { status := "OK",
              rows := [⟨"ts", "Campaign A", "Group 1", "HEADLINE", "Shop Now",
                "ADD: 2025-11-20 00:00-00:59 | REMOVE: 2025-11-20 23:00-23:59", "ADD", "OK",
                "OK"⟩],
              validGroups := some [⟨"ag1", "Group 1"⟩] } := by
  decide

/-- C10, witness: the row that adds and removes on 2025-11-20 at hour 14 is an ERROR. -/
theorem C10_same_date_same_hour_is_error_witness :
    ∃ rows, validateTextAsset sampleEnv sampleSameHourRow sampleCampaignIds sampleSnapshot "ts" =
      .ok { status := "ERROR", rows := rows, validGroups := none } :=
  C10_same_date_same_hour_is_error sampleEnv sampleSameHourRow sampleCampaignIds sampleSnapshot
    "ts" (by decide) (by decide) (by decide) (by decide) (by decide) (Or.inl (by decide))

/-! ## Hour parsing -/

theorem jsTrim_orEmpty (raw : String) :
    jsTrim (if truthyStr raw = true then raw else "") = jsTrim raw := by
  by_cases h : truthyStr raw = true
  · rw [if_pos h]
  · rw [if_neg h]
    have hd : raw.data = [] := by
      cases hr : raw.data with
      | nil => rfl
      | cons a l => simp [truthyStr, hr] at h
    have : raw = "" := String.ext hd
    rw [this]

theorem truthyStr_iff (s : String) : truthyStr s = true ↔ s.data ≠ [] := by
  cases hs : s.data <;> simp [truthyStr, hs]

theorem parseCustomHourToInt_eq (raw : String) :
    parseCustomHourToInt raw =
      if trimChars raw.data = [] then HourParse.ok none
      else match hourDigits (trimChars raw.data) with
        | none => .bad ("Rossz formátum: \"" ++ jsTrim raw ++
            "\". Várt: 0-23 vagy HH:00 (pl. 10 vagy 10:00).")
        | some ds =>
            if digitsValue ds > 23 then
              .bad ("Érvénytelen óraszám: \"" ++ jsTrim raw ++ "\". Várt: 0-23.")
            else .ok (some (digitsValue ds)) := by
  unfold parseCustomHourToInt
  simp only [jsTrim_orEmpty]
  by_cases h : trimChars raw.data = []
  · have : truthyStr (jsTrim raw) = false := by
      simp [truthyStr, jsTrim, h]
    simp [this, h]
  · have : truthyStr (jsTrim raw) = true := (truthyStr_iff _).2 h
    rw [if_neg h]
    simp only [this, Bool.not_true, Bool.false_eq_true, if_false]
    rfl

theorem hourDigits_cases (l : List Char) :
    (∃ a : Char, a.isDigit = true ∧ (l = [a] ∨ l = [a, ':', '0', '0']) ∧
        hourDigits l = some [a]) ∨
    (∃ a b : Char, a.isDigit = true ∧ b.isDigit = true ∧
        (l = [a, b] ∨ l = [a, b, ':', '0', '0']) ∧ hourDigits l = some [a, b]) ∨
    ((¬ ∃ a : Char, a.isDigit = true ∧ (l = [a] ∨ l = [a, ':', '0', '0'])) ∧
     (¬ ∃ a b : Char, a.isDigit = true ∧ b.isDigit = true ∧
        (l = [a, b] ∨ l = [a, b, ':', '0', '0'])) ∧ hourDigits l = none) := by
  rcases l with _ | ⟨a, _ | ⟨b, _ | ⟨c, _ | ⟨d, _ | ⟨e, _ | ⟨f, r⟩⟩⟩⟩⟩⟩
  · simp [hourDigits]
  · by_cases ha : a.isDigit = true <;> simp [hourDigits, ha]
  · by_cases ha : a.isDigit = true <;> by_cases hb : b.isDigit = true <;>
      simp [hourDigits, ha, hb]
  · simp [hourDigits]
  · by_cases ha : a.isDigit = true <;> by_cases hb : b = ':' <;> by_cases hc : c = '0' <;>
      by_cases hd : d = '0' <;> simp [hourDigits, ha, hb, hc, hd]
  · by_cases ha : a.isDigit = true <;> by_cases hb : b.isDigit = true <;>
      by_cases hc : c = ':' <;> by_cases hd : d = '0' <;> by_cases he : e = '0' <;>
      simp [hourDigits, ha, hb, hc, hd, he]
  · simp [hourDigits]
theorem digit_toNat_le (a : Char) (h : a.isDigit = true) : a.toNat - 48 ≤ 9 := by
  simp only [Char.isDigit, Bool.and_eq_true, decide_eq_true_eq] at h
  have h2 : a.val.toNat ≤ 57 := h.2
  show a.val.toNat - 48 ≤ 9
  omega

theorem bad_message_ne_empty (p s q : String) (hp : p.data ≠ []) : p ++ s ++ q ≠ "" := by
  intro h
  have := congrArg String.data h
  simp only [String.data_append] at this
  cases hd : p.data with
  | nil => exact hp hd
  | cons c l => rw [hd] at this; simp at this

/-- C12: `parseCustomHourToInt` on every string `raw`, with `s` the trimmed string.  An empty
`s` gives ok with the value null; one decimal digit, or two decimal digits writing a number of
at most 23, optionally followed by `:00`, give ok with that number; every other string gives
a not-ok result with a non-empty error message.  Hence every non-null value is at most 23,
and for each `H` from 0 to 23 the decimal string of `H` and that string followed by `:00`
both parse to `H`. -/
theorem C12_parseCustomHourToInt_characterised (raw : String) :
    ((jsTrim raw).data = [] → parseCustomHourToInt raw = .ok none) ∧
    (∀ a : Char, a.isDigit = true →
      ((jsTrim raw).data = [a] ∨ (jsTrim raw).data = [a, ':', '0', '0']) →
      parseCustomHourToInt raw = .ok (some (a.toNat - 48))) ∧
    (∀ a b : Char, a.isDigit = true → b.isDigit = true →
      ((jsTrim raw).data = [a, b] ∨ (jsTrim raw).data = [a, b, ':', '0', '0']) →
      10 * (a.toNat - 48) + (b.toNat - 48) ≤ 23 →
      parseCustomHourToInt raw = .ok (some (10 * (a.toNat - 48) + (b.toNat - 48)))) ∧
    ((jsTrim raw).data ≠ [] →
      (¬ ∃ a : Char, a.isDigit = true ∧
        ((jsTrim raw).data = [a] ∨ (jsTrim raw).data = [a, ':', '0', '0'])) →
      (¬ ∃ a b : Char, a.isDigit = true ∧ b.isDigit = true ∧
        ((jsTrim raw).data = [a, b] ∨ (jsTrim raw).data = [a, b, ':', '0', '0']) ∧
        10 * (a.toNat - 48) + (b.toNat - 48) ≤ 23) →
      (parseCustomHourToInt raw).isOk = false ∧
        ∃ e, parseCustomHourToInt raw = .bad e ∧ e ≠ "") ∧
    (∀ v, parseCustomHourToInt raw = .ok (some v) → v ≤ 23) ∧
    (∀ H : Nat, H ≤ 23 →
      parseCustomHourToInt (toString H) = .ok (some H) ∧
      parseCustomHourToInt (toString H ++ ":00") = .ok (some H)) := by
  have hdata : (jsTrim raw).data = trimChars raw.data := rfl
  rw [hdata]
  have h1 : ∀ a : Char, digitsValue [a] = a.toNat - 48 := by
    intro a; simp [digitsValue]
  have h2 : ∀ a b : Char, digitsValue [a, b] = 10 * (a.toNat - 48) + (b.toNat - 48) := by
    intro a b; simp [digitsValue]
  refine ⟨?_, ?_, ?_, ?_, ?_, ?_⟩
  · intro h
    rw [parseCustomHourToInt_eq, if_pos h]
  · intro a ha hl
    have hne : trimChars raw.data ≠ [] := by rcases hl with h | h <;> simp [h]
    have hd : hourDigits (trimChars raw.data) = some [a] := by
      rcases hl with h | h <;> simp [h, hourDigits, ha]
    have hle := digit_toNat_le a ha
    rw [parseCustomHourToInt_eq, if_neg hne, hd]
    simp only [h1]
    rw [if_neg (by omega)]
  · intro a b ha hb hl hle
    have hne : trimChars raw.data ≠ [] := by rcases hl with h | h <;> simp [h]
    have hd : hourDigits (trimChars raw.data) = some [a, b] := by
      rcases hl with h | h <;> simp [h, hourDigits, ha, hb]
    rw [parseCustomHourToInt_eq, if_neg hne, hd]
    simp only [h2]
    rw [if_neg (by omega)]
  · intro hne hn1 hn2
    rw [parseCustomHourToInt_eq, if_neg hne]
    rcases hourDigits_cases (trimChars raw.data) with
      ⟨a, ha, hl, _⟩ | ⟨a, b, ha, hb, hl, hd⟩ | ⟨_, _, hd⟩
    · exact absurd ⟨a, ha, hl⟩ hn1
    · rw [hd]
      simp only [h2]
      have hgt : 10 * (a.toNat - 48) + (b.toNat - 48) > 23 := by
        by_contra hc
        exact hn2 ⟨a, b, ha, hb, hl, by omega⟩
      rw [if_pos hgt]
      exact ⟨rfl, _, rfl, bad_message_ne_empty _ _ _ (by decide)⟩
    · rw [hd]
      exact ⟨rfl, _, rfl, bad_message_ne_empty _ _ _ (by decide)⟩
  · intro v hv
    rw [parseCustomHourToInt_eq] at hv
    by_cases hne : trimChars raw.data = []
    · rw [if_pos hne] at hv; cases hv
    · rw [if_neg hne] at hv
      cases hd : hourDigits (trimChars raw.data) with
      | none => rw [hd] at hv; cases hv
      | some ds =>
          rw [hd] at hv
          by_cases hgt : digitsValue ds > 23
          · simp only [hgt, if_true] at hv; cases hv
          · simp only [hgt, if_false] at hv
            cases hv
            omega
  · intro H hH
    interval_cases H <;> exact ⟨by decide, by decide⟩

/-! ## Messages -/

theorem startsWithChars_append (p r : List Char) : startsWithChars p (p ++ r) = true := by
  induction p with
  | nil => cases r <;> rfl
  | cons a p ih => simp [startsWithChars, ih]

theorem includesChars_append (p a b : List Char) : includesChars p (a ++ (p ++ b)) = true := by
  induction a with
  | nil =>
      cases h : p ++ b with
      | nil =>
          have hp : p = [] := (List.append_eq_nil.1 h).1
          subst hp
          rfl
      | cons c l =>
          rw [List.nil_append, includesChars, ← h, startsWithChars_append]
          rfl
  | cons c a ih =>
      rw [List.cons_append, includesChars, ih, Bool.or_true]

theorem jsJoin_data_of_mem (sep x : String) (l : List String) (hx : x ∈ l) :
    ∃ a b : List Char, (jsJoin sep l).data = a ++ (x.data ++ b) := by
  induction l with
  | nil => cases hx
  | cons y l ih =>
      cases l with
      | nil =>
          have : x = y := by simpa using hx
          subst this
          exact ⟨[], [], by simp [jsJoin]⟩
      | cons z l =>
          rcases List.mem_cons.1 hx with h | h
          · subst h
            exact ⟨[], sep.data ++ (jsJoin sep (z :: l)).data, by
              simp [jsJoin, String.data_append]⟩
          · obtain ⟨a, b, hab⟩ := ih h
            exact ⟨y.data ++ sep.data ++ a, b, by
              simp [jsJoin, String.data_append, hab]⟩

theorem jsIncludes_jsJoin (sep x : String) (l : List String) (hx : x ∈ l) :
    jsIncludes (jsJoin sep l) x = true := by
  obtain ⟨a, b, hab⟩ := jsJoin_data_of_mem sep x l hx
  rw [jsIncludes, hab, includesChars_append]

/-! ## The verdicts of a text row -/

theorem getClosestAction_truthy (env : Env) (item : Item) (a : String)
    (h : getClosestAction env item = some a) : truthyStr a = true := by
  unfold getClosestAction at h
  simp only at h
  split_ifs at h <;> cases h <;> decide

theorem closest_truthy_iff (env : Env) (item : Item) :
    truthyOpt (if item.hasAction = true then item.action else getClosestAction env item) = true ↔
      (item.hasAction = true ∨ getClosestAction env item ≠ none) := by
  by_cases ha : item.hasAction = true
  · rw [if_pos ha]
    exact ⟨fun _ => Or.inl ha, fun _ => ha⟩
  · rw [if_neg ha]
    cases hc : getClosestAction env item with
    | none => simp [truthyOpt, ha]
    | some a => simp [truthyOpt, getClosestAction_truthy env item a hc]

/-- C11, as the code has it: a text row whose add-date and remove-date are set and fall on
the same calendar day, and whose resolved add hour (the parsed add-hour, 0 when unset or
unparsable) equals its resolved remove hour (the parsed remove-hour, 23 when unset or
unparsable), gets from `validateTextAsset` the status ERROR, exactly one verdict row and no
valid groups, whatever the snapshot and the other fields are.  The message of that row
contains the same-hour text when the row carries an action or `getClosestAction` finds an
operation that has not elapsed; when the row carries no action and both operations have
elapsed the message is the internal one instead. -/
theorem C11_same_resolved_hour_is_error (env : Env) (item : Item)
    (campaignIdMap : List (String × String)) (gs : GroupStates) (timestamp : String)
    (hAdd : (item.cell "Add Date").truthy = true)
    (hRemove : (item.cell "Remove Date").truthy = true)
    (hDay : env.formatDay (item.cell "Add Date") = env.formatDay (item.cell "Remove Date"))
    (hHour : resolvedHour (item.hourRaw "Add Hour") 0 =
      resolvedHour (item.hourRaw "Remove Hour") 23) :
    ∃ row : Row,
      validateTextAsset env item campaignIdMap gs timestamp =
        .ok { status := "ERROR", rows := [row], validGroups := none } ∧
      row.status = "ERROR" ∧
      (item.hasAction = true ∨ getClosestAction env item ≠ none →
        jsIncludes row.message
          "Hozzáadás és Törlés ugyanabban az órában - nem végrehajtható" = true) ∧
      (item.hasAction = false → getClosestAction env item = none →
        row.message = "INTERNAL: Nincs jövőbeli művelet") := by
  have hiff := closest_truthy_iff env item
  simp only [validateTextAsset]
  generalize (if item.hasAction = true then item.action else getClosestAction env item) =
    closest at hiff
  by_cases h1 : (!truthyOpt closest) = true
  · rw [if_pos h1]
    refine ⟨_, rfl, rfl, ?_, fun _ _ => rfl⟩
    intro h
    have := hiff.2 h
    rw [this] at h1
    cases h1
  · have hself : selfConflictErrors env item =
        ["Hozzáadás és Törlés ugyanabban az órában - nem végrehajtható"] := by
      simp [selfConflictErrors, hAdd, hRemove, hDay, hHour]
    have hmem : ∀ c t x a, "Hozzáadás és Törlés ugyanabban az órában - nem végrehajtható" ∈
        textRowErrors env item campaignIdMap c t x a := by
      intro c t x a
      simp [textRowErrors, hself]
    rw [if_neg h1, if_pos (List.length_pos.2 (List.ne_nil_of_mem (hmem _ _ _ _)))]
    refine ⟨_, rfl, rfl, fun _ => jsIncludes_jsJoin _ _ _ (hmem _ _ _ _), ?_⟩
    intro ha hc
    have ht : truthyOpt closest = false := by
      cases htc : truthyOpt closest with
      | false => rfl
      | true =>
          rcases hiff.1 htc with h | h
          · rw [ha] at h; cases h
          · exact absurd hc h
    rw [ht] at h1
    exact absurd rfl h1

/-- C11, witness: the row that adds and removes on 2025-11-20 at hour 14, validated on
2025-11-16. -/
theorem C11_same_resolved_hour_is_error_witness :
    ∃ row : Row,
      validateTextAsset sampleEnv sampleSameHourRow sampleCampaignIds sampleSnapshot "ts" =
        .ok { status := "ERROR", rows := [row], validGroups := none } ∧
      row.status = "ERROR" ∧
      (sampleSameHourRow.hasAction = true ∨ getClosestAction sampleEnv sampleSameHourRow ≠ none →
        jsIncludes row.message
          "Hozzáadás és Törlés ugyanabban az órában - nem végrehajtható" = true) ∧
      (sampleSameHourRow.hasAction = false → getClosestAction sampleEnv sampleSameHourRow = none →
        row.message = "INTERNAL: Nincs jövőbeli művelet") :=
  C11_same_resolved_hour_is_error sampleEnv sampleSameHourRow sampleCampaignIds sampleSnapshot
    "ts" (by decide) (by decide) (by decide) (by decide)

/-- C11, counterexample: a row that adds and removes the headline today, both at hour 14.
At 14:59 `filterByDateRange` keeps it; validated at 15:00:00 both operations have elapsed,
and the single verdict row of `validateTextAsset` carries the internal message, which does
not contain the same-hour text. -/
theorem C11_counterexample_elapsed_row :
    (sampleTodaySameHourRow.cell "Add Date").truthy = true ∧
    (sampleTodaySameHourRow.cell "Remove Date").truthy = true ∧
    sampleLateEnv.formatDay (sampleTodaySameHourRow.cell "Add Date") =
      sampleLateEnv.formatDay (sampleTodaySameHourRow.cell "Remove Date") ∧
    resolvedHour (sampleTodaySameHourRow.hourRaw "Add Hour") 0 =
      resolvedHour (sampleTodaySameHourRow.hourRaw "Remove Hour") 23 ∧
    filterByDateRange sampleEnv samplePlusDays 899 [sampleTodaySameHourRow] "2025-11-16" =
      [{ sampleTodaySameHourRow with hasAddInRange := true, hasRemoveInRange := true }] ∧
    validateTextAsset sampleLateEnv
        { sampleTodaySameHourRow with hasAddInRange := true, hasRemoveInRange := true }
        sampleCampaignIds sampleSnapshot "ts" =
      .ok { status := "ERROR",
            rows := [⟨"ts", "Campaign A", "Group 1", "HEADLINE", "Shop Now", "N/A", "N/A",
              "ERROR", "INTERNAL: Nincs jövőbeli művelet"⟩],
            validGroups := none } ∧
    jsIncludes "INTERNAL: Nincs jövőbeli művelet"
      "Hozzáadás és Törlés ugyanabban az órában - nem végrehajtható" = false := by
  refine ⟨by decide, by decide, by decide, by decide, by decide, by decide, by decide⟩

theorem any_map_fun {α β : Type} (f : α → β) (p : β → Bool) (l : List α) :
    (l.map f).any p = l.any (fun x => p (f x)) := by
  induction l with
  | nil => rfl
  | cons a l ih => simp [ih]

theorem validateTextAsset_validGroups (env : Env) (item : Item)
    (campaignIdMap : List (String × String)) (gs : GroupStates) (timestamp : String)
    (v : Validation) (vg : List Group)
    (hv : validateTextAsset env item campaignIdMap gs timestamp = .ok v)
    (hvg : v.validGroups = some vg) :
    ∃ (limits : TextLimit) (act scheduledCol : String),
      TEXT_LIMITS (jsUpper (item.field "Text Type")) = some limits ∧
      textRowErrors env item campaignIdMap (item.field "Campaign Name")
        (jsUpper (item.field "Text Type")) (item.field "Text") act = [] ∧
      getTargetGroups env (item.field "Campaign Name") (item.field "Asset Group Name")
        (campaignIdOf campaignIdMap (item.field "Campaign Name")) gs ≠ [] ∧
      v.rows = (getTargetGroups env (item.field "Campaign Name") (item.field "Asset Group Name")
        (campaignIdOf campaignIdMap (item.field "Campaign Name")) gs).map (fun g =>
          (⟨timestamp, item.field "Campaign Name", g.name, jsUpper (item.field "Text Type"),
            item.field "Text", scheduledCol, act,
            (textGroupVerdict gs limits (jsUpper (item.field "Text Type")) (item.field "Text")
              act (textWarnings (jsUpper (item.field "Text Type")) (item.field "Text") act) g).1,
            (textGroupVerdict gs limits (jsUpper (item.field "Text Type")) (item.field "Text")
              act (textWarnings (jsUpper (item.field "Text Type")) (item.field "Text") act) g).2⟩
            : Row)) ∧
      vg = (getTargetGroups env (item.field "Campaign Name") (item.field "Asset Group Name")
        (campaignIdOf campaignIdMap (item.field "Campaign Name")) gs).filter (fun g =>
          (textGroupVerdict gs limits (jsUpper (item.field "Text Type")) (item.field "Text")
            act (textWarnings (jsUpper (item.field "Text Type")) (item.field "Text") act) g).1
              == "OK" ||
          (textGroupVerdict gs limits (jsUpper (item.field "Text Type")) (item.field "Text")
            act (textWarnings (jsUpper (item.field "Text Type")) (item.field "Text") act) g).1
              == "WARNING") ∧
      v.status =
        (if (getTargetGroups env (item.field "Campaign Name") (item.field "Asset Group Name")
            (campaignIdOf campaignIdMap (item.field "Campaign Name")) gs).any (fun g =>
          (textGroupVerdict gs limits (jsUpper (item.field "Text Type")) (item.field "Text")
            act (textWarnings (jsUpper (item.field "Text Type")) (item.field "Text") act) g).1
              == "ERROR") = true then "ERROR"
         else if (getTargetGroups env (item.field "Campaign Name") (item.field "Asset Group Name")
            (campaignIdOf campaignIdMap (item.field "Campaign Name")) gs).any (fun g =>
          (textGroupVerdict gs limits (jsUpper (item.field "Text Type")) (item.field "Text")
            act (textWarnings (jsUpper (item.field "Text Type")) (item.field "Text") act) g).1
              == "WARNING") = true then "WARNING"
         else "OK") := by
  simp only [validateTextAsset] at hv
  generalize (if item.hasAction = true then item.action else getClosestAction env item) =
    closest at hv
  by_cases h1 : (!truthyOpt closest) = true
  · rw [if_pos h1] at hv
    cases hv
    cases hvg
  · rw [if_neg h1] at hv
    generalize hE : textRowErrors env item campaignIdMap (item.field "Campaign Name")
      (jsUpper (item.field "Text Type")) (item.field "Text") (closest.getD "") = errors at hv
    by_cases h2 : errors.length > 0
    · rw [if_pos h2] at hv
      cases hv
      cases hvg
    · rw [if_neg h2] at hv
      have herr : errors = [] := by
        cases errors with
        | nil => rfl
        | cons a l => simp at h2
      generalize hT : getTargetGroups env (item.field "Campaign Name")
        (item.field "Asset Group Name")
        (campaignIdOf campaignIdMap (item.field "Campaign Name")) gs = targets at hv
      by_cases h3 : targets.length = 0
      · rw [if_pos h3] at hv
        cases hv
        cases hvg
      · rw [if_neg h3] at hv
        cases hl : TEXT_LIMITS (jsUpper (item.field "Text Type")) with
        | none => rw [hl] at hv; cases hv
        | some limits =>
            rw [hl] at hv
            simp only [Except.ok.injEq] at hv
            subst hv
            simp only [Option.some.injEq] at hvg
            subst hvg
            subst hT
            refine ⟨limits, closest.getD "",
              (if item.hasAction = true then scheduledStr env item (closest.getD "")
                else allScheduledActions env item), rfl, hE.trans herr, ?_, ?_, ?_, ?_⟩
            · intro h; rw [h] at h3; exact h3 rfl
            · simp only [List.map_map]
              rfl
            · simp only [List.filter_map, List.map_map]
              simp [Function.comp_def]
            · rw [any_map_fun, any_map_fun]

theorem textGroupVerdict_add (gs : GroupStates) (limits : TextLimit) (textType text : String)
    (warnings : List String) (g : Group) :
    textGroupVerdict gs limits textType text "ADD" warnings g =
      if (ofType gs g textType).length + 1 > limits.max then
        ("ERROR", jsJoin "; "
          (["MAX limit túllépés (" ++ toString (ofType gs g textType).length ++ "+1 > " ++
              toString limits.max ++ ")"] ++
            (if (ofType gs g textType).any (fun x => x.text == text) = true then
              ["Text asset már létezik a csoportban"] else [])))
      else if (ofType gs g textType).any (fun x => x.text == text) = true then
        ("ERROR", "Text asset már létezik a csoportban")
      else if (ofType gs g textType).length ≥ limits.max - limits.warnThreshold then
        ("WARNING", jsJoin "; "
          (warnings ++ ["Limit közel (current=" ++ toString (ofType gs g textType).length ++
            ", after=" ++ toString ((ofType gs g textType).length + 1) ++ ", max=" ++
            toString limits.max ++ ")"]))
      else if warnings.length > 0 then ("WARNING", jsJoin "; " warnings)
      else ("OK", "OK") := by
  by_cases hmax : (ofType gs g textType).length + 1 > limits.max <;>
    by_cases hp : (ofType gs g textType).any (fun x => x.text == text) = true <;>
    by_cases hw : (ofType gs g textType).length ≥ limits.max - limits.warnThreshold <;>
    by_cases hl : warnings.length > 0 <;>
    simp only [hmax, hp, hw, hl, if_true, if_false] <;>
    simp only [ofType] at hmax hp hw ⊢ <;>
    simp [textGroupVerdict, hmax, hp, hw, hl, jsJoin]

theorem textGroupVerdict_remove (gs : GroupStates) (limits : TextLimit)
    (textType text : String) (g : Group) :
    textGroupVerdict gs limits textType text "REMOVE" [] g =
      if (ofType gs g textType).any (fun x => x.text == text) = true then
        if ((ofType gs g textType).length : Int) - 1 < (limits.min : Int) then
          ("WARNING", "⚠️ MIN limit alatt! " ++
            toString (((ofType gs g textType).length : Int) - 1) ++
            " hirdető által hozzáadott " ++ textType ++ " marad törlés után (min=" ++
            toString limits.min ++ ", + esetleges Google által generált)")
        else ("OK", "OK")
      else ("ERROR", "Text asset nem található a csoportban") := by
  by_cases hp : (ofType gs g textType).any (fun x => x.text == text) = true <;>
    by_cases hmin : ((ofType gs g textType).length : Int) - 1 < (limits.min : Int) <;>
    simp only [hp, hmin, if_true, if_false] <;>
    simp only [ofType] at hp hmin ⊢ <;>
    simp [textGroupVerdict, hp, hmin, jsJoin]

theorem textWarnings_remove (textType text : String) :
    textWarnings textType text "REMOVE" = [] := by
  unfold textWarnings lengthCheckApplies
  cases TEXT_LIMITS textType with
  | none => rfl
  | some l =>
      have : ¬ (truthyStr text = true ∧ ("REMOVE" = "ADD" ∨ "REMOVE" = "ADD+REMOVE")) := by
        intro h
        rcases h.2 with h | h <;> exact absurd h (by decide)
      simp only [this, if_false]

theorem startsWithChars_iff (p l : List Char) :
    startsWithChars p l = true ↔ ∃ r, l = p ++ r := by
  induction p generalizing l with
  | nil => cases l <;> simp [startsWithChars]
  | cons a p ih =>
      cases l with
      | nil => simp [startsWithChars]
      | cons b l =>
          simp only [startsWithChars, Bool.and_eq_true, beq_iff_eq, ih, List.cons_append,
            List.cons.injEq]
          constructor
          · rintro ⟨rfl, r, rfl⟩
            exact ⟨r, rfl, rfl⟩
          · rintro ⟨r, rfl, rfl⟩
            exact ⟨rfl, r, rfl⟩

theorem includesChars_iff (p l : List Char) :
    includesChars p l = true ↔ ∃ a b, l = a ++ (p ++ b) := by
  constructor
  · intro h
    induction l with
    | nil =>
        rw [includesChars, startsWithChars_iff] at h
        obtain ⟨r, hr⟩ := h
        exact ⟨[], r, hr⟩
    | cons c l ih =>
        rw [includesChars, Bool.or_eq_true, startsWithChars_iff] at h
        rcases h with ⟨r, hr⟩ | h
        · exact ⟨[], r, hr⟩
        · obtain ⟨a, b, hab⟩ := ih h
          exact ⟨c :: a, b, by rw [hab]; rfl⟩
  · rintro ⟨a, b, rfl⟩
    exact includesChars_append p a b

theorem jsIncludes_trans (y x p : String) (h1 : jsIncludes y x = true)
    (h2 : jsIncludes x p = true) : jsIncludes y p = true := by
  rw [jsIncludes, includesChars_iff] at *
  obtain ⟨a, b, hab⟩ := h1
  obtain ⟨c, d, hcd⟩ := h2
  exact ⟨a ++ c, d ++ b, by rw [hab, hcd]; simp⟩

theorem jsIncludes_append_left (x y p : String) (h : jsIncludes x p = true) :
    jsIncludes (x ++ y) p = true := by
  rw [jsIncludes, includesChars_iff] at *
  obtain ⟨a, b, hab⟩ := h
  exact ⟨a, b ++ y.data, by rw [String.data_append, hab]; simp⟩

theorem jsIncludes_jsJoin_of (sep p m : String) (l : List String) (hm : m ∈ l)
    (h : jsIncludes m p = true) : jsIncludes (jsJoin sep l) p = true :=
  jsIncludes_trans _ m p (jsIncludes_jsJoin sep m l hm) h

theorem TEXT_LIMITS_cases (textType : String) (limits : TextLimit)
    (h : TEXT_LIMITS textType = some limits) :
    (textType = "HEADLINE" ∧ limits = ⟨3, 15, 30, 2⟩) ∨
    (textType = "LONG_HEADLINE" ∧ limits = ⟨1, 5, 90, 1⟩) ∨
    (textType = "DESCRIPTION" ∧ limits = ⟨2, 5, 90, 1⟩) := by
  unfold TEXT_LIMITS at h
  split_ifs at h with h1 h2 h3 <;> simp_all

theorem textWarnings_cases (textType text effectiveAction : String) :
    textWarnings textType text effectiveAction = [] ∨
    textWarnings textType text effectiveAction = ["Felkiáltójel a címsorban (Nem ajánlott)"] ∨
    textWarnings textType text effectiveAction =
      ["Felkiáltójel a hosszú címsorban (Nem ajánlott)"] := by
  unfold textWarnings
  cases lengthCheckApplies textType text effectiveAction with
  | none => exact Or.inl rfl
  | some l =>
      simp only
      split_ifs <;> simp

theorem validateTextAsset_row (env : Env) (item : Item)
    (campaignIdMap : List (String × String)) (gs : GroupStates) (timestamp : String)
    (v : Validation) (vg : List Group) (i : Nat) (g : Group) (row : Row)
    (hv : validateTextAsset env item campaignIdMap gs timestamp = .ok v)
    (hvg : v.validGroups = some vg)
    (hg : (getTargetGroups env (item.field "Campaign Name") (item.field "Asset Group Name")
      (campaignIdOf campaignIdMap (item.field "Campaign Name")) gs)[i]? = some g)
    (hrow : v.rows[i]? = some row) :
    ∃ limits : TextLimit,
      TEXT_LIMITS (jsUpper (item.field "Text Type")) = some limits ∧
      row.groupName = g.name ∧
      (row.status, row.message) =
        textGroupVerdict gs limits (jsUpper (item.field "Text Type")) (item.field "Text")
          row.action
          (textWarnings (jsUpper (item.field "Text Type")) (item.field "Text") row.action) g ∧
      (g ∈ vg ↔ (row.status = "OK" ∨ row.status = "WARNING")) := by
  obtain ⟨limits, act, sched, hl, _, _, hrows, hvgs, _⟩ :=
    validateTextAsset_validGroups env item campaignIdMap gs timestamp v vg hv hvg
  rw [hrows, List.getElem?_map, hg] at hrow
  simp only [Option.map_some', Option.some.injEq] at hrow
  subst hrow
  refine ⟨limits, hl, rfl, rfl, ?_⟩
  rw [hvgs, List.mem_filter]
  simp only [Bool.or_eq_true, beq_iff_eq]
  exact ⟨fun h => h.2, fun h => ⟨List.getElem?_mem hg, h⟩⟩

theorem limit_message_has_no_max (w : List String) (limits : TextLimit) (c : Nat)
    (hL : limits = ⟨3, 15, 30, 2⟩ ∨ limits = ⟨1, 5, 90, 1⟩ ∨ limits = ⟨2, 5, 90, 1⟩)
    (hW : w = [] ∨ w = ["Felkiáltójel a címsorban (Nem ajánlott)"] ∨
      w = ["Felkiáltójel a hosszú címsorban (Nem ajánlott)"])
    (hmax : ¬ c + 1 > limits.max) (hw : c ≥ limits.max - limits.warnThreshold) :
    jsIncludes (jsJoin "; " (w ++ ["Limit közel (current=" ++ toString c ++ ", after=" ++
      toString (c + 1) ++ ", max=" ++ toString limits.max ++ ")"])) "MAX limit túllépés" =
      false := by
  rcases hL with rfl | rfl | rfl <;> rcases hW with rfl | rfl | rfl <;>
    simp only [ge_iff_le, gt_iff_lt, not_lt] at hmax hw <;>
    (have h1 : c ≤ 14 := by omega) <;> (have h2 : 4 ≤ c := by omega) <;>
    interval_cases c <;> first | (exfalso; omega) | decide

theorem plain_message_has_no_marker (w : List String)
    (hW : w = [] ∨ w = ["Felkiáltójel a címsorban (Nem ajánlott)"] ∨
      w = ["Felkiáltójel a hosszú címsorban (Nem ajánlott)"]) :
    jsIncludes (if w.length > 0 then ("WARNING", jsJoin "; " w) else ("OK", "OK")).2
        "MAX limit túllépés" = false ∧
    jsIncludes (if w.length > 0 then ("WARNING", jsJoin "; " w) else ("OK", "OK")).2
        "Limit közel" = false := by
  rcases hW with rfl | rfl | rfl <;> exact ⟨by decide, by decide⟩

/-- C14: a text row whose validation reaches the target groups (it passed the row-level
checks) with the effective action ADD, and a target group holding `c` enabled members of the
row's text type, with `max` and `warnThreshold` from `TEXT_LIMITS` for that type.  The
verdict of the group is ERROR exactly when `c + 1 > max` or the text is already in the
group, and its message names 'MAX limit túllépés' exactly when `c + 1 > max`; otherwise the
verdict is the WARNING 'Limit közel' exactly when `c ≥ max - warnThreshold`. -/
theorem C14_add_verdict_against_max (env : Env) (item : Item)
    (campaignIdMap : List (String × String)) (gs : GroupStates) (timestamp : String)
    (v : Validation) (vg : List Group) (i : Nat) (g : Group) (row : Row) (limits : TextLimit)
    (hv : validateTextAsset env item campaignIdMap gs timestamp = .ok v)
    (hvg : v.validGroups = some vg)
    (hg : (getTargetGroups env (item.field "Campaign Name") (item.field "Asset Group Name")
      (campaignIdOf campaignIdMap (item.field "Campaign Name")) gs)[i]? = some g)
    (hrow : v.rows[i]? = some row)
    (hAct : row.action = "ADD")
    (hLim : TEXT_LIMITS (jsUpper (item.field "Text Type")) = some limits) :
    (row.status = "ERROR" ↔
      ((ofType gs g (jsUpper (item.field "Text Type"))).length + 1 > limits.max ∨
        (ofType gs g (jsUpper (item.field "Text Type"))).any
          (fun x => x.text == item.field "Text") = true)) ∧
    (jsIncludes row.message "MAX limit túllépés" = true ↔
      (ofType gs g (jsUpper (item.field "Text Type"))).length + 1 > limits.max) ∧
    (¬ ((ofType gs g (jsUpper (item.field "Text Type"))).length + 1 > limits.max ∨
        (ofType gs g (jsUpper (item.field "Text Type"))).any
          (fun x => x.text == item.field "Text") = true) →
      ((row.status = "WARNING" ∧ jsIncludes row.message "Limit közel" = true) ↔
        (ofType gs g (jsUpper (item.field "Text Type"))).length ≥
          limits.max - limits.warnThreshold)) := by
  obtain ⟨limits', hl', _, hverd, _⟩ :=
    validateTextAsset_row env item campaignIdMap gs timestamp v vg i g row hv hvg hg hrow
  have hll : limits' = limits := by
    rw [hl'] at hLim
    exact Option.some.inj hLim
  subst hll
  have hL : limits' = ⟨3, 15, 30, 2⟩ ∨ limits' = ⟨1, 5, 90, 1⟩ ∨ limits' = ⟨2, 5, 90, 1⟩ := by
    rcases TEXT_LIMITS_cases _ _ hl' with h | h | h
    · exact Or.inl h.2
    · exact Or.inr (Or.inl h.2)
    · exact Or.inr (Or.inr h.2)
  have hW := textWarnings_cases (jsUpper (item.field "Text Type")) (item.field "Text") "ADD"
  rw [hAct, textGroupVerdict_add] at hverd
  generalize textWarnings (jsUpper (item.field "Text Type")) (item.field "Text") "ADD" = w
    at hverd hW
  generalize (ofType gs g (jsUpper (item.field "Text Type"))).length = c at hverd ⊢
  generalize (ofType gs g (jsUpper (item.field "Text Type"))).any
    (fun x => x.text == item.field "Text") = present at hverd ⊢
  have hne1 : ¬ ("WARNING" = "ERROR") := by decide
  have hne2 : ¬ ("OK" = "ERROR") := by decide
  have hne3 : ¬ ("OK" = "WARNING") := by decide
  by_cases hmax : c + 1 > limits'.max
  · rw [if_pos hmax] at hverd
    simp only [Prod.mk.injEq] at hverd
    obtain ⟨hs, hm⟩ := hverd
    refine ⟨⟨fun _ => Or.inl hmax, fun _ => hs⟩, ⟨fun _ => hmax, fun _ => ?_⟩,
      fun h => absurd (Or.inl hmax) h⟩
    rw [hm]
    refine jsIncludes_jsJoin_of _ _ _ _ (List.mem_append_left _ (List.mem_singleton.2 rfl)) ?_
    exact jsIncludes_append_left _ _ _ (jsIncludes_append_left _ _ _
      (jsIncludes_append_left _ _ _ (jsIncludes_append_left _ _ _ (by decide))))
  · rw [if_neg hmax] at hverd
    cases present with
    | true =>
        simp only [if_true, Prod.mk.injEq] at hverd
        obtain ⟨hs, hm⟩ := hverd
        refine ⟨⟨fun _ => Or.inr rfl, fun _ => hs⟩, ⟨fun h => ?_, fun h => absurd h hmax⟩,
          fun h => absurd (Or.inr rfl) h⟩
        rw [hm] at h
        exact absurd h (by decide)
    | false =>
        simp only [Bool.false_eq_true, if_false] at hverd
        by_cases hw : c ≥ limits'.max - limits'.warnThreshold
        · rw [if_pos hw] at hverd
          simp only [Prod.mk.injEq] at hverd
          obtain ⟨hs, hm⟩ := hverd
          refine ⟨⟨fun h => ?_, fun h => ?_⟩, ⟨fun h => ?_, fun h => absurd h hmax⟩,
            fun _ => ⟨fun _ => hw, fun _ => ⟨hs, ?_⟩⟩⟩
          · rw [hs] at h; exact absurd h hne1
          · rcases h with h | h
            · exact absurd h hmax
            · cases h
          · rw [hm, limit_message_has_no_max w limits' c hL hW hmax hw] at h
            cases h
          · rw [hm]
            refine jsIncludes_jsJoin_of _ _ _ _
              (List.mem_append_right _ (List.mem_singleton.2 rfl)) ?_
            exact jsIncludes_append_left _ _ _ (jsIncludes_append_left _ _ _
              (jsIncludes_append_left _ _ _ (jsIncludes_append_left _ _ _
              (jsIncludes_append_left _ _ _ (jsIncludes_append_left _ _ _ (by decide))))))
        · rw [if_neg hw] at hverd
          have hplain := plain_message_has_no_marker w hW
          have hs : row.status = (if w.length > 0 then ("WARNING", jsJoin "; " w)
              else ("OK", "OK")).1 := congrArg Prod.fst hverd
          have hm : row.message = (if w.length > 0 then ("WARNING", jsJoin "; " w)
              else ("OK", "OK")).2 := congrArg Prod.snd hverd
          refine ⟨⟨fun h => ?_, fun h => ?_⟩, ⟨fun h => ?_, fun h => absurd h hmax⟩,
            fun _ => ⟨fun h => ?_, fun h => absurd h hw⟩⟩
          · rw [hs] at h
            split_ifs at h
            · exact absurd h hne1
            · exact absurd h hne2
          · rcases h with h | h
            · exact absurd h hmax
            · cases h
          · rw [hm, hplain.1] at h
            cases h
          · rw [hm, hplain.2] at h
            cases h.2

/-- C14, witness: the row that adds 'Shop Now' to Group 1, which holds three headlines. -/
theorem C14_add_verdict_against_max_witness :
    (sampleAddVerdictRow.status = "ERROR" ↔
      ((ofType sampleSnapshot sampleGroup (jsUpper (sampleAddRow.field "Text Type"))).length + 1 >
          (⟨3, 15, 30, 2⟩ : TextLimit).max ∨
        (ofType sampleSnapshot sampleGroup (jsUpper (sampleAddRow.field "Text Type"))).any
          (fun x => x.text == sampleAddRow.field "Text") = true)) ∧
    (jsIncludes sampleAddVerdictRow.message "MAX limit túllépés" = true ↔
      (ofType sampleSnapshot sampleGroup (jsUpper (sampleAddRow.field "Text Type"))).length + 1 >
        (⟨3, 15, 30, 2⟩ : TextLimit).max) ∧
    (¬ ((ofType sampleSnapshot sampleGroup (jsUpper (sampleAddRow.field "Text Type"))).length + 1 >
          (⟨3, 15, 30, 2⟩ : TextLimit).max ∨
        (ofType sampleSnapshot sampleGroup (jsUpper (sampleAddRow.field "Text Type"))).any
          (fun x => x.text == sampleAddRow.field "Text") = true) →
      ((sampleAddVerdictRow.status = "WARNING" ∧
          jsIncludes sampleAddVerdictRow.message "Limit közel" = true) ↔
        (ofType sampleSnapshot sampleGroup (jsUpper (sampleAddRow.field "Text Type"))).length ≥
          (⟨3, 15, 30, 2⟩ : TextLimit).max - (⟨3, 15, 30, 2⟩ : TextLimit).warnThreshold)) :=
  C14_add_verdict_against_max sampleEnv sampleAddRow sampleCampaignIds sampleSnapshot "ts"
    ⟨"OK", [sampleAddVerdictRow], some [sampleGroup]⟩ [sampleGroup] 0 sampleGroup
    sampleAddVerdictRow ⟨3, 15, 30, 2⟩ (by decide) rfl (by decide) rfl rfl (by decide)

/-- C15: a text row whose validation reaches the target groups, and one of its target
groups.  When the effective action is ADD and the group already holds a member of the
row's text type with exactly the row's text, the verdict of the group is ERROR with the
message 'Text asset már létezik a csoportban'; when the effective action is REMOVE and the
group holds no such member, the verdict is ERROR with the message 'Text asset nem található
a csoportban'.  In both cases the group is not among the valid groups. -/
theorem C15_duplicate_add_and_missing_remove_are_errors (env : Env) (item : Item)
    (campaignIdMap : List (String × String)) (gs : GroupStates) (timestamp : String)
    (v : Validation) (vg : List Group) (i : Nat) (g : Group) (row : Row)
    (hv : validateTextAsset env item campaignIdMap gs timestamp = .ok v)
    (hvg : v.validGroups = some vg)
    (hg : (getTargetGroups env (item.field "Campaign Name") (item.field "Asset Group Name")
      (campaignIdOf campaignIdMap (item.field "Campaign Name")) gs)[i]? = some g)
    (hrow : v.rows[i]? = some row) :
    (row.action = "ADD" →
      (ofType gs g (jsUpper (item.field "Text Type"))).any
        (fun x => x.text == item.field "Text") = true →
      row.status = "ERROR" ∧
        jsIncludes row.message "Text asset már létezik a csoportban" = true ∧ g ∉ vg) ∧
    (row.action = "REMOVE" →
      (ofType gs g (jsUpper (item.field "Text Type"))).any
        (fun x => x.text == item.field "Text") = false →
      row.status = "ERROR" ∧
        jsIncludes row.message "Text asset nem található a csoportban" = true ∧ g ∉ vg) := by
  obtain ⟨limits, _, _, hverd, hmem⟩ :=
    validateTextAsset_row env item campaignIdMap gs timestamp v vg i g row hv hvg hg hrow
  have hnot : row.status = "ERROR" → g ∉ vg := by
    intro hs hin
    rcases hmem.1 hin with h | h <;> rw [hs] at h <;> exact absurd h (by decide)
  constructor
  · intro hAct hp
    rw [hAct, textGroupVerdict_add, hp] at hverd
    by_cases hmax : (ofType gs g (jsUpper (item.field "Text Type"))).length + 1 > limits.max
    · rw [if_pos hmax] at hverd
      simp only [if_true, Prod.mk.injEq] at hverd
      refine ⟨hverd.1, ?_, hnot hverd.1⟩
      rw [hverd.2]
      exact jsIncludes_jsJoin _ _ _ (List.mem_append_right _ (List.mem_singleton.2 rfl))
    · rw [if_neg hmax] at hverd
      simp only [if_true, Prod.mk.injEq] at hverd
      refine ⟨hverd.1, ?_, hnot hverd.1⟩
      rw [hverd.2]
      decide
  · intro hAct hp
    rw [hAct, textWarnings_remove, textGroupVerdict_remove, hp] at hverd
    simp only [Bool.false_eq_true, if_false, Prod.mk.injEq] at hverd
    refine ⟨hverd.1, ?_, hnot hverd.1⟩
    rw [hverd.2]
    decide

/-- C15, witness: the row that adds 'Old 1' to Group 1, which already holds it. -/
theorem C15_duplicate_add_and_missing_remove_are_errors_witness :
    (sampleAddExistingVerdictRow.action = "ADD" →
      (ofType sampleSnapshot sampleGroup (jsUpper (sampleAddExistingRow.field "Text Type"))).any
        (fun x => x.text == sampleAddExistingRow.field "Text") = true →
      sampleAddExistingVerdictRow.status = "ERROR" ∧
        jsIncludes sampleAddExistingVerdictRow.message "Text asset már létezik a csoportban" =
          true ∧ sampleGroup ∉ ([] : List Group)) ∧
    (sampleAddExistingVerdictRow.action = "REMOVE" →
      (ofType sampleSnapshot sampleGroup (jsUpper (sampleAddExistingRow.field "Text Type"))).any
        (fun x => x.text == sampleAddExistingRow.field "Text") = false →
      sampleAddExistingVerdictRow.status = "ERROR" ∧
        jsIncludes sampleAddExistingVerdictRow.message "Text asset nem található a csoportban" =
          true ∧ sampleGroup ∉ ([] : List Group)) :=
  C15_duplicate_add_and_missing_remove_are_errors sampleEnv sampleAddExistingRow
    sampleCampaignIds sampleSnapshot "ts" ⟨"ERROR", [sampleAddExistingVerdictRow], some []⟩ []
    0 sampleGroup sampleAddExistingVerdictRow (by decide) rfl (by decide) rfl

/-- C16: a text row whose validation reaches the target groups with the effective action
REMOVE, and a target group that holds the text among its `c` members of the row's text
type.  If `c - 1` is below the minimum of the type, the verdict of the group is WARNING,
not ERROR, with a message naming 'MIN limit alatt', and the group is among the valid
groups; if `c - 1` is at least the minimum, the verdict is a plain OK without any warning,
and the group is among the valid groups as well. -/
theorem C16_remove_below_minimum_is_warning (env : Env) (item : Item)
    (campaignIdMap : List (String × String)) (gs : GroupStates) (timestamp : String)
    (v : Validation) (vg : List Group) (i : Nat) (g : Group) (row : Row) (limits : TextLimit)
    (hv : validateTextAsset env item campaignIdMap gs timestamp = .ok v)
    (hvg : v.validGroups = some vg)
    (hg : (getTargetGroups env (item.field "Campaign Name") (item.field "Asset Group Name")
      (campaignIdOf campaignIdMap (item.field "Campaign Name")) gs)[i]? = some g)
    (hrow : v.rows[i]? = some row)
    (hAct : row.action = "REMOVE")
    (hLim : TEXT_LIMITS (jsUpper (item.field "Text Type")) = some limits)
    (hPresent : (ofType gs g (jsUpper (item.field "Text Type"))).any
      (fun x => x.text == item.field "Text") = true) :
    (((ofType gs g (jsUpper (item.field "Text Type"))).length : Int) - 1 < (limits.min : Int) →
      row.status = "WARNING" ∧ row.status ≠ "ERROR" ∧
        jsIncludes row.message "MIN limit alatt" = true ∧ g ∈ vg) ∧
    (((ofType gs g (jsUpper (item.field "Text Type"))).length : Int) - 1 ≥ (limits.min : Int) →
      row.status = "OK" ∧ row.message = "OK" ∧ g ∈ vg) := by
  obtain ⟨limits', hl', _, hverd, hmem⟩ :=
    validateTextAsset_row env item campaignIdMap gs timestamp v vg i g row hv hvg hg hrow
  have hll : limits' = limits := by
    rw [hl'] at hLim
    exact Option.some.inj hLim
  subst hll
  rw [hAct, textWarnings_remove, textGroupVerdict_remove, hPresent] at hverd
  simp only [if_true] at hverd
  constructor
  · intro hlt
    rw [if_pos hlt] at hverd
    simp only [Prod.mk.injEq] at hverd
    refine ⟨hverd.1, ?_, ?_, hmem.2 (Or.inr hverd.1)⟩
    · rw [hverd.1]; decide
    · rw [hverd.2]
      exact jsIncludes_append_left _ _ _ (jsIncludes_append_left _ _ _
        (jsIncludes_append_left _ _ _ (jsIncludes_append_left _ _ _
        (jsIncludes_append_left _ _ _ (jsIncludes_append_left _ _ _ (by decide))))))
  · intro hge
    rw [if_neg (not_lt.2 hge)] at hverd
    simp only [Prod.mk.injEq] at hverd
    exact ⟨hverd.1, hverd.2, hmem.2 (Or.inl hverd.1)⟩

/-- C16, witness: the row that removes 'Old 1' from Group 1, which holds three headlines,
the minimum of the type. -/
theorem C16_remove_below_minimum_is_warning_witness :
    (((ofType sampleSnapshot sampleGroup
        (jsUpper (sampleRemoveExistingRow.field "Text Type"))).length : Int) - 1 <
          ((⟨3, 15, 30, 2⟩ : TextLimit).min : Int) →
      sampleRemoveExistingVerdictRow.status = "WARNING" ∧
        sampleRemoveExistingVerdictRow.status ≠ "ERROR" ∧
        jsIncludes sampleRemoveExistingVerdictRow.message "MIN limit alatt" = true ∧
        sampleGroup ∈ [sampleGroup]) ∧
    (((ofType sampleSnapshot sampleGroup
        (jsUpper (sampleRemoveExistingRow.field "Text Type"))).length : Int) - 1 ≥
          ((⟨3, 15, 30, 2⟩ : TextLimit).min : Int) →
      sampleRemoveExistingVerdictRow.status = "OK" ∧
        sampleRemoveExistingVerdictRow.message = "OK" ∧ sampleGroup ∈ [sampleGroup]) :=
  C16_remove_below_minimum_is_warning sampleEnv sampleRemoveExistingRow sampleCampaignIds
    sampleSnapshot "ts" ⟨"WARNING", [sampleRemoveExistingVerdictRow], some [sampleGroup]⟩
    [sampleGroup] 0 sampleGroup sampleRemoveExistingVerdictRow ⟨3, 15, 30, 2⟩ (by decide) rfl
    (by decide) rfl rfl (by decide) (by decide)

theorem textGroupVerdict_status (gs : GroupStates) (limits : TextLimit)
    (textType text effectiveAction : String) (warnings : List String) (g : Group) :
    (textGroupVerdict gs limits textType text effectiveAction warnings g).1 = "OK" ∨
    (textGroupVerdict gs limits textType text effectiveAction warnings g).1 = "WARNING" ∨
    (textGroupVerdict gs limits textType text effectiveAction warnings g).1 = "ERROR" := by
  simp only [textGroupVerdict]
  split_ifs <;> simp

theorem zip_map_filter_fst {α β : Type} (f : α → β) (p : β → Bool) (l : List α) :
    ((l.zip (l.map f)).filter (fun q => p q.2)).map Prod.fst = l.filter (fun x => p (f x)) := by
  induction l with
  | nil => rfl
  | cons a l ih =>
      simp only [List.map_cons, List.zip_cons_cons, List.filter_cons]
      by_cases h : p (f a) = true
      · simp only [h, if_true, List.map_cons, ih]
      · have h2 : p (f a) = false := by simpa using h
        simp only [h2, Bool.false_eq_true, if_false, ih]

/-- C17: a text row whose validation reaches the target groups.  `validateTextAsset`
returns one verdict row per target group, in the order of `getTargetGroups`, each named
after its group and with the status OK, WARNING or ERROR; the valid groups are the target
groups whose verdict row is OK or WARNING, in the same order; and the status of the row is
the worst verdict: ERROR if some group is ERROR, else WARNING if some group is WARNING,
else OK. -/
theorem C17_one_verdict_row_per_target_group (env : Env) (item : Item)
    (campaignIdMap : List (String × String)) (gs : GroupStates) (timestamp : String)
    (v : Validation) (vg : List Group)
    (hv : validateTextAsset env item campaignIdMap gs timestamp = .ok v)
    (hvg : v.validGroups = some vg) :
    v.rows.length = (getTargetGroups env (item.field "Campaign Name")
      (item.field "Asset Group Name")
      (campaignIdOf campaignIdMap (item.field "Campaign Name")) gs).length ∧
    v.rows.map (fun r => r.groupName) = (getTargetGroups env (item.field "Campaign Name")
      (item.field "Asset Group Name")
      (campaignIdOf campaignIdMap (item.field "Campaign Name")) gs).map (fun g => g.name) ∧
    (∀ r ∈ v.rows, r.status = "OK" ∨ r.status = "WARNING" ∨ r.status = "ERROR") ∧
    vg = (((getTargetGroups env (item.field "Campaign Name") (item.field "Asset Group Name")
      (campaignIdOf campaignIdMap (item.field "Campaign Name")) gs).zip v.rows).filter
        (fun q => q.2.status == "OK" || q.2.status == "WARNING")).map Prod.fst ∧
    v.status =
      (if v.rows.any (fun r => r.status == "ERROR") = true then "ERROR"
       else if v.rows.any (fun r => r.status == "WARNING") = true then "WARNING"
       else "OK") := by
  obtain ⟨limits, act, sched, _, _, _, hrows, hvgs, hstatus⟩ :=
    validateTextAsset_validGroups env item campaignIdMap gs timestamp v vg hv hvg
  rw [hrows]
  refine ⟨List.length_map _ _, ?_, ?_, ?_, ?_⟩
  · rw [List.map_map]
    rfl
  · intro r hr
    obtain ⟨g, _, rfl⟩ := List.mem_map.1 hr
    exact textGroupVerdict_status _ _ _ _ _ _ _
  · rw [hvgs]
    rw [zip_map_filter_fst _ (fun r : Row => r.status == "OK" || r.status == "WARNING")]
  · rw [hstatus, any_map_fun, any_map_fun]

/-- C17, witness: the row that removes 'Old 1' from Group 1: one WARNING verdict row, the
group is valid, the status of the row is WARNING. -/
theorem C17_one_verdict_row_per_target_group_witness :
    [sampleRemoveExistingVerdictRow].length = (getTargetGroups sampleEnv
      (sampleRemoveExistingRow.field "Campaign Name")
      (sampleRemoveExistingRow.field "Asset Group Name")
      (campaignIdOf sampleCampaignIds (sampleRemoveExistingRow.field "Campaign Name"))
      sampleSnapshot).length ∧
    [sampleRemoveExistingVerdictRow].map (fun r => r.groupName) = (getTargetGroups sampleEnv
      (sampleRemoveExistingRow.field "Campaign Name")
      (sampleRemoveExistingRow.field "Asset Group Name")
      (campaignIdOf sampleCampaignIds (sampleRemoveExistingRow.field "Campaign Name"))
      sampleSnapshot).map (fun g => g.name) ∧
    (∀ r ∈ [sampleRemoveExistingVerdictRow],
      r.status = "OK" ∨ r.status = "WARNING" ∨ r.status = "ERROR") ∧
    [sampleGroup] = (((getTargetGroups sampleEnv (sampleRemoveExistingRow.field "Campaign Name")
      (sampleRemoveExistingRow.field "Asset Group Name")
      (campaignIdOf sampleCampaignIds (sampleRemoveExistingRow.field "Campaign Name"))
      sampleSnapshot).zip [sampleRemoveExistingVerdictRow]).filter
        (fun q => q.2.status == "OK" || q.2.status == "WARNING")).map Prod.fst ∧
    "WARNING" =
      (if [sampleRemoveExistingVerdictRow].any (fun r => r.status == "ERROR") = true
        then "ERROR"
       else if [sampleRemoveExistingVerdictRow].any (fun r => r.status == "WARNING") = true
        then "WARNING"
       else "OK") :=
  C17_one_verdict_row_per_target_group sampleEnv sampleRemoveExistingRow sampleCampaignIds
    sampleSnapshot "ts" ⟨"WARNING", [sampleRemoveExistingVerdictRow], some [sampleGroup]⟩
    [sampleGroup] (by decide) rfl

theorem normalizeText_eq (toLowerCase : String → String) (s : String) :
    normalizeText toLowerCase s = toLowerCase (jsTrim s) := by
  rw [normalizeText, jsTrim_orEmpty]

theorem truthyStr_iff_ne_empty (s : String) : truthyStr s = true ↔ s ≠ "" := by
  rw [truthyStr_iff]
  constructor
  · intro h hs
    rw [hs] at h
    exact h rfl
  · intro h hd
    exact h (String.ext hd)

theorem foldl_filter_push {α β : Type} (cond : α → Bool) (f : α → β) (l : List α)
    (acc : List β) :
    l.foldl (fun groups entry => if cond entry = true then groups ++ [f entry] else groups)
      acc = acc ++ (l.filter cond).map f := by
  induction l generalizing acc with
  | nil => simp
  | cons a l ih =>
      rw [List.foldl_cons, ih]
      by_cases h : cond a = true
      · simp [h]
      · have h2 : cond a = false := by simpa using h
        simp [h2]

theorem getTargetGroups_eq_filter (env : Env) (campaign assetGroupName campaignId : String)
    (gs : GroupStates) :
    getTargetGroups env campaign assetGroupName campaignId gs =
      (gs.groupMap.filter (fun e => decide (e.2.campaignId = campaignId ∧
        e.2.hasHeadline = true ∧
        (assetGroupName ≠ "" →
          env.toLowerCase (jsTrim e.2.name) = env.toLowerCase (jsTrim assetGroupName))))).map
        (fun e => (⟨e.1, e.2.name⟩ : Group)) := by
  have h := foldl_filter_push (fun e : String × GroupInfo =>
    decide (e.2.campaignId = campaignId ∧ e.2.hasHeadline = true ∧
      (assetGroupName ≠ "" →
        env.toLowerCase (jsTrim e.2.name) = env.toLowerCase (jsTrim assetGroupName))))
    (fun e => (⟨e.1, e.2.name⟩ : Group)) gs.groupMap []
  rw [List.nil_append] at h
  rw [← h, getTargetGroups]
  congr 1
  funext groups entry
  simp only [normalizeText_eq]
  by_cases h1 : entry.2.campaignId = campaignId
  · by_cases h2 : entry.2.hasHeadline = true
    · by_cases h3 : truthyStr assetGroupName = true
      · have h3' := (truthyStr_iff_ne_empty _).1 h3
        by_cases h4 : env.toLowerCase (jsTrim entry.2.name) =
            env.toLowerCase (jsTrim assetGroupName)
        · simp [h1, h2, h3, h4]
        · simp [h1, h2, h3, h3', h4]
      · have h3' : assetGroupName = "" := by
          by_contra hne
          exact h3 ((truthyStr_iff_ne_empty _).2 hne)
        subst h3'
        have h3b : truthyStr "" = false := by decide
        simp [h1, h2, h3b]
    · have h2b : entry.2.hasHeadline = false := by simpa using h2
      simp [h1, h2b]
  · simp [h1]

/-- C18: `getTargetGroups` returns exactly the entries of the snapshot's `groupMap`, in
their order, whose `campaignId` equals the campaign id passed and whose `hasHeadline` flag
is set, restricted, when an asset group name is given, to those whose name equals it after
trimming both and lower-casing both with the runtime's `toLowerCase`, whatever that function
is; with no asset group name it returns all such groups.  When the result is empty for a
row that passed the row-level checks, `validateTextAsset` returns the status ERROR with the
single message 'Nincs aktív (nem feed-only) asset group' and no valid groups. -/
theorem C18_target_groups_of_a_row (env : Env) (item : Item)
    (campaignIdMap : List (String × String)) (gs : GroupStates) (timestamp : String) :
    (∀ campaign assetGroupName campaignId : String,
      getTargetGroups env campaign assetGroupName campaignId gs =
        (gs.groupMap.filter (fun e => decide (e.2.campaignId = campaignId ∧
          e.2.hasHeadline = true ∧
          (assetGroupName ≠ "" →
            env.toLowerCase (jsTrim e.2.name) =
              env.toLowerCase (jsTrim assetGroupName))))).map
          (fun e => (⟨e.1, e.2.name⟩ : Group))) ∧
    ((item.hasAction = true ∨ getClosestAction env item ≠ none) →
      textRowErrors env item campaignIdMap (item.field "Campaign Name")
        (jsUpper (item.field "Text Type")) (item.field "Text")
        ((if item.hasAction = true then item.action else getClosestAction env item).getD "")
          = [] →
      getTargetGroups env (item.field "Campaign Name") (item.field "Asset Group Name")
        (campaignIdOf campaignIdMap (item.field "Campaign Name")) gs = [] →
      ∃ row : Row,
        validateTextAsset env item campaignIdMap gs timestamp =
          .ok { status := "ERROR", rows := [row], validGroups := none } ∧
        row.status = "ERROR" ∧
        row.message = "Nincs aktív (nem feed-only) asset group") := by
  refine ⟨fun c n id => getTargetGroups_eq_filter env c n id gs, ?_⟩
  intro hClosest hErrors hEmpty
  have ht := (closest_truthy_iff env item).2 hClosest
  simp only [validateTextAsset]
  rw [if_neg (by rw [ht]; decide), if_neg (by rw [hErrors]; decide),
    if_pos (by rw [hEmpty]; rfl)]
  exact ⟨_, rfl, rfl, rfl⟩

/-- C18, witness: the row that adds 'Shop Now' to Group 1 when the only asset group of
Campaign A has no headline; and the sheet name ' Akció ' against the groups 'AKCIÓ',
'Akcio' and a feed-only 'akció' of the campaign and an 'AKCIÓ' of another campaign, in a
run whose `toLowerCase` lower-cases the letter 'Ó'. -/
theorem C18_target_groups_of_a_row_witness :
    (∃ row : Row,
      validateTextAsset sampleEnv sampleAddRow sampleCampaignIds feedOnlySnapshot "ts" =
        .ok { status := "ERROR", rows := [row], validGroups := none } ∧
      row.status = "ERROR" ∧
      row.message = "Nincs aktív (nem feed-only) asset group") ∧
    getTargetGroups sampleEnv "Campaign A" " Akció " "7" accentSnapshot =
      [⟨"ag1", "AKCIÓ"⟩] ∧
    getTargetGroups sampleEnv "Campaign A" "" "7" accentSnapshot =
      [⟨"ag1", "AKCIÓ"⟩, ⟨"ag2", "Akcio"⟩] :=
  ⟨(C18_target_groups_of_a_row sampleEnv sampleAddRow sampleCampaignIds feedOnlySnapshot
    "ts").2 (Or.inr (by decide)) (by decide) (by decide),
   ((C18_target_groups_of_a_row sampleEnv sampleAddRow sampleCampaignIds accentSnapshot
    "ts").1 "Campaign A" " Akció " "7").trans (by decide),
   ((C18_target_groups_of_a_row sampleEnv sampleAddRow sampleCampaignIds accentSnapshot
    "ts").1 "Campaign A" "" "7").trans (by decide)⟩

/-! ## The date range filter -/

theorem unitsLt_irrefl (l : List Nat) : unitsLt l l = false := by
  induction l with
  | nil => rfl
  | cons a l ih => simp [unitsLt, ih]

theorem jsLe_refl (s : String) : jsLe s s = true := by
  simp [jsLe, jsLt, unitsLt_irrefl]

theorem jsLt_ne (a b : String) (h : jsLt a b = true) : a ≠ b := by
  intro hab
  subst hab
  simp [jsLt, unitsLt_irrefl] at h

theorem filterByDateRange_eq (env : Env) (plusDays : String → Nat → String)
    (nowMinutes : Int) (rows : List Item) (todayStr : String) :
    filterByDateRange env plusDays nowMinutes rows todayStr =
      (rows.filter (fun item =>
        operationInRange env nowMinutes todayStr (plusDays todayStr VALIDATION_FUTURE_DAYS)
          item "Add Date" "Add Hour" ADD_WINDOW_TO_MIN ||
        operationInRange env nowMinutes todayStr (plusDays todayStr VALIDATION_FUTURE_DAYS)
          item "Remove Date" "Remove Hour" REMOVE_WINDOW_TO_MIN)).map (fun item =>
        { item with
          hasAddInRange := operationInRange env nowMinutes todayStr
            (plusDays todayStr VALIDATION_FUTURE_DAYS) item "Add Date" "Add Hour"
            ADD_WINDOW_TO_MIN,
          hasRemoveInRange := operationInRange env nowMinutes todayStr
            (plusDays todayStr VALIDATION_FUTURE_DAYS) item "Remove Date" "Remove Hour"
            REMOVE_WINDOW_TO_MIN }) := by
  have h := foldl_filter_push (fun item : Item =>
      operationInRange env nowMinutes todayStr (plusDays todayStr VALIDATION_FUTURE_DAYS)
        item "Add Date" "Add Hour" ADD_WINDOW_TO_MIN ||
      operationInRange env nowMinutes todayStr (plusDays todayStr VALIDATION_FUTURE_DAYS)
        item "Remove Date" "Remove Hour" REMOVE_WINDOW_TO_MIN)
    (fun item : Item => { item with
      hasAddInRange := operationInRange env nowMinutes todayStr
        (plusDays todayStr VALIDATION_FUTURE_DAYS) item "Add Date" "Add Hour"
        ADD_WINDOW_TO_MIN,
      hasRemoveInRange := operationInRange env nowMinutes todayStr
        (plusDays todayStr VALIDATION_FUTURE_DAYS) item "Remove Date" "Remove Hour"
        REMOVE_WINDOW_TO_MIN }) rows []
  rw [List.nil_append] at h
  rw [← h]
  rfl

theorem filterByDateRange_drops (env : Env) (plusDays : String → Nat → String)
    (nowMinutes : Int) (todayStr : String) (item : Item)
    (hAdd : operationInRange env nowMinutes todayStr (plusDays todayStr VALIDATION_FUTURE_DAYS)
      item "Add Date" "Add Hour" ADD_WINDOW_TO_MIN = false)
    (hRemove : operationInRange env nowMinutes todayStr
      (plusDays todayStr VALIDATION_FUTURE_DAYS) item "Remove Date" "Remove Hour"
      REMOVE_WINDOW_TO_MIN = false) (before after : List Item) :
    filterByDateRange env plusDays nowMinutes (before ++ item :: after) todayStr =
      filterByDateRange env plusDays nowMinutes (before ++ after) todayStr := by
  simp only [filterByDateRange_eq, List.filter_append, List.filter_cons, hAdd, hRemove,
    Bool.or_self, Bool.false_eq_true, if_false]

theorem operationInRange_unset (env : Env) (nowMinutes : Int) (todayStr maxFutureStr : String)
    (item : Item) (dateCol hourCol : String) (windowTo : Int)
    (h : (item.cell dateCol).truthy = false) :
    operationInRange env nowMinutes todayStr maxFutureStr item dateCol hourCol windowTo =
      false := by
  simp [operationInRange, h]

theorem operationInRange_today (env : Env) (nowMinutes : Int) (todayStr maxFutureStr : String)
    (item : Item) (dateCol hourCol : String) (windowTo : Int)
    (hCell : (item.cell dateCol).truthy = true)
    (hToday : env.formatDay (item.cell dateCol) = todayStr)
    (hHorizon : jsLe todayStr maxFutureStr = true) :
    operationInRange env nowMinutes todayStr maxFutureStr item dateCol hourCol windowTo =
      match parseCustomHourToInt (item.hourRaw hourCol) with
      | .ok (some value) => decide (nowMinutes < ((value : Int) + 1) * 60)
      | .ok none => decide (nowMinutes < windowTo)
      | .bad _ => false := by
  simp only [operationInRange, hCell, hToday, jsLe_refl, hHorizon, Bool.and_self, if_true]

/-- C20: an operation dated today, in a run where today is not after the end of the horizon.
`filterByDateRange` counts it as in range exactly when its hour has not fully elapsed: with
a custom hour `H` when `nowMinutes < (H + 1) * 60`, with an unset add-hour when
`nowMinutes < 60`, with an unset remove-hour when `nowMinutes < 1440`; a malformed hour is
never in range.  A row whose only operation is dated today and is not in range is not in
the output of the filter: the output is the same as without the row. -/
theorem C20_todays_operation_until_its_hour_ends (env : Env)
    (plusDays : String → Nat → String) (nowMinutes : Int) (todayStr : String) (item : Item)
    (hHorizon : jsLe todayStr (plusDays todayStr VALIDATION_FUTURE_DAYS) = true) :
    ((item.cell "Add Date").truthy = true →
      env.formatDay (item.cell "Add Date") = todayStr →
      (∀ H : Nat, parseCustomHourToInt (item.hourRaw "Add Hour") = .ok (some H) →
        (operationInRange env nowMinutes todayStr (plusDays todayStr VALIDATION_FUTURE_DAYS)
          item "Add Date" "Add Hour" ADD_WINDOW_TO_MIN = true ↔
            nowMinutes < ((H : Int) + 1) * 60)) ∧
      (parseCustomHourToInt (item.hourRaw "Add Hour") = .ok none →
        (operationInRange env nowMinutes todayStr (plusDays todayStr VALIDATION_FUTURE_DAYS)
          item "Add Date" "Add Hour" ADD_WINDOW_TO_MIN = true ↔ nowMinutes < 60)) ∧
      (∀ e, parseCustomHourToInt (item.hourRaw "Add Hour") = .bad e →
        operationInRange env nowMinutes todayStr (plusDays todayStr VALIDATION_FUTURE_DAYS)
          item "Add Date" "Add Hour" ADD_WINDOW_TO_MIN = false) ∧
      ((item.cell "Remove Date").truthy = false →
        operationInRange env nowMinutes todayStr (plusDays todayStr VALIDATION_FUTURE_DAYS)
          item "Add Date" "Add Hour" ADD_WINDOW_TO_MIN = false →
        ∀ before after : List Item,
          filterByDateRange env plusDays nowMinutes (before ++ item :: after) todayStr =
            filterByDateRange env plusDays nowMinutes (before ++ after) todayStr)) ∧
    ((item.cell "Remove Date").truthy = true →
      env.formatDay (item.cell "Remove Date") = todayStr →
      (∀ H : Nat, parseCustomHourToInt (item.hourRaw "Remove Hour") = .ok (some H) →
        (operationInRange env nowMinutes todayStr (plusDays todayStr VALIDATION_FUTURE_DAYS)
          item "Remove Date" "Remove Hour" REMOVE_WINDOW_TO_MIN = true ↔
            nowMinutes < ((H : Int) + 1) * 60)) ∧
      (parseCustomHourToInt (item.hourRaw "Remove Hour") = .ok none →
        (operationInRange env nowMinutes todayStr (plusDays todayStr VALIDATION_FUTURE_DAYS)
          item "Remove Date" "Remove Hour" REMOVE_WINDOW_TO_MIN = true ↔
            nowMinutes < 1440)) ∧
      (∀ e, parseCustomHourToInt (item.hourRaw "Remove Hour") = .bad e →
        operationInRange env nowMinutes todayStr (plusDays todayStr VALIDATION_FUTURE_DAYS)
          item "Remove Date" "Remove Hour" REMOVE_WINDOW_TO_MIN = false) ∧
      ((item.cell "Add Date").truthy = false →
        operationInRange env nowMinutes todayStr (plusDays todayStr VALIDATION_FUTURE_DAYS)
          item "Remove Date" "Remove Hour" REMOVE_WINDOW_TO_MIN = false →
        ∀ before after : List Item,
          filterByDateRange env plusDays nowMinutes (before ++ item :: after) todayStr =
            filterByDateRange env plusDays nowMinutes (before ++ after) todayStr)) := by
  constructor
  · intro hCell hToday
    have h := operationInRange_today env nowMinutes todayStr
      (plusDays todayStr VALIDATION_FUTURE_DAYS) item "Add Date" "Add Hour" ADD_WINDOW_TO_MIN
      hCell hToday hHorizon
    refine ⟨?_, ?_, ?_, ?_⟩
    · intro H hp
      rw [h, hp]
      simp
    · intro hp
      rw [h, hp]
      simp [ADD_WINDOW_TO_MIN]
    · intro e hp
      rw [h, hp]
    · intro hNo hOut before after
      exact filterByDateRange_drops env plusDays nowMinutes todayStr item hOut
        (operationInRange_unset _ _ _ _ _ _ _ _ hNo) before after
  · intro hCell hToday
    have h := operationInRange_today env nowMinutes todayStr
      (plusDays todayStr VALIDATION_FUTURE_DAYS) item "Remove Date" "Remove Hour"
      REMOVE_WINDOW_TO_MIN hCell hToday hHorizon
    refine ⟨?_, ?_, ?_, ?_⟩
    · intro H hp
      rw [h, hp]
      simp
    · intro hp
      rw [h, hp]
      simp [REMOVE_WINDOW_TO_MIN]
    · intro e hp
      rw [h, hp]
    · intro hNo hOut before after
      exact filterByDateRange_drops env plusDays nowMinutes todayStr item
        (operationInRange_unset _ _ _ _ _ _ _ _ hNo) hOut before after

/-- C20, witness: at 14:05 the add of today at hour 14 is in range, as 845 < 900. -/
theorem C20_todays_operation_until_its_hour_ends_witness :
    (operationInRange sampleEnv sampleNowMinutes "2025-11-16"
        (samplePlusDays "2025-11-16" VALIDATION_FUTURE_DAYS) sampleAddRow "Add Date" "Add Hour"
        ADD_WINDOW_TO_MIN = true ↔ sampleNowMinutes < ((14 : Nat) + 1) * 60) ∧
      sampleNowMinutes < ((14 : Nat) + 1) * 60 :=
  ⟨((C20_todays_operation_until_its_hour_ends sampleEnv samplePlusDays sampleNowMinutes
    "2025-11-16" sampleAddRow (by decide)).1 (by decide) (by decide)).1 14 (by decide),
    by decide⟩

/-- C13, as the code has it: a row whose add-date is set and whose add-hour text is
malformed.  If the add-date is today and the row has no remove-date, `filterByDateRange`
drops the row, whatever the time of the run is: the output is the same as without the row,
so no verdict row is written for it.  The malformed hour is reported only for a row that
reaches `validateTextAsset` without an action while one of its operations has not elapsed
(a later add-date, or another operation in range): then the result is the status ERROR
with one verdict row whose message names the invalid add hour, and no valid groups. -/
theorem C13_malformed_hour_dropped_today_reported_later (env : Env)
    (plusDays : String → Nat → String) (nowMinutes : Int) (todayStr : String) (item : Item)
    (hAdd : (item.cell "Add Date").truthy = true)
    (hBad : (parseCustomHourToInt (item.hourRaw "Add Hour")).isOk = false) :
    (env.formatDay (item.cell "Add Date") = todayStr →
      (item.cell "Remove Date").truthy = false →
      ∀ before after : List Item,
        filterByDateRange env plusDays nowMinutes (before ++ item :: after) todayStr =
          filterByDateRange env plusDays nowMinutes (before ++ after) todayStr) ∧
    (item.hasAction = false → getClosestAction env item ≠ none →
      ∀ (campaignIdMap : List (String × String)) (gs : GroupStates) (timestamp : String),
        ∃ row : Row,
          validateTextAsset env item campaignIdMap gs timestamp =
            .ok { status := "ERROR", rows := [row], validGroups := none } ∧
          row.status = "ERROR" ∧
          jsIncludes row.message "Érvénytelen Add Hour" = true) := by
  obtain ⟨e, he⟩ : ∃ e, parseCustomHourToInt (item.hourRaw "Add Hour") = .bad e := by
    cases hp : parseCustomHourToInt (item.hourRaw "Add Hour") with
    | ok value => rw [hp] at hBad; cases hBad
    | bad e => exact ⟨e, rfl⟩
  constructor
  · intro hToday hNo before after
    refine filterByDateRange_drops env plusDays nowMinutes todayStr item ?_
      (operationInRange_unset _ _ _ _ _ _ _ _ hNo) before after
    simp only [operationInRange, hAdd, hToday, he, if_true]
    split_ifs <;> rfl
  · intro hNoAction hClosest campaignIdMap gs timestamp
    have ht := (closest_truthy_iff env item).2 (Or.inr hClosest)
    have hraw := parse_bad_truthy _ _ he
    have hmem : ∀ c t x a, ("Érvénytelen " ++ "Add" ++ " Hour: " ++ e) ∈
        textRowErrors env item campaignIdMap c t x a := by
      intro c t x a
      simp [textRowErrors, hNoAction, hourFieldErrors, hAdd, hraw, he]
    simp only [validateTextAsset]
    rw [if_neg (by rw [ht]; decide),
      if_pos (List.length_pos.2 (List.ne_nil_of_mem (hmem _ _ _ _)))]
    refine ⟨_, rfl, rfl, ?_⟩
    exact jsIncludes_jsJoin_of _ _ _ _ (hmem _ _ _ _)
      (jsIncludes_append_left _ _ _ (by decide))

/-- C13, witness: the row that adds today with the hour text '25', in a run at 00:30. -/
theorem C13_malformed_hour_dropped_today_reported_later_witness :
    (∀ before after : List Item,
      filterByDateRange sampleEarlyEnv samplePlusDays 30 (before ++ sampleBadHourRow :: after)
          "2025-11-16" =
        filterByDateRange sampleEarlyEnv samplePlusDays 30 (before ++ after) "2025-11-16") ∧
    ∃ row : Row,
      validateTextAsset sampleEarlyEnv sampleBadHourRow sampleCampaignIds sampleSnapshot "ts" =
        .ok { status := "ERROR", rows := [row], validGroups := none } ∧
      row.status = "ERROR" ∧
      jsIncludes row.message "Érvénytelen Add Hour" = true :=
  ⟨(C13_malformed_hour_dropped_today_reported_later sampleEarlyEnv samplePlusDays 30
      "2025-11-16" sampleBadHourRow (by decide) (by decide)).1 (by decide) (by decide),
   (C13_malformed_hour_dropped_today_reported_later sampleEarlyEnv samplePlusDays 30
      "2025-11-16" sampleBadHourRow (by decide) (by decide)).2 (by decide) (by decide)
      sampleCampaignIds sampleSnapshot "ts"⟩

/-- C13, counterexample: a row whose add-date is today, whose add-hour text '25' does not
parse and which has no remove-date.  `filterByDateRange` returns nothing for it, both at
00:30 and at 14:05 of that day, so the row gets no verdict row. -/
theorem C13_counterexample_dropped_row :
    sampleEnv.formatDay (sampleBadHourRow.cell "Add Date") = "2025-11-16" ∧
    (parseCustomHourToInt (sampleBadHourRow.hourRaw "Add Hour")).isOk = false ∧
    (sampleBadHourRow.cell "Remove Date").truthy = false ∧
    filterByDateRange sampleEarlyEnv samplePlusDays 30 [sampleBadHourRow] "2025-11-16" = [] ∧
    filterByDateRange sampleEnv samplePlusDays sampleNowMinutes [sampleBadHourRow]
      "2025-11-16" = [] := by
  refine ⟨by decide, by decide, by decide, by decide, by decide⟩

/-! ## Default windows -/

/-- C23: with no custom hour `isWithinTimeWindow` is true exactly when
`defaultFrom ≤ now < defaultTo`.  With the configured constants the default ADD window
accepts exactly the minutes 0 to 59 and the default REMOVE window accepts exactly the
minutes 1380 to 1439; the minute 1440 is rejected. -/
theorem C23_default_windows (now defaultFrom defaultTo : Int) :
    (isWithinTimeWindow now none defaultFrom defaultTo = true ↔
        defaultFrom ≤ now ∧ now < defaultTo) ∧
    (isWithinTimeWindow now none ADD_WINDOW_FROM_MIN ADD_WINDOW_TO_MIN = true ↔
        0 ≤ now ∧ now ≤ 59) ∧
    (isWithinTimeWindow now none REMOVE_WINDOW_FROM_MIN REMOVE_WINDOW_TO_MIN = true ↔
        1380 ≤ now ∧ now ≤ 1439) ∧
    isWithinTimeWindow 1440 none REMOVE_WINDOW_FROM_MIN REMOVE_WINDOW_TO_MIN = false := by
  refine ⟨?_, ?_, ?_, ?_⟩
  · simp [isWithinTimeWindow]
  · simp only [isWithinTimeWindow, ADD_WINDOW_FROM_MIN, ADD_WINDOW_TO_MIN, Bool.and_eq_true,
      decide_eq_true_eq]
    omega
  · simp only [isWithinTimeWindow, REMOVE_WINDOW_FROM_MIN, REMOVE_WINDOW_TO_MIN,
      Bool.and_eq_true, decide_eq_true_eq]
    omega
  · decide

/-! ## String order and the closest action -/

theorem utf16Units_cons (c : Char) (l : List Char) :
    utf16Units (c :: l) =
      (if c.toNat < 65536 then [c.toNat]
        else [55296 + (c.toNat - 65536) / 1024, 56320 + (c.toNat - 65536) % 1024]) ++
        utf16Units l := by
  simp [utf16Units, List.flatMap_cons]

theorem char_toNat_valid (c : Char) :
    c.toNat < 55296 ∨ (57343 < c.toNat ∧ c.toNat < 1114112) := c.valid

theorem char_eq_of_toNat (c d : Char) (h : c.toNat = d.toNat) : c = d := by
  apply Char.ext
  apply UInt32.ext
  exact h

theorem utf16Units_injective (a b : List Char) (h : utf16Units a = utf16Units b) : a = b := by
  induction a generalizing b with
  | nil =>
      cases b with
      | nil => rfl
      | cons d b =>
          rw [utf16Units_cons] at h
          split_ifs at h <;> simp [utf16Units] at h
  | cons c a ih =>
      cases b with
      | nil =>
          rw [utf16Units_cons] at h
          split_ifs at h <;> simp [utf16Units] at h
      | cons d b =>
          have hc := char_toNat_valid c
          have hd := char_toNat_valid d
          rw [utf16Units_cons, utf16Units_cons] at h
          by_cases h1 : c.toNat < 65536 <;> by_cases h2 : d.toNat < 65536
          · simp only [h1, h2, if_true, List.cons_append, List.nil_append,
              List.cons.injEq] at h
            rw [char_eq_of_toNat c d h.1, ih b h.2]
          · simp only [h1, h2, if_true, if_false, List.cons_append, List.nil_append,
              List.cons.injEq] at h
            omega
          · simp only [h1, h2, if_true, if_false, List.cons_append, List.nil_append,
              List.cons.injEq] at h
            omega
          · simp only [h1, h2, if_false, List.cons_append, List.nil_append,
              List.cons.injEq] at h
            have : c.toNat = d.toNat := by omega
            rw [char_eq_of_toNat c d this, ih b h.2.2]

theorem unitsLt_trichotomy (l r : List Nat) :
    l = r ∨ unitsLt l r = true ∨ unitsLt r l = true := by
  induction l generalizing r with
  | nil => cases r <;> simp [unitsLt]
  | cons a l ih =>
      cases r with
      | nil => simp [unitsLt]
      | cons b r =>
          rcases Nat.lt_trichotomy a b with h | h | h
          · simp [unitsLt, h]
          · subst h
            rcases ih r with h | h | h
            · exact Or.inl (by rw [h])
            · simp [unitsLt, h]
            · simp [unitsLt, h]
          · simp [unitsLt, h]

theorem unitsLt_asymm (l r : List Nat) (h : unitsLt l r = true) : unitsLt r l = false := by
  induction l generalizing r with
  | nil => cases r <;> simp [unitsLt] at h ⊢
  | cons a l ih =>
      cases r with
      | nil => simp [unitsLt] at h
      | cons b r =>
          simp only [unitsLt, Bool.or_eq_true, decide_eq_true_eq, Bool.and_eq_true,
            beq_iff_eq] at h
          rcases h with h | ⟨h1, h2⟩
          · have h1 : ¬ b < a := by omega
            have h2 : ¬ b = a := by omega
            simp [unitsLt, h1, h2]
          · subst h1
            simp [unitsLt, ih r h2]

theorem jsLt_trichotomy (a b : String) : a = b ∨ jsLt a b = true ∨ jsLt b a = true := by
  rcases unitsLt_trichotomy (utf16Units a.data) (utf16Units b.data) with h | h | h
  · exact Or.inl (String.ext (utf16Units_injective _ _ h))
  · exact Or.inr (Or.inl h)
  · exact Or.inr (Or.inr h)

theorem jsLt_asymm (a b : String) (h : jsLt a b = true) : jsLt b a = false :=
  unitsLt_asymm _ _ h

theorem truthyStr_append_right (a b : String) (h : truthyStr b = true) :
    truthyStr (a ++ b) = true := by
  rw [truthyStr_iff] at *
  rw [String.data_append]
  intro hnil
  exact h (List.append_eq_nil.1 hnil).2

theorem windowEndStr_truthy (env : Env) (item : Item) (dateCol hourCol : String) (dflt : Nat)
    (s : String) (h : windowEndStr env item dateCol hourCol dflt = some s) :
    truthyStr s = true := by
  unfold windowEndStr at h
  simp only at h
  split_ifs at h
  · cases h
    exact truthyStr_append_right _ _ (by decide)
  · cases h
    exact truthyStr_append_right _ _ (by decide)

theorem dropElapsed_windowEnd (env : Env) (item : Item) (dateCol hourCol : String)
    (dflt : Nat) :
    dropElapsed env.nowStr (windowEndStr env item dateCol hourCol dflt) =
      (windowEndStr env item dateCol hourCol dflt).filter (fun s => jsLt env.nowStr s) := by
  cases h : windowEndStr env item dateCol hourCol dflt with
  | none => rfl
  | some s =>
      have ht := windowEndStr_truthy env item dateCol hourCol dflt s h
      simp only [dropElapsed, ht, jsLe, Bool.true_and, Option.filter]
      by_cases hj : jsLt env.nowStr s = true
      · simp [hj]
      · have hj2 : jsLt env.nowStr s = false := by simpa using hj
        simp [hj2]

theorem truthyOpt_filter_windowEnd (env : Env) (item : Item) (dateCol hourCol : String)
    (dflt : Nat) :
    truthyOpt ((windowEndStr env item dateCol hourCol dflt).filter
      (fun s => jsLt env.nowStr s)) =
      ((windowEndStr env item dateCol hourCol dflt).filter
        (fun s => jsLt env.nowStr s)).isSome := by
  cases h : windowEndStr env item dateCol hourCol dflt with
  | none => rfl
  | some s =>
      have ht := windowEndStr_truthy env item dateCol hourCol dflt s h
      simp only [Option.filter]
      by_cases hj : jsLt env.nowStr s = true
      · simp [hj, truthyOpt, ht]
      · have hj2 : jsLt env.nowStr s = false := by simpa using hj
        simp [hj2, truthyOpt]

theorem getClosestAction_eq (env : Env) (item : Item) :
    getClosestAction env item =
      match (windowEndStr env item "Add Date" "Add Hour" 0).filter
          (fun s => jsLt env.nowStr s),
        (windowEndStr env item "Remove Date" "Remove Hour" 23).filter
          (fun s => jsLt env.nowStr s) with
      | none, none => none
      | some _, none => some "ADD"
      | none, some _ => some "REMOVE"
      | some a, some r =>
          if a = r then some "ADD+REMOVE"
          else if jsLt a r = true then some "ADD" else some "REMOVE" := by
  unfold getClosestAction
  simp only [dropElapsed_windowEnd, truthyOpt_filter_windowEnd]
  cases (windowEndStr env item "Add Date" "Add Hour" 0).filter (fun s => jsLt env.nowStr s) <;>
    cases (windowEndStr env item "Remove Date" "Remove Hour" 23).filter
      (fun s => jsLt env.nowStr s) <;> simp

theorem filter_future_none (e : Option String) (now : String)
    (h : ¬ ∃ s, e = some s ∧ jsLt now s = true) :
    e.filter (fun s => jsLt now s) = none := by
  cases e with
  | none => rfl
  | some s =>
      have : jsLt now s = false := by
        cases hs : jsLt now s with
        | false => rfl
        | true => exact absurd ⟨s, rfl, hs⟩ h
      simp [Option.filter, this]

theorem filter_future_some (e : Option String) (now s : String)
    (he : e = some s) (h : jsLt now s = true) :
    e.filter (fun s => jsLt now s) = some s := by
  subst he
  simp [Option.filter, h]

/-- C21: `getClosestAction` at the instant `nowStr`.  The window end of an operation whose
date is set is the text of its date at hour + 1, or 00:00:00 of the next day for hour 23,
where the hour is the parsed hour field, 0 for an unset or unparsable add-hour and 23 for
an unset or unparsable remove-hour; an operation without a date has no window end.  The
result is null when neither window end is after `nowStr`, 'ADD' when only the add end is,
'REMOVE' when only the remove end is; when both are, it is 'ADD+REMOVE' if the two ends are
equal, 'ADD' if the add end is strictly earlier and 'REMOVE' if the remove end is strictly
earlier, and one of the three is the case. -/
theorem C21_getClosestAction_cases (env : Env) (item : Item) :
    (∀ (dateCol hourCol : String) (dflt : Nat),
      ((item.cell dateCol).truthy = false →
        windowEndStr env item dateCol hourCol dflt = none) ∧
      ((item.cell dateCol).truthy = true →
        (resolvedHour (item.hourRaw hourCol) dflt = 23 →
          windowEndStr env item dateCol hourCol dflt =
            some (env.formatNextDay (item.cell dateCol) ++ " 00:00:00")) ∧
        (resolvedHour (item.hourRaw hourCol) dflt ≠ 23 →
          windowEndStr env item dateCol hourCol dflt =
            some (env.formatDay (item.cell dateCol) ++ " " ++
              pad2 (resolvedHour (item.hourRaw hourCol) dflt + 1) ++ ":00:00"))) ∧
      (∀ v, parseCustomHourToInt (item.hourRaw hourCol) = .ok (some v) →
        resolvedHour (item.hourRaw hourCol) dflt = v) ∧
      (parseCustomHourToInt (item.hourRaw hourCol) = .ok none →
        resolvedHour (item.hourRaw hourCol) dflt = dflt) ∧
      (∀ e, parseCustomHourToInt (item.hourRaw hourCol) = .bad e →
        resolvedHour (item.hourRaw hourCol) dflt = dflt)) ∧
    ((¬ ∃ a, windowEndStr env item "Add Date" "Add Hour" 0 = some a ∧
          jsLt env.nowStr a = true) →
      (¬ ∃ r, windowEndStr env item "Remove Date" "Remove Hour" 23 = some r ∧
          jsLt env.nowStr r = true) →
      getClosestAction env item = none) ∧
    ((∃ a, windowEndStr env item "Add Date" "Add Hour" 0 = some a ∧
          jsLt env.nowStr a = true) →
      (¬ ∃ r, windowEndStr env item "Remove Date" "Remove Hour" 23 = some r ∧
          jsLt env.nowStr r = true) →
      getClosestAction env item = some "ADD") ∧
    ((¬ ∃ a, windowEndStr env item "Add Date" "Add Hour" 0 = some a ∧
          jsLt env.nowStr a = true) →
      (∃ r, windowEndStr env item "Remove Date" "Remove Hour" 23 = some r ∧
          jsLt env.nowStr r = true) →
      getClosestAction env item = some "REMOVE") ∧
    (∀ a r : String,
      windowEndStr env item "Add Date" "Add Hour" 0 = some a → jsLt env.nowStr a = true →
      windowEndStr env item "Remove Date" "Remove Hour" 23 = some r →
      jsLt env.nowStr r = true →
      (a = r → getClosestAction env item = some "ADD+REMOVE") ∧
      (jsLt a r = true → getClosestAction env item = some "ADD") ∧
      (jsLt r a = true → getClosestAction env item = some "REMOVE") ∧
      (a = r ∨ jsLt a r = true ∨ jsLt r a = true)) := by
  refine ⟨?_, ?_, ?_, ?_, ?_⟩
  · intro dateCol hourCol dflt
    refine ⟨?_, ?_, ?_, ?_, ?_⟩
    · intro h
      simp [windowEndStr, h]
    · intro h
      constructor
      · intro h23
        simp [windowEndStr, h, h23]
      · intro h23
        have : ¬ resolvedHour (item.hourRaw hourCol) dflt + 1 = 24 := by omega
        simp [windowEndStr, h, this]
    · intro v hv
      simp [resolvedHour, hv]
    · intro hv
      simp [resolvedHour, hv]
    · intro e hv
      simp [resolvedHour, hv]
  · intro hA hR
    rw [getClosestAction_eq, filter_future_none _ _ hA, filter_future_none _ _ hR]
  · rintro ⟨a, ha, hfa⟩ hR
    rw [getClosestAction_eq, filter_future_some _ _ a ha hfa, filter_future_none _ _ hR]
  · rintro hA ⟨r, hr, hfr⟩
    rw [getClosestAction_eq, filter_future_none _ _ hA, filter_future_some _ _ r hr hfr]
  · intro a r ha hfa hr hfr
    have key : getClosestAction env item =
        if a = r then some "ADD+REMOVE"
        else if jsLt a r = true then some "ADD" else some "REMOVE" := by
      rw [getClosestAction_eq, filter_future_some _ _ a ha hfa,
        filter_future_some _ _ r hr hfr]
    refine ⟨?_, ?_, ?_, jsLt_trichotomy a r⟩
    · intro h
      rw [key, if_pos h]
    · intro h
      rw [key, if_neg (jsLt_ne _ _ h), if_pos h]
    · intro h
      have h2 := jsLt_asymm _ _ h
      rw [key, if_neg (fun e => jsLt_ne _ _ h e.symm), h2]
      simp

theorem parse_value_le (raw : String) (v : Nat)
    (hv : parseCustomHourToInt raw = .ok (some v)) : v ≤ 23 := by
  rw [parseCustomHourToInt_eq] at hv
  by_cases hne : trimChars raw.data = []
  · rw [if_pos hne] at hv; cases hv
  · rw [if_neg hne] at hv
    cases hd : hourDigits (trimChars raw.data) with
    | none => rw [hd] at hv; cases hv
    | some ds =>
        rw [hd] at hv
        by_cases hgt : digitsValue ds > 23
        · simp only [hgt, if_true] at hv; cases hv
        · simp only [hgt, if_false] at hv
          cases hv
          omega

theorem resolvedHour_le (raw : String) (dflt : Nat) (hd : dflt ≤ 23) :
    resolvedHour raw dflt ≤ 23 := by
  unfold resolvedHour
  cases hp : parseCustomHourToInt raw with
  | ok value =>
      cases value with
      | none => exact hd
      | some v => exact parse_value_le raw v hp
  | bad e => exact hd

theorem pad2_injective (a b : Nat) (ha : a ≤ 24) (hb : b ≤ 24) (h : pad2 a = pad2 b) :
    a = b := by
  have key : ∀ n : Nat, n ≤ 24 → digitsValue (pad2 n).data = n := by
    intro n hn
    interval_cases n <;> decide
  rw [← key a ha, ← key b hb, h]

theorem string_append_right_cancel (a b c : String) (h : a ++ c = b ++ c) : a = b := by
  have := congrArg String.data h
  simp only [String.data_append] at this
  exact String.ext (List.append_cancel_right this)

theorem string_append_inj (a b c d : String) (hl : a.length = b.length)
    (h : a ++ c = b ++ d) : a = b ∧ c = d := by
  have := congrArg String.data h
  simp only [String.data_append] at this
  have hl2 : a.data.length = b.data.length := hl
  obtain ⟨h1, h2⟩ := List.append_inj this hl2
  exact ⟨String.ext h1, String.ext h2⟩

theorem string_append_inj_right (a b c d : String) (hl : c.length = d.length)
    (h : a ++ c = b ++ d) : a = b ∧ c = d := by
  have := congrArg String.data h
  simp only [String.data_append] at this
  have hl2 : c.data.length = d.data.length := hl
  obtain ⟨h1, h2⟩ := List.append_inj' this hl2
  exact ⟨String.ext h1, String.ext h2⟩

theorem pad2_length (n : Nat) (hn : n ≤ 24) : (pad2 n).length = 2 := by
  interval_cases n <;> decide

theorem closest_both_equal (env : Env) (item : Item)
    (h : getClosestAction env item = some "ADD+REMOVE") :
    ∃ s, windowEndStr env item "Add Date" "Add Hour" 0 = some s ∧
      windowEndStr env item "Remove Date" "Remove Hour" 23 = some s := by
  rw [getClosestAction_eq] at h
  have hmem : ∀ (e : Option String) (now x : String),
      e.filter (fun s => jsLt now s) = some x → e = some x := by
    intro e now x hx
    cases e with
    | none => simp [Option.filter] at hx
    | some y =>
        simp only [Option.filter] at hx
        split_ifs at hx
        exact hx
  have hne1 : ¬ ("ADD" = "ADD+REMOVE") := by decide
  have hne2 : ¬ ("REMOVE" = "ADD+REMOVE") := by decide
  cases ha : (windowEndStr env item "Add Date" "Add Hour" 0).filter
      (fun s => jsLt env.nowStr s) with
  | none =>
      rw [ha] at h
      cases hr : (windowEndStr env item "Remove Date" "Remove Hour" 23).filter
          (fun s => jsLt env.nowStr s) with
      | none => rw [hr] at h; cases h
      | some r => rw [hr] at h; exact absurd (Option.some.inj h) hne2
  | some a =>
      rw [ha] at h
      cases hr : (windowEndStr env item "Remove Date" "Remove Hour" 23).filter
          (fun s => jsLt env.nowStr s) with
      | none => rw [hr] at h; exact absurd (Option.some.inj h) hne1
      | some r =>
          rw [hr] at h
          simp only at h
          by_cases hEq : a = r
          · subst hEq
            exact ⟨a, hmem _ _ _ ha, hmem _ _ _ hr⟩
          · rw [if_neg hEq] at h
            split_ifs at h
            · exact absurd (Option.some.inj h) hne1
            · exact absurd (Option.some.inj h) hne2

theorem equal_ends_same_day_and_hour (env : Env) (item : Item) (s : String)
    (hNext : env.formatNextDay (item.cell "Add Date") =
        env.formatNextDay (item.cell "Remove Date") →
      env.formatDay (item.cell "Add Date") = env.formatDay (item.cell "Remove Date"))
    (ha : windowEndStr env item "Add Date" "Add Hour" 0 = some s)
    (hr : windowEndStr env item "Remove Date" "Remove Hour" 23 = some s) :
    (item.cell "Add Date").truthy = true ∧ (item.cell "Remove Date").truthy = true ∧
    env.formatDay (item.cell "Add Date") = env.formatDay (item.cell "Remove Date") ∧
    resolvedHour (item.hourRaw "Add Hour") 0 = resolvedHour (item.hourRaw "Remove Hour") 23 := by
  have hA := resolvedHour_le (item.hourRaw "Add Hour") 0 (by omega)
  have hR := resolvedHour_le (item.hourRaw "Remove Hour") 23 (by omega)
  have hca : (item.cell "Add Date").truthy = true := by
    cases h : (item.cell "Add Date").truthy with
    | true => rfl
    | false => simp [windowEndStr, h] at ha
  have hcr : (item.cell "Remove Date").truthy = true := by
    cases h : (item.cell "Remove Date").truthy with
    | true => rfl
    | false => simp [windowEndStr, h] at hr
  refine ⟨hca, hcr, ?_⟩
  simp only [windowEndStr, hca, hcr, if_true] at ha hr
  generalize resolvedHour (item.hourRaw "Add Hour") 0 = x at ha hA ⊢
  generalize resolvedHour (item.hourRaw "Remove Hour") 23 = y at hr hR ⊢
  by_cases hx : x + 1 = 24 <;> by_cases hy : y + 1 = 24
  · rw [if_pos hx] at ha
    rw [if_pos hy] at hr
    have := string_append_right_cancel _ _ _
      ((Option.some.inj ha).trans (Option.some.inj hr).symm)
    exact ⟨hNext this, by omega⟩
  · exfalso
    rw [if_pos hx] at ha
    rw [if_neg hy] at hr
    have e := (Option.some.inj ha).trans (Option.some.inj hr).symm
    rw [String.append_assoc, String.append_assoc] at e
    have hl : " 00:00:00".length = (" " ++ (pad2 (y + 1) ++ ":00:00")).length := by
      simp only [String.length_append, pad2_length (y + 1) (by omega)]
      rfl
    have := (string_append_inj_right _ _ _ _ hl e).2
    have hy2 : y ≤ 22 := by omega
    interval_cases y <;> exact absurd this (by decide)
  · exfalso
    rw [if_neg hx] at ha
    rw [if_pos hy] at hr
    have e := (Option.some.inj hr).trans (Option.some.inj ha).symm
    rw [String.append_assoc, String.append_assoc] at e
    have hl : " 00:00:00".length = (" " ++ (pad2 (x + 1) ++ ":00:00")).length := by
      simp only [String.length_append, pad2_length (x + 1) (by omega)]
      rfl
    have := (string_append_inj_right _ _ _ _ hl e).2
    have hx2 : x ≤ 22 := by omega
    interval_cases x <;> exact absurd this (by decide)
  · rw [if_neg hx] at ha
    rw [if_neg hy] at hr
    have e := (Option.some.inj ha).trans (Option.some.inj hr).symm
    rw [String.append_assoc, String.append_assoc, String.append_assoc, String.append_assoc]
      at e
    have hl : (" " ++ (pad2 (x + 1) ++ ":00:00")).length =
        (" " ++ (pad2 (y + 1) ++ ":00:00")).length := by
      simp only [String.length_append, pad2_length (x + 1) (by omega),
        pad2_length (y + 1) (by omega)]
    obtain ⟨e1, e2⟩ := string_append_inj_right _ _ _ _ hl e
    refine ⟨e1, ?_⟩
    have e3 : " " ++ (pad2 (x + 1) ++ ":00:00") = " " ++ (pad2 (y + 1) ++ ":00:00") := e2
    have e4 := (string_append_inj " " " " _ _ rfl e3).2
    have e5 := string_append_right_cancel _ _ _ e4
    have := pad2_injective (x + 1) (y + 1) (by omega) (by omega) e5
    omega

/-- C22: the ambiguous marker is always an ERROR.  For every text row and instant at which
`getClosestAction` returns 'ADD+REMOVE', `validateTextAsset` returns the status ERROR and no
valid groups, in preview mode as in any other.  Two dates of the row with the same next day
are the same day: so the add and the remove window ends are equal only when both fall on
the same calendar day at the same resolved hour, which the same-hour check rejects. -/
theorem C22_ambiguous_marker_is_error (env : Env) (item : Item)
    (campaignIdMap : List (String × String)) (gs : GroupStates) (timestamp : String)
    (hNext : env.formatNextDay (item.cell "Add Date") =
        env.formatNextDay (item.cell "Remove Date") →
      env.formatDay (item.cell "Add Date") = env.formatDay (item.cell "Remove Date"))
    (hClosest : getClosestAction env item = some "ADD+REMOVE") :
    (env.formatDay (item.cell "Add Date") = env.formatDay (item.cell "Remove Date") ∧
      resolvedHour (item.hourRaw "Add Hour") 0 =
        resolvedHour (item.hourRaw "Remove Hour") 23) ∧
    ∃ rows, validateTextAsset env item campaignIdMap gs timestamp =
      .ok { status := "ERROR", rows := rows, validGroups := none } := by
  obtain ⟨s, ha, hr⟩ := closest_both_equal env item hClosest
  obtain ⟨hca, hcr, hday, hhour⟩ :=
    equal_ends_same_day_and_hour env item s hNext ha hr
  refine ⟨⟨hday, hhour⟩, ?_⟩
  apply validateTextAsset_error_of_rowErrors
  intro effectiveAction hnil
  have hs : selfConflictErrors env item ≠ [] := by
    simp [selfConflictErrors, hca, hcr, hday, hhour]
  simp only [textRowErrors, List.append_eq_nil] at hnil
  exact hs hnil.1.1.1.2

/-- C22, witness: the row that adds and removes on 2025-11-20 at hour 14, validated on
2025-11-16: both window ends are 2025-11-20 15:00:00. -/
theorem C22_ambiguous_marker_is_error_witness :
    (sampleEnv.formatDay (sampleSameHourRow.cell "Add Date") =
        sampleEnv.formatDay (sampleSameHourRow.cell "Remove Date") ∧
      resolvedHour (sampleSameHourRow.hourRaw "Add Hour") 0 =
        resolvedHour (sampleSameHourRow.hourRaw "Remove Hour") 23) ∧
    ∃ rows, validateTextAsset sampleEnv sampleSameHourRow sampleCampaignIds sampleSnapshot
        "ts" = .ok { status := "ERROR", rows := rows, validGroups := none } :=
  C22_ambiguous_marker_is_error sampleEnv sampleSameHourRow sampleCampaignIds sampleSnapshot
    "ts" (by decide) (by decide)

/-! ## The retry loop of a mutation -/

/-- C26: a non-transient failure is surfaced immediately.  If the first call of the mutation
returns an unsuccessful result whose error text matches neither 'Another task is also
trying to change' nor 'CONCURRENT_MODIFICATION', or throws an exception whose message
matches none of RESOURCE_EXHAUSTED, INTERNAL, DEADLINE_EXCEEDED, then
`executeSingleMutation` returns after exactly one call and no sleep, with a row of status
ERROR whose message carries the error text. -/
theorem C26_non_transient_failure_is_immediate (script : Nat → MutationOutcome)
    (timestamp campaign groupName assetType textOrId action scheduled : String) :
    (∀ errorMessages : Option (List String),
      script 0 = .result false errorMessages →
      isRaceCondition (jsJoin "; " (errorMessages.getD ["ismeretlen hiba"])) = false →
      executeSingleMutation script timestamp campaign groupName assetType textOrId action
          scheduled =
        some { row := ⟨timestamp, campaign, groupName, assetType, textOrId, scheduled, action,
                 "ERROR", "Hiba: " ++ jsJoin "; " (errorMessages.getD ["ismeretlen hiba"])⟩,
               calls := 1, sleeps := [], afterLoop := false }) ∧
    (∀ message : String,
      script 0 = .thrown message →
      isTransientMutation message = false →
      executeSingleMutation script timestamp campaign groupName assetType textOrId action
          scheduled =
        some { row := ⟨timestamp, campaign, groupName, assetType, textOrId, scheduled, action,
                 "ERROR", "Exception: " ++ message⟩,
               calls := 1, sleeps := [], afterLoop := false }) := by
  constructor
  · intro errorMessages h0 hrace
    simp [executeSingleMutation, mutationLoop, RETRY_MAX_ATTEMPTS, h0, hrace]
  · intro message h0 htrans
    simp [executeSingleMutation, mutationLoop, RETRY_MAX_ATTEMPTS, h0, htrans]

/-- C26, witness: a first answer 'Asset group not found' is neither a race condition nor
transient; one call, no sleep, an ERROR row with the error text. -/
theorem C26_non_transient_failure_is_immediate_witness :
    executeSingleMutation (fun _ => .result false (some ["Asset group not found"])) "ts"
        "Campaign A" "Group 1" "HEADLINE" "Shop Now" "ADD" "2025-11-16 14:00-14:59" =
      some { row := ⟨"ts", "Campaign A", "Group 1", "HEADLINE", "Shop Now",
               "2025-11-16 14:00-14:59", "ADD", "ERROR",
               "Hiba: " ++ jsJoin "; " ((some ["Asset group not found"]).getD
                 ["ismeretlen hiba"])⟩,
             calls := 1, sleeps := [], afterLoop := false } :=
  (C26_non_transient_failure_is_immediate
    (fun _ => .result false (some ["Asset group not found"])) "ts" "Campaign A" "Group 1"
    "HEADLINE" "Shop Now" "ADD" "2025-11-16 14:00-14:59").1 _ rfl (by decide)

theorem mutationLoop_trace (script : Nat → MutationOutcome) (mk : String → String → Row) :
    ∀ (fuel attempt : Nat) (sleeps : List Nat),
      attempt ≤ RETRY_MAX_ATTEMPTS → RETRY_MAX_ATTEMPTS + 1 ≤ fuel + attempt →
      sleeps = (List.range attempt).map (fun k => RETRY_BASE_DELAY_MS * 2 ^ k) →
      (∀ i < attempt, retryableFailure (script i)) →
      ∃ run, mutationLoop script mk fuel attempt attempt sleeps = some run ∧
        1 ≤ run.calls ∧
        run.sleeps = (List.range (run.calls - 1)).map (fun k => RETRY_BASE_DELAY_MS * 2 ^ k) ∧
        (∀ i < run.calls - 1, retryableFailure (script i)) ∧
        ∃ status message, run.row = mk status message ∧
          (status = "SUCCESS" →
            message = "Végrehajtva (attempt " ++ toString run.calls ++ ")" ∧
            ∃ e, script (run.calls - 1) = .result true e) ∧
          ((∃ e, script (run.calls - 1) = .result true e) → status = "SUCCESS") := by
  intro fuel
  induction fuel with
  | zero =>
      intro attempt sleeps h1 h2
      omega
  | succ fuel ih =>
      intro attempt sleeps h1 h2 hs hr
      unfold mutationLoop
      rw [if_pos h1]
      have hstep : sleeps ++ [2 ^ attempt * RETRY_BASE_DELAY_MS] =
          (List.range (attempt + 1)).map (fun k => RETRY_BASE_DELAY_MS * 2 ^ k) := by
        rw [List.range_succ, List.map_append, hs]
        simp [Nat.mul_comm]
      have hne : ¬ ("ERROR" = "SUCCESS") := by decide
      cases hsc : script attempt with
      | result successful errorMessages =>
          cases successful with
          | true =>
              refine ⟨_, rfl, by simp, by simpa using hs, by simpa using hr, _, _, rfl, ?_,
                fun _ => rfl⟩
              intro _
              exact ⟨rfl, errorMessages, by simpa using hsc⟩
          | false =>
              simp only
              split
              · next hc =>
                simp only [Bool.and_eq_true, decide_eq_true_eq] at hc
                have hr2 : ∀ i < attempt + 1, retryableFailure (script i) := by
                  intro i hi
                  rcases Nat.lt_succ_iff_lt_or_eq.1 hi with h | h
                  · exact hr i h
                  · subst h
                    rw [hsc]
                    exact hc.1
                exact ih (attempt + 1) _ hc.2 (by omega) hstep hr2
              · refine ⟨_, rfl, by simp, by simpa using hs, by simpa using hr, _, _, rfl, ?_, ?_⟩
                · intro h
                  exact absurd h hne
                · rintro ⟨e, he⟩
                  simp only [Nat.add_sub_cancel] at he
                  rw [hsc] at he
                  cases he
      | thrown message =>
          simp only
          split
          · next hc =>
            simp only [Bool.and_eq_true, decide_eq_true_eq] at hc
            have hr2 : ∀ i < attempt + 1, retryableFailure (script i) := by
              intro i hi
              rcases Nat.lt_succ_iff_lt_or_eq.1 hi with h | h
              · exact hr i h
              · subst h
                rw [hsc]
                exact hc.1
            exact ih (attempt + 1) _ hc.2 (by omega) hstep hr2
          · refine ⟨_, rfl, by simp, by simpa using hs, by simpa using hr, _, _, rfl, ?_, ?_⟩
            · intro h
              exact absurd h hne
            · rintro ⟨e, he⟩
              simp only [Nat.add_sub_cancel] at he
              rw [hsc] at he
              cases he

/-- C27: `executeSingleMutation` sleeps only between a retryable failure and the next
attempt: it makes one sleep less than calls, the sleep before the `k`-th retry follows a
retryable failure of call `k` and lasts `RETRY_BASE_DELAY_MS * 2^(k-1)`, so the sleeps are
the first of 1000, 2000, 4000 ms; and the returned row has the status SUCCESS exactly when
the last call made succeeded, and then the message 'Végrehajtva (attempt n)' with `n` the
number of calls made. -/
theorem C27_backoff_doubles_and_attempt_is_call_count (script : Nat → MutationOutcome)
    (timestamp campaign groupName assetType textOrId action scheduled : String) :
    ∃ run, executeSingleMutation script timestamp campaign groupName assetType textOrId action
        scheduled = some run ∧
      run.sleeps.length + 1 = run.calls ∧
      (∀ k, 1 ≤ k → k ≤ run.sleeps.length →
        run.sleeps[k - 1]? = some (RETRY_BASE_DELAY_MS * 2 ^ (k - 1)) ∧
        retryableFailure (script (k - 1))) ∧
      run.sleeps = [1000, 2000, 4000].take (run.calls - 1) ∧
      (run.row.status = "SUCCESS" →
        run.row.message = "Végrehajtva (attempt " ++ toString run.calls ++ ")" ∧
        ∃ e, script (run.calls - 1) = .result true e) ∧
      ((∃ e, script (run.calls - 1) = .result true e) → run.row.status = "SUCCESS") := by
  obtain ⟨run, hrun, hpos, hsl, hretry, status, message, hrow, hsucc, hconv⟩ :=
    mutationLoop_trace script
      (fun status message =>
        ⟨timestamp, campaign, groupName, assetType, textOrId, scheduled, action, status, message⟩)
      (RETRY_MAX_ATTEMPTS + 2) 0 [] (Nat.zero_le _) (by omega) rfl
      (fun i hi => absurd hi (Nat.not_lt_zero i))
  obtain ⟨run', hrun', _, hhi, _⟩ :=
    mutationLoop_returns script
      (fun status message =>
        ⟨timestamp, campaign, groupName, assetType, textOrId, scheduled, action, status, message⟩)
      (RETRY_MAX_ATTEMPTS + 2) 0 0 [] (Nat.zero_le _) (by omega)
  rw [hrun] at hrun'
  cases hrun'
  have hle : run.calls ≤ 4 := by
    simp only [RETRY_MAX_ATTEMPTS] at hhi
    omega
  have hlen : run.sleeps.length = run.calls - 1 := by
    rw [hsl, List.length_map, List.length_range]
  refine ⟨run, hrun, by omega, ?_, ?_, ?_, ?_⟩
  · intro k hk1 hk2
    constructor
    · rw [hsl, List.getElem?_map, List.getElem?_range (by omega)]
      rfl
    · exact hretry (k - 1) (by omega)
  · rw [hsl]
    generalize run.calls = c at hpos hle
    interval_cases c <;> decide
  · intro hs
    rw [hrow] at hs ⊢
    exact hsucc hs
  · intro he
    rw [hrow]
    exact hconv he

/-! ## The frame of post-verification -/

theorem postVerifyRow_frame (p : Platform) (gs : GroupStates) (c : Nat) (input : Row) :
    (postVerifyRow p gs c input).1.timestamp = input.timestamp ∧
    (postVerifyRow p gs c input).1.campaign = input.campaign ∧
    (postVerifyRow p gs c input).1.groupName = input.groupName ∧
    (postVerifyRow p gs c input).1.assetType = input.assetType ∧
    (postVerifyRow p gs c input).1.textOrId = input.textOrId ∧
    (postVerifyRow p gs c input).1.scheduled = input.scheduled ∧
    (postVerifyRow p gs c input).1.action = input.action ∧
    (input.status ≠ "SUCCESS" →
      postVerifyRow p gs c input = (input, ⟨false, [], [], c⟩)) := by
  simp only [postVerifyRow]
  by_cases hs : input.status = "SUCCESS"
  · rw [if_neg (not_not.2 hs)]
    refine ⟨?_, ?_, ?_, ?_, ?_, ?_, ?_, fun h => absurd hs h⟩ <;> split_ifs <;> rfl
  · rw [if_pos hs]
    exact ⟨rfl, rfl, rfl, rfl, rfl, rfl, rfl, fun _ => rfl⟩

theorem postVerifyTraced_getElem?_some (p : Platform) (gs : GroupStates)
    (results : List Row) :
    ∀ (calls i : Nat) (input : Row), results[i]? = some input →
      ∃ c, (postVerifyTraced p gs calls results)[i]? = some (postVerifyRow p gs c input) := by
  induction results with
  | nil => intro calls i input h; simp at h
  | cons r rest ih =>
      intro calls i input h
      cases i with
      | zero =>
          simp only [List.getElem?_cons_zero, Option.some.injEq] at h
          subst h
          exact ⟨calls, by simp [postVerifyTraced]⟩
      | succ i =>
          simp only [List.getElem?_cons_succ] at h
          obtain ⟨c, hc⟩ := ih (postVerifyRow p gs calls r).2.calls i input h
          exact ⟨c, by simpa [postVerifyTraced] using hc⟩

/-- C28: `postVerifyAll` returns one row per input row in the same order.  The row at any
position has the columns 0 to 6 (timestamp, campaign, group, type, member, scheduled,
action) of the input row at that position; and an input row whose status is not SUCCESS
is returned unchanged, with no verification query, no sleep and no report call made for
it. -/
theorem C28_post_verify_frame (p : Platform) (gs : GroupStates) (calls : Nat)
    (results : List Row) :
    (postVerifyAll p calls results gs).length = results.length ∧
    ∀ (i : Nat) (input : Row), results[i]? = some input →
      ∃ (out : Row) (run : VerifyRun) (before : Nat),
        (postVerifyTraced p gs calls results)[i]? = some (out, run) ∧
        (postVerifyAll p calls results gs)[i]? = some out ∧
        (out, run) = postVerifyRow p gs before input ∧
        out.timestamp = input.timestamp ∧ out.campaign = input.campaign ∧
        out.groupName = input.groupName ∧ out.assetType = input.assetType ∧
        out.textOrId = input.textOrId ∧ out.scheduled = input.scheduled ∧
        out.action = input.action ∧
        (input.status ≠ "SUCCESS" →
          out = input ∧ run.queries = [] ∧ run.sleeps = [] ∧ run.calls = before) := by
  refine ⟨by simp [postVerifyAll, postVerifyTraced_length], ?_⟩
  intro i input hin
  obtain ⟨c, hc⟩ := postVerifyTraced_getElem?_some p gs results calls i input hin
  obtain ⟨h1, h2, h3, h4, h5, h6, h7, h8⟩ := postVerifyRow_frame p gs c input
  refine ⟨(postVerifyRow p gs c input).1, (postVerifyRow p gs c input).2, c, hc,
    by simp [postVerifyAll, hc], rfl, h1, h2, h3, h4, h5, h6, h7, ?_⟩
  intro hs
  rw [h8 hs]
  exact ⟨rfl, rfl, rfl, rfl⟩

/-! ## The frame of conflict detection and of deduplication -/

theorem escalateByLookup_frame (allRows : List Row) (conflicted : List Nat) (rows : List Row) :
    (escalateByLookup allRows conflicted rows).length = rows.length ∧
    ∀ (i : Nat) (row : Row), rows[i]? = some row →
      (escalateByLookup allRows conflicted rows)[i]? = some row ∨
      (escalateByLookup allRows conflicted rows)[i]? = some (escalate row) := by
  refine ⟨by simp [escalateByLookup], ?_⟩
  intro i row h
  simp only [escalateByLookup, List.getElem?_map, h, Option.map_some']
  cases rowIndexOf allRows row with
  | none => exact Or.inl rfl
  | some idx =>
      simp only
      split_ifs
      · exact Or.inr rfl
      · exact Or.inl rfl

/-- C24, what holds and where the code leaves the claim.  `detectCrossRowAddRemoveConflicts`
returns lists of the same length and order as its inputs, and the row at any position is
the input row or the input row with status ERROR and the conflict message, the columns 0 to
6 unchanged.  But a row is changed whenever another OK or WARNING row with the opposite
action has the same key text `campaign|groupName|assetType|textOrId|hour`, which does not
need the same campaign and group name: the validated rows of the ADD of 'Shop Now' in
campaign 'A|B', group 'C' and of the REMOVE of 'Shop Now' in campaign 'A', group 'B|C',
both OK, come back as ERROR. -/
theorem C24_conflict_frame_and_key_collision :
    (∀ allRows futureRows windowRows : List Row,
      (detectCrossRowAddRemoveConflicts allRows futureRows windowRows).allRows.length =
        allRows.length ∧
      (detectCrossRowAddRemoveConflicts allRows futureRows windowRows).futureRows.length =
        futureRows.length ∧
      (detectCrossRowAddRemoveConflicts allRows futureRows windowRows).windowRows.length =
        windowRows.length ∧
      (∀ (i : Nat) (row : Row), allRows[i]? = some row →
        (detectCrossRowAddRemoveConflicts allRows futureRows windowRows).allRows[i]? =
          some row ∨
        (detectCrossRowAddRemoveConflicts allRows futureRows windowRows).allRows[i]? =
          some { row with status := "ERROR",
                          message :=
                            "ADD és REMOVE ugyanarra az órára van ütemezve (sorok között)" }) ∧
      (∀ (i : Nat) (row : Row), futureRows[i]? = some row →
        (detectCrossRowAddRemoveConflicts allRows futureRows windowRows).futureRows[i]? =
          some row ∨
        (detectCrossRowAddRemoveConflicts allRows futureRows windowRows).futureRows[i]? =
          some { row with status := "ERROR",
                          message :=
                            "ADD és REMOVE ugyanarra az órára van ütemezve (sorok között)" }) ∧
      (∀ (i : Nat) (row : Row), windowRows[i]? = some row →
        (detectCrossRowAddRemoveConflicts allRows futureRows windowRows).windowRows[i]? =
          some row ∨
        (detectCrossRowAddRemoveConflicts allRows futureRows windowRows).windowRows[i]? =
          some { row with status := "ERROR",
                          message :=
                            "ADD és REMOVE ugyanarra az órára van ütemezve (sorok között)" })) ∧
    (validateAll sampleEnv noImageRows [barAddRow, barRemoveRow] [] barCampaignIds barSnapshot
        [] [] "ts").map
      (fun r => r.rows.map
        (fun row => (row.campaign, row.groupName, row.action, row.status))) =
      .ok [("A|B", "C", "ADD", "OK"), ("A", "B|C", "REMOVE", "OK")] ∧
    (validateAll sampleEnv noImageRows [barAddRow, barRemoveRow] [] barCampaignIds barSnapshot
        [] [] "ts").map
      (fun r => (detectCrossRowAddRemoveConflicts r.rows r.futureRows r.windowRows).allRows.map
        (fun row => (row.campaign, row.groupName, row.action, row.status))) =
      .ok [("A|B", "C", "ADD", "ERROR"), ("A", "B|C", "REMOVE", "ERROR")] := by
  refine ⟨?_, by decide, by decide⟩
  intro allRows futureRows windowRows
  unfold detectCrossRowAddRemoveConflicts
  by_cases h0 : (scanConflicts (collectOps allRows)).conflicted.length = 0
  · simp only [h0, if_true]
    exact ⟨trivial, trivial, trivial, fun i row h => Or.inl h, fun i row h => Or.inl h,
      fun i row h => Or.inl h⟩
  · simp only [h0, if_false]
    refine ⟨by simp, (escalateByLookup_frame _ _ _).1, (escalateByLookup_frame _ _ _).1, ?_,
      (escalateByLookup_frame _ _ _).2, (escalateByLookup_frame _ _ _).2⟩
    intro i row h
    rw [List.getElem?_map, List.getElem?_enum, h]
    simp only [Option.map_some']
    split_ifs
    · exact Or.inr rfl
    · exact Or.inl rfl

/-- C25, counterexample: `makeKey` writes the hour as `hour || 'null'`, so the custom hour 0
and the unset hour give the same key, and two pairs that differ in the hour component alone
are not both kept.  In a run at 00:30 the ADD of 'Shop Now' with the hour cell 0 and the ADD
of the same headline with an empty hour cell are both executable, with the custom hours 0
and null, and `deduplicateExecutableItems` drops the second; likewise it drops a REMOVE with
the unset hour after a REMOVE with the custom hour 0 of the same member. -/
theorem C25_counterexample_hour_zero_against_unset :
    (mainToExecution sampleEarlyEnv noImageRows false
        [sampleAddHourZeroRow, sampleAddNoHourRow] [] 30 sampleCampaignIds sampleSnapshot
        "ts").map
      (fun stage =>
        match stage with
        | .execute _ textItems _ =>
            textItems.map (fun e => (e.item.sheetRowNum, e.item.action, e.item.customHour))
        | .returned _ => []) =
      .ok [(11, some "ADD", some 0), (12, some "ADD", none)] ∧
    (mainToExecution sampleEarlyEnv noImageRows false
        [sampleAddHourZeroRow, sampleAddNoHourRow] [] 30 sampleCampaignIds sampleSnapshot
        "ts").map
      (fun stage =>
        match stage with
        | .execute _ textItems imageItems =>
            ((deduplicateExecutableItems textItems imageItems).textItems.map
              (fun e => (e.item.sheetRowNum, e.item.action, e.item.customHour)),
             (deduplicateExecutableItems textItems imageItems).duplicateCount)
        | .returned _ => ([], 0)) =
      .ok ([(11, some "ADD", some 0)], 1) ∧
    deduplicateExecutableItems
        [⟨{ sampleRemoveHourZeroRow with action := some "REMOVE", customHour := some 0 },
            [sampleGroup]⟩,
         ⟨{ sampleRemoveNoHourRow with action := some "REMOVE", customHour := none },
            [sampleGroup]⟩] [] =
      { textItems :=
          [⟨{ sampleRemoveHourZeroRow with action := some "REMOVE", customHour := some 0 },
            [sampleGroup]⟩],
        imageItems := [], duplicateCount := 1 } := by
  refine ⟨?_, ?_, ?_⟩ <;> decide

/-! ## Execution -/

theorem runMutations_returns (ads : AdsPlatform)
    (campaign assetType textOrId action scheduled : String) (names : List String) :
    ∀ (calls : ExecCalls) (results : List Row),
      ∃ rows calls', runMutations ads campaign assetType textOrId action scheduled names calls
          results = some (results ++ rows, calls') ∧
        rows.length = names.length ∧
        ∀ (i : Nat) (row : Row), rows[i]? = some row →
          row.campaign = campaign ∧ names[i]? = some row.groupName ∧
          row.assetType = assetType ∧ row.textOrId = textOrId ∧ row.scheduled = scheduled ∧
          row.action = action := by
  induction names with
  | nil =>
      intro calls results
      exact ⟨[], calls, by simp [runMutations], rfl, by simp⟩
  | cons name rest ih =>
      intro calls results
      obtain ⟨run, hrun, _, _, _, status, message, hrow, _⟩ :=
        mutationLoop_trace (fun n => ads.mutate (calls.mutations + n))
          (fun status message =>
            ⟨ads.clock calls.mutations, campaign, name, assetType, textOrId, scheduled, action,
              status, message⟩)
          (RETRY_MAX_ATTEMPTS + 2) 0 [] (Nat.zero_le _) (by omega) rfl
          (fun i hi => absurd hi (Nat.not_lt_zero i))
      obtain ⟨rows, calls', hrest, hlen, hrows⟩ :=
        ih { calls with mutations := calls.mutations + run.calls } (results ++ [run.row])
      refine ⟨run.row :: rows, calls', ?_, by simp [hlen], ?_⟩
      · simp only [runMutations, executeSingleMutation, hrun, hrest]
        simp
      · intro i row hi
        cases i with
        | zero =>
            simp only [List.getElem?_cons_zero, Option.some.injEq] at hi
            subst hi
            rw [hrow]
            simp
        | succ i =>
            simp only [List.getElem?_cons_succ] at hi ⊢
            exact hrows i row hi

theorem executeTextAsset_returns (ads : AdsPlatform) (env : Env) (gs : GroupStates)
    (calls : ExecCalls) (item : Item) (validGroups : List Group) :
    ∃ r, executeTextAsset ads env gs calls item validGroups = some r := by
  unfold executeTextAsset
  simp only
  by_cases hA : item.action = some "ADD"
  · rw [if_pos hA]
    generalize (if truthyOpt (findExistingTextAsset ads calls (item.field "Text")).1 = true then
        ((Except.ok ((findExistingTextAsset ads calls (item.field "Text")).1.getD "") :
          Except String String), (findExistingTextAsset ads calls (item.field "Text")).2)
      else createTextAsset ads (findExistingTextAsset ads calls (item.field "Text")).2
        (item.field "Text")) = asset
    obtain ⟨a, c⟩ := asset
    cases a with
    | error e => exact ⟨_, rfl⟩
    | ok rn =>
        obtain ⟨rows, calls', h, _⟩ := runMutations_returns ads (item.field "Campaign Name")
          (jsUpper (item.field "Text Type")) (item.field "Text") "ADD"
          (executionScheduled env item) (validGroups.map (fun g => g.name)) c []
        simp only [h]
        exact ⟨_, rfl⟩
  · rw [if_neg hA]
    by_cases hR : item.action = some "REMOVE"
    · rw [if_pos hR]
      obtain ⟨rows, calls', h, _⟩ := runMutations_returns ads (item.field "Campaign Name")
        (jsUpper (item.field "Text Type")) (item.field "Text") "REMOVE"
        (executionScheduled env item)
        ((validGroups.filter (fun g =>
          (ofType gs g (jsUpper (item.field "Text Type"))).any
            (fun x => x.text == item.field "Text"))).map (fun g => g.name)) calls []
      simp only [h]
      exact ⟨_, rfl⟩
    · rw [if_neg hR]
      exact ⟨_, rfl⟩

/-- C30, evaluated: the creation of a text asset is not guarded.  On a platform that does
not know the headline 'Shop Now' and refuses to create it, `executeAll` of the ADD of
'Shop Now' followed by the REMOVE of 'Old 1' ends with the exception of `createTextAsset`
and returns no row, although the REMOVE alone gives its result row on the same platform. -/
theorem C30_failed_creation_leaves_executeAll :
    executeAll refusedCreationPlatform sampleEnv sampleSnapshot noImageItems
        [sampleAddExecutable, sampleRemoveExecutable] [] ⟨0, 0, 0⟩ =
      some (.error "TEXT asset létrehozás sikertelen: Policy violation", ⟨1, 1, 0⟩) ∧
    executeAll refusedCreationPlatform sampleEnv sampleSnapshot noImageItems
        [sampleRemoveExecutable] [] ⟨0, 0, 0⟩ =
      some (.ok [⟨"ts", "Campaign A", "Group 1", "HEADLINE", "Old 1", "2025-11-16 14:00-14:59",
        "REMOVE", "SUCCESS", "Végrehajtva (attempt 1)"⟩], ⟨0, 0, 1⟩) := by
  refine ⟨?_, ?_⟩ <;> decide

/-! ## The hours of the scheduled columns -/

theorem matchDate_exact (d : List Char) (h : matchDate d = some []) :
    ∃ y1 y2 y3 y4 m1 m2 d1 d2 : Char,
      d = [y1, y2, y3, y4, '-', m1, m2, '-', d1, d2] ∧
      y1.isDigit = true ∧ y2.isDigit = true ∧ y3.isDigit = true ∧ y4.isDigit = true ∧
      m1.isDigit = true ∧ m2.isDigit = true ∧ d1.isDigit = true ∧ d2.isDigit = true := by
  rcases d with _ | ⟨y1, _ | ⟨y2, _ | ⟨y3, _ | ⟨y4, _ | ⟨s1, _ | ⟨m1, _ | ⟨m2, _ | ⟨s2, _ |
    ⟨d1, _ | ⟨d2, rest⟩⟩⟩⟩⟩⟩⟩⟩⟩⟩ <;> try (simp [matchDate] at h)
  obtain ⟨⟨⟨⟨⟨⟨⟨⟨⟨⟨h1, h2⟩, h3⟩, h4⟩, h5⟩, h6⟩, h7⟩, h8⟩, h9⟩, h10⟩, hr⟩ := h
  subst hr h5 h8
  exact ⟨y1, y2, y3, y4, m1, m2, d1, d2, rfl, h1, h2, h3, h4, h6, h7, h9, h10⟩

theorem matchDate_append (d tail : List Char) (h : matchDate d = some []) :
    matchDate (d ++ tail) = some tail := by
  obtain ⟨y1, y2, y3, y4, m1, m2, d1, d2, rfl, h1, h2, h3, h4, h6, h7, h9, h10⟩ :=
    matchDate_exact d h
  simp [matchDate, h1, h2, h3, h4, h6, h7, h9, h10]

theorem digit_bounds (c : Char) (h : c.isDigit = true) : 48 ≤ c.toNat ∧ c.toNat ≤ 57 := by
  simp only [Char.isDigit, Bool.and_eq_true, decide_eq_true_eq] at h
  exact ⟨h.1, h.2⟩

theorem digit_not_space (c : Char) (h : c.isDigit = true) : isJsSpace c = false := by
  have hb := digit_bounds c h
  simp only [isJsSpace, Bool.or_eq_false_iff, Bool.and_eq_false_imp, beq_eq_false_iff_ne,
    decide_eq_true_eq, decide_eq_false_iff_not]
  refine ⟨⟨⟨⟨⟨⟨⟨⟨⟨⟨⟨⟨⟨⟨?_, ?_⟩, ?_⟩, ?_⟩, ?_⟩, ?_⟩, ?_⟩, ?_⟩, ?_⟩, ?_⟩, ?_⟩, ?_⟩, ?_⟩, ?_⟩, ?_⟩ <;>
    omega

theorem matchDate_chars (d : List Char) (h : matchDate d = some []) :
    ∀ c ∈ d, c.isDigit = true ∨ c = '-' := by
  obtain ⟨y1, y2, y3, y4, m1, m2, d1, d2, rfl, h1, h2, h3, h4, h6, h7, h9, h10⟩ :=
    matchDate_exact d h
  intro c hc
  simp only [List.mem_cons, List.mem_singleton, List.not_mem_nil, or_false] at hc
  rcases hc with rfl | rfl | rfl | rfl | rfl | rfl | rfl | rfl | rfl | rfl <;> simp_all

theorem hourRange_chars (h : Nat) (hh : h ≤ 23) :
    ∃ a b : Char, a.isDigit = true ∧ b.isDigit = true ∧
      (hourRangeStr h).data = [a, b, ':', '0', '0', '-', a, b, ':', '5', '9'] ∧
      digitsValue [a, b] = h := by
  interval_cases h <;> refine ⟨_, _, ?_, ?_, rfl, ?_⟩ <;> decide

theorem matchScheduled_day_range (d rest : List Char) (h : Nat)
    (hd : matchDate d = some []) (hh : h ≤ 23) :
    matchScheduled (d ++ (' ' :: ((hourRangeStr h).data ++ rest))) = some (h, rest) := by
  obtain ⟨a, b, ha, hb, hdata, hval⟩ := hourRange_chars h hh
  have hsp : isJsSpace ' ' = true := by decide
  have hna := digit_not_space a ha
  have h0 : ('0' : Char).isDigit = true := by decide
  have h5 : ('5' : Char).isDigit = true := by decide
  have h9 : ('9' : Char).isDigit = true := by decide
  rw [hdata, ← hval]
  simp [matchScheduled, matchDate_append d _ hd, hsp, List.dropWhile, hna, matchHourColon,
    matchTwoDigits, ha, hb, h0, h5, h9]

theorem includesChars_head_mem (a : Char) (p l : List Char)
    (h : includesChars (a :: p) l = true) : a ∈ l := by
  obtain ⟨x, y, hxy⟩ := (includesChars_iff _ _).1 h
  rw [hxy]
  simp

theorem scanHours_nil (fuel : Nat) : scanHours fuel [] = [] := by
  cases fuel <;> rfl

theorem scanHours_match (l rest : List Char) (h : Nat)
    (hm : matchScheduled l = some (h, rest)) :
    scanHours l.length l = h :: scanHours (l.length - 1) rest := by
  cases l with
  | nil => simp [matchScheduled, matchDate] at hm
  | cons c l =>
      rw [List.length_cons, scanHours, hm]
      rfl

theorem day_range_chars (d : List Char) (h : Nat) (hd : matchDate d = some [])
    (hh : h ≤ 23) :
    ∀ c ∈ d ++ (' ' :: (hourRangeStr h).data),
      c.isDigit = true ∨ c = '-' ∨ c = ' ' ∨ c = ':' := by
  obtain ⟨a, b, ha, hb, hdata, _⟩ := hourRange_chars h hh
  intro c hc
  rw [hdata] at hc
  rcases List.mem_append.1 hc with hc | hc
  · rcases matchDate_chars d hd c hc with h1 | h1
    · exact Or.inl h1
    · exact Or.inr (Or.inl h1)
  · simp only [List.mem_cons, List.mem_singleton, List.not_mem_nil, or_false] at hc
    rcases hc with rfl | rfl | rfl | rfl | rfl | rfl | rfl | rfl | rfl | rfl | rfl | rfl <;>
      first
      | exact Or.inl ha
      | exact Or.inl hb
      | exact Or.inl (by decide)
      | exact Or.inr (Or.inl rfl)
      | exact Or.inr (Or.inr (Or.inl rfl))
      | exact Or.inr (Or.inr (Or.inr rfl))

theorem plain_char_ne (c x : Char) (hx : x.isDigit = false) (h1 : x ≠ '-') (h2 : x ≠ ' ')
    (h3 : x ≠ ':') (hc : c.isDigit = true ∨ c = '-' ∨ c = ' ' ∨ c = ':') : c ≠ x := by
  intro e
  subst e
  rcases hc with h | h | h | h
  · rw [hx] at h; cases h
  · exact h1 h
  · exact h2 h
  · exact h3 h

theorem extractHours_plain (s action : String) (hA : 'A' ∉ s.data) (hR : 'R' ∉ s.data) :
    extractHoursFromScheduled s action = scanHours s.data.length s.data := by
  have h1 : jsIncludes s "ADD:" = false := by
    cases h : jsIncludes s "ADD:" with
    | false => rfl
    | true => exact absurd (includesChars_head_mem 'A' _ _ h) hA
  have h2 : jsIncludes s "REMOVE:" = false := by
    cases h : jsIncludes s "REMOVE:" with
    | false => rfl
    | true => exact absurd (includesChars_head_mem 'R' _ _ h) hR
  simp [extractHoursFromScheduled, h1, h2]

theorem extractHours_execution (day : String) (h : Nat) (action : String)
    (hd : matchDate day.data = some []) (hh : h ≤ 23) :
    extractHoursFromScheduled (day ++ " " ++ hourRangeStr h) action = [h] := by
  have hdata : (day ++ " " ++ hourRangeStr h).data =
      day.data ++ (' ' :: ((hourRangeStr h).data ++ [])) := by
    simp [String.data_append]
  have hchars := day_range_chars day.data h hd hh
  have hA : 'A' ∉ (day ++ " " ++ hourRangeStr h).data := by
    intro hm
    rw [hdata, List.append_nil] at hm
    exact plain_char_ne _ 'A' (by decide) (by decide) (by decide) (by decide)
      (hchars _ hm) rfl
  have hR : 'R' ∉ (day ++ " " ++ hourRangeStr h).data := by
    intro hm
    rw [hdata, List.append_nil] at hm
    exact plain_char_ne _ 'R' (by decide) (by decide) (by decide) (by decide)
      (hchars _ hm) rfl
  rw [extractHours_plain _ _ hA hR, hdata]
  rw [scanHours_match _ _ _ (matchScheduled_day_range day.data [] h hd hh), scanHours_nil]

theorem matchLabelled_here (label d tail : List Char) (h : Nat)
    (hd : matchDate d = some []) (hh : h ≤ 23) :
    matchLabelled label (label ++ (' ' :: (d ++ (' ' :: ((hourRangeStr h).data ++ tail))))) =
      some h := by
  obtain ⟨y1, y2, y3, y4, m1, m2, d1, d2, hday, hy1, _⟩ := matchDate_exact d hd
  have hm := matchScheduled_day_range d tail h hd hh
  have hsp : isJsSpace ' ' = true := by decide
  have hny := digit_not_space y1 hy1
  have hdrop : (' ' :: (d ++ (' ' :: ((hourRangeStr h).data ++ tail)))).dropWhile isJsSpace =
      d ++ (' ' :: ((hourRangeStr h).data ++ tail)) := by
    rw [hday]
    simp only [List.cons_append, List.dropWhile, hsp, hny]
    rfl
  unfold matchLabelled
  rw [startsWithChars_append, if_pos rfl, List.drop_left, hdrop, hm]
  rfl

theorem firstLabelled_here (a : Char) (lab d tail : List Char) (h : Nat)
    (hd : matchDate d = some []) (hh : h ≤ 23) :
    firstLabelled (a :: lab)
      ((a :: lab) ++ (' ' :: (d ++ (' ' :: ((hourRangeStr h).data ++ tail))))) = some h := by
  have hm := matchLabelled_here (a :: lab) d tail h hd hh
  rw [List.cons_append] at hm ⊢
  rw [firstLabelled, hm]

theorem firstLabelled_skip (a : Char) (lab pre rest : List Char) (hpre : a ∉ pre) :
    firstLabelled (a :: lab) (pre ++ rest) = firstLabelled (a :: lab) rest := by
  induction pre with
  | nil => rfl
  | cons c pre ih =>
      have hc : a ≠ c := fun e => hpre (by rw [e]; exact List.mem_cons_self _ _)
      have hrest : a ∉ pre := fun hm => hpre (List.mem_cons_of_mem _ hm)
      rw [List.cons_append, firstLabelled]
      have : matchLabelled (a :: lab) (c :: (pre ++ rest)) = none := by
        simp [matchLabelled, startsWithChars, hc]
      rw [this]
      exact ih hrest

theorem extractHours_add (s : String) (d tail : List Char) (h : Nat)
    (hs : s.data = "ADD:".data ++ (' ' :: (d ++ (' ' :: ((hourRangeStr h).data ++ tail)))))
    (hd : matchDate d = some []) (hh : h ≤ 23) :
    extractHoursFromScheduled s "ADD" = [h] := by
  have hinc : jsIncludes s "ADD:" = true := by
    rw [jsIncludes, hs]
    exact includesChars_append _ [] _
  have hf : firstLabelled "ADD:".data s.data = some h := by
    rw [hs]
    exact firstLabelled_here 'A' ['D', 'D', ':'] d tail h hd hh
  simp [extractHoursFromScheduled, hinc, hf]

theorem extractHours_remove (s : String) (pre d : List Char) (h : Nat)
    (hs : s.data =
      pre ++ ("REMOVE:".data ++ (' ' :: (d ++ (' ' :: ((hourRangeStr h).data ++ []))))))
    (hpre : 'R' ∉ pre) (hd : matchDate d = some []) (hh : h ≤ 23) :
    extractHoursFromScheduled s "REMOVE" = [h] := by
  have hinc : jsIncludes s "REMOVE:" = true := by
    rw [jsIncludes, hs]
    exact includesChars_append _ _ _
  have hf : firstLabelled "REMOVE:".data s.data = some h := by
    rw [hs]
    have h1 := firstLabelled_skip 'R' ['E', 'M', 'O', 'V', 'E', ':'] pre
      ("REMOVE:".data ++ (' ' :: (d ++ (' ' :: ((hourRangeStr h).data ++ []))))) hpre
    have h2 := firstLabelled_here 'R' ['E', 'M', 'O', 'V', 'E', ':'] d [] h hd hh
    exact h1.trans h2
  have hne : ¬ ("REMOVE" = "ADD") := by decide
  simp [extractHoursFromScheduled, hinc, hf, hne]

theorem closest_add_date (env : Env) (item : Item)
    (h : getClosestAction env item = some "ADD") : (item.cell "Add Date").truthy = true := by
  by_contra hc
  have hw : windowEndStr env item "Add Date" "Add Hour" 0 = none := by
    simp [windowEndStr, hc]
  rw [getClosestAction_eq, hw] at h
  cases hr : (windowEndStr env item "Remove Date" "Remove Hour" 23).filter
      (fun s => jsLt env.nowStr s) <;> rw [hr] at h <;> simp [Option.filter] at h

theorem closest_remove_date (env : Env) (item : Item)
    (h : getClosestAction env item = some "REMOVE") :
    (item.cell "Remove Date").truthy = true := by
  by_contra hc
  have hw : windowEndStr env item "Remove Date" "Remove Hour" 23 = none := by
    simp [windowEndStr, hc]
  rw [getClosestAction_eq, hw] at h
  cases hr : (windowEndStr env item "Add Date" "Add Hour" 0).filter
      (fun s => jsLt env.nowStr s) <;> rw [hr] at h <;> simp [Option.filter] at h

theorem allScheduled_add (env : Env) (item : Item) (hP : item.hasAction = false)
    (hA : (item.cell "Add Date").truthy = true) :
    ∃ tail, (allScheduledActions env item).data =
      "ADD:".data ++ (' ' :: ((env.formatDay (item.cell "Add Date")).data ++
        (' ' :: ((hourRangeStr (resolvedHour (item.hourRaw "Add Hour") 0)).data ++ tail)))) := by
  by_cases hR : (item.cell "Remove Date").truthy = true
  · refine ⟨((if truthyStr ("ADD: " ++ env.formatDay (item.cell "Add Date") ++ " " ++
        hourRangeStr (resolvedHour (item.hourRaw "Add Hour") 0)) = true then " | " else "") ++
        "REMOVE: " ++ env.formatDay (item.cell "Remove Date") ++ " " ++
        hourRangeStr (resolvedHour (item.hourRaw "Remove Hour") 23)).data, ?_⟩
    simp only [allScheduledActions, hP, hA, hR, Bool.not_false, Bool.and_self, if_true,
      String.data_append]
    simp only [List.append_assoc]
    rfl
  · refine ⟨[], ?_⟩
    have hR2 : (item.cell "Remove Date").truthy = false := by simpa using hR
    simp only [allScheduledActions, hP, hA, hR2, Bool.not_false, Bool.and_self, if_true,
      Bool.and_false, Bool.false_eq_true, if_false, String.data_append]
    simp only [List.append_assoc, List.append_nil]
    rfl

theorem allScheduled_remove (env : Env) (item : Item) (hP : item.hasAction = false)
    (hR : (item.cell "Remove Date").truthy = true)
    (hDayA : (item.cell "Add Date").truthy = true →
      matchDate (env.formatDay (item.cell "Add Date")).data = some []) :
    ∃ pre, 'R' ∉ pre ∧ (allScheduledActions env item).data =
      pre ++ ("REMOVE:".data ++ (' ' :: ((env.formatDay (item.cell "Remove Date")).data ++
        (' ' :: ((hourRangeStr (resolvedHour (item.hourRaw "Remove Hour") 23)).data ++
          []))))) := by
  by_cases hA : (item.cell "Add Date").truthy = true
  · have ht : truthyStr ("ADD: " ++ env.formatDay (item.cell "Add Date") ++ " " ++
        hourRangeStr (resolvedHour (item.hourRaw "Add Hour") 0)) = true :=
      truthyStr_append_right _ _ (by
        rw [truthyStr_iff]
        obtain ⟨a, b, _, _, hdata, _⟩ :=
          hourRange_chars _ (resolvedHour_le (item.hourRaw "Add Hour") 0 (by decide))
        rw [hdata]
        simp)
    refine ⟨"ADD: ".data ++ ((env.formatDay (item.cell "Add Date")).data ++
      (' ' :: (hourRangeStr (resolvedHour (item.hourRaw "Add Hour") 0)).data)) ++ " | ".data,
      ?_, ?_⟩
    · have hchars := day_range_chars _ _ (hDayA hA)
        (resolvedHour_le (item.hourRaw "Add Hour") 0 (by decide))
      intro hm
      rcases List.mem_append.1 hm with hm | hm
      · rcases List.mem_append.1 hm with hm | hm
        · revert hm; decide
        · exact plain_char_ne _ 'R' (by decide) (by decide) (by decide) (by decide)
            (hchars _ hm) rfl
      · revert hm; decide
    · simp only [allScheduledActions, hP, hA, hR, Bool.not_false, Bool.and_self, if_true, ht,
        String.data_append]
      simp only [List.append_assoc, List.append_nil]
      rfl
  · have hA2 : (item.cell "Add Date").truthy = false := by simpa using hA
    refine ⟨[], by simp, ?_⟩
    have he : truthyStr "" = false := by decide
    simp only [allScheduledActions, hP, hA2, hR, Bool.not_false, Bool.and_self, if_true,
      Bool.and_false, Bool.false_eq_true, if_false, he, String.data_append]
    simp only [List.append_assoc, List.append_nil, List.nil_append]
    rfl

theorem extractHours_preview_add (env : Env) (item : Item) (hP : item.hasAction = false)
    (hA : (item.cell "Add Date").truthy = true)
    (hDayA : matchDate (env.formatDay (item.cell "Add Date")).data = some []) :
    extractHoursFromScheduled (allScheduledActions env item) "ADD" =
      [resolvedHour (item.hourRaw "Add Hour") 0] := by
  obtain ⟨tail, hdata⟩ := allScheduled_add env item hP hA
  exact extractHours_add _ _ tail _ hdata hDayA
    (resolvedHour_le (item.hourRaw "Add Hour") 0 (by decide))

theorem extractHours_preview_remove (env : Env) (item : Item) (hP : item.hasAction = false)
    (hR : (item.cell "Remove Date").truthy = true)
    (hDayA : (item.cell "Add Date").truthy = true →
      matchDate (env.formatDay (item.cell "Add Date")).data = some [])
    (hDayR : matchDate (env.formatDay (item.cell "Remove Date")).data = some []) :
    extractHoursFromScheduled (allScheduledActions env item) "REMOVE" =
      [resolvedHour (item.hourRaw "Remove Hour") 23] := by
  obtain ⟨pre, hpre, hdata⟩ := allScheduled_remove env item hP hR hDayA
  exact extractHours_remove _ pre _ _ hdata hpre hDayR
    (resolvedHour_le (item.hourRaw "Remove Hour") 23 (by decide))

theorem validateTextAsset_preview_columns (env : Env) (item : Item)
    (campaignIdMap : List (String × String)) (gs : GroupStates) (timestamp : String)
    (v : Validation) (vg : List Group) (hP : item.hasAction = false)
    (hv : validateTextAsset env item campaignIdMap gs timestamp = .ok v)
    (hvg : v.validGroups = some vg) :
    ∃ act, getClosestAction env item = some act ∧
      ∀ row ∈ v.rows, row.campaign = item.field "Campaign Name" ∧
        row.assetType = jsUpper (item.field "Text Type") ∧
        row.textOrId = item.field "Text" ∧
        row.scheduled = allScheduledActions env item ∧ row.action = act := by
  simp only [validateTextAsset] at hv
  rw [hP] at hv
  simp only [Bool.false_eq_true, if_false] at hv
  cases hc : getClosestAction env item with
  | none =>
      rw [hc] at hv
      simp only [truthyOpt, Bool.not_false, if_true] at hv
      cases hv
      cases hvg
  | some act =>
      rw [hc] at hv
      refine ⟨act, rfl, ?_⟩
      by_cases h1 : (!truthyOpt (some act)) = true
      · rw [if_pos h1] at hv
        cases hv
        cases hvg
      · rw [if_neg h1] at hv
        simp only [Option.getD_some] at hv
        generalize textRowErrors env item campaignIdMap (item.field "Campaign Name")
          (jsUpper (item.field "Text Type")) (item.field "Text") act = errors at hv
        by_cases h2 : errors.length > 0
        · rw [if_pos h2] at hv
          cases hv
          cases hvg
        · rw [if_neg h2] at hv
          generalize getTargetGroups env (item.field "Campaign Name")
            (item.field "Asset Group Name")
            (campaignIdOf campaignIdMap (item.field "Campaign Name")) gs = targets at hv
          by_cases h3 : targets.length = 0
          · rw [if_pos h3] at hv
            cases hv
            cases hvg
          · rw [if_neg h3] at hv
            cases hl : TEXT_LIMITS (jsUpper (item.field "Text Type")) with
            | none => rw [hl] at hv; cases hv
            | some limits =>
                rw [hl] at hv
                simp only [Except.ok.injEq] at hv
                subst hv
                intro row hrow
                simp only [List.map_map, List.mem_map, Function.comp] at hrow
                obtain ⟨g, _, rfl⟩ := hrow
                exact ⟨rfl, rfl, rfl, rfl, rfl⟩

theorem executeTextAsset_single (ads : AdsPlatform) (env : Env) (gs : GroupStates)
    (calls calls' : ExecCalls) (item : Item) (g : Group) (rows : List Row) (A : String)
    (hA : item.action = some A) (hAR : A = "ADD" ∨ A = "REMOVE")
    (hpresent : A = "REMOVE" →
      (ofType gs g (jsUpper (item.field "Text Type"))).any
        (fun x => x.text == item.field "Text") = true)
    (h : executeTextAsset ads env gs calls item [g] = some (.ok rows, calls')) :
    ∃ rowE, rows = [rowE] ∧ rowE.campaign = item.field "Campaign Name" ∧
      rowE.groupName = g.name ∧ rowE.assetType = jsUpper (item.field "Text Type") ∧
      rowE.textOrId = item.field "Text" ∧ rowE.scheduled = executionScheduled env item ∧
      rowE.action = A := by
  have single : ∀ (c : ExecCalls) (c' : ExecCalls) (rs : List Row),
      runMutations ads (item.field "Campaign Name") (jsUpper (item.field "Text Type"))
        (item.field "Text") A (executionScheduled env item) [g.name] c [] = some (rs, c') →
      ∃ rowE, rs = [rowE] ∧ rowE.campaign = item.field "Campaign Name" ∧
        rowE.groupName = g.name ∧ rowE.assetType = jsUpper (item.field "Text Type") ∧
        rowE.textOrId = item.field "Text" ∧ rowE.scheduled = executionScheduled env item ∧
        rowE.action = A := by
    intro c c' rs hrun
    obtain ⟨rows0, c0, h0, hlen, hcols⟩ := runMutations_returns ads
      (item.field "Campaign Name") (jsUpper (item.field "Text Type")) (item.field "Text") A
      (executionScheduled env item) [g.name] c []
    rw [h0] at hrun
    simp only [List.nil_append, Option.some.injEq, Prod.mk.injEq] at hrun
    obtain ⟨rfl, _⟩ := hrun
    cases rows0 with
    | nil => simp at hlen
    | cons r rest =>
        cases rest with
        | cons r2 rest2 => simp at hlen
        | nil =>
            obtain ⟨h1, h2, h3, h4, h5, h6⟩ := hcols 0 r rfl
            simp only [List.getElem?_cons_zero, Option.some.injEq] at h2
            exact ⟨r, rfl, h1, h2.symm, h3, h4, h5, h6⟩
  unfold executeTextAsset at h
  simp only at h
  rcases hAR with rfl | rfl
  · rw [if_pos hA] at h
    generalize (if truthyOpt (findExistingTextAsset ads calls (item.field "Text")).1 = true then
        ((Except.ok ((findExistingTextAsset ads calls (item.field "Text")).1.getD "") :
          Except String String), (findExistingTextAsset ads calls (item.field "Text")).2)
      else createTextAsset ads (findExistingTextAsset ads calls (item.field "Text")).2
        (item.field "Text")) = asset at h
    obtain ⟨a, c⟩ := asset
    cases a with
    | error e => simp at h
    | ok rn =>
        simp only [List.map_cons, List.map_nil] at h
        cases hr : runMutations ads (item.field "Campaign Name")
            (jsUpper (item.field "Text Type")) (item.field "Text") "ADD"
            (executionScheduled env item) [g.name] c [] with
        | none => rw [hr] at h; simp at h
        | some r =>
            rw [hr] at h
            simp only [Option.map_some', Option.some.injEq, Prod.mk.injEq,
              Except.ok.injEq] at h
            obtain ⟨rs, c2⟩ := r
            obtain ⟨rfl, _⟩ := h
            exact single c c2 _ hr
  · have hne : ¬ (item.action = some "ADD") := by rw [hA]; decide
    rw [if_neg hne, if_pos hA] at h
    have hp := hpresent rfl
    simp only [List.filter_cons, hp, if_true, List.filter_nil, List.map_cons,
      List.map_nil] at h
    cases hr : runMutations ads (item.field "Campaign Name")
        (jsUpper (item.field "Text Type")) (item.field "Text") "REMOVE"
        (executionScheduled env item) [g.name] calls [] with
    | none => rw [hr] at h; simp at h
    | some r =>
        rw [hr] at h
        simp only [Option.map_some', Option.some.injEq, Prod.mk.injEq,
          Except.ok.injEq] at h
        obtain ⟨rs, c2⟩ := r
        obtain ⟨rfl, _⟩ := h
        exact single calls c2 _ hr

theorem mergeRow_matched (verifiedResults : List Row) (rowV w : Row) (h : Nat)
    (hs : rowV.status ≠ "ERROR")
    (hV : extractHoursFromScheduled rowV.scheduled rowV.action = [h])
    (hw : w ∈ verifiedResults)
    (hW : h ∈ extractHoursFromScheduled w.scheduled w.action)
    (hk : mergeKey rowV h = mergeKey w h) :
    ∃ w2, w2 ∈ verifiedResults ∧
      (∃ h2 ∈ extractHoursFromScheduled w2.scheduled w2.action,
        mergeKey w2 h2 = mergeKey rowV h) ∧
      mergeRow (verifiedMapOf verifiedResults) rowV =
        { rowV with status := w2.status, message := w2.message } := by
  obtain ⟨w2, hget⟩ := verifiedMapOf_complete verifiedResults w h hw hW
  rw [← hk] at hget
  obtain ⟨hmem, hkey⟩ := verifiedMapOf_sound verifiedResults _ _ hget
  refine ⟨w2, hmem, hkey, ?_⟩
  unfold mergeRow
  rw [if_neg hs, hV]
  simp only [List.findSome?, hget]

theorem postVerifyRow_verified (p : Platform) (gs : GroupStates) (c : Nat) (input : Row)
    (hs : input.status = "SUCCESS") (hv : (postVerifyRow p gs c input).2.verified = true) :
    (postVerifyRow p gs c input).1 =
      { input with status := "SUCCESS", message := input.message ++ " [Verified ✓]" } := by
  unfold postVerifyRow at hv ⊢
  simp only at hv ⊢
  rw [if_neg (not_not.2 hs)] at hv ⊢
  by_cases hg : (!truthyOpt (findGroupResourceName p gs input.campaign input.groupName)) = true
  · rw [if_pos hg] at hv
    cases hv
  · rw [if_neg hg] at hv ⊢
    by_cases hr : (!(if input.assetType ∈ ["HEADLINE", "LONG_HEADLINE", "DESCRIPTION"] then
        verifyTextAssetLinkedWithRetry p c input.textOrId input.action
      else verifyImageAssetLinkedWithRetry p c input.textOrId input.action).verified) = true
    · rw [if_pos hr] at hv
      simp only [Bool.not_eq_true', ] at hr
      rw [hr] at hv
      cases hv
    · rw [if_neg hr]

theorem resolvedHour_of_parse (raw : String) (dflt : Nat) (value : Option Nat)
    (h : parseCustomHourToInt raw = .ok value) : resolvedHour raw dflt = value.getD dflt := by
  unfold resolvedHour
  rw [h]
  cases value <;> rfl

theorem merge_single_verified (p : Platform) (gs : GroupStates) (c : Nat) (rowV rowE : Row)
    (h : Nat) (hs : rowV.status ≠ "ERROR")
    (hV : extractHoursFromScheduled rowV.scheduled rowV.action = [h])
    (hE : extractHoursFromScheduled rowE.scheduled rowE.action = [h])
    (hk : mergeKey rowV h = mergeKey rowE h)
    (hS : rowE.status = "SUCCESS") (hver : (postVerifyRow p gs c rowE).2.verified = true) :
    mergeWindowAndExecutionRows [rowV] (postVerifyAll p c [rowE] gs) =
      [{ rowV with status := "SUCCESS", message := rowE.message ++ " [Verified ✓]" }] := by
  have hpv : postVerifyAll p c [rowE] gs =
      [{ rowE with status := "SUCCESS", message := rowE.message ++ " [Verified ✓]" }] := by
    simp only [postVerifyAll, postVerifyTraced, List.map_cons, List.map_nil]
    rw [postVerifyRow_verified p gs c rowE hS hver]
  rw [hpv]
  obtain ⟨w2, hmem, _, hmerge⟩ := mergeRow_matched
    [{ rowE with status := "SUCCESS", message := rowE.message ++ " [Verified ✓]" }] rowV
    { rowE with status := "SUCCESS", message := rowE.message ++ " [Verified ✓]" } h hs hV
    (List.mem_singleton.2 rfl) (by rw [hE]; exact List.mem_singleton.2 rfl) hk
  rw [List.mem_singleton] at hmem
  subst hmem
  simp only [mergeWindowAndExecutionRows, List.map_cons, List.map_nil, hmerge]

/-- C29: a text row validated in preview mode (as `main` validates), one of its target
groups `g` that is in `validGroups`, and the verdict row of `g`, whose action `A` is ADD or
REMOVE; the hour field of `A` parses to `value`, and the days of the set date cells are
printed as 'yyyy-MM-dd'.  Then `executeTextAsset` for the row with action `A` and custom hour
`value` on the group `g` returns, and when it returns rows it returns exactly one result
row; `extractHoursFromScheduled` gives the same single hour for the verdict row and for the
result row, and the keys that `mergeWindowAndExecutionRows` builds from the two rows are
equal.  Hence whenever the verified result row is among the verified rows the verdict row
takes the status and message of a verified row with this key (the fallback is not taken),
and when the mutation succeeded and the verification confirmed, the merge of the verdict row
with the verified result row has the status SUCCESS and the message of the result row
followed by ' [Verified ✓]'. -/
theorem C29_verdict_and_result_rows_share_the_merge_key
    (ads : AdsPlatform) (env : Env) (item : Item) (campaignIdMap : List (String × String))
    (gs : GroupStates) (timestamp : String) (v : Validation) (vg : List Group) (i : Nat)
    (g : Group) (rowV : Row) (value : Option Nat) (calls : ExecCalls)
    (hPreview : item.hasAction = false)
    (hv : validateTextAsset env item campaignIdMap gs timestamp = .ok v)
    (hvg : v.validGroups = some vg)
    (hg : (getTargetGroups env (item.field "Campaign Name") (item.field "Asset Group Name")
      (campaignIdOf campaignIdMap (item.field "Campaign Name")) gs)[i]? = some g)
    (hrow : v.rows[i]? = some rowV)
    (hgv : g ∈ vg)
    (hAct : rowV.action = "ADD" ∨ rowV.action = "REMOVE")
    (hHourA : rowV.action = "ADD" →
      parseCustomHourToInt (item.hourRaw "Add Hour") = .ok value)
    (hHourR : rowV.action = "REMOVE" →
      parseCustomHourToInt (item.hourRaw "Remove Hour") = .ok value)
    (hDayA : (item.cell "Add Date").truthy = true →
      matchDate (env.formatDay (item.cell "Add Date")).data = some [])
    (hDayR : (item.cell "Remove Date").truthy = true →
      matchDate (env.formatDay (item.cell "Remove Date")).data = some []) :
    ∃ res calls2,
      executeTextAsset ads env gs calls
        { item with action := some rowV.action, customHour := value } [g] =
          some (res, calls2) ∧
      ∀ rows, res = .ok rows →
        ∃ rowE h, rows = [rowE] ∧
          extractHoursFromScheduled rowV.scheduled rowV.action = [h] ∧
          extractHoursFromScheduled rowE.scheduled rowE.action = [h] ∧
          mergeKey rowV h = mergeKey rowE h ∧
          (∀ (p : Platform) (c : Nat) (verifiedResults : List Row),
            (postVerifyRow p gs c rowE).1 ∈ verifiedResults →
            ∃ w, w ∈ verifiedResults ∧
              (∃ h2 ∈ extractHoursFromScheduled w.scheduled w.action,
                mergeKey w h2 = mergeKey rowV h) ∧
              mergeRow (verifiedMapOf verifiedResults) rowV =
                { rowV with status := w.status, message := w.message }) ∧
          (∀ (p : Platform) (c : Nat), rowE.status = "SUCCESS" →
            (postVerifyRow p gs c rowE).2.verified = true →
            mergeWindowAndExecutionRows [rowV] (postVerifyAll p c rows gs) =
              [{ rowV with status := "SUCCESS",
                           message := rowE.message ++ " [Verified ✓]" }]) := by
  obtain ⟨act, hclos, hcols⟩ := validateTextAsset_preview_columns env item campaignIdMap gs
    timestamp v vg hPreview hv hvg
  obtain ⟨hc, ht, hx, hsched, hact⟩ := hcols rowV (List.getElem?_mem hrow)
  obtain ⟨limits, _, hname, hverd, hiff⟩ := validateTextAsset_row env item campaignIdMap gs
    timestamp v vg i g rowV hv hvg hg hrow
  have hs : rowV.status ≠ "ERROR" := by
    rcases hiff.1 hgv with h | h <;> rw [h] <;> decide
  have hpresent : rowV.action = "REMOVE" →
      (ofType gs g (jsUpper (item.field "Text Type"))).any
        (fun x => x.text == item.field "Text") = true := by
    intro hR
    rw [hR, textWarnings_remove, textGroupVerdict_remove] at hverd
    by_contra hp
    rw [if_neg hp] at hverd
    exact hs (congrArg Prod.fst hverd)
  obtain ⟨r, hr⟩ := executeTextAsset_returns ads env gs calls
    { item with action := some rowV.action, customHour := value } [g]
  refine ⟨r.1, r.2, hr, ?_⟩
  intro rows hres
  obtain ⟨rowE, hrows, e1, e2, e3, e4, e5, e6⟩ := executeTextAsset_single ads env gs calls r.2
    { item with action := some rowV.action, customHour := value } g rows rowV.action rfl hAct
    hpresent (by rw [hr, ← hres])
  have hkey : ∀ h : Nat, mergeKey rowV h = mergeKey rowE h := by
    intro h
    unfold mergeKey
    rw [hc, hname, ht, hx, e1, e2, e3, e4, e6]
    rfl
  have hhours : ∃ h, extractHoursFromScheduled rowV.scheduled rowV.action = [h] ∧
      extractHoursFromScheduled rowE.scheduled rowE.action = [h] := by
    rcases hAct with hA | hR
    · have hdate := closest_add_date env item (by rw [hclos, ← hact, hA])
      refine ⟨resolvedHour (item.hourRaw "Add Hour") 0, ?_, ?_⟩
      · rw [hsched, hA]
        exact extractHours_preview_add env item hPreview hdate (hDayA hdate)
      · rw [e5, e6, resolvedHour_of_parse _ 0 value (hHourA hA)]
        have hes : executionScheduled env
            { item with action := some rowV.action, customHour := value } =
            env.formatDay (item.cell "Add Date") ++ " " ++ hourRangeStr (value.getD 0) := by
          unfold executionScheduled
          have h1 : ({ item with action := some rowV.action, customHour := value } :
              Item).action = some "ADD" := by
            show some rowV.action = some "ADD"
            rw [hA]
          have h2 : (({ item with action := some rowV.action, customHour := value } :
              Item).cell "Add Date").truthy = true := hdate
          rw [if_pos ⟨h1, h2⟩]
          rfl
        rw [hes]
        exact extractHours_execution _ _ _ (hDayA hdate)
          (by rw [← resolvedHour_of_parse _ 0 value (hHourA hA)]
              exact resolvedHour_le _ 0 (by decide))
    · have hdate := closest_remove_date env item (by rw [hclos, ← hact, hR])
      refine ⟨resolvedHour (item.hourRaw "Remove Hour") 23, ?_, ?_⟩
      · rw [hsched, hR]
        exact extractHours_preview_remove env item hPreview hdate hDayA (hDayR hdate)
      · rw [e5, e6, resolvedHour_of_parse _ 23 value (hHourR hR)]
        have hes : executionScheduled env
            { item with action := some rowV.action, customHour := value } =
            env.formatDay (item.cell "Remove Date") ++ " " ++
              hourRangeStr (value.getD 23) := by
          unfold executionScheduled
          have h1 : ({ item with action := some rowV.action, customHour := value } :
              Item).action = some "REMOVE" := by
            show some rowV.action = some "REMOVE"
            rw [hR]
          have h2 : (({ item with action := some rowV.action, customHour := value } :
              Item).cell "Remove Date").truthy = true := hdate
          have hne : ¬ (({ item with action := some rowV.action, customHour := value } :
              Item).action = some "ADD" ∧
              (({ item with action := some rowV.action, customHour := value } :
                Item).cell "Add Date").truthy = true) := fun h => by
            have h3 := h1.symm.trans h.1
            revert h3
            decide
          rw [if_neg hne, if_pos ⟨h1, h2⟩]
          rfl
        rw [hes]
        exact extractHours_execution _ _ _ (hDayR hdate)
          (by rw [← resolvedHour_of_parse _ 23 value (hHourR hR)]
              exact resolvedHour_le _ 23 (by decide))
  obtain ⟨h, hV, hE⟩ := hhours
  refine ⟨rowE, h, hrows, hV, hE, hkey h, ?_, ?_⟩
  · intro p c verifiedResults hmem
    obtain ⟨f1, f2, f3, f4, f5, f6, f7, _⟩ := postVerifyRow_frame p gs c rowE
    refine mergeRow_matched verifiedResults rowV (postVerifyRow p gs c rowE).1 h hs hV hmem ?_ ?_
    · rw [f6, f7, hE]
      exact List.mem_singleton.2 rfl
    · rw [hkey h]
      unfold mergeKey
      rw [f2, f3, f4, f5, f7]
  · intro p c hS hver
    rw [hrows]
    exact merge_single_verified p gs c rowV rowE h hs hV hE (hkey h) hS hver

theorem C29_verdict_and_result_rows_share_the_merge_key_witness :
    ∃ res calls2,
      executeTextAsset refusedCreationPlatform sampleEnv sampleSnapshot ⟨0, 0, 0⟩
        { sampleRemoveExistingRow with
            action := some sampleRemoveExistingVerdictRow.action, customHour := some 14 }
        [sampleGroup] = some (res, calls2) ∧
      ∀ rows, res = .ok rows →
        ∃ rowE h, rows = [rowE] ∧
          extractHoursFromScheduled sampleRemoveExistingVerdictRow.scheduled
            sampleRemoveExistingVerdictRow.action = [h] ∧
          extractHoursFromScheduled rowE.scheduled rowE.action = [h] ∧
          mergeKey sampleRemoveExistingVerdictRow h = mergeKey rowE h ∧
          (∀ (p : Platform) (c : Nat) (verifiedResults : List Row),
            (postVerifyRow p sampleSnapshot c rowE).1 ∈ verifiedResults →
            ∃ w, w ∈ verifiedResults ∧
              (∃ h2 ∈ extractHoursFromScheduled w.scheduled w.action,
                mergeKey w h2 = mergeKey sampleRemoveExistingVerdictRow h) ∧
              mergeRow (verifiedMapOf verifiedResults) sampleRemoveExistingVerdictRow =
                { sampleRemoveExistingVerdictRow with
                    status := w.status, message := w.message }) ∧
          (∀ (p : Platform) (c : Nat), rowE.status = "SUCCESS" →
            (postVerifyRow p sampleSnapshot c rowE).2.verified = true →
            mergeWindowAndExecutionRows [sampleRemoveExistingVerdictRow]
                (postVerifyAll p c rows sampleSnapshot) =
              [{ sampleRemoveExistingVerdictRow with
                   status := "SUCCESS", message := rowE.message ++ " [Verified ✓]" }]) :=
  C29_verdict_and_result_rows_share_the_merge_key refusedCreationPlatform sampleEnv
    sampleRemoveExistingRow sampleCampaignIds sampleSnapshot "ts"
    ⟨"WARNING", [sampleRemoveExistingVerdictRow], some [sampleGroup]⟩ [sampleGroup] 0
    sampleGroup sampleRemoveExistingVerdictRow (some 14) ⟨0, 0, 0⟩
    (by decide) (by decide) rfl (by decide) rfl (by decide) (Or.inr rfl)
    (fun h => absurd h (by decide)) (fun _ => by decide)
    (fun h => absurd h (by decide)) (fun _ => by decide)

/-! ## The end of the retry loop -/

theorem mutationLoop_fuel (script : Nat → MutationOutcome) (mk : String → String → Row) :
    ∀ (fuel fuel2 attempt calls : Nat) (sleeps : List Nat),
      attempt ≤ RETRY_MAX_ATTEMPTS → RETRY_MAX_ATTEMPTS + 1 ≤ fuel + attempt →
      RETRY_MAX_ATTEMPTS + 1 ≤ fuel2 + attempt →
      mutationLoop script mk fuel attempt calls sleeps =
        mutationLoop script mk fuel2 attempt calls sleeps := by
  intro fuel
  induction fuel with
  | zero =>
      intro fuel2 attempt calls sleeps h1 h2
      omega
  | succ fuel ih =>
      intro fuel2 attempt calls sleeps h1 h2 h3
      cases fuel2 with
      | zero => omega
      | succ fuel2 =>
          unfold mutationLoop
          rw [if_pos h1, if_pos h1]
          cases hs : script calls with
          | result successful errorMessages =>
              cases successful with
              | true => rfl
              | false =>
                  simp only
                  split
                  · next hc =>
                    simp only [Bool.and_eq_true, decide_eq_true_eq] at hc
                    exact ih fuel2 (attempt + 1) (calls + 1) _ hc.2 (by omega) (by omega)
                  · rfl
          | thrown message =>
              simp only
              split
              · next hc =>
                simp only [Bool.and_eq_true, decide_eq_true_eq] at hc
                exact ih fuel2 (attempt + 1) (calls + 1) _ hc.2 (by omega) (by omega)
              · rfl

theorem mutationLoop_message (script : Nat → MutationOutcome) (mk : String → String → Row) :
    ∀ (fuel attempt calls : Nat) (sleeps : List Nat),
      attempt ≤ RETRY_MAX_ATTEMPTS → RETRY_MAX_ATTEMPTS + 1 ≤ fuel + attempt →
      ∃ run, mutationLoop script mk fuel attempt calls sleeps = some run ∧
        ((∃ n : Nat, run.row = mk "SUCCESS" ("Végrehajtva (attempt " ++ toString n ++ ")")) ∨
         (∃ t : String, run.row = mk "ERROR" ("Hiba: " ++ t)) ∨
         (∃ m : String, run.row = mk "ERROR" ("Exception: " ++ m))) := by
  intro fuel
  induction fuel with
  | zero =>
      intro attempt calls sleeps h1 h2
      omega
  | succ fuel ih =>
      intro attempt calls sleeps h1 h2
      unfold mutationLoop
      rw [if_pos h1]
      cases hs : script calls with
      | result successful errorMessages =>
          cases successful with
          | true => exact ⟨_, rfl, Or.inl ⟨_, rfl⟩⟩
          | false =>
              simp only
              split
              · next hc =>
                simp only [Bool.and_eq_true, decide_eq_true_eq] at hc
                exact ih (attempt + 1) (calls + 1) _ hc.2 (by omega)
              · exact ⟨_, rfl, Or.inr (Or.inl ⟨_, rfl⟩)⟩
      | thrown message =>
          simp only
          split
          · next hc =>
            simp only [Bool.and_eq_true, decide_eq_true_eq] at hc
            exact ih (attempt + 1) (calls + 1) _ hc.2 (by omega)
          · exact ⟨_, rfl, Or.inr (Or.inr ⟨_, rfl⟩)⟩

theorem head_ne_of_append (p t s : String) (c d : Char) (rest1 rest2 : List Char)
    (hp : p.data = c :: rest1) (hs : s.data = d :: rest2) (hcd : c ≠ d) : p ++ t ≠ s := by
  intro h
  have := congrArg String.data h
  rw [String.data_append, hp, hs] at this
  simp only [List.cons_append, List.cons.injEq] at this
  exact hcd this.1

/-- C37: the retry loop of `executeSingleMutation` always ends inside the loop.  For every
sequence of mutation outcomes the function returns, after at least one and at most four
calls of the mutation, and the returned row does not come from the statement after the
`while` loop: its message is not 'Max retry elérve (3)'.  The same run is the result with any
larger bound on the number of passes, so the bound of the embedding cuts nothing off. -/
theorem C37_retry_loop_ends_inside_the_loop (script : Nat → MutationOutcome)
    (timestamp campaign groupName assetType textOrId action scheduled : String) :
    ∃ run, executeSingleMutation script timestamp campaign groupName assetType textOrId action
        scheduled = some run ∧
      1 ≤ run.calls ∧ run.calls ≤ RETRY_MAX_ATTEMPTS + 1 ∧
      run.afterLoop = false ∧
      run.row.message ≠ "Max retry elérve (" ++ toString RETRY_MAX_ATTEMPTS ++ ")" ∧
      ∀ fuel, RETRY_MAX_ATTEMPTS + 1 ≤ fuel →
        mutationLoop script
          (fun status message =>
            ⟨timestamp, campaign, groupName, assetType, textOrId, scheduled, action, status,
              message⟩) fuel 0 0 [] = some run := by
  obtain ⟨run, hrun, hlo, hhi, hal⟩ :=
    mutationLoop_returns script
      (fun status message =>
        ⟨timestamp, campaign, groupName, assetType, textOrId, scheduled, action, status, message⟩)
      (RETRY_MAX_ATTEMPTS + 2) 0 0 [] (Nat.zero_le _) (by omega)
  obtain ⟨run2, hrun2, hmsg⟩ :=
    mutationLoop_message script
      (fun status message =>
        ⟨timestamp, campaign, groupName, assetType, textOrId, scheduled, action, status, message⟩)
      (RETRY_MAX_ATTEMPTS + 2) 0 0 [] (Nat.zero_le _) (by omega)
  rw [hrun] at hrun2
  cases hrun2
  refine ⟨run, hrun, by omega, by omega, hal, ?_, ?_⟩
  · rcases hmsg with ⟨n, h⟩ | ⟨t, h⟩ | ⟨m, h⟩ <;> rw [h] <;> simp only
    · rw [String.append_assoc]
      exact head_ne_of_append _ _ _ 'V' 'M' _ _ rfl rfl (by decide)
    · exact head_ne_of_append _ _ _ 'H' 'M' _ _ rfl rfl (by decide)
    · exact head_ne_of_append _ _ _ 'E' 'M' _ _ rfl rfl (by decide)
  · intro fuel hf
    rw [← hrun]
    exact mutationLoop_fuel script _ fuel (RETRY_MAX_ATTEMPTS + 2) 0 0 [] (Nat.zero_le _)
      (by omega) (by omega)

/-! ## The documented examples of the hour extraction -/

theorem matchDate_length (l r : List Char) (h : matchDate l = some r) :
    r.length + 10 = l.length := by
  unfold matchDate at h
  split at h
  · split_ifs at h
    cases h
    simp
  · cases h

theorem matchHourColon_length (l ds r : List Char) (h : matchHourColon l = some (ds, r)) :
    r.length < l.length := by
  unfold matchHourColon at h
  split at h
  · split_ifs at h <;> cases h <;> (simp only [List.length_cons]; omega)
  · split_ifs at h
    cases h
    simp
  · cases h

theorem matchTwoDigits_length (l r : List Char) (h : matchTwoDigits l = some r) :
    r.length < l.length := by
  unfold matchTwoDigits at h
  split at h
  · split_ifs at h
    cases h
    simp only [List.length_cons]
    omega
  · cases h

theorem dropWhile_length_le {α : Type} (p : α → Bool) (l : List α) :
    (l.dropWhile p).length ≤ l.length := by
  induction l with
  | nil => simp
  | cons a l ih =>
      simp only [List.dropWhile]
      split
      · simp only [List.length_cons]; omega
      · simp

theorem matchScheduled_length (l rest : List Char) (h : Nat)
    (hm : matchScheduled l = some (h, rest)) : rest.length < l.length := by
  unfold matchScheduled at hm
  cases h1 : matchDate l with
  | none => rw [h1] at hm; cases hm
  | some r1 =>
      rw [h1] at hm
      have l1 := matchDate_length l r1 h1
      cases r1 with
      | nil => cases hm
      | cons w r1t =>
          simp only at hm
          split_ifs at hm
          cases h2 : matchHourColon ((w :: r1t).dropWhile isJsSpace) with
          | none => rw [h2] at hm; cases hm
          | some x =>
              obtain ⟨ds, r2⟩ := x
              rw [h2] at hm
              have l2 := matchHourColon_length _ ds r2 h2
              have l2b := dropWhile_length_le isJsSpace (w :: r1t)
              simp only at hm
              cases h3 : matchTwoDigits r2 with
              | none => rw [h3] at hm; cases hm
              | some r3 =>
                  rw [h3] at hm
                  have l3 := matchTwoDigits_length r2 r3 h3
                  cases r3 with
                  | nil => cases hm
                  | cons dash r4 =>
                      simp only at hm
                      split_ifs at hm
                      cases h4 : matchHourColon r4 with
                      | none => rw [h4] at hm; cases hm
                      | some y =>
                          obtain ⟨ds2, r5⟩ := y
                          rw [h4] at hm
                          have l4 := matchHourColon_length r4 ds2 r5 h4
                          simp only at hm
                          cases h5 : matchTwoDigits r5 with
                          | none => rw [h5] at hm; cases hm
                          | some r6 =>
                              rw [h5] at hm
                              have l5 := matchTwoDigits_length r5 r6 h5
                              simp only [Option.some.injEq, Prod.mk.injEq] at hm
                              obtain ⟨_, rfl⟩ := hm
                              simp only [List.length_cons] at *
                              omega

theorem scanHours_fuel : ∀ (n : Nat) (l : List Char) (fuel : Nat),
    l.length ≤ n → l.length ≤ fuel → scanHours fuel l = scanHours l.length l := by
  intro n
  induction n with
  | zero =>
      intro l fuel hn _
      have : l = [] := List.length_eq_zero.1 (by omega)
      subst this
      rw [scanHours_nil, scanHours_nil]
  | succ n ih =>
      intro l fuel hn hf
      cases l with
      | nil => rw [scanHours_nil, scanHours_nil]
      | cons c l =>
          cases fuel with
          | zero => simp at hf
          | succ fuel =>
              simp only [List.length_cons] at hn hf ⊢
              rw [scanHours, scanHours]
              cases hm : matchScheduled (c :: l) with
              | none =>
                  simp only
                  exact ih l fuel (by omega) (by omega)
              | some x =>
                  obtain ⟨h, rest⟩ := x
                  simp only
                  have hl := matchScheduled_length _ _ _ hm
                  simp only [List.length_cons] at hl
                  rw [ih rest fuel (by omega) (by omega), ih rest l.length (by omega) (by omega)]

theorem scanHours_matched (l rest : List Char) (h : Nat)
    (hm : matchScheduled l = some (h, rest)) :
    scanHours l.length l = h :: scanHours rest.length rest := by
  have hl := matchScheduled_length _ _ _ hm
  rw [scanHours_match l rest h hm]
  rw [scanHours_fuel rest.length rest (l.length - 1) (Nat.le_refl _) (by omega)]

theorem matchScheduled_nondigit (c : Char) (l : List Char) (hc : c.isDigit = false) :
    matchScheduled (c :: l) = none := by
  have : matchDate (c :: l) = none := by
    unfold matchDate
    split
    · next heq =>
      simp only [List.cons.injEq] at heq
      obtain ⟨rfl, _⟩ := heq
      simp [hc]
    · rfl
  simp [matchScheduled, this]

theorem scanHours_skip (pre rest : List Char) (hpre : ∀ c ∈ pre, c.isDigit = false) :
    scanHours (pre ++ rest).length (pre ++ rest) = scanHours rest.length rest := by
  induction pre with
  | nil => rfl
  | cons c pre ih =>
      have hc := hpre c (List.mem_cons_self _ _)
      rw [List.cons_append, List.length_cons, scanHours, matchScheduled_nondigit c _ hc]
      exact ih (fun x hx => hpre x (List.mem_cons_of_mem _ hx))

theorem scanHours_none (l : List Char) (h : ∀ t, t <:+ l → matchScheduled t = none) :
    ∀ fuel, scanHours fuel l = [] := by
  induction l with
  | nil => intro fuel; exact scanHours_nil fuel
  | cons c l ih =>
      intro fuel
      cases fuel with
      | zero => rfl
      | succ fuel =>
          rw [scanHours, h _ (List.suffix_refl _)]
          exact ih (fun t ht => h t (ht.trans (List.suffix_cons c l))) fuel

theorem firstLabelled_none (label l : List Char)
    (h : ∀ t, t <:+ l → matchScheduled t = none) : firstLabelled label l = none := by
  induction l with
  | nil => rfl
  | cons c l ih =>
      have hml : matchLabelled label (c :: l) = none := by
        unfold matchLabelled
        split_ifs
        · have hsuf : ((c :: l).drop label.length).dropWhile isJsSpace <:+ c :: l :=
            (List.dropWhile_suffix _).trans (List.drop_suffix _ _)
          rw [h _ hsuf]
          rfl
        · rfl
      rw [firstLabelled, hml]
      exact ih (fun t ht => h t (ht.trans (List.suffix_cons c l)))

theorem extractHours_none (s action : String)
    (h : ∀ t, t <:+ s.data → matchScheduled t = none) :
    extractHoursFromScheduled s action = [] := by
  have h1 := firstLabelled_none "ADD:".data s.data h
  have h2 := firstLabelled_none "REMOVE:".data s.data h
  have h3 := scanHours_none s.data h s.data.length
  unfold extractHoursFromScheduled
  simp only [h1, h2, h3, ite_self]

theorem extractHours_both (s : String) (pre1 pre2 d1 d2 : List Char) (h1 h2 : Nat)
    (hs : s.data = pre1 ++ (d1 ++ (' ' :: ((hourRangeStr h1).data ++
      (pre2 ++ (d2 ++ (' ' :: ((hourRangeStr h2).data ++ []))))))))
    (hp1 : ∀ c ∈ pre1, c.isDigit = false) (hp2 : ∀ c ∈ pre2, c.isDigit = false)
    (hd1 : matchDate d1 = some []) (hd2 : matchDate d2 = some [])
    (hh1 : h1 ≤ 23) (hh2 : h2 ≤ 23) :
    extractHoursFromScheduled s "ADD+REMOVE" = [h1, h2] := by
  have hscan : scanHours s.data.length s.data = [h1, h2] := by
    rw [hs, scanHours_skip _ _ hp1,
      scanHours_matched _ _ _ (matchScheduled_day_range d1 _ h1 hd1 hh1),
      scanHours_skip _ _ hp2,
      scanHours_matched _ _ _ (matchScheduled_day_range d2 _ h2 hd2 hh2), scanHours_nil]
  have hne1 : ¬ ("ADD+REMOVE" = "ADD") := by decide
  have hne2 : ¬ ("ADD+REMOVE" = "REMOVE") := by decide
  unfold extractHoursFromScheduled
  simp only [hne1, hne2, false_and, if_false]
  exact hscan

/-- C31: `extractHoursFromScheduled` on its documented forms, for every day text `d1`, `d2`
of the shape 'dddd-dd-dd' and all hours `h1`, `h2` from 0 to 23.  On the single range
'd1 hh:00-hh:59' it returns `[h1]` for any action; on the preview form
'ADD: d1 hh:00-hh:59 | REMOVE: d2 hh:00-hh:59' it returns `[h1]` for the action ADD, `[h2]`
for the action REMOVE and `[h1, h2]` for the action ADD+REMOVE; and on a text in which the
date-and-range pattern matches at no position it returns the empty list for any action. -/
theorem C31_extractHours_documented_forms (d1 d2 s action : String) (h1 h2 : Nat)
    (hd1 : matchDate d1.data = some []) (hd2 : matchDate d2.data = some [])
    (hh1 : h1 ≤ 23) (hh2 : h2 ≤ 23)
    (hs : ∀ t, t <:+ s.data → matchScheduled t = none) :
    extractHoursFromScheduled (d1 ++ " " ++ hourRangeStr h1) action = [h1] ∧
    extractHoursFromScheduled
      ("ADD: " ++ d1 ++ " " ++ hourRangeStr h1 ++ " | REMOVE: " ++ d2 ++ " " ++
        hourRangeStr h2) "ADD" = [h1] ∧
    extractHoursFromScheduled
      ("ADD: " ++ d1 ++ " " ++ hourRangeStr h1 ++ " | REMOVE: " ++ d2 ++ " " ++
        hourRangeStr h2) "REMOVE" = [h2] ∧
    extractHoursFromScheduled
      ("ADD: " ++ d1 ++ " " ++ hourRangeStr h1 ++ " | REMOVE: " ++ d2 ++ " " ++
        hourRangeStr h2) "ADD+REMOVE" = [h1, h2] ∧
    extractHoursFromScheduled s action = [] := by
  refine ⟨extractHours_execution d1 h1 action hd1 hh1, ?_, ?_, ?_,
    extractHours_none s action hs⟩
  · refine extractHours_add _ d1.data
      (" | REMOVE: ".data ++ (d2.data ++ (' ' :: (hourRangeStr h2).data))) h1 ?_ hd1 hh1
    simp only [String.data_append, List.append_assoc]
    rfl
  · refine extractHours_remove _
      ("ADD: ".data ++ (d1.data ++ (' ' :: (hourRangeStr h1).data)) ++ " | ".data)
      d2.data h2 ?_ ?_ hd2 hh2
    · simp only [String.data_append, List.append_assoc, List.append_nil]
      rfl
    · have hchars := day_range_chars d1.data h1 hd1 hh1
      intro hm
      rcases List.mem_append.1 hm with hm | hm
      · rcases List.mem_append.1 hm with hm | hm
        · revert hm; decide
        · exact plain_char_ne _ 'R' (by decide) (by decide) (by decide) (by decide)
            (hchars _ hm) rfl
      · revert hm; decide
  · refine extractHours_both _ "ADD: ".data " | REMOVE: ".data d1.data d2.data h1 h2 ?_
      (by decide) (by decide) hd1 hd2 hh1 hh2
    simp only [String.data_append, List.append_assoc, List.append_nil]
    rfl

/-- C31, witness: the two examples of the doc comment of `extractHoursFromScheduled`, and
the text 'N/A'. -/
theorem C31_extractHours_documented_forms_witness :
    extractHoursFromScheduled ("2025-11-16" ++ " " ++ hourRangeStr 0) "ADD" = [0] ∧
    extractHoursFromScheduled
      ("ADD: " ++ "2025-11-16" ++ " " ++ hourRangeStr 0 ++ " | REMOVE: " ++ "2025-11-16" ++
        " " ++ hourRangeStr 22) "ADD" = [0] ∧
    extractHoursFromScheduled
      ("ADD: " ++ "2025-11-16" ++ " " ++ hourRangeStr 0 ++ " | REMOVE: " ++ "2025-11-16" ++
        " " ++ hourRangeStr 22) "REMOVE" = [22] ∧
    extractHoursFromScheduled
      ("ADD: " ++ "2025-11-16" ++ " " ++ hourRangeStr 0 ++ " | REMOVE: " ++ "2025-11-16" ++
        " " ++ hourRangeStr 22) "ADD+REMOVE" = [0, 22] ∧
    extractHoursFromScheduled "N/A" "ADD" = [] :=
  C31_extractHours_documented_forms "2025-11-16" "2025-11-16" "N/A" "ADD" 0 22 (by decide)
    (by decide) (by decide) (by decide)
    (fun t ht => by
      have hmem : t ∈ ["N/A".data, "/A".data, "A".data, []] := by
        obtain ⟨p, hp⟩ := ht
        have hp2 : p ++ t = ['N', '/', 'A'] := hp
        rcases p with _ | ⟨a, _ | ⟨b, _ | ⟨c, _ | ⟨e, p⟩⟩⟩⟩ <;>
          simp only [List.nil_append, List.cons_append, List.cons.injEq] at hp2
        · subst hp2; simp
        · obtain ⟨_, rfl⟩ := hp2; simp
        · obtain ⟨_, _, rfl⟩ := hp2; simp
        · obtain ⟨_, _, _, rfl⟩ := hp2; simp
        · obtain ⟨_, _, _, hnil⟩ := hp2
          exact absurd hnil (by simp)
      simp only [List.mem_cons, List.mem_singleton, List.not_mem_nil, or_false] at hmem
      rcases hmem with rfl | rfl | rfl | rfl <;> decide)

/-! ## The conflict key and the date -/

theorem conflict_pair_escalates (allRows futureRows windowRows : List Row)
    (i j : Nat) (ri rj : Row) (h : Nat)
    (hi : allRows[i]? = some ri) (hj : allRows[j]? = some rj)
    (hsi : ri.status = "OK" ∨ ri.status = "WARNING")
    (hsj : rj.status = "OK" ∨ rj.status = "WARNING")
    (hkey : conflictKey rj h = conflictKey ri h)
    (hhi : h ∈ extractHoursFromScheduled ri.scheduled ri.action)
    (hhj : h ∈ extractHoursFromScheduled rj.scheduled rj.action)
    (hai : ri.action = "ADD") (haj : rj.action = "REMOVE") :
    (detectCrossRowAddRemoveConflicts allRows futureRows windowRows).allRows[i]? =
        some (escalate ri) ∧
      (detectCrossRowAddRemoveConflicts allRows futureRows windowRows).allRows[j]? =
        some (escalate rj) := by
  obtain ⟨ops, hget, hadd⟩ := collectOps_adds allRows i ri h hi hsi hhi hai
  obtain ⟨ops2, hget2, hrem⟩ := collectOps_removes allRows j rj h hj hsj hhj haj
  rw [hkey, hget] at hget2
  cases hget2
  have he : (conflictKey ri h, ops) ∈ collectOps allRows := mapGet_mem _ _ _ hget
  have hlen : ops.adds.length > 0 ∧ ops.removes.length > 0 :=
    ⟨List.length_pos_of_mem hadd, List.length_pos_of_mem hrem⟩
  have hnot : i ∉ ops.removes.map (fun x => x.rowIndex) := by
    intro hin
    obtain ⟨x, hx, hxi⟩ := List.mem_map.1 hin
    have hs := collectOps_removes_sound allRows _ he x hx
    rw [hxi, hi] at hs
    have hrow : ri = x.row := Option.some.inj hs.1
    rw [← hrow, hai] at hs
    rcases hs.2 with h2 | h2 <;> exact absurd h2 (by decide)
  have hconf : hasCrossRowConflict ops = true := by
    unfold hasCrossRowConflict
    rw [Bool.or_eq_true, List.any_eq_true]
    exact Or.inl ⟨i, List.mem_map.2 ⟨⟨i, ri⟩, hadd, rfl⟩, by simpa using hnot⟩
  have hmarks := scanConflicts_marks (collectOps allRows) _ he hlen hconf
  have hmi : i ∈ (scanConflicts (collectOps allRows)).conflicted :=
    hmarks.1 ⟨i, ri⟩ (List.mem_append_left _ hadd)
  have hmj : j ∈ (scanConflicts (collectOps allRows)).conflicted :=
    hmarks.1 ⟨j, rj⟩ (List.mem_append_right _ hrem)
  exact ⟨detect_allRows_escalated allRows futureRows windowRows i ri hi hmi,
    detect_allRows_escalated allRows futureRows windowRows j rj hj hmj⟩

theorem conflict_pair_unchanged (r1 r2 : Row) (futureRows windowRows : List Row)
    (h1 h2 : Nat)
    (hs1 : r1.status = "OK" ∨ r1.status = "WARNING")
    (hs2 : r2.status = "OK" ∨ r2.status = "WARNING")
    (ha1 : r1.action = "ADD") (ha2 : r2.action = "REMOVE")
    (he1 : extractHoursFromScheduled r1.scheduled r1.action = [h1])
    (he2 : extractHoursFromScheduled r2.scheduled r2.action = [h2])
    (hk : conflictKey r1 h1 ≠ conflictKey r2 h2) :
    detectCrossRowAddRemoveConflicts [r1, r2] futureRows windowRows =
      { allRows := [r1, r2], futureRows := futureRows, windowRows := windowRows,
        conflictCount := 0 } := by
  have n1 : ¬ ("WARNING" = "OK") := by decide
  have n2 : ¬ ("ADD" = "REMOVE") := by decide
  have n3 : ¬ ("ADD" = "ADD+REMOVE") := by decide
  have n4 : ¬ ("REMOVE" = "ADD") := by decide
  have n5 : ¬ ("REMOVE" = "ADD+REMOVE") := by decide
  have c1 : ¬ (r1.status ≠ "OK" ∧ r1.status ≠ "WARNING") := by
    rintro ⟨a, b⟩
    rcases hs1 with h | h
    · exact a h
    · exact b h
  have c2 : ¬ (r2.status ≠ "OK" ∧ r2.status ≠ "WARNING") := by
    rintro ⟨a, b⟩
    rcases hs2 with h | h
    · exact a h
    · exact b h
  rw [ha1] at he1
  rw [ha2] at he2
  have hops : collectOps [r1, r2] =
      [(conflictKey r1 h1, ⟨[⟨0, r1⟩], []⟩), (conflictKey r2 h2, ⟨[], [⟨1, r2⟩]⟩)] := by
    simp only [Nat.zero_add, collectOps, List.enum, List.enumFrom, List.foldl, collectRow, if_neg c1,
      if_neg c2, he1, he2, recordOp, ha1, ha2, n2, n3, n4, n5, mapGet, mapSet, if_neg hk,
      true_or, or_self, if_true, if_false, Option.getD, List.nil_append]
  unfold detectCrossRowAddRemoveConflicts
  rw [hops]
  simp [scanConflicts, scanEntry]

theorem string_append_left_cancel (a b c : String) (h : a ++ b = a ++ c) : b = c := by
  have := congrArg String.data h
  simp only [String.data_append] at this
  exact String.ext (List.append_cancel_left this)

theorem toString_hour_injective (a b : Nat) (ha : a ≤ 23) (hb : b ≤ 23)
    (h : toString a = toString b) : a = b := by
  have key : ∀ n : Nat, n ≤ 23 → digitsValue (toString n).data = n := by
    intro n hn
    interval_cases n <;> decide
  rw [← key a ha, ← key b hb, h]

/-- C36: conflict detection keys on the hour of day and not on the date.  Two verdict rows
with status OK or WARNING and equal campaign, group name, asset type and member: one with
the action ADD, scheduled 'ADD: D1 hh:00-hh:59' (anything may follow), the other with the
action REMOVE, scheduled 'REMOVE: D2 hh:00-hh:59' (anything without an 'R' may precede),
for any day texts `D1`, `D2`, equal or not, and hours `H1`, `H2` from 0 to 23.  When
`H1 = H2`, `detectCrossRowAddRemoveConflicts` returns both rows with status ERROR and the
conflict message, wherever they stand among the rows; when `H1 ≠ H2`, the two rows alone
come back unchanged with `conflictCount` 0. -/
theorem C36_conflict_key_ignores_the_date (r1 r2 : Row) (D1 D2 tail pre : String)
    (H1 H2 : Nat)
    (hs1 : r1.status = "OK" ∨ r1.status = "WARNING")
    (hs2 : r2.status = "OK" ∨ r2.status = "WARNING")
    (hc : r1.campaign = r2.campaign) (hg : r1.groupName = r2.groupName)
    (ht : r1.assetType = r2.assetType) (hm : r1.textOrId = r2.textOrId)
    (ha1 : r1.action = "ADD") (ha2 : r2.action = "REMOVE")
    (hd1 : matchDate D1.data = some []) (hd2 : matchDate D2.data = some [])
    (hH1 : H1 ≤ 23) (hH2 : H2 ≤ 23)
    (hsch1 : r1.scheduled = "ADD: " ++ D1 ++ " " ++ hourRangeStr H1 ++ tail)
    (hpre : 'R' ∉ pre.data)
    (hsch2 : r2.scheduled = pre ++ "REMOVE: " ++ D2 ++ " " ++ hourRangeStr H2) :
    (H1 = H2 → ∀ (allRows futureRows windowRows : List Row) (i j : Nat),
      allRows[i]? = some r1 → allRows[j]? = some r2 →
      (detectCrossRowAddRemoveConflicts allRows futureRows windowRows).allRows[i]? =
        some { r1 with status := "ERROR",
                       message :=
                         "ADD és REMOVE ugyanarra az órára van ütemezve (sorok között)" } ∧
      (detectCrossRowAddRemoveConflicts allRows futureRows windowRows).allRows[j]? =
        some { r2 with status := "ERROR",
                       message :=
                         "ADD és REMOVE ugyanarra az órára van ütemezve (sorok között)" }) ∧
    (H1 ≠ H2 → ∀ futureRows windowRows : List Row,
      detectCrossRowAddRemoveConflicts [r1, r2] futureRows windowRows =
        { allRows := [r1, r2], futureRows := futureRows, windowRows := windowRows,
          conflictCount := 0 }) := by
  have he1 : extractHoursFromScheduled r1.scheduled r1.action = [H1] := by
    rw [hsch1, ha1]
    refine extractHours_add _ D1.data tail.data H1 ?_ hd1 hH1
    simp only [String.data_append, List.append_assoc]
    rfl
  have he2 : extractHoursFromScheduled r2.scheduled r2.action = [H2] := by
    rw [hsch2, ha2]
    refine extractHours_remove _ pre.data D2.data H2 ?_ hpre hd2 hH2
    simp only [String.data_append, List.append_assoc, List.append_nil]
    rfl
  constructor
  · intro hH allRows futureRows windowRows i j hi hj
    subst hH
    exact conflict_pair_escalates allRows futureRows windowRows i j r1 r2 H1 hi hj hs1 hs2
      (by simp [conflictKey, hc, hg, ht, hm])
      (by rw [he1]; exact List.mem_singleton.2 rfl)
      (by rw [he2]; exact List.mem_singleton.2 rfl) ha1 ha2
  · intro hH futureRows windowRows
    refine conflict_pair_unchanged r1 r2 futureRows windowRows H1 H2 hs1 hs2 ha1 ha2 he1 he2 ?_
    intro hk
    simp only [conflictKey, hc, hg, ht, hm] at hk
    exact hH (toString_hour_injective H1 H2 hH1 hH2 (string_append_left_cancel _ _ _ hk))

/-- C36, witness: the ADD of a headline on 2025-11-16 at hour 14 and the REMOVE of the same
headline in the same group four days later at hour 14. -/
theorem C36_conflict_key_ignores_the_date_witness :
    (14 = 14 → ∀ (allRows futureRows windowRows : List Row) (i j : Nat),
      allRows[i]? = some sampleAddVerdictRow →
      allRows[j]? = some sampleLaterRemoveVerdictRow →
      (detectCrossRowAddRemoveConflicts allRows futureRows windowRows).allRows[i]? =
        some { sampleAddVerdictRow with
                 status := "ERROR",
                 message :=
                   "ADD és REMOVE ugyanarra az órára van ütemezve (sorok között)" } ∧
      (detectCrossRowAddRemoveConflicts allRows futureRows windowRows).allRows[j]? =
        some { sampleLaterRemoveVerdictRow with
                 status := "ERROR",
                 message :=
                   "ADD és REMOVE ugyanarra az órára van ütemezve (sorok között)" }) ∧
    (14 ≠ 14 → ∀ futureRows windowRows : List Row,
      detectCrossRowAddRemoveConflicts [sampleAddVerdictRow, sampleLaterRemoveVerdictRow]
          futureRows windowRows =
        { allRows := [sampleAddVerdictRow, sampleLaterRemoveVerdictRow],
          futureRows := futureRows, windowRows := windowRows, conflictCount := 0 }) :=
  C36_conflict_key_ignores_the_date sampleAddVerdictRow sampleLaterRemoveVerdictRow
    "2025-11-16" "2025-11-20" "" "" 14 14 (by decide) (by decide) rfl rfl rfl rfl rfl rfl
    (by decide) (by decide) (by decide) (by decide) (by decide) (by decide) (by decide)

/-! ## Escaping a GAQL string literal -/

/-- What the five replacements make of one character. -/
theorem escape_char (x : Char) :
    replaceAllChar tabChar [backslashChar, 't']
      (replaceAllChar returnChar [backslashChar, 'r']
        (replaceAllChar newlineChar [backslashChar, 'n']
          (replaceAllChar quoteChar [backslashChar, quoteChar]
            (replaceAllChar backslashChar [backslashChar, backslashChar] [x])))) =
      if x = backslashChar then [backslashChar, backslashChar]
      else if x = quoteChar then [backslashChar, quoteChar]
      else if x = newlineChar then [backslashChar, 'n']
      else if x = returnChar then [backslashChar, 'r']
      else if x = tabChar then [backslashChar, 't']
      else [x] := by
  by_cases h1 : x = backslashChar
  · subst h1; decide
  by_cases h2 : x = quoteChar
  · subst h2; decide
  by_cases h3 : x = newlineChar
  · subst h3; decide
  by_cases h4 : x = returnChar
  · subst h4; decide
  by_cases h5 : x = tabChar
  · subst h5; decide
  simp [replaceAllChar, h1, h2, h3, h4, h5]

theorem replaceAllChar_append (c : Char) (rep a b : List Char) :
    replaceAllChar c rep (a ++ b) = replaceAllChar c rep a ++ replaceAllChar c rep b := by
  simp [replaceAllChar]

theorem escape_cons (x : Char) (l : List Char) :
    (gaqlEscapeSingleQuote ⟨x :: l⟩).data =
      (if x = backslashChar then [backslashChar, backslashChar]
       else if x = quoteChar then [backslashChar, quoteChar]
       else if x = newlineChar then [backslashChar, 'n']
       else if x = returnChar then [backslashChar, 'r']
       else if x = tabChar then [backslashChar, 't']
       else [x]) ++ (gaqlEscapeSingleQuote ⟨l⟩).data := by
  rw [← escape_char x]
  show replaceAllChar _ _ (replaceAllChar _ _ (replaceAllChar _ _ (replaceAllChar _ _
    (replaceAllChar _ _ ([x] ++ l))))) = _
  simp only [replaceAllChar_append]
  rfl

theorem escape_nil : (gaqlEscapeSingleQuote ⟨[]⟩).data = [] := rfl

theorem escape_concat (l : List Char) (x : Char) :
    (gaqlEscapeSingleQuote ⟨l ++ [x]⟩).data =
      (gaqlEscapeSingleQuote ⟨l⟩).data ++
        (if x = backslashChar then [backslashChar, backslashChar]
         else if x = quoteChar then [backslashChar, quoteChar]
         else if x = newlineChar then [backslashChar, 'n']
         else if x = returnChar then [backslashChar, 'r']
         else if x = tabChar then [backslashChar, 't']
         else [x]) := by
  induction l with
  | nil =>
      rw [List.nil_append, escape_cons, escape_nil, List.append_nil, List.nil_append]
  | cons a l ih =>
      rw [List.cons_append, escape_cons, ih, escape_cons, List.append_assoc]

theorem trailingBackslashes_concat (l : List Char) (c : Char) :
    trailingBackslashes (l ++ [c]) =
      if c = backslashChar then trailingBackslashes l + 1 else 0 := by
  unfold trailingBackslashes
  rw [List.reverse_append, List.reverse_singleton, List.singleton_append, List.takeWhile_cons]
  by_cases h : c = backslashChar
  · simp [h]
  · simp [h]

theorem quote_split_concat (x pre post : List Char) (a : Char)
    (h : x ++ [a] = pre ++ quoteChar :: post) :
    (post = [] ∧ pre = x ∧ a = quoteChar) ∨
      ∃ post2, post = post2 ++ [a] ∧ x = pre ++ quoteChar :: post2 := by
  rcases List.eq_nil_or_concat post with hp | ⟨post2, b, hp⟩
  · subst hp
    have h2 : x ++ [a] = pre ++ [quoteChar] := h
    obtain ⟨h3, h4⟩ := List.append_inj' h2 rfl
    simp only [List.cons.injEq, and_true] at h4
    exact Or.inl ⟨rfl, h3.symm, h4⟩
  · rw [List.concat_eq_append] at hp
    subst hp
    have h2 : x ++ [a] = (pre ++ quoteChar :: post2) ++ [b] := by
      rw [h]; simp
    obtain ⟨h3, h4⟩ := List.append_inj' h2 rfl
    simp only [List.cons.injEq, and_true] at h4
    subst h4
    exact Or.inr ⟨post2, rfl, h3⟩

theorem escape_invariant (l : List Char) :
    Even (trailingBackslashes (gaqlEscapeSingleQuote ⟨l⟩).data) ∧
    (∀ pre post, (gaqlEscapeSingleQuote ⟨l⟩).data = pre ++ quoteChar :: post →
      Odd (trailingBackslashes pre)) ∧
    newlineChar ∉ (gaqlEscapeSingleQuote ⟨l⟩).data ∧
    returnChar ∉ (gaqlEscapeSingleQuote ⟨l⟩).data ∧
    tabChar ∉ (gaqlEscapeSingleQuote ⟨l⟩).data := by
  induction l using List.reverseRecOn with
  | nil =>
      refine ⟨by rw [escape_nil]; decide, ?_, by rw [escape_nil]; simp,
        by rw [escape_nil]; simp, by rw [escape_nil]; simp⟩
      intro pre post h
      rw [escape_nil] at h
      exact absurd h (by simp)
  | append_singleton l x ih =>
      obtain ⟨hev, hq, hn, hr, ht⟩ := ih
      rw [escape_concat]
      generalize (gaqlEscapeSingleQuote ⟨l⟩).data = out at hev hq hn hr ht
      have nb1 : ¬ (quoteChar = backslashChar) := by decide
      have nb2 : ¬ ('n' = backslashChar) := by decide
      have nb3 : ¬ ('r' = backslashChar) := by decide
      have nb4 : ¬ ('t' = backslashChar) := by decide
      have nq1 : ¬ (backslashChar = quoteChar) := by decide
      have nq2 : ¬ ('n' = quoteChar) := by decide
      have nq3 : ¬ ('r' = quoteChar) := by decide
      have nq4 : ¬ ('t' = quoteChar) := by decide
      have two : ∀ (a b : Char), out ++ [a, b] = (out ++ [a]) ++ [b] := by
        intro a b; simp
      have hstep : ∀ (a : Char) (y : List Char),
          (∀ pre post, y = pre ++ quoteChar :: post → Odd (trailingBackslashes pre)) →
          (a = quoteChar → Odd (trailingBackslashes y)) →
          ∀ pre post, y ++ [a] = pre ++ quoteChar :: post → Odd (trailingBackslashes pre) := by
        intro a y hy ha pre post h
        rcases quote_split_concat y pre post a h with ⟨_, hp, haq⟩ | ⟨post2, _, hx⟩
        · rw [hp]; exact ha haq
        · exact hy pre post2 hx
      have hodd : Odd (trailingBackslashes (out ++ [backslashChar])) := by
        rw [trailingBackslashes_concat, if_pos rfl]
        exact hev.add_one
      have hq1 : ∀ pre post, out ++ [backslashChar] = pre ++ quoteChar :: post →
          Odd (trailingBackslashes pre) :=
        hstep backslashChar out hq (fun h => absurd h nq1)
      have mem2 : ∀ (c a b : Char), c ∉ out → c ≠ a → c ≠ b → c ∉ out ++ [a, b] := by
        intro c a b hc ha hb hm
        simp only [List.mem_append, List.mem_cons, List.mem_singleton, List.not_mem_nil,
          or_false] at hm
        rcases hm with hm | hm | hm
        · exact hc hm
        · exact ha hm
        · exact hb hm
      by_cases h1 : x = backslashChar
      · simp only [h1, if_true]
        refine ⟨?_, ?_, mem2 _ _ _ hn (by decide) (by decide),
          mem2 _ _ _ hr (by decide) (by decide), mem2 _ _ _ ht (by decide) (by decide)⟩
        · rw [two, trailingBackslashes_concat, if_pos rfl, trailingBackslashes_concat,
            if_pos rfl]
          exact hev.add_one.add_one
        · rw [two]
          exact hstep backslashChar _ hq1 (fun h => absurd h nq1)
      by_cases h2 : x = quoteChar
      · simp only [h1, h2, nb1, if_true, if_false]
        refine ⟨?_, ?_, mem2 _ _ _ hn (by decide) (by decide),
          mem2 _ _ _ hr (by decide) (by decide), mem2 _ _ _ ht (by decide) (by decide)⟩
        · rw [two, trailingBackslashes_concat, if_neg nb1]
          decide
        · rw [two]
          exact hstep quoteChar _ hq1 (fun _ => hodd)
      by_cases h3 : x = newlineChar
      · have e1 : ¬ (newlineChar = backslashChar) := by decide
        have e2 : ¬ (newlineChar = quoteChar) := by decide
        simp only [h3, e1, e2, if_true, if_false]
        refine ⟨?_, ?_, mem2 _ _ _ hn (by decide) (by decide),
          mem2 _ _ _ hr (by decide) (by decide), mem2 _ _ _ ht (by decide) (by decide)⟩
        · rw [two, trailingBackslashes_concat, if_neg nb2]
          decide
        · rw [two]
          exact hstep 'n' _ hq1 (fun h => absurd h nq2)
      by_cases h4 : x = returnChar
      · have e1 : ¬ (returnChar = backslashChar) := by decide
        have e2 : ¬ (returnChar = quoteChar) := by decide
        have e3 : ¬ (returnChar = newlineChar) := by decide
        simp only [h4, e1, e2, e3, if_true, if_false]
        refine ⟨?_, ?_, mem2 _ _ _ hn (by decide) (by decide),
          mem2 _ _ _ hr (by decide) (by decide), mem2 _ _ _ ht (by decide) (by decide)⟩
        · rw [two, trailingBackslashes_concat, if_neg nb3]
          decide
        · rw [two]
          exact hstep 'r' _ hq1 (fun h => absurd h nq3)
      by_cases h5 : x = tabChar
      · have e1 : ¬ (tabChar = backslashChar) := by decide
        have e2 : ¬ (tabChar = quoteChar) := by decide
        have e3 : ¬ (tabChar = newlineChar) := by decide
        have e4 : ¬ (tabChar = returnChar) := by decide
        simp only [h5, e1, e2, e3, e4, if_true, if_false]
        refine ⟨?_, ?_, mem2 _ _ _ hn (by decide) (by decide),
          mem2 _ _ _ hr (by decide) (by decide), mem2 _ _ _ ht (by decide) (by decide)⟩
        · rw [two, trailingBackslashes_concat, if_neg nb4]
          decide
        · rw [two]
          exact hstep 't' _ hq1 (fun h => absurd h nq4)
      simp only [h1, h2, h3, h4, h5, if_false]
      have mem1 : ∀ c : Char, c ∉ out → c ≠ x → c ∉ out ++ [x] := by
        intro c hc hx hm
        simp only [List.mem_append, List.mem_singleton] at hm
        rcases hm with hm | hm
        · exact hc hm
        · exact hx hm
      refine ⟨?_, hstep x out hq (fun h => absurd h h2), mem1 _ hn (Ne.symm h3),
        mem1 _ hr (Ne.symm h4), mem1 _ ht (Ne.symm h5)⟩
      rw [trailingBackslashes_concat, if_neg h1]
      decide

theorem undoEscapes_escape (l : List Char) :
    undoEscapes (gaqlEscapeSingleQuote ⟨l⟩).data = l := by
  induction l with
  | nil => rfl
  | cons x l ih =>
      rw [escape_cons]
      generalize (gaqlEscapeSingleQuote ⟨l⟩).data = out at ih
      have plain : ∀ c : Char, c ≠ backslashChar → undoEscapes (c :: out) = c :: undoEscapes out := by
        intro c hc
        cases out with
        | nil => rfl
        | cons b rest => rw [undoEscapes, if_neg hc]
      by_cases h1 : x = backslashChar
      · simp only [h1, if_true, List.cons_append, List.nil_append]
        rw [undoEscapes, if_pos rfl, if_pos rfl, ih]
      by_cases h2 : x = quoteChar
      · have nb1 : ¬ (quoteChar = backslashChar) := by decide
        simp only [h2, nb1, if_true, if_false, List.cons_append, List.nil_append]
        rw [undoEscapes, if_pos rfl, if_neg nb1, if_pos rfl, ih]
      by_cases h3 : x = newlineChar
      · have e1 : ¬ (newlineChar = backslashChar) := by decide
        have e2 : ¬ (newlineChar = quoteChar) := by decide
        have f1 : ¬ ('n' = backslashChar) := by decide
        have f2 : ¬ ('n' = quoteChar) := by decide
        simp only [h3, e1, e2, if_true, if_false, List.cons_append, List.nil_append]
        rw [undoEscapes, if_pos rfl, if_neg f1, if_neg f2, if_pos rfl, ih]
      by_cases h4 : x = returnChar
      · have e1 : ¬ (returnChar = backslashChar) := by decide
        have e2 : ¬ (returnChar = quoteChar) := by decide
        have e3 : ¬ (returnChar = newlineChar) := by decide
        have f1 : ¬ ('r' = backslashChar) := by decide
        have f2 : ¬ ('r' = quoteChar) := by decide
        have f3 : ¬ ('r' = 'n') := by decide
        simp only [h4, e1, e2, e3, if_true, if_false, List.cons_append, List.nil_append]
        rw [undoEscapes, if_pos rfl, if_neg f1, if_neg f2, if_neg f3, if_pos rfl, ih]
      by_cases h5 : x = tabChar
      · have e1 : ¬ (tabChar = backslashChar) := by decide
        have e2 : ¬ (tabChar = quoteChar) := by decide
        have e3 : ¬ (tabChar = newlineChar) := by decide
        have e4 : ¬ (tabChar = returnChar) := by decide
        have f1 : ¬ ('t' = backslashChar) := by decide
        have f2 : ¬ ('t' = quoteChar) := by decide
        have f3 : ¬ ('t' = 'n') := by decide
        have f4 : ¬ ('t' = 'r') := by decide
        simp only [h5, e1, e2, e3, e4, if_true, if_false, List.cons_append, List.nil_append]
        rw [undoEscapes, if_pos rfl, if_neg f1, if_neg f2, if_neg f3, if_neg f4, if_pos rfl,
          ih]
      simp only [h1, h2, h3, h4, h5, if_false, List.cons_append, List.nil_append]
      rw [plain x h1, ih]

/-- C38: `gaqlEscapeSingleQuote` leaves no way out of a single-quoted GAQL literal.  For
every input text: every single quote of the output has an odd number of backslashes right
before it, the output ends in an even run of backslashes (possibly none), it holds no line
feed, carriage return or tab, and reading it with the five escapes undone gives back the
input. -/
theorem C38_gaqlEscapeSingleQuote_closes_the_literal (s : String) :
    (∀ pre post, (gaqlEscapeSingleQuote s).data = pre ++ quoteChar :: post →
      Odd (trailingBackslashes pre)) ∧
    Even (trailingBackslashes (gaqlEscapeSingleQuote s).data) ∧
    newlineChar ∉ (gaqlEscapeSingleQuote s).data ∧
    returnChar ∉ (gaqlEscapeSingleQuote s).data ∧
    tabChar ∉ (gaqlEscapeSingleQuote s).data ∧
    undoEscapes (gaqlEscapeSingleQuote s).data = s.data := by
  obtain ⟨h1, h2, h3, h4, h5⟩ := escape_invariant s.data
  exact ⟨h2, h1, h3, h4, h5, undoEscapes_escape s.data⟩

/-! ## Image types -/

theorem bands_disjoint (r a b : ℚ) (h : 4 / 100 < |a - b|) :
    ¬ (withinTolerance r a = true ∧ withinTolerance r b = true) := by
  rintro ⟨h1, h2⟩
  simp only [withinTolerance, decide_eq_true_eq] at h1 h2
  have h3 : |a - b| ≤ |r - a| + |r - b| := by
    have := abs_sub_le a r b
    rw [abs_sub_comm a r] at this
    exact this
  linarith

theorem actualFieldType_cases (r : ℚ) :
    (actualFieldType r = "MARKETING_IMAGE" ↔ withinTolerance r (191 / 100) = true) ∧
    (actualFieldType r = "SQUARE_MARKETING_IMAGE" ↔ withinTolerance r 1 = true) ∧
    (actualFieldType r = "TALL_PORTRAIT_MARKETING_IMAGE" ↔
      withinTolerance r (5625 / 10000) = true) ∧
    (actualFieldType r = "PORTRAIT_MARKETING_IMAGE" ↔ withinTolerance r (8 / 10) = true) ∧
    (actualFieldType r = "UNKNOWN" ↔
      (withinTolerance r (191 / 100) = false ∧ withinTolerance r 1 = false ∧
        withinTolerance r (5625 / 10000) = false ∧ withinTolerance r (8 / 10) = false)) := by
  have d12 := bands_disjoint r (191 / 100) 1 (by norm_num [abs_of_pos])
  have d13 := bands_disjoint r (191 / 100) (5625 / 10000) (by norm_num [abs_of_pos])
  have d14 := bands_disjoint r (191 / 100) (8 / 10) (by norm_num [abs_of_pos])
  have d23 := bands_disjoint r 1 (5625 / 10000) (by norm_num [abs_of_pos])
  have d24 := bands_disjoint r 1 (8 / 10) (by norm_num [abs_of_pos])
  have d34 := bands_disjoint r (5625 / 10000) (8 / 10) (by norm_num [abs_of_neg])
  unfold actualFieldType
  cases h1 : withinTolerance r (191 / 100) <;> cases h2 : withinTolerance r 1 <;>
    cases h3 : withinTolerance r (5625 / 10000) <;> cases h4 : withinTolerance r (8 / 10) <;>
    simp only [h1, h2, h3, h4, and_self, not_true_eq_false] at d12 d13 d14 d23 d24 d34 <;>
    simp

/-- C39: the two aspect-ratio checks agree on the exact ratio `width / height`.  For all
positive widths and heights and every sheet text, when `determineImageFieldType` returns a
field type other than UNKNOWN and sets no error, `validateAspectRatio` is valid for the
width, the height and that field type.  No ratio passes two of the four tests (1.91, 1.0,
0.5625 and 0.8, each ± 0.02), so the detected type is the type of the one test the ratio
passes, whatever the order of the tests, and UNKNOWN when it passes none. -/
theorem C39_aspect_ratio_checks_agree (rawImageType : String) (width height : Nat) (r : ℚ)
    (hw : 0 < width) (hh : 0 < height) :
    ((determineImageFieldType rawImageType width height).fieldType ≠ "UNKNOWN" →
      (determineImageFieldType rawImageType width height).hasError = false →
      validateAspectRatio width height
        (determineImageFieldType rawImageType width height).fieldType = true) ∧
    ¬ (withinTolerance r (191 / 100) = true ∧ withinTolerance r 1 = true) ∧
    ¬ (withinTolerance r (191 / 100) = true ∧ withinTolerance r (5625 / 10000) = true) ∧
    ¬ (withinTolerance r (191 / 100) = true ∧ withinTolerance r (8 / 10) = true) ∧
    ¬ (withinTolerance r 1 = true ∧ withinTolerance r (5625 / 10000) = true) ∧
    ¬ (withinTolerance r 1 = true ∧ withinTolerance r (8 / 10) = true) ∧
    ¬ (withinTolerance r (5625 / 10000) = true ∧ withinTolerance r (8 / 10) = true) ∧
    (actualFieldType r = "MARKETING_IMAGE" ↔ withinTolerance r (191 / 100) = true) ∧
    (actualFieldType r = "SQUARE_MARKETING_IMAGE" ↔ withinTolerance r 1 = true) ∧
    (actualFieldType r = "TALL_PORTRAIT_MARKETING_IMAGE" ↔
      withinTolerance r (5625 / 10000) = true) ∧
    (actualFieldType r = "PORTRAIT_MARKETING_IMAGE" ↔ withinTolerance r (8 / 10) = true) ∧
    (actualFieldType r = "UNKNOWN" ↔
      (withinTolerance r (191 / 100) = false ∧ withinTolerance r 1 = false ∧
        withinTolerance r (5625 / 10000) = false ∧ withinTolerance r (8 / 10) = false)) := by
  refine ⟨?_, bands_disjoint r _ _ (by norm_num [abs_of_pos]),
    bands_disjoint r _ _ (by norm_num [abs_of_pos]),
    bands_disjoint r _ _ (by norm_num [abs_of_pos]),
    bands_disjoint r _ _ (by norm_num [abs_of_pos]),
    bands_disjoint r _ _ (by norm_num [abs_of_pos]),
    bands_disjoint r _ _ (by norm_num [abs_of_neg]), actualFieldType_cases r⟩
  intro hne herr
  have hdim : ¬ (width = 0 ∨ height = 0) := by omega
  obtain ⟨c1, c2, c3, c4, c5⟩ := actualFieldType_cases ((width : ℚ) / (height : ℚ))
  unfold determineImageFieldType at hne herr ⊢
  simp only [if_neg hdim] at hne herr ⊢
  by_cases hu : actualFieldType ((width : ℚ) / (height : ℚ)) = "UNKNOWN"
  · rw [if_pos hu] at hne
    exact absurd rfl hne
  · rw [if_neg hu]
    simp only [if_pos hu]
    unfold validateAspectRatio
    rw [if_neg hdim]
    have n1 : ¬ ("SQUARE_MARKETING_IMAGE" = "MARKETING_IMAGE") := by decide
    have n2 : ¬ ("TALL_PORTRAIT_MARKETING_IMAGE" = "MARKETING_IMAGE") := by decide
    have n3 : ¬ ("TALL_PORTRAIT_MARKETING_IMAGE" = "SQUARE_MARKETING_IMAGE") := by decide
    have n4 : ¬ ("TALL_PORTRAIT_MARKETING_IMAGE" = "PORTRAIT_MARKETING_IMAGE") := by decide
    have n5 : ¬ ("PORTRAIT_MARKETING_IMAGE" = "MARKETING_IMAGE") := by decide
    have n6 : ¬ ("PORTRAIT_MARKETING_IMAGE" = "SQUARE_MARKETING_IMAGE") := by decide
    have hcase : actualFieldType ((width : ℚ) / (height : ℚ)) = "MARKETING_IMAGE" ∨
        actualFieldType ((width : ℚ) / (height : ℚ)) = "SQUARE_MARKETING_IMAGE" ∨
        actualFieldType ((width : ℚ) / (height : ℚ)) = "TALL_PORTRAIT_MARKETING_IMAGE" ∨
        actualFieldType ((width : ℚ) / (height : ℚ)) = "PORTRAIT_MARKETING_IMAGE" := by
      have hu2 := hu
      unfold actualFieldType at hu2 ⊢
      split_ifs at hu2 ⊢ <;> simp at hu2 ⊢
    rcases hcase with h | h | h | h
    · rw [h, if_pos rfl]; exact c1.1 h
    · rw [h, if_neg n1, if_pos rfl]; exact c2.1 h
    · rw [h, if_neg n2, if_neg n3, if_neg n4, if_pos rfl]; exact c3.1 h
    · rw [h, if_neg n5, if_neg n6, if_pos rfl]; exact c4.1 h

/-- C39, witness: an image of 1200×628 pixels. -/
theorem C39_aspect_ratio_checks_agree_witness :
    ((determineImageFieldType "SQUARE" 1200 628).fieldType ≠ "UNKNOWN" →
      (determineImageFieldType "SQUARE" 1200 628).hasError = false →
      validateAspectRatio 1200 628
        (determineImageFieldType "SQUARE" 1200 628).fieldType = true) ∧
    ¬ (withinTolerance 1 (191 / 100) = true ∧ withinTolerance 1 1 = true) ∧
    ¬ (withinTolerance 1 (191 / 100) = true ∧ withinTolerance 1 (5625 / 10000) = true) ∧
    ¬ (withinTolerance 1 (191 / 100) = true ∧ withinTolerance 1 (8 / 10) = true) ∧
    ¬ (withinTolerance 1 1 = true ∧ withinTolerance 1 (5625 / 10000) = true) ∧
    ¬ (withinTolerance 1 1 = true ∧ withinTolerance 1 (8 / 10) = true) ∧
    ¬ (withinTolerance 1 (5625 / 10000) = true ∧ withinTolerance 1 (8 / 10) = true) ∧
    (actualFieldType 1 = "MARKETING_IMAGE" ↔ withinTolerance 1 (191 / 100) = true) ∧
    (actualFieldType 1 = "SQUARE_MARKETING_IMAGE" ↔ withinTolerance 1 1 = true) ∧
    (actualFieldType 1 = "TALL_PORTRAIT_MARKETING_IMAGE" ↔
      withinTolerance 1 (5625 / 10000) = true) ∧
    (actualFieldType 1 = "PORTRAIT_MARKETING_IMAGE" ↔ withinTolerance 1 (8 / 10) = true) ∧
    (actualFieldType 1 = "UNKNOWN" ↔
      (withinTolerance 1 (191 / 100) = false ∧ withinTolerance 1 1 = false ∧
        withinTolerance 1 (5625 / 10000) = false ∧ withinTolerance 1 (8 / 10) = false)) :=
  C39_aspect_ratio_checks_agree "SQUARE" 1200 628 1 (by decide) (by decide)

/-- C40, what holds and where the two classifiers part.  When `normalizeImageType` answers
MARKETING_IMAGE, the expected type of `determineImageFieldType` is MARKETING_IMAGE too.
When it answers SQUARE_MARKETING_IMAGE or PORTRAIT_MARKETING_IMAGE and the upper-cased
text holds '1.91', the expected type is MARKETING_IMAGE; without '1.91' the expected type of
a SQUARE_MARKETING_IMAGE is the same, and the expected type of a PORTRAIT_MARKETING_IMAGE is
TALL_PORTRAIT_MARKETING_IMAGE if the text holds '9:16' and PORTRAIT_MARKETING_IMAGE
otherwise.  So the sheet text '1.91:1' is SQUARE_MARKETING_IMAGE
for `normalizeImageType` and MARKETING_IMAGE for `determineImageFieldType`, and the sheet
text '9:16' is PORTRAIT_MARKETING_IMAGE for the one and TALL_PORTRAIT_MARKETING_IMAGE for
the other. -/
theorem C40_image_type_classifiers_part :
    (∀ (rawType : String) (width height : Nat),
      (normalizeImageType rawType = "MARKETING_IMAGE" →
        (determineImageFieldType rawType width height).userExpected = "MARKETING_IMAGE") ∧
      (normalizeImageType rawType = "SQUARE_MARKETING_IMAGE" →
        (jsIncludes (jsUpper rawType) "1.91" = false →
          (determineImageFieldType rawType width height).userExpected =
            "SQUARE_MARKETING_IMAGE") ∧
        (jsIncludes (jsUpper rawType) "1.91" = true →
          (determineImageFieldType rawType width height).userExpected =
            "MARKETING_IMAGE")) ∧
      (normalizeImageType rawType = "PORTRAIT_MARKETING_IMAGE" →
        (jsIncludes (jsUpper rawType) "1.91" = true →
          (determineImageFieldType rawType width height).userExpected =
            "MARKETING_IMAGE") ∧
        (jsIncludes (jsUpper rawType) "1.91" = false →
          jsIncludes (jsUpper rawType) "9:16" = false →
          (determineImageFieldType rawType width height).userExpected =
            "PORTRAIT_MARKETING_IMAGE") ∧
        (jsIncludes (jsUpper rawType) "1.91" = false →
          jsIncludes (jsUpper rawType) "9:16" = true →
          (determineImageFieldType rawType width height).userExpected =
            "TALL_PORTRAIT_MARKETING_IMAGE"))) ∧
    normalizeImageType "1.91:1" = "SQUARE_MARKETING_IMAGE" ∧
    (determineImageFieldType "1.91:1" 0 0).userExpected = "MARKETING_IMAGE" ∧
    (determineImageFieldType "1.91:1" 0 0).fieldType = "MARKETING_IMAGE" ∧
    normalizeImageType "9:16" = "PORTRAIT_MARKETING_IMAGE" ∧
    (determineImageFieldType "9:16" 0 0).userExpected = "TALL_PORTRAIT_MARKETING_IMAGE" ∧
    (determineImageFieldType "9:16" 0 0).fieldType = "TALL_PORTRAIT_MARKETING_IMAGE" := by
  refine ⟨?_, by decide, by decide, by decide, by decide, by decide, by decide⟩
  intro rawType width height
  have hue : (determineImageFieldType rawType width height).userExpected =
      userExpectedType (jsUpper rawType) := by
    unfold determineImageFieldType
    simp only
    split_ifs <;> rfl
  rw [hue]
  unfold normalizeImageType userExpectedType
  simp only
  generalize jsUpper rawType = s
  cases h1 : jsIncludes s "HORIZONTAL" <;> cases h2 : jsIncludes s "19" <;>
    cases h3 : jsIncludes s "1.91" <;> cases h4 : jsIncludes s "SQUARE" <;>
    cases h5 : jsIncludes s "1:1" <;> cases h6 : jsIncludes s "VERTICAL" <;>
    cases h7 : jsIncludes s "4:5" <;> cases h8 : jsIncludes s "9:16" <;>
    simp

/-! ## String order and chronological order -/

theorem digitChar_toNat (n : Nat) : (digitChar n).toNat = 48 + n % 10 := by
  unfold digitChar
  have h : n % 10 < 10 := Nat.mod_lt _ (by decide)
  generalize n % 10 = k at h
  interval_cases k <;> rfl

theorem digitChar_isDigit (n : Nat) : (digitChar n).isDigit = true := by
  unfold digitChar
  have h : n % 10 < 10 := Nat.mod_lt _ (by decide)
  generalize n % 10 = k at h
  interval_cases k <;> rfl

theorem utf16Units_bmp (c : Char) (l : List Char) (hc : c.toNat < 65536) :
    utf16Units (c :: l) = c.toNat :: utf16Units l := by
  simp [utf16Units, hc]

theorem unitsLt_digit (a b : Nat) (l r : List Char) :
    unitsLt (utf16Units (digitChar a :: l)) (utf16Units (digitChar b :: r)) =
      (decide (a % 10 < b % 10) || (decide (a % 10 = b % 10) &&
        unitsLt (utf16Units l) (utf16Units r))) := by
  rw [utf16Units_bmp _ _ (by rw [digitChar_toNat]; omega),
    utf16Units_bmp _ _ (by rw [digitChar_toNat]; omega), unitsLt, digitChar_toNat,
    digitChar_toNat]
  by_cases h1 : a % 10 < b % 10
  · have : 48 + a % 10 < 48 + b % 10 := by omega
    simp [h1, this]
  · by_cases h2 : a % 10 = b % 10
    · simp [h2]
    · have h3 : ¬ (48 + a % 10 < 48 + b % 10) := by omega
      have h4 : ¬ (48 + a % 10 = 48 + b % 10) := by omega
      simp [h1, h2, h3, h4]

theorem unitsLt_same (c : Char) (l r : List Char) (hc : c.toNat < 65536) :
    unitsLt (utf16Units (c :: l)) (utf16Units (c :: r)) =
      unitsLt (utf16Units l) (utf16Units r) := by
  rw [utf16Units_bmp _ _ hc, utf16Units_bmp _ _ hc, unitsLt]
  simp

theorem unitsLt_two (a b : Nat) (l r : List Char) (ha : a ≤ 99) (hb : b ≤ 99) :
    unitsLt (utf16Units (twoDigits a ++ l)) (utf16Units (twoDigits b ++ r)) =
      (decide (a < b) || (decide (a = b) && unitsLt (utf16Units l) (utf16Units r))) := by
  simp only [twoDigits, List.cons_append, List.nil_append, unitsLt_digit]
  generalize unitsLt (utf16Units l) (utf16Units r) = rest
  by_cases h1 : a < b
  · by_cases h2 : a / 10 % 10 < b / 10 % 10
    · simp [h1, h2]
    · have h3 : a / 10 % 10 = b / 10 % 10 := by omega
      have h4 : a % 10 < b % 10 := by omega
      simp [h1, h3, h4]
  · by_cases h2 : a = b
    · subst h2
      simp
    · have h3 : ¬ (a / 10 % 10 < b / 10 % 10) := by omega
      by_cases h4 : a / 10 % 10 = b / 10 % 10
      · have h5 : ¬ (a % 10 < b % 10) := by omega
        have h6 : ¬ (a % 10 = b % 10) := by omega
        simp [h1, h2, h3, h4, h5, h6]
      · simp [h1, h2, h3, h4]

theorem unitsLt_four (a b : Nat) (l r : List Char) (ha : a ≤ 9999) (hb : b ≤ 9999) :
    unitsLt (utf16Units (fourDigits a ++ l)) (utf16Units (fourDigits b ++ r)) =
      (decide (a < b) || (decide (a = b) && unitsLt (utf16Units l) (utf16Units r))) := by
  have e : ∀ (n : Nat) (t : List Char), fourDigits n ++ t =
      twoDigits (n / 100) ++ (twoDigits n ++ t) := by
    intro n t
    have h1 : n / 100 / 10 = n / 1000 := by omega
    simp [fourDigits, twoDigits, h1]
  have t2 : ∀ (x y : Nat) (p q : List Char),
      unitsLt (utf16Units (twoDigits x ++ p)) (utf16Units (twoDigits y ++ q)) =
        (decide (x % 100 < y % 100) || (decide (x % 100 = y % 100) &&
          unitsLt (utf16Units p) (utf16Units q))) := by
    intro x y p q
    have hx : twoDigits x = twoDigits (x % 100) := by
      have h1 : x % 100 / 10 % 10 = x / 10 % 10 := by omega
      have h2 : x % 100 % 10 = x % 10 := by omega
      simp [twoDigits, digitChar, h1, h2]
    have hy : twoDigits y = twoDigits (y % 100) := by
      have h1 : y % 100 / 10 % 10 = y / 10 % 10 := by omega
      have h2 : y % 100 % 10 = y % 10 := by omega
      simp [twoDigits, digitChar, h1, h2]
    rw [hx, hy, unitsLt_two _ _ _ _ (by omega) (by omega)]
  rw [e, e, unitsLt_two _ _ _ _ (by omega) (by omega), t2]
  generalize unitsLt (utf16Units l) (utf16Units r) = rest
  by_cases h1 : a < b
  · by_cases h2 : a / 100 < b / 100
    · simp [h1, h2]
    · have h3 : a / 100 = b / 100 := by omega
      have h4 : a % 100 < b % 100 := by omega
      simp [h1, h3, h4]
  · by_cases h2 : a = b
    · subst h2
      simp
    · have h3 : ¬ (a / 100 < b / 100) := by omega
      by_cases h4 : a / 100 = b / 100
      · have h5 : ¬ (a % 100 < b % 100) := by omega
        have h6 : ¬ (a % 100 = b % 100) := by omega
        simp [h1, h2, h3, h4, h5, h6]
      · simp [h1, h2, h3, h4]

theorem unitsLt_two_end (a b : Nat) (ha : a ≤ 99) (hb : b ≤ 99) :
    unitsLt (utf16Units (twoDigits a)) (utf16Units (twoDigits b)) = decide (a < b) := by
  have := unitsLt_two a b [] [] ha hb
  simp only [List.append_nil] at this
  rw [this]
  simp [utf16Units, unitsLt]

/-- The order of two day texts is the order of year, month and day. -/
theorem jsLt_format (a b : Day) (ha : a.valid) (hb : b.valid) :
    jsLt a.format b.format = true ↔
      (a.year < b.year ∨ (a.year = b.year ∧ (a.month < b.month ∨
        (a.month = b.month ∧ a.day < b.day)))) := by
  obtain ⟨ay, am1, am2, ad1, ad2⟩ := ha
  obtain ⟨by1, bm1, bm2, bd1, bd2⟩ := hb
  have hda : a.day ≤ 99 := by
    have : daysInMonth a.year a.month ≤ 31 := by unfold daysInMonth; split_ifs <;> omega
    omega
  have hdb : b.day ≤ 99 := by
    have : daysInMonth b.year b.month ≤ 31 := by unfold daysInMonth; split_ifs <;> omega
    omega
  unfold jsLt Day.format
  simp only
  rw [unitsLt_four _ _ _ _ ay by1, unitsLt_same _ _ _ (by decide),
    unitsLt_two _ _ _ _ (by omega) (by omega), unitsLt_same _ _ _ (by decide),
    unitsLt_two_end _ _ hda hdb]
  simp only [Bool.or_eq_true, Bool.and_eq_true, decide_eq_true_eq]

/-- The order of two instant texts is the order of day text, hour, minute and second. -/
theorem jsLt_stampText (a b : Day) (ha hb ma mb sa sb : Nat) (va : a.valid) (vb : b.valid)
    (hha : ha ≤ 99) (hhb : hb ≤ 99) (hma : ma ≤ 99) (hmb : mb ≤ 99) (hsa : sa ≤ 99)
    (hsb : sb ≤ 99) :
    jsLt (stampText a ha ma sa) (stampText b hb mb sb) = true ↔
      (a.year < b.year ∨ (a.year = b.year ∧ (a.month < b.month ∨ (a.month = b.month ∧
        (a.day < b.day ∨ (a.day = b.day ∧ (ha < hb ∨ (ha = hb ∧ (ma < mb ∨
          (ma = mb ∧ sa < sb)))))))))) := by
  obtain ⟨ay, am1, am2, ad1, ad2⟩ := va
  obtain ⟨by1, bm1, bm2, bd1, bd2⟩ := vb
  have hda : a.day ≤ 99 := by
    have : daysInMonth a.year a.month ≤ 31 := by unfold daysInMonth; split_ifs <;> omega
    omega
  have hdb : b.day ≤ 99 := by
    have : daysInMonth b.year b.month ≤ 31 := by unfold daysInMonth; split_ifs <;> omega
    omega
  unfold jsLt stampText Day.format
  simp only [List.append_assoc, List.cons_append]
  rw [unitsLt_four _ _ _ _ ay by1, unitsLt_same _ _ _ (by decide),
    unitsLt_two _ _ _ _ (by omega) (by omega), unitsLt_same _ _ _ (by decide),
    unitsLt_two _ _ _ _ hda hdb, unitsLt_same _ _ _ (by decide),
    unitsLt_two _ _ _ _ hha hhb, unitsLt_same _ _ _ (by decide),
    unitsLt_two _ _ _ _ hma hmb, unitsLt_same _ _ _ (by decide),
    unitsLt_two_end _ _ hsa hsb]
  simp only [Bool.or_eq_true, Bool.and_eq_true, decide_eq_true_eq]

theorem daysInMonth_bounds (y m : Nat) : 28 ≤ daysInMonth y m ∧ daysInMonth y m ≤ 31 := by
  unfold daysInMonth
  split_ifs <;> omega

theorem daysBeforeMonth_step (y m1 m2 : Nat) (h1 : 1 ≤ m1) (h2 : m1 < m2) (h3 : m2 ≤ 12) :
    daysBeforeMonth y m1 + daysInMonth y m1 ≤ daysBeforeMonth y m2 := by
  have b1 : m1 ≤ 11 := by omega
  have b2 : 2 ≤ m2 := by omega
  unfold daysBeforeMonth daysInMonth
  generalize isLeapYear y = b
  cases b <;> simp only [if_true, if_false, Bool.false_eq_true] <;>
    interval_cases m1 <;> interval_cases m2 <;> simp at h2 ⊢

theorem daysBeforeMonth_succ (y m : Nat) (h1 : 1 ≤ m) (h2 : m < 12) :
    daysBeforeMonth y (m + 1) = daysBeforeMonth y m + daysInMonth y m := by
  have b1 : m ≤ 11 := by omega
  unfold daysBeforeMonth daysInMonth
  generalize isLeapYear y = b
  cases b <;> simp only [if_true, if_false, Bool.false_eq_true] <;>
    interval_cases m <;> simp

theorem daysInYear_bound (y m d : Nat) (h1 : 1 ≤ m) (h2 : m ≤ 12)
    (h3 : d ≤ daysInMonth y m) :
    daysBeforeMonth y m + d ≤ 365 + (if isLeapYear y then 1 else 0) := by
  unfold daysBeforeMonth
  unfold daysInMonth at h3
  generalize isLeapYear y = b at h3 ⊢
  cases b <;> simp only [if_true, if_false, Bool.false_eq_true] at h3 ⊢ <;>
    interval_cases m <;> simp at h3 ⊢ <;> omega

theorem leap_indicator (y : Nat) :
    ∃ d4 d100 d400 : Nat,
      (y + 1 + 3) / 4 = (y + 3) / 4 + d4 ∧ (y + 1 + 99) / 100 = (y + 99) / 100 + d100 ∧
      (y + 1 + 399) / 400 = (y + 399) / 400 + d400 ∧
      (if isLeapYear y then 1 else 0) + d100 = d4 + d400 ∧ d100 ≤ d4 := by
  have m1 : y % 100 = 0 → y % 4 = 0 := by omega
  have m2 : y % 400 = 0 → y % 100 = 0 := by omega
  refine ⟨if y % 4 = 0 then 1 else 0, if y % 100 = 0 then 1 else 0,
    if y % 400 = 0 then 1 else 0, ?_, ?_, ?_, ?_, ?_⟩
  · split_ifs <;> omega
  · split_ifs <;> omega
  · split_ifs <;> omega
  · by_cases h4 : y % 4 = 0 <;> by_cases h100 : y % 100 = 0 <;>
      by_cases h400 : y % 400 = 0 <;> simp [isLeapYear, h4, h100, h400] <;>
      first | exact absurd (m1 h100) h4 | exact absurd (m2 h400) h100
  · by_cases h4 : y % 4 = 0 <;> by_cases h100 : y % 100 = 0 <;> simp [h4, h100]
    exact absurd (m1 h100) h4

theorem daysBeforeYear_succ (y : Nat) :
    daysBeforeYear (y + 1) = daysBeforeYear y + 365 + (if isLeapYear y then 1 else 0) := by
  obtain ⟨d4, d100, d400, e4, e100, e400, hL, hle⟩ := leap_indicator y
  have le1 : (y + 99) / 100 ≤ (y + 3) / 4 := by omega
  unfold daysBeforeYear
  rw [e4, e100, e400]
  generalize (y + 3) / 4 = a at le1 ⊢
  generalize (y + 99) / 100 = b at le1 ⊢
  generalize (y + 399) / 400 = c
  generalize (if isLeapYear y = true then 1 else 0) = L at hL ⊢
  omega

theorem daysBeforeYear_mono (a b : Nat) (h : a ≤ b) : daysBeforeYear a ≤ daysBeforeYear b := by
  induction b with
  | zero =>
      have : a = 0 := by omega
      subst this
      exact Nat.le_refl _
  | succ b ih =>
      by_cases hab : a = b + 1
      · subst hab
        exact Nat.le_refl _
      · have := ih (by omega)
        rw [daysBeforeYear_succ]
        omega

theorem daysBeforeMonth_december (y : Nat) :
    daysBeforeMonth y 12 + 31 = 365 + (if isLeapYear y then 1 else 0) := by
  unfold daysBeforeMonth
  cases isLeapYear y <;> simp

theorem dayNumber_next (d : Day) (hd : d.valid) : dayNumber d.next = dayNumber d + 1 := by
  obtain ⟨_, m1, m2, d1, d2⟩ := hd
  unfold Day.next
  by_cases h1 : d.day < daysInMonth d.year d.month
  · rw [if_pos h1]
    simp only [dayNumber]
    omega
  · rw [if_neg h1]
    have hday : d.day = daysInMonth d.year d.month := by omega
    by_cases h2 : d.month < 12
    · rw [if_pos h2]
      simp only [dayNumber]
      rw [daysBeforeMonth_succ _ _ m1 h2, hday]
      omega
    · rw [if_neg h2]
      have hm : d.month = 12 := by omega
      simp only [dayNumber]
      rw [daysBeforeYear_succ, hday, hm]
      have h31 : daysInMonth d.year 12 = 31 := by simp [daysInMonth]
      have h0 : daysBeforeMonth (d.year + 1) 1 = 0 := by simp [daysBeforeMonth]
      have := daysBeforeMonth_december d.year
      rw [h31, h0]
      omega

theorem next_valid (d : Day) (hd : d.valid) (hy : d.next.year ≤ 9999) : d.next.valid := by
  obtain ⟨_, m1, m2, d1, d2⟩ := hd
  unfold Day.next at hy ⊢
  by_cases h1 : d.day < daysInMonth d.year d.month
  · rw [if_pos h1] at hy ⊢
    exact ⟨hy, m1, m2, by simp, by simp only; omega⟩
  · rw [if_neg h1] at hy ⊢
    by_cases h2 : d.month < 12
    · rw [if_pos h2] at hy ⊢
      have := (daysInMonth_bounds d.year (d.month + 1)).1
      exact ⟨hy, by simp, by simp only; omega, by simp, by simp only; omega⟩
    · rw [if_neg h2] at hy ⊢
      have := (daysInMonth_bounds (d.year + 1) 1).1
      exact ⟨hy, by simp, by simp, by simp, by simp only; omega⟩

theorem dayNumber_lt_of_lex (a b : Day) (ha : a.valid) (hb : b.valid)
    (h : a.year < b.year ∨ (a.year = b.year ∧ (a.month < b.month ∨
      (a.month = b.month ∧ a.day < b.day)))) : dayNumber a < dayNumber b := by
  obtain ⟨_, am1, am2, ad1, ad2⟩ := ha
  obtain ⟨_, bm1, bm2, bd1, bd2⟩ := hb
  unfold dayNumber
  rcases h with h | ⟨hy, h | ⟨hm, h⟩⟩
  · have h1 := daysInYear_bound a.year a.month a.day am1 am2 ad2
    have h2 := daysBeforeYear_succ a.year
    have h3 := daysBeforeYear_mono (a.year + 1) b.year h
    omega
  · have h1 := daysBeforeMonth_step a.year a.month b.month am1 h bm2
    rw [← hy]
    omega
  · rw [← hy, ← hm]
    omega

theorem dayNumber_lt_iff (a b : Day) (ha : a.valid) (hb : b.valid) :
    dayNumber a < dayNumber b ↔
      (a.year < b.year ∨ (a.year = b.year ∧ (a.month < b.month ∨
        (a.month = b.month ∧ a.day < b.day)))) := by
  constructor
  · intro h
    by_contra hlex
    have hcases : (b.year < a.year ∨ (b.year = a.year ∧ (b.month < a.month ∨
        (b.month = a.month ∧ b.day < a.day)))) ∨
        (a.year = b.year ∧ a.month = b.month ∧ a.day = b.day) := by omega
    rcases hcases with h2 | ⟨h2, h3, h4⟩
    · have := dayNumber_lt_of_lex b a hb ha h2
      omega
    · unfold dayNumber at h
      rw [h2, h3, h4] at h
      omega
  · exact dayNumber_lt_of_lex a b ha hb

theorem dayNumber_injective (a b : Day) (ha : a.valid) (hb : b.valid)
    (h : dayNumber a = dayNumber b) : a = b := by
  have h1 := dayNumber_lt_iff a b ha hb
  have h2 := dayNumber_lt_iff b a hb ha
  have h3 : a.year = b.year ∧ a.month = b.month ∧ a.day = b.day := by omega
  cases a
  cases b
  simp only [Day.mk.injEq]
  exact h3

/-- The order of two instant texts is the order of the instants. -/
theorem jsLt_stampText_iff (a b : Day) (ha hb ma mb sa sb : Nat) (va : a.valid)
    (vb : b.valid) (hha : ha ≤ 23) (hhb : hb ≤ 23) (hma : ma ≤ 59) (hmb : mb ≤ 59)
    (hsa : sa ≤ 59) (hsb : sb ≤ 59) :
    jsLt (stampText a ha ma sa) (stampText b hb mb sb) = true ↔
      instantSeconds a ha ma sa < instantSeconds b hb mb sb := by
  rw [jsLt_stampText a b ha hb ma mb sa sb va vb (by omega) (by omega) (by omega) (by omega)
    (by omega) (by omega)]
  have h1 := dayNumber_lt_iff a b va vb
  have h2 := dayNumber_lt_iff b a vb va
  unfold instantSeconds
  constructor
  · intro h
    have hc : dayNumber a < dayNumber b ∨ (a.year = b.year ∧ a.month = b.month ∧
        a.day = b.day ∧ (ha < hb ∨ (ha = hb ∧ (ma < mb ∨ (ma = mb ∧ sa < sb))))) := by
      omega
    rcases hc with hc | ⟨e1, e2, e3, hc⟩
    · omega
    · have : dayNumber a = dayNumber b := by
        unfold dayNumber
        rw [e1, e2, e3]
      omega
  · intro h
    by_cases hd : dayNumber a < dayNumber b
    · have := h1.1 hd
      omega
    · have hd2 : ¬ dayNumber b < dayNumber a := by omega
      have heq : a = b := dayNumber_injective a b va vb (by omega)
      subst heq
      omega

theorem stampText_injective (a b : Day) (ha hb ma mb sa sb : Nat) (va : a.valid)
    (vb : b.valid) (hha : ha ≤ 23) (hhb : hb ≤ 23) (hma : ma ≤ 59) (hmb : mb ≤ 59)
    (hsa : sa ≤ 59) (hsb : sb ≤ 59)
    (h : stampText a ha ma sa = stampText b hb mb sb) :
    a = b ∧ ha = hb ∧ ma = mb ∧ sa = sb := by
  have h1 := jsLt_stampText_iff a b ha hb ma mb sa sb va vb hha hhb hma hmb hsa hsb
  have h2 := jsLt_stampText_iff b a hb ha mb ma sb sa vb va hhb hha hmb hma hsb hsa
  rw [h] at h1
  rw [h] at h2
  have n1 : ¬ (jsLt (stampText b hb mb sb) (stampText b hb mb sb) = true) := by
    intro hlt
    exact jsLt_ne _ _ hlt rfl
  have e1 : ¬ (instantSeconds a ha ma sa < instantSeconds b hb mb sb) := fun x => n1 (h1.2 x)
  have e2 : ¬ (instantSeconds b hb mb sb < instantSeconds a ha ma sa) := fun x => n1 (h2.2 x)
  unfold instantSeconds at e1 e2
  have hd : dayNumber a = dayNumber b := by omega
  have hab := dayNumber_injective a b va vb hd
  refine ⟨hab, ?_⟩
  omega

theorem pad2_twoDigits (n : Nat) (hn : n ≤ 24) : pad2 n = ⟨twoDigits n⟩ := by
  interval_cases n <;> decide

theorem format_injective (a b : Day) (va : a.valid) (vb : b.valid)
    (h : a.format = b.format) : a = b := by
  have h1 := jsLt_format a b va vb
  have h2 := jsLt_format b a vb va
  rw [h] at h1
  rw [h] at h2
  have n1 : ¬ (jsLt b.format b.format = true) := fun hlt => jsLt_ne _ _ hlt rfl
  have e1 : ¬ (a.year < b.year ∨ (a.year = b.year ∧ (a.month < b.month ∨
      (a.month = b.month ∧ a.day < b.day)))) := fun x => n1 (h1.2 x)
  have e2 : ¬ (b.year < a.year ∨ (b.year = a.year ∧ (b.month < a.month ∨
      (b.month = a.month ∧ b.day < a.day)))) := fun x => n1 (h2.2 x)
  have h3 : a.year = b.year ∧ a.month = b.month ∧ a.day = b.day := by omega
  cases a
  cases b
  simp only [Day.mk.injEq]
  exact h3

theorem instantSeconds_next (d : Day) (vd : d.valid) :
    instantSeconds d.next 0 0 0 = instantSeconds d 24 0 0 := by
  unfold instantSeconds
  rw [dayNumber_next d vd]
  omega

/-- The window end that `getClosestAction` writes for an operation is the text of the
instant at which the hour of the operation ends. -/
theorem windowEndStr_stampText (env : Env) (item : Item) (dateCol hourCol : String)
    (dflt : Nat) (d : Day) (vd : d.valid) (vn : d.next.year ≤ 9999) (hdflt : dflt ≤ 23)
    (hc : (item.cell dateCol).truthy = true)
    (hf : env.formatDay (item.cell dateCol) = d.format)
    (hn : env.formatNextDay (item.cell dateCol) = d.next.format) :
    ∃ (e : Day) (eh : Nat), e.valid ∧ eh ≤ 23 ∧
      windowEndStr env item dateCol hourCol dflt = some (stampText e eh 0 0) ∧
      instantSeconds e eh 0 0 =
        instantSeconds d (resolvedHour (item.hourRaw hourCol) dflt + 1) 0 0 := by
  have hle := resolvedHour_le (item.hourRaw hourCol) dflt hdflt
  have hstamp : ∀ (x : Day) (k : Nat), k ≤ 24 →
      x.format ++ " " ++ pad2 k ++ ":00:00" = stampText x k 0 0 := by
    intro x k hk
    rw [pad2_twoDigits k hk]
    apply String.ext
    simp only [String.data_append, stampText, List.append_assoc]
    rfl
  unfold windowEndStr
  simp only [hc, if_true, hf, hn]
  by_cases h23 : resolvedHour (item.hourRaw hourCol) dflt + 1 = 24
  · rw [if_pos h23]
    refine ⟨d.next, 0, next_valid d vd vn, by omega, ?_, ?_⟩
    · have := hstamp d.next 0 (by omega)
      rw [← this]
      rfl
    · rw [instantSeconds_next d vd, h23]
  · rw [if_neg h23]
    refine ⟨d, resolvedHour (item.hourRaw hourCol) dflt + 1, vd, by omega, ?_, rfl⟩
    rw [hstamp d _ (by omega)]

/-- C33: the string comparison of `getClosestAction` is chronologically correct.  For all
calendar days `a`, `b` with a year of at most four digits, all hours from 0 to 23 and all
minutes and seconds, the text 'yyyy-MM-dd HH:mm:ss' of one instant is before the text of the
other in the order of JavaScript strings exactly when the one instant is before the other;
this holds for two window ends 'yyyy-MM-dd HH:00:00' and for a window end against the current
instant.  Two window-end texts are equal only for the same day and hour.  And the window end
that the code writes for an operation on the day `d` with the resolved hour `h` is such a
text, of the instant at which the hour `h` of the day `d` ends (00:00:00 of the next day for
`h` = 23). -/
theorem C33_string_order_is_chronological (env : Env) (item : Item)
    (dateCol hourCol : String) (dflt : Nat) (d a b : Day) (ha hb ma mb sa sb : Nat)
    (va : a.valid) (vb : b.valid) (hha : ha ≤ 23) (hhb : hb ≤ 23) (hma : ma ≤ 59)
    (hmb : mb ≤ 59) (hsa : sa ≤ 59) (hsb : sb ≤ 59)
    (vd : d.valid) (vn : d.next.year ≤ 9999) (hdflt : dflt ≤ 23)
    (hc : (item.cell dateCol).truthy = true)
    (hf : env.formatDay (item.cell dateCol) = d.format)
    (hn : env.formatNextDay (item.cell dateCol) = d.next.format) :
    (jsLt (stampText a ha ma sa) (stampText b hb mb sb) = true ↔
      instantSeconds a ha ma sa < instantSeconds b hb mb sb) ∧
    (jsLt (stampText a ha 0 0) (stampText b hb 0 0) = true ↔
      instantSeconds a ha 0 0 < instantSeconds b hb 0 0) ∧
    (stampText a ha 0 0 = stampText b hb 0 0 → a = b ∧ ha = hb) ∧
    (dayNumber d.next = dayNumber d + 1) ∧
    ∃ (e : Day) (eh : Nat), e.valid ∧ eh ≤ 23 ∧
      windowEndStr env item dateCol hourCol dflt = some (stampText e eh 0 0) ∧
      instantSeconds e eh 0 0 =
        instantSeconds d (resolvedHour (item.hourRaw hourCol) dflt + 1) 0 0 := by
  refine ⟨jsLt_stampText_iff a b ha hb ma mb sa sb va vb hha hhb hma hmb hsa hsb,
    jsLt_stampText_iff a b ha hb 0 0 0 0 va vb hha hhb (by omega) (by omega) (by omega)
      (by omega), ?_, dayNumber_next d vd,
    windowEndStr_stampText env item dateCol hourCol dflt d vd vn hdflt hc hf hn⟩
  intro h
  obtain ⟨h1, h2, _, _⟩ := stampText_injective a b ha hb 0 0 0 0 va vb hha hhb (by omega)
    (by omega) (by omega) (by omega) h
  exact ⟨h1, h2⟩

/-- C33, witness: the add operation of the sample row, on 2025-11-16 at hour 14, against
the last day of the year 2025 and the first of 2026. -/
theorem C33_string_order_is_chronological_witness :
    (jsLt (stampText ⟨2025, 12, 31⟩ 23 59 59) (stampText ⟨2026, 1, 1⟩ 0 0 0) = true ↔
      instantSeconds ⟨2025, 12, 31⟩ 23 59 59 < instantSeconds ⟨2026, 1, 1⟩ 0 0 0) ∧
    (jsLt (stampText ⟨2025, 12, 31⟩ 23 0 0) (stampText ⟨2026, 1, 1⟩ 0 0 0) = true ↔
      instantSeconds ⟨2025, 12, 31⟩ 23 0 0 < instantSeconds ⟨2026, 1, 1⟩ 0 0 0) ∧
    (stampText ⟨2025, 12, 31⟩ 23 0 0 = stampText ⟨2026, 1, 1⟩ 0 0 0 →
      (⟨2025, 12, 31⟩ : Day) = ⟨2026, 1, 1⟩ ∧ 23 = 0) ∧
    (dayNumber (Day.next ⟨2025, 11, 16⟩) = dayNumber ⟨2025, 11, 16⟩ + 1) ∧
    ∃ (e : Day) (eh : Nat), e.valid ∧ eh ≤ 23 ∧
      windowEndStr sampleEnv sampleAddRow "Add Date" "Add Hour" 0 =
        some (stampText e eh 0 0) ∧
      instantSeconds e eh 0 0 =
        instantSeconds ⟨2025, 11, 16⟩
          (resolvedHour (sampleAddRow.hourRaw "Add Hour") 0 + 1) 0 0 :=
  C33_string_order_is_chronological sampleEnv sampleAddRow "Add Date" "Add Hour" 0
    ⟨2025, 11, 16⟩ ⟨2025, 12, 31⟩ ⟨2026, 1, 1⟩ 23 0 59 0 59 0 (by decide) (by decide)
    (by decide) (by decide) (by decide) (by decide) (by decide) (by decide) (by decide)
    (by decide) (by decide) (by decide) (by decide) (by decide)

/-! ## The execution window, the horizon and the closest action -/

theorem window_entry_cases (env : Env) (item e : Item) (now : Int)
    (he : e ∈ (filterByTimeWindow env [item] now).valid) :
    (∃ v, (item.cell "Add Date").truthy = true ∧
        env.formatDay (item.cell "Add Date") = env.todayStr ∧
        parseCustomHourToInt (item.hourRaw "Add Hour") = .ok v ∧
        isWithinTimeWindow now (v.map Int.ofNat) 0 60 = true ∧
        e = { item with action := some "ADD", customHour := v }) ∨
    (∃ v, (item.cell "Remove Date").truthy = true ∧
        env.formatDay (item.cell "Remove Date") = env.todayStr ∧
        parseCustomHourToInt (item.hourRaw "Remove Hour") = .ok v ∧
        isWithinTimeWindow now (v.map Int.ofNat) 1380 1440 = true ∧
        e = { item with action := some "REMOVE", customHour := v }) := by
  rw [filterByTimeWindow_single, List.mem_append] at he
  rcases he with he | he
  · left
    split_ifs at he with hc
    · cases hp : parseCustomHourToInt (item.hourRaw "Add Hour") with
      | bad err => rw [hp] at he; simp at he
      | ok v =>
          rw [hp] at he
          simp only at he
          split_ifs at he with hw
          · exact ⟨v, hc.1, hc.2, rfl, hw, List.mem_singleton.1 he⟩
          · simp at he
    · simp at he
  · right
    split_ifs at he with hc
    · cases hp : parseCustomHourToInt (item.hourRaw "Remove Hour") with
      | bad err => rw [hp] at he; simp at he
      | ok v =>
          rw [hp] at he
          simp only at he
          split_ifs at he with hw
          · exact ⟨v, hc.1, hc.2, rfl, hw, List.mem_singleton.1 he⟩
          · simp at he
    · simp at he

theorem window_entry_of (env : Env) (item : Item) (now : Int) :
    (∀ v, (item.cell "Add Date").truthy = true →
        env.formatDay (item.cell "Add Date") = env.todayStr →
        parseCustomHourToInt (item.hourRaw "Add Hour") = .ok v →
        isWithinTimeWindow now (v.map Int.ofNat) 0 60 = true →
        ({ item with action := some "ADD", customHour := v } : Item) ∈
          (filterByTimeWindow env [item] now).valid) ∧
    (∀ v, (item.cell "Remove Date").truthy = true →
        env.formatDay (item.cell "Remove Date") = env.todayStr →
        parseCustomHourToInt (item.hourRaw "Remove Hour") = .ok v →
        isWithinTimeWindow now (v.map Int.ofNat) 1380 1440 = true →
        ({ item with action := some "REMOVE", customHour := v } : Item) ∈
          (filterByTimeWindow env [item] now).valid) := by
  constructor
  · intro v h1 h2 h3 h4
    rw [filterByTimeWindow_single, List.mem_append]
    left
    rw [if_pos ⟨h1, h2⟩, h3]
    simp only
    rw [if_pos h4]
    exact List.mem_singleton.2 rfl
  · intro v h1 h2 h3 h4
    rw [filterByTimeWindow_single, List.mem_append]
    right
    rw [if_pos ⟨h1, h2⟩, h3]
    simp only
    rw [if_pos h4]
    exact List.mem_singleton.2 rfl

theorem in_window_in_range (env : Env) (now : Int) (maxFutureStr : String) (item : Item)
    (dateCol hourCol : String) (dFrom dTo : Int) (v : Option Nat)
    (hCell : (item.cell dateCol).truthy = true)
    (hToday : env.formatDay (item.cell dateCol) = env.todayStr)
    (hHorizon : jsLe env.todayStr maxFutureStr = true)
    (hp : parseCustomHourToInt (item.hourRaw hourCol) = .ok v)
    (hw : isWithinTimeWindow now (v.map Int.ofNat) dFrom dTo = true) :
    operationInRange env now env.todayStr maxFutureStr item dateCol hourCol dTo = true := by
  rw [operationInRange_today env now env.todayStr maxFutureStr item dateCol hourCol dTo hCell
    hToday hHorizon, hp]
  rw [isWithinTimeWindow_iff] at hw
  cases v with
  | none =>
      simp only at hw ⊢
      exact decide_eq_true hw.2
  | some h =>
      simp only at hw ⊢
      apply decide_eq_true
      have := hw.2
      omega

/-- C35: the execution window lies inside the horizon.  In a run where today is not after
the end of the horizon: if `filterByTimeWindow` yields an in-window ADD entry for a row at
the minute `nowMinutes`, then the ADD of the row is in range for `filterByDateRange` on the
same inputs, which keeps the row with `hasAddInRange` true, and `filterByTimeWindow` applied
to the kept rows yields the ADD entry of the kept row; likewise for REMOVE and
`hasRemoveInRange`. -/
theorem C35_execution_window_inside_horizon (env : Env) (plusDays : String → Nat → String)
    (nowMinutes : Int) (rows : List Item) (item e : Item)
    (hrow : item ∈ rows)
    (hHorizon : jsLe env.todayStr (plusDays env.todayStr VALIDATION_FUTURE_DAYS) = true)
    (he : e ∈ (filterByTimeWindow env [item] nowMinutes).valid) :
    (e.action = some "ADD" →
      operationInRange env nowMinutes env.todayStr
        (plusDays env.todayStr VALIDATION_FUTURE_DAYS) item "Add Date" "Add Hour"
        ADD_WINDOW_TO_MIN = true ∧
      ∃ kept, kept ∈ filterByDateRange env plusDays nowMinutes rows env.todayStr ∧
        kept = { item with
          hasAddInRange := true,
          hasRemoveInRange := operationInRange env nowMinutes env.todayStr
            (plusDays env.todayStr VALIDATION_FUTURE_DAYS) item "Remove Date" "Remove Hour"
            REMOVE_WINDOW_TO_MIN } ∧
        ({ kept with action := some "ADD", customHour := e.customHour } : Item) ∈
          (filterByTimeWindow env
            (filterByDateRange env plusDays nowMinutes rows env.todayStr) nowMinutes).valid) ∧
    (e.action = some "REMOVE" →
      operationInRange env nowMinutes env.todayStr
        (plusDays env.todayStr VALIDATION_FUTURE_DAYS) item "Remove Date" "Remove Hour"
        REMOVE_WINDOW_TO_MIN = true ∧
      ∃ kept, kept ∈ filterByDateRange env plusDays nowMinutes rows env.todayStr ∧
        kept = { item with
          hasAddInRange := operationInRange env nowMinutes env.todayStr
            (plusDays env.todayStr VALIDATION_FUTURE_DAYS) item "Add Date" "Add Hour"
            ADD_WINDOW_TO_MIN,
          hasRemoveInRange := true } ∧
        ({ kept with action := some "REMOVE", customHour := e.customHour } : Item) ∈
          (filterByTimeWindow env
            (filterByDateRange env plusDays nowMinutes rows env.todayStr) nowMinutes).valid) := by
  have hflat : ∀ L : List Item, (filterByTimeWindow env L nowMinutes).valid =
      L.flatMap (fun it => (filterByTimeWindow env [it] nowMinutes).valid) := by
    intro L
    simpa [filterByTimeWindow] using filterByTimeWindow_foldl_valid env nowMinutes L ⟨[], []⟩
  have nAR : ¬ ((some "REMOVE" : Option String) = some "ADD") := by decide
  have nRA : ¬ ((some "ADD" : Option String) = some "REMOVE") := by decide
  constructor
  · intro ha
    rcases window_entry_cases env item e nowMinutes he with
      ⟨v, h1, h2, h3, h4, rfl⟩ | ⟨v, _, _, _, _, rfl⟩
    · have hin := in_window_in_range env nowMinutes
        (plusDays env.todayStr VALIDATION_FUTURE_DAYS) item "Add Date" "Add Hour" 0 60 v h1 h2
        hHorizon h3 h4
      have hin2 : operationInRange env nowMinutes env.todayStr
          (plusDays env.todayStr VALIDATION_FUTURE_DAYS) item "Add Date" "Add Hour"
          ADD_WINDOW_TO_MIN = true := hin
      refine ⟨hin2, _, ?_, rfl, ?_⟩
      · rw [filterByDateRange_eq, List.mem_map]
        refine ⟨item, List.mem_filter.2 ⟨hrow, by simp [hin2]⟩, ?_⟩
        simp only [hin2]
      · rw [hflat, List.mem_flatMap]
        refine ⟨_, ?_, (window_entry_of env _ nowMinutes).1 v h1 h2 h3 h4⟩
        rw [filterByDateRange_eq, List.mem_map]
        refine ⟨item, List.mem_filter.2 ⟨hrow, by simp [hin2]⟩, ?_⟩
        simp only [hin2]
    · exact absurd ha nAR
  · intro ha
    rcases window_entry_cases env item e nowMinutes he with
      ⟨v, _, _, _, _, rfl⟩ | ⟨v, h1, h2, h3, h4, rfl⟩
    · exact absurd ha nRA
    · have hin := in_window_in_range env nowMinutes
        (plusDays env.todayStr VALIDATION_FUTURE_DAYS) item "Remove Date" "Remove Hour" 1380
        1440 v h1 h2 hHorizon h3 h4
      have hin2 : operationInRange env nowMinutes env.todayStr
          (plusDays env.todayStr VALIDATION_FUTURE_DAYS) item "Remove Date" "Remove Hour"
          REMOVE_WINDOW_TO_MIN = true := hin
      refine ⟨hin2, _, ?_, rfl, ?_⟩
      · rw [filterByDateRange_eq, List.mem_map]
        refine ⟨item, List.mem_filter.2 ⟨hrow, by simp [hin2]⟩, ?_⟩
        simp only [hin2]
      · rw [hflat, List.mem_flatMap]
        refine ⟨_, ?_, (window_entry_of env _ nowMinutes).2 v h1 h2 h3 h4⟩
        rw [filterByDateRange_eq, List.mem_map]
        refine ⟨item, List.mem_filter.2 ⟨hrow, by simp [hin2]⟩, ?_⟩
        simp only [hin2]

/-- C35, witness: the run of 14:05 on 2025-11-16 and the row that adds a headline today at
hour 14. -/
theorem C35_execution_window_inside_horizon_witness :
    (sampleAddExecutable.item.action = some "ADD" →
      operationInRange sampleEnv sampleNowMinutes sampleEnv.todayStr
        (samplePlusDays sampleEnv.todayStr VALIDATION_FUTURE_DAYS) sampleAddRow "Add Date"
        "Add Hour" ADD_WINDOW_TO_MIN = true ∧
      ∃ kept,
        kept ∈ filterByDateRange sampleEnv samplePlusDays sampleNowMinutes [sampleAddRow]
          sampleEnv.todayStr ∧
        kept = { sampleAddRow with
          hasAddInRange := true,
          hasRemoveInRange := operationInRange sampleEnv sampleNowMinutes sampleEnv.todayStr
            (samplePlusDays sampleEnv.todayStr VALIDATION_FUTURE_DAYS) sampleAddRow
            "Remove Date" "Remove Hour" REMOVE_WINDOW_TO_MIN } ∧
        ({ kept with action := some "ADD",
                     customHour := sampleAddExecutable.item.customHour } : Item) ∈
          (filterByTimeWindow sampleEnv
            (filterByDateRange sampleEnv samplePlusDays sampleNowMinutes [sampleAddRow]
              sampleEnv.todayStr) sampleNowMinutes).valid) ∧
    (sampleAddExecutable.item.action = some "REMOVE" →
      operationInRange sampleEnv sampleNowMinutes sampleEnv.todayStr
        (samplePlusDays sampleEnv.todayStr VALIDATION_FUTURE_DAYS) sampleAddRow "Remove Date"
        "Remove Hour" REMOVE_WINDOW_TO_MIN = true ∧
      ∃ kept,
        kept ∈ filterByDateRange sampleEnv samplePlusDays sampleNowMinutes [sampleAddRow]
          sampleEnv.todayStr ∧
        kept = { sampleAddRow with
          hasAddInRange := operationInRange sampleEnv sampleNowMinutes sampleEnv.todayStr
            (samplePlusDays sampleEnv.todayStr VALIDATION_FUTURE_DAYS) sampleAddRow
            "Add Date" "Add Hour" ADD_WINDOW_TO_MIN,
          hasRemoveInRange := true } ∧
        ({ kept with action := some "REMOVE",
                     customHour := sampleAddExecutable.item.customHour } : Item) ∈
          (filterByTimeWindow sampleEnv
            (filterByDateRange sampleEnv samplePlusDays sampleNowMinutes [sampleAddRow]
              sampleEnv.todayStr) sampleNowMinutes).valid) :=
  C35_execution_window_inside_horizon sampleEnv samplePlusDays sampleNowMinutes [sampleAddRow]
    sampleAddRow sampleAddExecutable.item (List.mem_singleton.2 rfl) (by decide) (by decide)

theorem window_filter_unset (env : Env) (item : Item) (dateCol hourCol : String) (dflt : Nat)
    (hc : ¬ (item.cell dateCol).truthy = true) :
    (windowEndStr env item dateCol hourCol dflt).filter (fun s => jsLt env.nowStr s) = none := by
  have : windowEndStr env item dateCol hourCol dflt = none := by
    simp [windowEndStr, hc]
  rw [this]
  rfl

theorem window_filter_calendar (env : Env) (item : Item) (dateCol hourCol : String)
    (dflt : Nat) (t d : Day) (H M S : Nat) (vt : t.valid) (hH : H ≤ 23) (hM : M ≤ 59)
    (hS : S ≤ 59) (hNow : env.nowStr = stampText t H M S)
    (vd : d.valid) (vn : d.next.year ≤ 9999) (hdflt : dflt ≤ 23)
    (hc : (item.cell dateCol).truthy = true)
    (hf : env.formatDay (item.cell dateCol) = d.format)
    (hn : env.formatNextDay (item.cell dateCol) = d.next.format) :
    ∃ (e : Day) (eh : Nat), e.valid ∧ eh ≤ 23 ∧
      instantSeconds e eh 0 0 =
        instantSeconds d (resolvedHour (item.hourRaw hourCol) dflt + 1) 0 0 ∧
      (windowEndStr env item dateCol hourCol dflt).filter (fun s => jsLt env.nowStr s) =
        if instantSeconds t H M S <
            instantSeconds d (resolvedHour (item.hourRaw hourCol) dflt + 1) 0 0 then
          some (stampText e eh 0 0)
        else none := by
  obtain ⟨e, eh, ve, heh, hw, hi⟩ :=
    windowEndStr_stampText env item dateCol hourCol dflt d vd vn hdflt hc hf hn
  refine ⟨e, eh, ve, heh, hi, ?_⟩
  have hiff := jsLt_stampText_iff t e H eh M 0 S 0 vt ve hH heh hM (by omega) hS (by omega)
  rw [hw, hNow, ← hi]
  by_cases hlt : instantSeconds t H M S < instantSeconds e eh 0 0
  · rw [if_pos hlt]
    simp [Option.filter, hiff.2 hlt]
  · rw [if_neg hlt]
    have : jsLt (stampText t H M S) (stampText e eh 0 0) = false := by
      cases hj : jsLt (stampText t H M S) (stampText e eh 0 0) with
      | false => rfl
      | true => exact absurd (hiff.1 hj) hlt
    simp [Option.filter, this]

/-- The closest action by the instants: `getClosestAction` when the date library prints
calendar days. -/
theorem getClosestAction_calendar (env : Env) (item : Item) (t a r : Day) (H M S : Nat)
    (vt : t.valid) (hH : H ≤ 23) (hM : M ≤ 59) (hS : S ≤ 59)
    (hNow : env.nowStr = stampText t H M S)
    (hA : (item.cell "Add Date").truthy = true →
      a.valid ∧ a.next.year ≤ 9999 ∧ env.formatDay (item.cell "Add Date") = a.format ∧
        env.formatNextDay (item.cell "Add Date") = a.next.format)
    (hR : (item.cell "Remove Date").truthy = true →
      r.valid ∧ r.next.year ≤ 9999 ∧ env.formatDay (item.cell "Remove Date") = r.format ∧
        env.formatNextDay (item.cell "Remove Date") = r.next.format) :
    getClosestAction env item =
      if (item.cell "Add Date").truthy = true ∧ instantSeconds t H M S <
          instantSeconds a (resolvedHour (item.hourRaw "Add Hour") 0 + 1) 0 0 then
        if (item.cell "Remove Date").truthy = true ∧ instantSeconds t H M S <
            instantSeconds r (resolvedHour (item.hourRaw "Remove Hour") 23 + 1) 0 0 then
          if instantSeconds a (resolvedHour (item.hourRaw "Add Hour") 0 + 1) 0 0 =
              instantSeconds r (resolvedHour (item.hourRaw "Remove Hour") 23 + 1) 0 0 then
            some "ADD+REMOVE"
          else if instantSeconds a (resolvedHour (item.hourRaw "Add Hour") 0 + 1) 0 0 <
              instantSeconds r (resolvedHour (item.hourRaw "Remove Hour") 23 + 1) 0 0 then
            some "ADD"
          else some "REMOVE"
        else some "ADD"
      else if (item.cell "Remove Date").truthy = true ∧ instantSeconds t H M S <
          instantSeconds r (resolvedHour (item.hourRaw "Remove Hour") 23 + 1) 0 0 then
        some "REMOVE"
      else none := by
  rw [getClosestAction_eq]
  generalize hIA : instantSeconds a (resolvedHour (item.hourRaw "Add Hour") 0 + 1) 0 0 = IA
  generalize hIR :
    instantSeconds r (resolvedHour (item.hourRaw "Remove Hour") 23 + 1) 0 0 = IR
  generalize hN : instantSeconds t H M S = N
  have fA : (item.cell "Add Date").truthy = true → ∃ (e : Day) (eh : Nat), e.valid ∧ eh ≤ 23 ∧
      instantSeconds e eh 0 0 = IA ∧
      (windowEndStr env item "Add Date" "Add Hour" 0).filter (fun s => jsLt env.nowStr s) =
        if N < IA then some (stampText e eh 0 0) else none := by
    intro hc
    obtain ⟨va, vn, hf, hn⟩ := hA hc
    have := window_filter_calendar env item "Add Date" "Add Hour" 0 t a H M S vt hH hM hS hNow
      va vn (by omega) hc hf hn
    rw [hIA, hN] at this
    exact this
  have fR : (item.cell "Remove Date").truthy = true → ∃ (e : Day) (eh : Nat), e.valid ∧
      eh ≤ 23 ∧ instantSeconds e eh 0 0 = IR ∧
      (windowEndStr env item "Remove Date" "Remove Hour" 23).filter
          (fun s => jsLt env.nowStr s) =
        if N < IR then some (stampText e eh 0 0) else none := by
    intro hc
    obtain ⟨vr, vn, hf, hn⟩ := hR hc
    have := window_filter_calendar env item "Remove Date" "Remove Hour" 23 t r H M S vt hH hM
      hS hNow vr vn (by omega) hc hf hn
    rw [hIR, hN] at this
    exact this
  by_cases cA : (item.cell "Add Date").truthy = true
  · obtain ⟨eA, ehA, veA, hehA, hiA, hfA⟩ := fA cA
    rw [hfA]
    by_cases cR : (item.cell "Remove Date").truthy = true
    · obtain ⟨eR, ehR, veR, hehR, hiR, hfR⟩ := fR cR
      rw [hfR]
      by_cases lA : N < IA <;> by_cases lR : N < IR
      · rw [if_pos lA, if_pos lR, if_pos ⟨cA, lA⟩, if_pos ⟨cR, lR⟩]
        simp only
        have hlt := jsLt_stampText_iff eA eR ehA ehR 0 0 0 0 veA veR hehA hehR (by omega)
          (by omega) (by omega) (by omega)
        rw [hiA, hiR] at hlt
        by_cases heq : IA = IR
        · have : stampText eA ehA 0 0 = stampText eR ehR 0 0 := by
            have h1 : instantSeconds eA ehA 0 0 = instantSeconds eR ehR 0 0 := by
              rw [hiA, hiR, heq]
            unfold instantSeconds at h1
            have h2 : dayNumber eA = dayNumber eR := by omega
            have h3 : ehA = ehR := by omega
            rw [dayNumber_injective eA eR veA veR h2, h3]
          rw [if_pos this, if_pos heq]
        · have hne : stampText eA ehA 0 0 ≠ stampText eR ehR 0 0 := by
            intro hs
            obtain ⟨h1, h2, _, _⟩ := stampText_injective eA eR ehA ehR 0 0 0 0 veA veR hehA
              hehR (by omega) (by omega) (by omega) (by omega) hs
            apply heq
            rw [← hiA, ← hiR, h1, h2]
          rw [if_neg hne, if_neg heq]
          by_cases hl : IA < IR
          · rw [if_pos (hlt.2 hl), if_pos hl]
          · rw [if_neg (fun x => hl (hlt.1 x)), if_neg hl]
      · rw [if_pos lA, if_neg lR, if_pos ⟨cA, lA⟩, if_neg (fun x => lR x.2)]
      · rw [if_neg lA, if_pos lR, if_neg (fun x => lA x.2), if_pos ⟨cR, lR⟩]
      · rw [if_neg lA, if_neg lR, if_neg (fun x => lA x.2), if_neg (fun x => lR x.2)]
    · rw [window_filter_unset env item "Remove Date" "Remove Hour" 23 cR]
      by_cases lA : N < IA
      · rw [if_pos lA, if_pos ⟨cA, lA⟩, if_neg (fun x => cR x.1)]
      · rw [if_neg lA, if_neg (fun x => lA x.2), if_neg (fun x => cR x.1)]
  · rw [window_filter_unset env item "Add Date" "Add Hour" 0 cA, if_neg (fun x => cA x.1)]
    by_cases cR : (item.cell "Remove Date").truthy = true
    · obtain ⟨eR, ehR, veR, hehR, hiR, hfR⟩ := fR cR
      rw [hfR]
      by_cases lR : N < IR
      · rw [if_pos lR, if_pos ⟨cR, lR⟩]
      · rw [if_neg lR, if_neg (fun x => lR x.2)]
    · rw [window_filter_unset env item "Remove Date" "Remove Hour" 23 cR,
        if_neg (fun x => cR x.1)]

theorem getClosestAction_values (env : Env) (item : Item) (x : String)
    (h : getClosestAction env item = some x) :
    x = "ADD" ∨ x = "REMOVE" ∨ x = "ADD+REMOVE" := by
  unfold getClosestAction at h
  simp only at h
  split_ifs at h <;> cases h <;> simp

theorem validateTextAsset_columns (env : Env) (item : Item)
    (campaignIdMap : List (String × String)) (gs : GroupStates) (timestamp : String)
    (v : Validation)
    (hc : truthyOpt (if item.hasAction = true then item.action
      else getClosestAction env item) = true)
    (hv : validateTextAsset env item campaignIdMap gs timestamp = .ok v) :
    ∀ row ∈ v.rows,
      row.action = (if item.hasAction = true then item.action
        else getClosestAction env item).getD "" ∧
      row.scheduled =
        (if item.hasAction = true then
          scheduledStr env item ((if item.hasAction = true then item.action
            else getClosestAction env item).getD "")
         else allScheduledActions env item) := by
  simp only [validateTextAsset] at hv
  generalize (if item.hasAction = true then item.action else getClosestAction env item) =
    closest at hv hc ⊢
  have h1 : ¬ ((!truthyOpt closest) = true) := by simp [hc]
  rw [if_neg h1] at hv
  generalize textRowErrors env item campaignIdMap (item.field "Campaign Name")
    (jsUpper (item.field "Text Type")) (item.field "Text") (closest.getD "") = errors at hv
  by_cases h2 : errors.length > 0
  · rw [if_pos h2] at hv
    cases hv
    intro row hrow
    simp only [List.mem_singleton] at hrow
    subst hrow
    exact ⟨rfl, rfl⟩
  · rw [if_neg h2] at hv
    generalize getTargetGroups env (item.field "Campaign Name") (item.field "Asset Group Name")
      (campaignIdOf campaignIdMap (item.field "Campaign Name")) gs = targets at hv
    by_cases h3 : targets.length = 0
    · rw [if_pos h3] at hv
      cases hv
      intro row hrow
      simp only [List.mem_singleton] at hrow
      subst hrow
      exact ⟨rfl, rfl⟩
    · rw [if_neg h3] at hv
      cases hl : TEXT_LIMITS (jsUpper (item.field "Text Type")) with
      | none => rw [hl] at hv; cases hv
      | some limits =>
          rw [hl] at hv
          simp only [Except.ok.injEq] at hv
          subst hv
          intro row hrow
          simp only [List.map_map, List.mem_map, Function.comp] at hrow
          obtain ⟨g, _, rfl⟩ := hrow
          exact ⟨rfl, rfl⟩

theorem scheduledStr_other (env : Env) (item : Item) (x : String)
    (h1 : x ≠ "ADD") (h2 : x ≠ "REMOVE") (h3 : x ≠ "ADD+REMOVE") :
    scheduledStr env item x = "" := by
  simp [scheduledStr, h1, h2, h3]

theorem in_range_future (env : Env) (nowMinutes : Int) (todayStr maxFutureStr : String)
    (item : Item) (dateCol hourCol : String) (dflt : Nat) (t d : Day) (H M S : Nat)
    (vt : t.valid) (vd : d.valid) (hH : H ≤ 23) (hM : M ≤ 59) (hS : S ≤ 59)
    (hToday : todayStr = t.format) (hMin : nowMinutes = 60 * (H : Int) + (M : Int))
    (hf : (item.cell dateCol).truthy = true → env.formatDay (item.cell dateCol) = d.format)
    (h : operationInRange env nowMinutes todayStr maxFutureStr item dateCol hourCol
      (((dflt : Int) + 1) * 60) = true) :
    (item.cell dateCol).truthy = true ∧
      instantSeconds t H M S <
        instantSeconds d (resolvedHour (item.hourRaw hourCol) dflt + 1) 0 0 := by
  unfold operationInRange at h
  simp only at h
  by_cases hc : (item.cell dateCol).truthy = true
  · refine ⟨hc, ?_⟩
    rw [if_pos hc, hf hc, hToday] at h
    by_cases hr : (jsLe t.format d.format && jsLe d.format (maxFutureStr)) = true
    · rw [if_pos hr] at h
      simp only [Bool.and_eq_true] at hr
      by_cases he : d.format = t.format
      · rw [if_pos he] at h
        have hdt : d = t := format_injective d t vd vt he
        subst hdt
        unfold instantSeconds
        cases hp : parseCustomHourToInt (item.hourRaw hourCol) with
        | bad err => rw [hp] at h; simp at h
        | ok v =>
            rw [hp] at h
            have hrh := resolvedHour_of_parse (item.hourRaw hourCol) dflt v hp
            cases v with
            | none =>
                simp only [decide_eq_true_eq] at h
                rw [hrh]
                simp only [Option.getD_none]
                omega
            | some value =>
                simp only [decide_eq_true_eq] at h
                rw [hrh]
                simp only [Option.getD_some]
                omega
      · have hlt : jsLt d.format t.format = false := by
          have := hr.1
          simpa [jsLe] using this
        have h1 := jsLt_format d t vd vt
        have h2 := dayNumber_lt_iff d t vd vt
        have h3 := dayNumber_lt_iff t d vt vd
        have hn1 : ¬ dayNumber d < dayNumber t := by
          intro hx
          have := h1.2 (h2.1 hx)
          rw [hlt] at this
          cases this
        have hn2 : dayNumber d ≠ dayNumber t := fun hx =>
          he (by rw [dayNumber_injective d t vd vt hx])
        unfold instantSeconds
        omega
    · rw [if_neg hr] at h
      cases h
  · rw [if_neg hc] at h
    cases h

/-- C32: the internal-error branch of the validators is not reached after the horizon
filter, at one and the same instant.  The date library prints calendar days with a year of
at most four digits, the instant `t` of the run is the day `today` at `H:M:S`, the filter
gets the text of `today` and the minute `60 * H + M`.  For every row that
`filterByDateRange` keeps, `getClosestAction` at the instant `t` returns an action; so no
verdict row of `validateTextAsset` for the row is the 'N/A' row of the message 'INTERNAL:
Nincs jövőbeli művelet', and `validateImageAsset` does not take its INTERNAL return. -/
theorem C32_internal_branch_not_reached_after_the_filter (env : Env)
    (plusDays : String → Nat → String) (nowMinutes : Int) (rows : List Item) (kept : Item)
    (today a r : Day) (H M S : Nat)
    (vt : today.valid) (hH : H ≤ 23) (hM : M ≤ 59) (hS : S ≤ 59)
    (hNow : env.nowStr = stampText today H M S)
    (hToday : env.todayStr = today.format)
    (hMin : nowMinutes = 60 * (H : Int) + (M : Int))
    (hA : (kept.cell "Add Date").truthy = true →
      a.valid ∧ a.next.year ≤ 9999 ∧ env.formatDay (kept.cell "Add Date") = a.format ∧
        env.formatNextDay (kept.cell "Add Date") = a.next.format)
    (hR : (kept.cell "Remove Date").truthy = true →
      r.valid ∧ r.next.year ≤ 9999 ∧ env.formatDay (kept.cell "Remove Date") = r.format ∧
        env.formatNextDay (kept.cell "Remove Date") = r.next.format)
    (hmem : kept ∈ filterByDateRange env plusDays nowMinutes rows env.todayStr) :
    getClosestAction env kept ≠ none ∧
    (∀ (campaignIdMap : List (String × String)) (gs : GroupStates) (timestamp : String)
      (v : Validation), validateTextAsset env kept campaignIdMap gs timestamp = .ok v →
      ∀ row ∈ v.rows, ¬ (row.scheduled = "N/A" ∧ row.action = "N/A" ∧
        row.message = "INTERNAL: Nincs jövőbeli művelet")) ∧
    ∀ timestamp : String, validateImageAssetInternal env kept timestamp = none := by
  have hclosest : getClosestAction env kept ≠ none := by
    rw [filterByDateRange_eq, List.mem_map] at hmem
    obtain ⟨item, hfi, hk⟩ := hmem
    have hop : ∀ (dateCol hourCol : String) (w : Int),
        operationInRange env nowMinutes env.todayStr
          (plusDays env.todayStr VALIDATION_FUTURE_DAYS) kept dateCol hourCol w =
        operationInRange env nowMinutes env.todayStr
          (plusDays env.todayStr VALIDATION_FUTURE_DAYS) item dateCol hourCol w := by
      intro dateCol hourCol w
      rw [← hk]
      rfl
    have hor := (List.mem_filter.1 hfi).2
    simp only [Bool.or_eq_true] at hor
    rw [← hop, ← hop] at hor
    rw [getClosestAction_calendar env kept today a r H M S vt hH hM hS hNow hA hR]
    rcases hor with h | h
    · have e60 : ADD_WINDOW_TO_MIN = (((0 : Nat) : Int) + 1) * 60 := by decide
      rw [e60] at h
      have hf := in_range_future env nowMinutes env.todayStr
        (plusDays env.todayStr VALIDATION_FUTURE_DAYS) kept "Add Date" "Add Hour" 0
        today a H M S vt
      by_cases hc : (kept.cell "Add Date").truthy = true
      · obtain ⟨va, _, hfa, _⟩ := hA hc
        have := hf va hH hM hS hToday hMin (fun _ => hfa) h
        rw [if_pos this]
        split_ifs <;> simp
      · rw [operationInRange_unset _ _ _ _ _ _ _ _ (by simpa using hc)] at h
        cases h
    · have e1440 : REMOVE_WINDOW_TO_MIN = (((23 : Nat) : Int) + 1) * 60 := by decide
      rw [e1440] at h
      have hf := in_range_future env nowMinutes env.todayStr
        (plusDays env.todayStr VALIDATION_FUTURE_DAYS) kept "Remove Date" "Remove Hour"
        23 today r H M S vt
      by_cases hc : (kept.cell "Remove Date").truthy = true
      · obtain ⟨vr, _, hfr, _⟩ := hR hc
        have := hf vr hH hM hS hToday hMin (fun _ => hfr) h
        rw [if_pos this]
        split_ifs <;> simp
      · rw [operationInRange_unset _ _ _ _ _ _ _ _ (by simpa using hc)] at h
        cases h
  obtain ⟨act, hact⟩ := Option.ne_none_iff_exists'.1 hclosest
  have htruthy := (closest_truthy_iff env kept).2 (Or.inr hclosest)
  refine ⟨hclosest, ?_, ?_⟩
  · intro campaignIdMap gs timestamp v hv row hrow
    obtain ⟨h1, h2⟩ := validateTextAsset_columns env kept campaignIdMap gs timestamp v htruthy
      hv row hrow
    rintro ⟨hs, ha, _⟩
    by_cases hp : kept.hasAction = true
    · rw [if_pos hp] at h1 h2
      rw [if_pos hp] at h2
      rw [← h1, ha, scheduledStr_other env kept "N/A" (by decide) (by decide) (by decide)] at h2
      rw [hs] at h2
      exact absurd h2 (by decide)
    · rw [if_neg hp, hact] at h1
      simp only [Option.getD_some] at h1
      rw [ha] at h1
      rcases getClosestAction_values env kept act hact with h | h | h <;>
        rw [h] at h1 <;> exact absurd h1 (by decide)
  · intro timestamp
    unfold validateImageAssetInternal
    simp only
    have : truthyOpt (getClosestAction env kept) = true := by
      rw [hact]
      exact getClosestAction_truthy env kept act hact
    simp [this]

/-- C32, witness: the run of 14:05:00 on 2025-11-16 and the row that adds a headline
today at hour 14, kept by the filter. -/
theorem C32_internal_branch_not_reached_after_the_filter_witness :
    getClosestAction sampleEnv
        { sampleAddRow with hasAddInRange := true, hasRemoveInRange := false } ≠ none ∧
    (∀ (campaignIdMap : List (String × String)) (gs : GroupStates) (timestamp : String)
      (v : Validation),
      validateTextAsset sampleEnv
        { sampleAddRow with hasAddInRange := true, hasRemoveInRange := false } campaignIdMap
        gs timestamp = .ok v →
      ∀ row ∈ v.rows, ¬ (row.scheduled = "N/A" ∧ row.action = "N/A" ∧
        row.message = "INTERNAL: Nincs jövőbeli művelet")) ∧
    ∀ timestamp : String,
      validateImageAssetInternal sampleEnv
        { sampleAddRow with hasAddInRange := true, hasRemoveInRange := false } timestamp =
          none :=
  C32_internal_branch_not_reached_after_the_filter sampleEnv samplePlusDays sampleNowMinutes
    [sampleAddRow] { sampleAddRow with hasAddInRange := true, hasRemoveInRange := false }
    ⟨2025, 11, 16⟩ ⟨2025, 11, 16⟩ ⟨2025, 11, 16⟩ 14 5 0 (by decide) (by decide) (by decide)
    (by decide) (by decide) (by decide) (by decide)
    (fun _ => ⟨by decide, by decide, by decide, by decide⟩)
    (fun h => absurd h (by decide)) (by decide)

theorem ambiguous_is_error (env : Env) (item : Item)
    (campaignIdMap : List (String × String)) (gs : GroupStates) (timestamp : String)
    (hNext : env.formatNextDay (item.cell "Add Date") =
        env.formatNextDay (item.cell "Remove Date") →
      env.formatDay (item.cell "Add Date") = env.formatDay (item.cell "Remove Date"))
    (hClosest : getClosestAction env item = some "ADD+REMOVE") :
    ∃ rows, validateTextAsset env item campaignIdMap gs timestamp =
      .ok { status := "ERROR", rows := rows, validGroups := none } := by
  obtain ⟨s, ha, hr⟩ := closest_both_equal env item hClosest
  obtain ⟨hca, hcr, hday, hhour⟩ := equal_ends_same_day_and_hour env item s hNext ha hr
  apply validateTextAsset_error_of_rowErrors
  intro effectiveAction hnil
  have hs : selfConflictErrors env item ≠ [] := by
    simp [selfConflictErrors, hca, hcr, hday, hhour]
  simp only [textRowErrors, List.append_eq_nil] at hnil
  exact hs hnil.1.1.1.2

theorem windowEndStr_some_truthy (env : Env) (item : Item) (dateCol hourCol : String)
    (dflt : Nat) (s : String) (h : windowEndStr env item dateCol hourCol dflt = some s) :
    (item.cell dateCol).truthy = true := by
  cases hc : (item.cell dateCol).truthy with
  | true => rfl
  | false => simp [windowEndStr, hc] at h

theorem in_window_hour (now : Int) (v : Option Nat) (dflt H M : Nat) (dFrom dTo : Int)
    (hM : M ≤ 59) (hMin : now = 60 * (H : Int) + (M : Int))
    (hFrom : dFrom = (dflt : Int) * 60) (hTo : dTo = (dflt : Int) * 60 + 60)
    (hw : isWithinTimeWindow now (v.map Int.ofNat) dFrom dTo = true) :
    v.getD dflt = H := by
  rw [isWithinTimeWindow_iff] at hw
  cases v with
  | none =>
      simp only at hw
      simp only [Option.getD_none]
      omega
  | some h =>
      simp only at hw
      simp only [Option.getD_some]
      omega

/-- C34: the action that is validated is the action that is executed, at one and the same
instant.  The date library prints calendar days with a year of at most four digits, the
instant of the run is the day `today` at `H:M:S` and `filterByTimeWindow` gets the minute
`60 * H + M`.  If `filterByTimeWindow` yields an in-window entry with the action ADD for the
row, `getClosestAction` returns 'ADD' or 'ADD+REMOVE'; if it yields an entry with the action
REMOVE, `getClosestAction` returns 'REMOVE' or 'ADD+REMOVE'.  And when `validateTextAsset`
in preview mode returns valid groups for the row, every verdict row carries the action of
the in-window entry. -/
theorem C34_validated_action_is_the_executed_action (env : Env) (item e : Item)
    (nowMinutes : Int) (today a r : Day) (H M S : Nat)
    (vt : today.valid) (hH : H ≤ 23) (hM : M ≤ 59) (hS : S ≤ 59)
    (hNow : env.nowStr = stampText today H M S)
    (hToday : env.todayStr = today.format)
    (hMin : nowMinutes = 60 * (H : Int) + (M : Int))
    (hA : (item.cell "Add Date").truthy = true →
      a.valid ∧ a.next.year ≤ 9999 ∧ env.formatDay (item.cell "Add Date") = a.format ∧
        env.formatNextDay (item.cell "Add Date") = a.next.format)
    (hR : (item.cell "Remove Date").truthy = true →
      r.valid ∧ r.next.year ≤ 9999 ∧ env.formatDay (item.cell "Remove Date") = r.format ∧
        env.formatNextDay (item.cell "Remove Date") = r.next.format)
    (he : e ∈ (filterByTimeWindow env [item] nowMinutes).valid) :
    (e.action = some "ADD" →
      getClosestAction env item = some "ADD" ∨
        getClosestAction env item = some "ADD+REMOVE") ∧
    (e.action = some "REMOVE" →
      getClosestAction env item = some "REMOVE" ∨
        getClosestAction env item = some "ADD+REMOVE") ∧
    (item.hasAction = false →
      ∀ (campaignIdMap : List (String × String)) (gs : GroupStates) (timestamp : String)
        (v : Validation) (vg : List Group),
        validateTextAsset env item campaignIdMap gs timestamp = .ok v →
        v.validGroups = some vg → ∀ row ∈ v.rows, some row.action = e.action) := by
  have hcal := getClosestAction_calendar env item today a r H M S vt hH hM hS hNow hA hR
  have nAR : ¬ ((some "REMOVE" : Option String) = some "ADD") := by decide
  have nRA : ¬ ((some "ADD" : Option String) = some "REMOVE") := by decide
  have hadd : e.action = some "ADD" →
      getClosestAction env item = some "ADD" ∨
        getClosestAction env item = some "ADD+REMOVE" := by
    intro ha
    rcases window_entry_cases env item e nowMinutes he with
      ⟨v, h1, h2, h3, h4, rfl⟩ | ⟨v, _, _, _, _, rfl⟩
    · obtain ⟨va, _, hfa, _⟩ := hA h1
      have hat : a = today := format_injective a today va vt (by rw [← hfa, h2, hToday])
      subst hat
      have hrh : resolvedHour (item.hourRaw "Add Hour") 0 = H := by
        rw [resolvedHour_of_parse _ 0 v h3]
        exact in_window_hour nowMinutes v 0 H M 0 60 hM hMin (by decide) (by decide) h4
      rw [hrh] at hcal
      have hfut : instantSeconds a H M S < instantSeconds a (H + 1) 0 0 := by
        unfold instantSeconds
        omega
      rw [if_pos ⟨h1, hfut⟩] at hcal
      rw [hcal]
      split_ifs with c1 c2 c3
      · exact Or.inr rfl
      · exact Or.inl rfl
      · exfalso
        have := c1.2
        unfold instantSeconds at this c2 c3
        omega
      · exact Or.inl rfl
    · exact absurd ha nAR
  have hrem : e.action = some "REMOVE" →
      getClosestAction env item = some "REMOVE" ∨
        getClosestAction env item = some "ADD+REMOVE" := by
    intro ha
    rcases window_entry_cases env item e nowMinutes he with
      ⟨v, _, _, _, _, rfl⟩ | ⟨v, h1, h2, h3, h4, rfl⟩
    · exact absurd ha nRA
    · obtain ⟨vr, _, hfr, _⟩ := hR h1
      have hrt : r = today := format_injective r today vr vt (by rw [← hfr, h2, hToday])
      subst hrt
      have hrh : resolvedHour (item.hourRaw "Remove Hour") 23 = H := by
        rw [resolvedHour_of_parse _ 23 v h3]
        exact in_window_hour nowMinutes v 23 H M 1380 1440 hM hMin (by decide) (by decide) h4
      rw [hrh] at hcal
      have hfut : instantSeconds r H M S < instantSeconds r (H + 1) 0 0 := by
        unfold instantSeconds
        omega
      rw [hcal]
      split_ifs with c1 c2 c3 c4 c5
      · exact Or.inr rfl
      · exfalso
        have := c1.2
        unfold instantSeconds at this c4 hfut
        omega
      · exact Or.inl rfl
      · exact absurd ⟨h1, hfut⟩ c2
      · exact Or.inl rfl
      · exact absurd ⟨h1, hfut⟩ c5
  refine ⟨hadd, hrem, ?_⟩
  intro hPreview campaignIdMap gs timestamp v vg hv hvg row hrow
  obtain ⟨act, hclos, hcols⟩ := validateTextAsset_preview_columns env item campaignIdMap gs
    timestamp v vg hPreview hv hvg
  have hact := (hcols row hrow).2.2.2.2
  have hnot : getClosestAction env item ≠ some "ADD+REMOVE" := by
    intro hamb
    obtain ⟨s, hwa, hwr⟩ := closest_both_equal env item hamb
    have cA := windowEndStr_some_truthy env item _ _ _ s hwa
    have cR := windowEndStr_some_truthy env item _ _ _ s hwr
    obtain ⟨va, vna, hfa, hna⟩ := hA cA
    obtain ⟨vr, vnr, hfr, hnr⟩ := hR cR
    have hNext : env.formatNextDay (item.cell "Add Date") =
        env.formatNextDay (item.cell "Remove Date") →
        env.formatDay (item.cell "Add Date") = env.formatDay (item.cell "Remove Date") := by
      intro hn
      rw [hna, hnr] at hn
      have h1 := format_injective a.next r.next (next_valid a va vna) (next_valid r vr vnr) hn
      have h2 : dayNumber a = dayNumber r := by
        have e1 := dayNumber_next a va
        have e2 := dayNumber_next r vr
        rw [h1] at e1
        omega
      rw [hfa, hfr, dayNumber_injective a r va vr h2]
    obtain ⟨rows, herr⟩ := ambiguous_is_error env item campaignIdMap gs timestamp hNext hamb
    rw [herr] at hv
    simp only [Except.ok.injEq] at hv
    rw [← hv] at hvg
    cases hvg
  rcases window_entry_cases env item e nowMinutes he with
    ⟨v2, _, _, _, _, rfl⟩ | ⟨v2, _, _, _, _, rfl⟩
  · rcases hadd rfl with h | h
    · rw [hclos] at h
      rw [hact]
      exact h
    · exact absurd h hnot
  · rcases hrem rfl with h | h
    · rw [hclos] at h
      rw [hact]
      exact h
    · exact absurd h hnot

/-- C34, witness: the run of 14:05:00 on 2025-11-16, the row that adds a headline today at
hour 14, and its in-window entry. -/
theorem C34_validated_action_is_the_executed_action_witness :
    (sampleAddExecutable.item.action = some "ADD" →
      getClosestAction sampleEnv sampleAddRow = some "ADD" ∨
        getClosestAction sampleEnv sampleAddRow = some "ADD+REMOVE") ∧
    (sampleAddExecutable.item.action = some "REMOVE" →
      getClosestAction sampleEnv sampleAddRow = some "REMOVE" ∨
        getClosestAction sampleEnv sampleAddRow = some "ADD+REMOVE") ∧
    (sampleAddRow.hasAction = false →
      ∀ (campaignIdMap : List (String × String)) (gs : GroupStates) (timestamp : String)
        (v : Validation) (vg : List Group),
        validateTextAsset sampleEnv sampleAddRow campaignIdMap gs timestamp = .ok v →
        v.validGroups = some vg →
        ∀ row ∈ v.rows, some row.action = sampleAddExecutable.item.action) :=
  C34_validated_action_is_the_executed_action sampleEnv sampleAddRow sampleAddExecutable.item
    sampleNowMinutes ⟨2025, 11, 16⟩ ⟨2025, 11, 16⟩ ⟨2025, 11, 16⟩ 14 5 0 (by decide)
    (by decide) (by decide) (by decide) (by decide) (by decide) (by decide)
    (fun _ => ⟨by decide, by decide, by decide, by decide⟩)
    (fun h => absurd h (by decide)) (by decide)

/-! ## The end of the horizon -/

theorem year_le_next (d : Day) : d.year ≤ d.next.year := by
  unfold Day.next
  split_ifs <;> simp

theorem plus_valid (d : Day) (vd : d.valid) :
    ∀ n, (d.plus n).year ≤ 9999 →
      (d.plus n).valid ∧ dayNumber (d.plus n) = dayNumber d + n := by
  intro n
  induction n with
  | zero =>
      intro _
      exact ⟨vd, rfl⟩
  | succ n ih =>
      intro hy
      have hy2 : (d.plus n).next.year ≤ 9999 := hy
      have hy1 : (d.plus n).year ≤ 9999 := le_trans (year_le_next _) hy2
      obtain ⟨v, hn⟩ := ih hy1
      refine ⟨next_valid _ v hy2, ?_⟩
      show dayNumber (d.plus n).next = dayNumber d + (n + 1)
      rw [dayNumber_next _ v, hn]
      omega

theorem parseDay_format (d : Day) (vd : d.valid) : parseDay d.format = some d := by
  obtain ⟨hy, hm1, hm2, hd1, hd2⟩ := vd
  have hd3 : d.day ≤ 31 := le_trans hd2 (daysInMonth_bounds _ _).2
  have ey : 1000 * (48 + d.year / 1000 % 10 - 48) + 100 * (48 + d.year / 100 % 10 - 48) +
      10 * (48 + d.year / 10 % 10 - 48) + (48 + d.year % 10 - 48) = d.year := by omega
  have em : 10 * (48 + d.month / 10 % 10 - 48) + (48 + d.month % 10 - 48) = d.month := by
    omega
  have ed : 10 * (48 + d.day / 10 % 10 - 48) + (48 + d.day % 10 - 48) = d.day := by omega
  have hv : (⟨d.year, d.month, d.day⟩ : Day).valid := ⟨hy, hm1, hm2, hd1, hd2⟩
  simp only [parseDay, Day.format, fourDigits, twoDigits, List.cons_append, List.nil_append,
    digitChar_isDigit, digitChar_toNat, and_self, if_true, ey, em, ed, hv]

theorem jsLe_format_iff (a b : Day) (va : a.valid) (vb : b.valid) :
    jsLe a.format b.format = true ↔ dayNumber a ≤ dayNumber b := by
  have h1 := jsLt_format b a vb va
  have h2 := dayNumber_lt_iff b a vb va
  unfold jsLe
  cases h : jsLt b.format a.format with
  | true =>
      have := h2.2 (h1.1 h)
      simp only [Bool.not_true, Bool.false_eq_true, false_iff]
      omega
  | false =>
      have hn : ¬ dayNumber b < dayNumber a := by
        intro hlt
        have := h1.2 (h2.1 hlt)
        rw [h] at this
        cases this
      simp only [Bool.not_false, true_iff]
      omega

theorem calendarPlusDays_format (today : Day) (vt : today.valid) (n : Nat) :
    calendarPlusDays today.format n = (today.plus n).format := by
  simp only [calendarPlusDays, parseDay_format today vt]

theorem operationInRange_later_day (env : Env) (nowMinutes : Int) (item : Item)
    (dateCol hourCol : String) (windowTo : Int) (today d e : Day)
    (vt : today.valid) (vd : d.valid) (ve : e.valid)
    (hCell : (item.cell dateCol).truthy = true)
    (hDay : env.formatDay (item.cell dateCol) = d.format)
    (hAfter : dayNumber today < dayNumber d) :
    operationInRange env nowMinutes today.format e.format item dateCol hourCol windowTo =
      decide (dayNumber d ≤ dayNumber e) := by
  have h1 : jsLe today.format d.format = true :=
    (jsLe_format_iff today d vt vd).2 (Nat.le_of_lt hAfter)
  have hne : d.format ≠ today.format := by
    intro h
    have := format_injective d today vd vt h
    rw [this] at hAfter
    exact Nat.lt_irrefl _ hAfter
  simp only [operationInRange, hCell, hDay, h1, if_true, Bool.true_and, hne, if_false]
  by_cases hle : dayNumber d ≤ dayNumber e
  · rw [(jsLe_format_iff d e vd ve).2 hle]
    simp [hle]
  · have : jsLe d.format e.format = false := by
      cases h : jsLe d.format e.format with
      | false => rfl
      | true => exact absurd ((jsLe_format_iff d e vd ve).1 h) hle
    rw [this]
    simp [hle]

/-- C19: the horizon of `filterByDateRange` is today plus `VALIDATION_FUTURE_DAYS` = 30
days, with the end of the horizon computed as the filter computes it (lines 489-494): the
day that the text of today names, moved on by 30 days and printed as 'yyyy-MM-dd'.  For
every calendar day `today` whose horizon ends in a year of at most four digits and every
calendar day `d` strictly after today: an operation whose date cell is printed as the day
`d` is in range exactly when `d` is at most 30 days after today, whatever its hour field
contains; so a row whose only date is the add-date (or the remove-date) `d` is kept, with
its flag set, when `d` is at most 30 days after today and is dropped otherwise.  The day `n`
days after today has the number of today plus `n`, so the row dated today + 30 is kept and
the row dated today + 31 is dropped. -/
theorem C19_horizon_is_thirty_days (env : Env) (nowMinutes : Int) (item : Item)
    (today d : Day) (vt : today.valid) (vd : d.valid)
    (vh : (today.plus VALIDATION_FUTURE_DAYS).year ≤ 9999)
    (hAfter : dayNumber today < dayNumber d) :
    ((item.cell "Add Date").truthy = true →
      env.formatDay (item.cell "Add Date") = d.format →
      (operationInRange env nowMinutes today.format
        (calendarPlusDays today.format VALIDATION_FUTURE_DAYS) item
        "Add Date" "Add Hour" ADD_WINDOW_TO_MIN = true ↔ dayNumber d ≤ dayNumber today + 30) ∧
      ((item.cell "Remove Date").truthy = false →
        filterByDateRange env calendarPlusDays nowMinutes [item] today.format =
          if dayNumber d ≤ dayNumber today + 30 then
            [{ item with hasAddInRange := true, hasRemoveInRange := false }]
          else [])) ∧
    ((item.cell "Remove Date").truthy = true →
      env.formatDay (item.cell "Remove Date") = d.format →
      (operationInRange env nowMinutes today.format
        (calendarPlusDays today.format VALIDATION_FUTURE_DAYS) item
        "Remove Date" "Remove Hour" REMOVE_WINDOW_TO_MIN = true ↔
          dayNumber d ≤ dayNumber today + 30) ∧
      ((item.cell "Add Date").truthy = false →
        filterByDateRange env calendarPlusDays nowMinutes [item] today.format =
          if dayNumber d ≤ dayNumber today + 30 then
            [{ item with hasAddInRange := false, hasRemoveInRange := true }]
          else [])) ∧
    (∀ n, (today.plus n).year ≤ 9999 →
      (today.plus n).valid ∧ dayNumber (today.plus n) = dayNumber today + n) ∧
    (d = today.plus 30 → dayNumber d ≤ dayNumber today + 30) ∧
    (d = today.plus 31 → ¬ dayNumber d ≤ dayNumber today + 30) := by
  obtain ⟨ve, hn⟩ := plus_valid today vt VALIDATION_FUTURE_DAYS vh
  have h30 : dayNumber (today.plus VALIDATION_FUTURE_DAYS) = dayNumber today + 30 := hn
  have hmax := calendarPlusDays_format today vt VALIDATION_FUTURE_DAYS
  refine ⟨?_, ?_, plus_valid today vt, ?_, ?_⟩
  · intro hCell hDay
    have h := operationInRange_later_day env nowMinutes item "Add Date" "Add Hour"
      ADD_WINDOW_TO_MIN today d _ vt vd ve hCell hDay hAfter
    rw [h30, ← hmax] at h
    refine ⟨by rw [h]; simp, ?_⟩
    intro hNo
    have h2 := operationInRange_unset env nowMinutes today.format
      (calendarPlusDays today.format VALIDATION_FUTURE_DAYS) item "Remove Date" "Remove Hour"
      REMOVE_WINDOW_TO_MIN hNo
    rw [filterByDateRange_eq]
    by_cases hle : dayNumber d ≤ dayNumber today + 30
    · simp [h, h2, hle]
    · simp [h, h2, hle]
  · intro hCell hDay
    have h := operationInRange_later_day env nowMinutes item "Remove Date" "Remove Hour"
      REMOVE_WINDOW_TO_MIN today d _ vt vd ve hCell hDay hAfter
    rw [h30, ← hmax] at h
    refine ⟨by rw [h]; simp, ?_⟩
    intro hNo
    have h2 := operationInRange_unset env nowMinutes today.format
      (calendarPlusDays today.format VALIDATION_FUTURE_DAYS) item "Add Date" "Add Hour"
      ADD_WINDOW_TO_MIN hNo
    rw [filterByDateRange_eq]
    by_cases hle : dayNumber d ≤ dayNumber today + 30
    · simp [h, h2, hle]
    · simp [h, h2, hle]
  · intro hd
    rw [hd]
    exact Nat.le_of_eq h30
  · intro hd
    have vd31 : (today.plus 31).year ≤ 9999 := by
      rw [← hd]
      exact vd.1
    rw [hd, (plus_valid today vt 31 vd31).2]
    omega

/-- C19, witness: in the run of 2025-11-16 the horizon ends on 2025-12-16; the row whose
only date is the add-date 2025-12-16, 30 days later, with the hour text '25', is kept, and
the row whose only date is the remove-date 2025-12-17, 31 days later, is dropped. -/
theorem C19_horizon_is_thirty_days_witness :
    calendarPlusDays "2025-11-16" VALIDATION_FUTURE_DAYS = "2025-12-16" ∧
    Day.plus ⟨2025, 11, 16⟩ 30 = ⟨2025, 12, 16⟩ ∧
    Day.plus ⟨2025, 11, 16⟩ 31 = ⟨2025, 12, 17⟩ ∧
    filterByDateRange sampleEnv calendarPlusDays sampleNowMinutes [sampleHorizonRow]
        "2025-11-16" =
      [{ sampleHorizonRow with hasAddInRange := true, hasRemoveInRange := false }] ∧
    filterByDateRange sampleEnv calendarPlusDays sampleNowMinutes [sampleBeyondHorizonRow]
        "2025-11-16" = [] :=
  ⟨by
    unfold calendarPlusDays
    rw [show parseDay "2025-11-16" = some ⟨2025, 11, 16⟩ from by decide]
    show (Day.plus ⟨2025, 11, 16⟩ 30).format = "2025-12-16"
    rw [show Day.plus ⟨2025, 11, 16⟩ 30 = ⟨2025, 12, 16⟩ from rfl]
    decide,
   rfl, rfl,
   (((C19_horizon_is_thirty_days sampleEnv sampleNowMinutes sampleHorizonRow
      ⟨2025, 11, 16⟩ ⟨2025, 12, 16⟩ (by decide) (by decide) (by decide) (by decide)).1
      (by decide) (by decide)).2 (by decide)).trans (by decide),
   (((C19_horizon_is_thirty_days sampleEnv sampleNowMinutes sampleBeyondHorizonRow
      ⟨2025, 11, 16⟩ ⟨2025, 12, 17⟩ (by decide) (by decide) (by decide) (by decide)).2.1
      (by decide) (by decide)).2 (by decide)).trans (by decide)⟩

/-! ## The key of the deduplication -/

theorem split_at_bar_left (a a' x x' : List Char) (ha : '|' ∉ a) (ha' : '|' ∉ a')
    (h : a ++ '|' :: x = a' ++ '|' :: x') : a = a' ∧ x = x' := by
  induction a generalizing a' with
  | nil =>
      cases a' with
      | nil =>
          simp only [List.nil_append, List.cons.injEq, true_and] at h
          exact ⟨rfl, h⟩
      | cons c rest =>
          simp only [List.nil_append, List.cons_append, List.cons.injEq] at h
          exact absurd (List.mem_cons_self c rest) (h.1 ▸ ha')
  | cons b rest ih =>
      cases a' with
      | nil =>
          simp only [List.nil_append, List.cons_append, List.cons.injEq] at h
          exact absurd (List.mem_cons_self b rest) (h.1.symm ▸ ha)
      | cons c rest' =>
          simp only [List.cons_append, List.cons.injEq] at h
          obtain ⟨h1, h2⟩ := ih rest' (fun hm => ha (List.mem_cons_of_mem _ hm))
            (fun hm => ha' (List.mem_cons_of_mem _ hm)) h.2
          exact ⟨by rw [h.1, h1], h2⟩

theorem split_at_bar_right (x x' b b' : List Char) (hb : '|' ∉ b) (hb' : '|' ∉ b')
    (h : x ++ '|' :: b = x' ++ '|' :: b') : x = x' ∧ b = b' := by
  have hr := congrArg List.reverse h
  simp only [List.reverse_append, List.reverse_cons, List.append_assoc,
    List.singleton_append] at hr
  obtain ⟨h1, h2⟩ := split_at_bar_left b.reverse b'.reverse x.reverse x'.reverse
    (by simpa using hb) (by simpa using hb') hr
  exact ⟨List.reverse_injective h2, List.reverse_injective h1⟩

theorem hour_text_no_bar (h : Option Nat) (hh : ∀ v, h = some v → v ≤ 23) :
    '|' ∉ (match h with
      | none => "null"
      | some v => if v = 0 then "null" else toString v).data := by
  cases h with
  | none => decide
  | some v =>
      have hv := hh v rfl
      interval_cases v <;> decide

theorem hour_text_eq (h1 h2 : Option Nat)
    (h : (match h1 with
        | none => "null"
        | some v => if v = 0 then "null" else toString v) =
      (match h2 with
        | none => "null"
        | some v => if v = 0 then "null" else toString v))
    (hh1 : ∀ v, h1 = some v → v ≤ 23) (hh2 : ∀ v, h2 = some v → v ≤ 23) :
    h1 = h2 ∨ ((h1 = none ∨ h1 = some 0) ∧ (h2 = none ∨ h2 = some 0)) := by
  have hnull : ∀ v : Nat, v ≤ 23 → v ≠ 0 → toString v ≠ "null" := by
    intro v hv h0
    interval_cases v
    · exact absurd rfl h0
    all_goals decide
  cases h1 with
  | none =>
      cases h2 with
      | none => exact Or.inl rfl
      | some v2 =>
          by_cases z2 : v2 = 0
          · exact Or.inr ⟨Or.inl rfl, Or.inr (by rw [z2])⟩
          · simp only [z2, if_false] at h
            exact absurd h.symm (hnull v2 (hh2 v2 rfl) z2)
  | some v1 =>
      cases h2 with
      | none =>
          by_cases z1 : v1 = 0
          · exact Or.inr ⟨Or.inr (by rw [z1]), Or.inl rfl⟩
          · simp only [z1, if_false] at h
            exact absurd h (hnull v1 (hh1 v1 rfl) z1)
      | some v2 =>
          by_cases z1 : v1 = 0
          · by_cases z2 : v2 = 0
            · exact Or.inl (by rw [z1, z2])
            · simp only [z1, z2, if_true, if_false] at h
              exact absurd h.symm (hnull v2 (hh2 v2 rfl) z2)
          · by_cases z2 : v2 = 0
            · simp only [z1, z2, if_true, if_false] at h
              exact absurd h (hnull v1 (hh1 v1 rfl) z1)
            · simp only [z1, z2, if_false] at h
              exact Or.inl (by
                rw [toString_hour_injective v1 v2 (hh1 v1 rfl) (hh2 v2 rfl) h])

theorem makeKey_parts (c1 r1 t1 m1 a1 c2 r2 t2 m2 a2 : String) (h1 h2 : Option Nat)
    (hc1 : '|' ∉ c1.data) (hc2 : '|' ∉ c2.data) (hr1 : '|' ∉ r1.data)
    (hr2 : '|' ∉ r2.data) (ht1 : '|' ∉ t1.data) (ht2 : '|' ∉ t2.data)
    (ha1 : '|' ∉ a1.data) (ha2 : '|' ∉ a2.data)
    (hh1 : ∀ v, h1 = some v → v ≤ 23) (hh2 : ∀ v, h2 = some v → v ≤ 23)
    (h : makeKey c1 r1 t1 m1 (some a1) h1 = makeKey c2 r2 t2 m2 (some a2) h2) :
    c1 = c2 ∧ r1 = r2 ∧ t1 = t2 ∧ m1 = m2 ∧ a1 = a2 ∧
      (h1 = h2 ∨ ((h1 = none ∨ h1 = some 0) ∧ (h2 = none ∨ h2 = some 0))) := by
  have hb1 := hour_text_no_bar h1 hh1
  have hb2 := hour_text_no_bar h2 hh2
  have hd := congrArg String.data h
  simp only [makeKey, Option.getD_some, String.data_append, List.append_assoc] at hd
  simp only [List.singleton_append] at hd
  obtain ⟨e1, hd⟩ := split_at_bar_left _ _ _ _ hc1 hc2 hd
  obtain ⟨e2, hd⟩ := split_at_bar_left _ _ _ _ hr1 hr2 hd
  obtain ⟨e3, hd⟩ := split_at_bar_left _ _ _ _ ht1 ht2 hd
  have hd2 : (m1.data ++ '|' :: a1.data) ++ '|' :: (match h1 with
        | none => "null"
        | some v => if v = 0 then "null" else toString v).data =
      (m2.data ++ '|' :: a2.data) ++ '|' :: (match h2 with
        | none => "null"
        | some v => if v = 0 then "null" else toString v).data := by
    simpa only [List.append_assoc, List.cons_append] using hd
  obtain ⟨hd3, e6⟩ := split_at_bar_right _ _ _ _ hb1 hb2 hd2
  obtain ⟨e4, e5⟩ := split_at_bar_right _ _ _ _ ha1 ha2 hd3
  have e7 := String.ext e6
  exact ⟨String.ext e1, String.ext e2, String.ext e3, String.ext e4, String.ext e5,
    hour_text_eq h1 h2 e7 hh1 hh2⟩

theorem makeKey_of_parts (c r t m a : String) (h1 h2 : Option Nat)
    (h : h1 = h2 ∨ ((h1 = none ∨ h1 = some 0) ∧ (h2 = none ∨ h2 = some 0))) :
    makeKey c r t m (some a) h1 = makeKey c r t m (some a) h2 := by
  rcases h with h | ⟨h | h, h' | h'⟩ <;> rw [h] <;> try rw [h']
  all_goals rfl

theorem deduplicate_invariant (textItems imageItems : List ValidItem) :
    DedupInv (operationsOf true textItems ++ operationsOf false imageItems)
      (operationsOf true (deduplicateExecutableItems textItems imageItems).textItems ++
        operationsOf false (deduplicateExecutableItems textItems imageItems).imageItems)
      ((operationsOf true (deduplicateExecutableItems textItems imageItems).textItems ++
        operationsOf false (deduplicateExecutableItems textItems imageItems).imageItems).map
          Prod.fst)
      (deduplicateExecutableItems textItems imageItems).duplicateCount := by
  obtain ⟨i1, ⟨L1, hL1, hs1⟩, n1⟩ := dedupEntry_foldl true textItems.enum ⟨[], 0, []⟩ [] []
    (by simpa [operationsOf] using dedupInv_nil) (by simp)
  rw [List.enum_map_snd] at i1 hs1
  simp only [List.nil_append] at i1
  obtain ⟨i2, ⟨L2, hL2, hs2⟩, n2⟩ := dedupEntry_foldl false imageItems.enum
    ⟨(textItems.enum.foldl (dedupEntry true) ⟨[], 0, []⟩).seen,
      (textItems.enum.foldl (dedupEntry true) ⟨[], 0, []⟩).duplicateCount, []⟩
    (operationsOf true textItems)
    (operationsOf true (textItems.enum.foldl (dedupEntry true) ⟨[], 0, []⟩).items)
    (by simpa [operationsOf] using i1) (by simp)
  rw [List.enum_map_snd] at i2 hs2
  have hk := i2.keys
  have i3 := i2
  rw [← hk] at i3
  exact i3

theorem window_entry_hour (env : Env) (rows : List Item) (now : Int) (H M : Nat) (e : Item)
    (hM : M ≤ 59) (hMin : now = 60 * (H : Int) + (M : Int))
    (he : e ∈ (filterByTimeWindow env rows now).valid) :
    (e.action = some "ADD" ∧ e.customHour.getD 0 = H) ∨
      (e.action = some "REMOVE" ∧ e.customHour.getD 23 = H) := by
  have hv : (filterByTimeWindow env rows now).valid =
      rows.flatMap (fun item => (filterByTimeWindow env [item] now).valid) := by
    have := filterByTimeWindow_foldl_valid env now rows ⟨[], []⟩
    simpa [filterByTimeWindow] using this
  rw [hv, List.mem_flatMap] at he
  obtain ⟨item, _, hitem⟩ := he
  rcases window_entry_cases env item e now hitem with
    ⟨v, _, _, _, h4, rfl⟩ | ⟨v, _, _, _, h4, rfl⟩
  · exact Or.inl ⟨rfl, in_window_hour now v 0 H M 0 60 hM hMin (by decide) (by decide) h4⟩
  · exact Or.inr
      ⟨rfl, in_window_hour now v 23 H M 1380 1440 hM hMin (by decide) (by decide) h4⟩

/-- C25, as the code has it.  `deduplicateExecutableItems` drops an (item, group) pair only
if an earlier pair has the same key: for every pair of the input, the first pair of the
input with its key is kept.  The key is campaign|group resource name|asset type|member|
action|hour, the hour written 'null' for the unset hour and for the custom hour 0.  When the
campaigns, group resource names, asset types and actions hold no '|' and the hours are at
most 23, two keys are equal exactly when the pairs agree in campaign, group resource name,
asset type, member and action and their hours are equal or are both among unset and 0;
members may hold any character.  And in one run, at the minute `60 * H + M`, every in-window
entry of `filterByTimeWindow` runs in the current hour `H` (an unset hour standing for 0 in
an ADD and for 23 in a REMOVE), so a REMOVE with the custom hour 0 and a REMOVE with the
unset hour are never in window together, and an ADD with the custom hour 0 and an ADD with
the unset hour are the same operation in the same window. -/
theorem C25_dropped_pair_repeats_an_earlier_operation (textItems imageItems : List ValidItem) :
    (∀ x ∈ operationsOf true textItems ++ operationsOf false imageItems,
      ∃ y ∈ operationsOf true (deduplicateExecutableItems textItems imageItems).textItems ++
          operationsOf false (deduplicateExecutableItems textItems imageItems).imageItems,
        y.1 = x.1 ∧
        (operationsOf true textItems ++ operationsOf false imageItems).find?
          (fun z => z.1 == x.1) = some y) ∧
    (∀ (c1 r1 t1 m1 a1 c2 r2 t2 m2 a2 : String) (h1 h2 : Option Nat),
      '|' ∉ c1.data → '|' ∉ c2.data → '|' ∉ r1.data → '|' ∉ r2.data → '|' ∉ t1.data →
      '|' ∉ t2.data → '|' ∉ a1.data → '|' ∉ a2.data →
      (∀ v, h1 = some v → v ≤ 23) → (∀ v, h2 = some v → v ≤ 23) →
      (makeKey c1 r1 t1 m1 (some a1) h1 = makeKey c2 r2 t2 m2 (some a2) h2 ↔
        c1 = c2 ∧ r1 = r2 ∧ t1 = t2 ∧ m1 = m2 ∧ a1 = a2 ∧
          (h1 = h2 ∨ ((h1 = none ∨ h1 = some 0) ∧ (h2 = none ∨ h2 = some 0))))) ∧
    (∀ (env : Env) (rows : List Item) (now : Int) (H M : Nat), M ≤ 59 →
      now = 60 * (H : Int) + (M : Int) →
      (∀ e ∈ (filterByTimeWindow env rows now).valid,
        (e.action = some "ADD" ∧ e.customHour.getD 0 = H) ∨
          (e.action = some "REMOVE" ∧ e.customHour.getD 23 = H)) ∧
      ¬ (∃ e1 ∈ (filterByTimeWindow env rows now).valid,
          ∃ e2 ∈ (filterByTimeWindow env rows now).valid,
            e1.action = some "REMOVE" ∧ e1.customHour = some 0 ∧
            e2.action = some "REMOVE" ∧ e2.customHour = none)) := by
  refine ⟨?_, ?_, ?_⟩
  · intro x hx
    have inv := deduplicate_invariant textItems imageItems
    have hc := inv.cover x hx
    obtain ⟨y, hy, hyx⟩ := List.mem_map.1 hc
    refine ⟨y, hy, hyx, ?_⟩
    have := inv.first y hy
    rw [hyx] at this
    exact this
  · intro c1 r1 t1 m1 a1 c2 r2 t2 m2 a2 h1 h2 hc1 hc2 hr1 hr2 ht1 ht2 ha1 ha2 hh1 hh2
    constructor
    · exact makeKey_parts c1 r1 t1 m1 a1 c2 r2 t2 m2 a2 h1 h2 hc1 hc2 hr1 hr2 ht1 ht2 ha1 ha2
        hh1 hh2
    · rintro ⟨rfl, rfl, rfl, rfl, rfl, h⟩
      exact makeKey_of_parts _ _ _ _ _ h1 h2 h
  · intro env rows now H M hM hMin
    refine ⟨fun e he => window_entry_hour env rows now H M e hM hMin he, ?_⟩
    rintro ⟨e1, he1, e2, he2, a1, c1, a2, c2⟩
    have n1 : ¬ (e1.action = some "ADD") := by rw [a1]; decide
    have n2 : ¬ (e2.action = some "ADD") := by rw [a2]; decide
    rcases window_entry_hour env rows now H M e1 hM hMin he1 with ⟨x, _⟩ | ⟨_, x1⟩
    · exact n1 x
    · rcases window_entry_hour env rows now H M e2 hM hMin he2 with ⟨x, _⟩ | ⟨_, x2⟩
      · exact n2 x
      · rw [c1] at x1
        rw [c2] at x2
        simp only [Option.getD_some, Option.getD_none] at x1 x2
        omega

/-- C25, witness: the ADD of 'Shop Now' with the custom hour 0 and the same ADD with the
unset hour, both in window at 00:30.  The first pair with the key of the second is kept, the
two keys are equal because the two hours are among unset and 0, and both entries run in the
hour 0. -/
theorem C25_dropped_pair_repeats_an_earlier_operation_witness :
    (∃ y ∈ operationsOf true (deduplicateExecutableItems sampleHourZeroItems []).textItems ++
        operationsOf false (deduplicateExecutableItems sampleHourZeroItems []).imageItems,
      y.1 = "Campaign A|ag1|HEADLINE|Shop Now|ADD|null" ∧
      (operationsOf true sampleHourZeroItems ++ operationsOf false []).find?
        (fun z => z.1 == "Campaign A|ag1|HEADLINE|Shop Now|ADD|null") = some y) ∧
    (makeKey "Campaign A" "ag1" "HEADLINE" "Shop Now" (some "ADD") (some 0) =
        makeKey "Campaign A" "ag1" "HEADLINE" "Shop Now" (some "ADD") none ↔
      "Campaign A" = "Campaign A" ∧ "ag1" = "ag1" ∧ "HEADLINE" = "HEADLINE" ∧
        "Shop Now" = "Shop Now" ∧ "ADD" = "ADD" ∧
        ((some 0 : Option Nat) = none ∨
          (((some 0 : Option Nat) = none ∨ (some 0 : Option Nat) = some 0) ∧
            ((none : Option Nat) = none ∨ (none : Option Nat) = some 0)))) ∧
    ((∀ e ∈ (filterByTimeWindow sampleEarlyEnv [sampleAddHourZeroRow, sampleAddNoHourRow]
          30).valid,
        (e.action = some "ADD" ∧ e.customHour.getD 0 = 0) ∨
          (e.action = some "REMOVE" ∧ e.customHour.getD 23 = 0)) ∧
      ¬ (∃ e1 ∈ (filterByTimeWindow sampleEarlyEnv [sampleAddHourZeroRow, sampleAddNoHourRow]
            30).valid,
          ∃ e2 ∈ (filterByTimeWindow sampleEarlyEnv [sampleAddHourZeroRow, sampleAddNoHourRow]
              30).valid,
            e1.action = some "REMOVE" ∧ e1.customHour = some 0 ∧
            e2.action = some "REMOVE" ∧ e2.customHour = none)) :=
  ⟨(C25_dropped_pair_repeats_an_earlier_operation sampleHourZeroItems []).1
      ("Campaign A|ag1|HEADLINE|Shop Now|ADD|null",
        { sampleAddNoHourRow with action := some "ADD", customHour := none }, sampleGroup)
      (by decide),
   (C25_dropped_pair_repeats_an_earlier_operation sampleHourZeroItems []).2.1
      "Campaign A" "ag1" "HEADLINE" "Shop Now" "ADD" "Campaign A" "ag1" "HEADLINE" "Shop Now"
      "ADD" (some 0) none (by decide) (by decide) (by decide) (by decide) (by decide)
      (by decide) (by decide) (by decide) (by simp) (by simp),
   (C25_dropped_pair_repeats_an_earlier_operation sampleHourZeroItems []).2.2
      sampleEarlyEnv [sampleAddHourZeroRow, sampleAddNoHourRow] 30 0 30 (by decide)
      (by decide)⟩

end Pmax
